import Mathlib

/-!
# MiniGame: stat / equipment model and PvP protocol

A shallow embedding of the Go sources of the game core

* `Struct/Item/Item.go`, `Struct/Inventory/Inventory.go`,
  `Struct/Equipment/Equipment.go`, `Struct/Character/Character.go`
* `game/battle_logic.go`, `game/pvp_protocol.go`, `game/pvp_fight_model.go`

together with theorems about the embedded functions.

Conventions of the embedding

* Go `int` is a 64-bit two's complement integer: values are `Int`, and every
  arithmetic result is passed through `wrapInt`.
* Go `float32` / `float64` values are the finite values only, represented by the
  rational number they denote.  Every floating point operation is the exact
  operation followed by IEEE-754 round-to-nearest-even (`round32`, `round64`),
  each operation rounded on its own.
* A conversion `int(f)` of a float truncates toward zero; for a value outside the
  `int64` range the result is the one the amd64 instruction produces (`MinInt64`).
* `*Item` pointers are addresses (`Ptr`) into a heap `Ptr → Item`; a nil pointer is
  `none`.  Items are shared between containers exactly as in the Go program.
* Go strings that are parsed are lists of characters (`List Char`).
* A call returns a `Res`: a value, an error, or `Res.panic` for a nil dereference.
* Functions of the Go standard library (`fmt` verb `%d`, `strings.Fields`,
  `strings.Split`, `strings.SplitN`, `strings.HasPrefix`, `strconv.Atoi`,
  `unicode.IsSpace`) are modelled from their documentation.
* Output to the terminal, sound and timers are not modelled.
-/

namespace MiniGame

/-! ## Machine integers -/

/-- Smallest value of a Go `int` on a 64-bit platform. -/
def MinInt64 : Int := -(2 ^ 63)

/-- Largest value of a Go `int` on a 64-bit platform. -/
def MaxInt64 : Int := 2 ^ 63 - 1

/-- Two's complement wrap-around of an arithmetic result to 64 bits. -/
def wrapInt (x : Int) : Int := (x + 2 ^ 63) % 2 ^ 64 - 2 ^ 63

/-- Membership in the range of a Go `int`. -/
def InIntRange (x : Int) : Prop := MinInt64 ≤ x ∧ x ≤ MaxInt64

instance (x : Int) : Decidable (InIntRange x) := by
  unfold InIntRange; exact inferInstance

/-! ## Floating point -/

/-- Nearest integer to a rational, ties to the even neighbour. -/
def roundNE (q : ℚ) : ℤ :=
  let f := ⌊q⌋
  let r := q - f
  if r < 1 / 2 then f else if 1 / 2 < r then f + 1 else if f % 2 = 0 then f else f + 1

/-- Power of two with an integer exponent. -/
def pow2 (e : ℤ) : ℚ :=
  if 0 ≤ e then ((2 ^ e.toNat : ℕ) : ℚ) else 1 / ((2 ^ (-e).toNat : ℕ) : ℚ)

/-- Binary logarithm of a natural number, rounded down (0 for 0), by halving at most
`fuel` times. -/
def log2Fuel : Nat → Nat → Nat
  | 0, _ => 0
  | fuel + 1, n => if n < 2 then 0 else log2Fuel fuel (n / 2) + 1

/-- Binary logarithm of a natural number, rounded down. -/
def natLog2 (n : Nat) : Nat := log2Fuel n n

/-- Binary exponent of a positive rational: the `e` with `2^e ≤ q < 2^(e+1)`. -/
def ilog2 (q : ℚ) : ℤ :=
  if 1 ≤ q then (natLog2 (⌊q⌋).toNat : ℤ)
  else
    let k := natLog2 (⌊1 / q⌋).toNat
    if q * pow2 k = 1 then -(k : ℤ) else -(k : ℤ) - 1

/-- Rounding of a rational to the nearest binary floating point number with a
`p`-bit significand (round-to-nearest-even, unbounded exponent range). -/
def roundFloat (p : ℕ) (q : ℚ) : ℚ :=
  if q = 0 then 0
  else
    let e := ilog2 |q| - ((p : ℤ) - 1)
    (roundNE (q / pow2 e) : ℚ) * pow2 e

/-- Rounding to `float64` (53-bit significand). -/
def round64 (q : ℚ) : ℚ := roundFloat 53 q

/-- Rounding to `float32` (24-bit significand). -/
def round32 (q : ℚ) : ℚ := roundFloat 24 q

/-- Truncation of a rational toward zero. -/
def truncQ (q : ℚ) : Int := if 0 ≤ q then ⌊q⌋ else ⌈q⌉

/-- Go conversion `int(f)` of a floating point value: truncation toward zero, and
`MinInt64` when the truncated value does not fit (the amd64 result). -/
def floatToInt (q : ℚ) : Int :=
  if MinInt64 ≤ truncQ q ∧ truncQ q ≤ MaxInt64 then truncQ q else MinInt64

/-! ## Items (`Struct/Item/Item.go`) -/

abbrev ItemType := Int
abbrev EquipmentSlot := Int
abbrev Rarity := Int

def Weapon : ItemType := 0
def Potion : ItemType := 1
def Armor : ItemType := 2
def Accessory : ItemType := 3
def Consumable : ItemType := 4

def SlotWeapon : EquipmentSlot := 0
def SlotHead : EquipmentSlot := 1
def SlotBody : EquipmentSlot := 2
def SlotHands : EquipmentSlot := 3
def SlotFeet : EquipmentSlot := 4
def SlotAccessory : EquipmentSlot := 5
def SlotNone : EquipmentSlot := 6
def SlotBoots : EquipmentSlot := 7

def Common : Rarity := 0
def Uncommon : Rarity := 1
def Rare : Rarity := 2
def Epic : Rarity := 3
def Legendary : Rarity := 4
def Mythic : Rarity := 5

/-- Catalog entry.  The Go field `Type` is called `Typ` here. -/
structure ItemTemplate where
  ID : Int
  Name : String
  Typ : ItemType
  Slot : EquipmentSlot
  BaseStrength : Int := 0
  BaseAgility : Int := 0
  BaseIntelligence : Int := 0
  BaseAttack : ℚ := 0
  BaseDefense : ℚ := 0
  BaseHealth : ℚ := 0
  BaseMana : ℚ := 0
  Description : String := ""
  HealthRegen : ℚ := 0
  ManaRegen : ℚ := 0
  AttackSpeed : ℚ := 0
  Evasion : ℚ := 0
  CriticalChance : ℚ := 0
  MagicAmp : ℚ := 0
  Lifesteal : ℚ := 0
  Duration : Int := 0
  deriving DecidableEq

/-- Item instance.  `Template` is a pointer to an immutable catalog entry. -/
structure Item where
  Template : Option ItemTemplate := none
  Rarity : Rarity := 0
  Level : Int := 0
  Strength : Int := 0
  Agility : Int := 0
  Intelligence : Int := 0
  Attack : ℚ := 0
  Defense : ℚ := 0
  Health : ℚ := 0
  Mana : ℚ := 0
  Durability : Int := 0
  MaxDurability : Int := 0
  Price : Int := 0
  IsEquipped : Bool := false
  deriving DecidableEq

instance : Inhabited Item := ⟨{}⟩

/-- Multiplier table `rarityMultipliers`; a missing key reads as the zero value. -/
def rarityMultipliers (r : Rarity) : ℚ :=
  if r = Common then round64 1
  else if r = Uncommon then round64 (13 / 10)
  else if r = Rare then round64 (17 / 10)
  else if r = Epic then round64 (22 / 10)
  else if r = Legendary then round64 3
  else if r = Mythic then round64 4
  else 0

/-- Constant `levelMultiplierPerLevel` as a `float64`. -/
def levelMultiplierPerLevel : ℚ := round64 (1 / 10)

/-- Catalog entry 1, the starter sword. -/
def swordTemplate : ItemTemplate :=
  { ID := 1, Name := "Меч новичка", Typ := Weapon, Slot := SlotWeapon,
    BaseAttack := 5, BaseStrength := 2,
    Description := "Простой меч для начинающих воинов" }

/-- Entries of the catalog `itemTemplates`, in source order. -/
def catalog : List ItemTemplate :=
  [ swordTemplate,
    { ID := 4, Name := "Кольцо Регенерации", Typ := Accessory, Slot := SlotAccessory,
      BaseHealth := 10, HealthRegen := 1,
      Description := "Восстанавливает здоровье владельца" },
    { ID := 19, Name := "Зелье здоровья", Typ := Potion, Slot := SlotNone,
      BaseHealth := 50, Description := "Восстанавливает здоровье" },
    { ID := 20, Name := "Свиток Возвращения", Typ := Consumable, Slot := SlotNone,
      Description := "Возвращает в безопасное место" },
    { ID := 21, Name := "Сторожевой Тотем", Typ := Accessory, Slot := SlotAccessory,
      BaseDefense := 3, Description := "Защищает от неожиданных атак" },
    { ID := 22, Name := "Зелье маны", Typ := Potion, Slot := SlotNone,
      BaseMana := 30, Description := "Восстанавливает ману" },
    { ID := 23, Name := "Зелье силы", Typ := Potion, Slot := SlotNone,
      BaseAttack := 10, Duration := 3, Description := "Временно увеличивает атаку" },
    { ID := 24, Name := "Быстрый клинок", Typ := Weapon, Slot := SlotWeapon,
      BaseAttack := 3, BaseAgility := 4,
      Description := "Лёгкий клинок, повышает ловкость" },
    { ID := 25, Name := "Тяжёлый палаш", Typ := Weapon, Slot := SlotWeapon,
      BaseAttack := 7, BaseStrength := 1, Description := "Мощный удар, но медленный" },
    { ID := 26, Name := "Защитный клинок", Typ := Weapon, Slot := SlotWeapon,
      BaseAttack := 4, BaseDefense := 2, Description := "Баланс атаки и защиты" } ]

/-- Map `itemTemplates`: lookup of a template by its key. -/
def itemTemplates (templateID : Int) : Option ItemTemplate :=
  catalog.find? (fun t => t.ID == templateID)

/-- Errors returned by the model, one constructor per error site of the source. -/
inductive Err where
  | templateNotFound
  | levelNotPositive
  | badRarity
  | nilItem
  | notEquippable
  | wrongSlot
  | slotOccupied
  | slotEmpty
  | inventoryFull
  | alreadyEquipped
  | removeEquipped
  | notFound
  | notInInventory
  | cannotEquip
  | removeFailed (cause : Err)
  | addFailed (cause : Err)
  | hpTooLow
  | strengthTooLow
  | agilityTooLow
  | intelligenceTooLow
  | invalidAction
  | targetMissing
  | transferNotFound
  | transferEquipped
  | transferFailed (cause : Err)
  | transferRemoveFailed (cause : Err)
  | loadFailed (cause : Err)
  | useNotFound
  | cannotUse
  | itemBroken
  deriving DecidableEq, Repr

/-- Outcome of a Go call: a normal return, an error return or a run-time panic. -/
inductive Res (α : Type) where
  | ok (v : α)
  | error (e : Err)
  | panic
  deriving DecidableEq, Repr

/-- The returned value of a call that returned normally. -/
def Res.toOption {α : Type} : Res α → Option α
  | .ok v => some v
  | _ => none

/-- Value `levelMultiplier` computed in `CreateItem`. -/
def levelMultiplier (level : Int) : ℚ :=
  round64 (1 + round64 (round64 (wrapInt (level - 1)) * levelMultiplierPerLevel))

/-- Value `totalMultiplier` computed in `CreateItem`. -/
def totalMultiplier (rarity : Rarity) (level : Int) : ℚ :=
  round64 (rarityMultipliers rarity * levelMultiplier level)

/-- Function `CreateItem`: the new item (to be placed on the heap by the caller). -/
def CreateItem (templateID : Int) (rarity : Rarity) (level : Int) : Res Item :=
  match itemTemplates templateID with
  | none => .error .templateNotFound
  | some template =>
    if level < 1 then .error .levelNotPositive
    else if rarity < Common ∨ rarity > Mythic then .error .badRarity
    else
      let basePrice := wrapInt (10 + wrapInt (level * 5))
      .ok { Template := some template
            Rarity := rarity
            Level := level
            Durability := 100
            MaxDurability := 100
            IsEquipped := false
            Strength :=
              floatToInt (round64 (round64 template.BaseStrength * totalMultiplier rarity level))
            Agility :=
              floatToInt (round64 (round64 template.BaseAgility * totalMultiplier rarity level))
            Intelligence :=
              floatToInt
                (round64 (round64 template.BaseIntelligence * totalMultiplier rarity level))
            Attack := round32 (round64 (template.BaseAttack * totalMultiplier rarity level))
            Defense := round32 (round64 (template.BaseDefense * totalMultiplier rarity level))
            Health := round32 (round64 (template.BaseHealth * totalMultiplier rarity level))
            Mana := round32 (round64 (template.BaseMana * totalMultiplier rarity level))
            Price := floatToInt (round64 (round64 basePrice * totalMultiplier rarity level)) }

/-- Function `CreateSword`: nil when `CreateItem` fails. -/
def CreateSword : Option Item := (CreateItem 1 Common 1).toOption

/-- Function `CreatePvPSword`. -/
def CreatePvPSword (templateID : Int) : Option Item := (CreateItem templateID Common 1).toOption

/-- Function `CreateHealthPotion`. -/
def CreateHealthPotion : Option Item := (CreateItem 19 Common 1).toOption

/-! ## Heap of items -/

/-- Address of an `Item` object. -/
abbrev Ptr := Nat

/-- The item objects of the program, by address. -/
abbrev Heap := Ptr → Item

/-- Assignment `item.IsEquipped = b` through the pointer `p`. -/
def Heap.setEquipped (h : Heap) (p : Ptr) (b : Bool) : Heap :=
  Function.update h p { h p with IsEquipped := b }

/-! ## Inventory (`Struct/Inventory/Inventory.go`) -/

structure Inventory where
  Items : List (Option Ptr)
  Capacity : Int
  deriving DecidableEq

/-- Function `NewInventory`. -/
def NewInventory (capacity : Int) : Inventory :=
  { Items := [], Capacity := if capacity < 0 then 0 else capacity }

/-- Method `Inventory.AddItem`. -/
def Inventory.AddItem (h : Heap) (inv : Inventory) (item : Option Ptr) : Res Unit × Inventory :=
  match item with
  | none => (.error .nilItem, inv)
  | some p =>
    if (inv.Items.length : Int) ≥ inv.Capacity then (.error .inventoryFull, inv)
    else if (h p).IsEquipped then (.error .alreadyEquipped, inv)
    else (.ok (), { inv with Items := inv.Items ++ [some p] })

/-- Loop of `Inventory.RemoveItem`: `before` are the entries already passed, the
third argument the entries still to visit.  Returns the removed pointer and the
new list. -/
def removeItemLoop (h : Heap) (itemID : Int) :
    List (Option Ptr) → List (Option Ptr) → Res (Ptr × List (Option Ptr))
  | _, [] => .error .notFound
  | before, none :: rest => removeItemLoop h itemID (before ++ [none]) rest
  | before, some p :: rest =>
    match (h p).Template with
    | none => .panic
    | some t =>
      if t.ID = itemID then
        if (h p).IsEquipped then .error .removeEquipped
        else .ok (p, before ++ rest)
      else removeItemLoop h itemID (before ++ [some p]) rest

/-- Method `Inventory.RemoveItem`. -/
def Inventory.RemoveItem (h : Heap) (inv : Inventory) (itemID : Int) : Res Ptr × Inventory :=
  match removeItemLoop h itemID [] inv.Items with
  | .ok (p, items) => (.ok p, { inv with Items := items })
  | .error e => (.error e, inv)
  | .panic => (.panic, inv)

/-- Loop of `Inventory.FindItemByID`. -/
def findItemByIDLoop (h : Heap) (itemID : Int) : List (Option Ptr) → Option Ptr
  | [] => none
  | none :: rest => findItemByIDLoop h itemID rest
  | some p :: rest =>
    match (h p).Template with
    | some t => if t.ID = itemID then some p else findItemByIDLoop h itemID rest
    | none => findItemByIDLoop h itemID rest

/-- Method `Inventory.FindItemByID`. -/
def Inventory.FindItemByID (h : Heap) (inv : Inventory) (itemID : Int) : Option Ptr :=
  findItemByIDLoop h itemID inv.Items

/-! ## Equipment (`Struct/Equipment/Equipment.go`) -/

/-- Go map from slot to item pointer, as an association list.  A key can be
present with a nil value. -/
abbrev SlotMap := List (EquipmentSlot × Option Ptr)

/-- Map read `m[k]` with the presence flag: `none` when the key is absent. -/
def SlotMap.get (m : SlotMap) (k : EquipmentSlot) : Option (Option Ptr) :=
  match m with
  | [] => none
  | (k', v) :: rest => if k' = k then some v else SlotMap.get rest k

/-- Map write `m[k] = v`. -/
def SlotMap.set (m : SlotMap) (k : EquipmentSlot) (v : Option Ptr) : SlotMap :=
  match m with
  | [] => [(k, v)]
  | (k', v') :: rest => if k' = k then (k, v) :: rest else (k', v') :: SlotMap.set rest k v

/-- Map removal `delete(m, k)`. -/
def SlotMap.delete (m : SlotMap) (k : EquipmentSlot) : SlotMap :=
  match m with
  | [] => []
  | (k', v') :: rest => if k' = k then SlotMap.delete rest k else (k', v') :: SlotMap.delete rest k

/-- Struct `Equipment`.  `NilMap` is true when `Slots` is the nil map, as in the zero
value `Equipment{}`; `Slots` is then `[]`: a nil map has no entries and reads as empty,
and it panics when it is written. -/
structure Equipment where
  Slots : SlotMap
  NilMap : Bool := false
  deriving DecidableEq

/-- Function `NewEquipment`: a made, empty map. -/
def NewEquipment : Equipment := { Slots := [], NilMap := false }

/-- The zero value `Equipment{}`, whose `Slots` is the nil map. -/
def zeroEquipment : Equipment := { Slots := [], NilMap := true }

/-- Item held in a slot, nil when the key is absent or holds nil (`GetItem`). -/
def Equipment.GetItem (e : Equipment) (slot : EquipmentSlot) : Option Ptr :=
  (e.Slots.get slot).join

/-- Method `Equipment.isValidItemForSlot`. -/
def Equipment.isValidItemForSlot (h : Heap) (item : Option Ptr) (slot : EquipmentSlot) : Bool :=
  match item with
  | none => false
  | some p =>
    match (h p).Template with
    | none => false
    | some t =>
      if t.Slot = SlotNone then false
      else if slot = SlotWeapon then t.Typ = Weapon
      else if slot = SlotHead ∨ slot = SlotBody ∨ slot = SlotHands ∨ slot = SlotFeet
          ∨ slot = SlotBoots then t.Typ = Armor
      else if slot = SlotAccessory then t.Typ = Accessory
      else false

/-- Method `Equipment.CanEquipItem`. -/
def Equipment.CanEquipItem (h : Heap) (e : Equipment) (item : Option Ptr) : Bool :=
  match item with
  | none => false
  | some p =>
    match (h p).Template with
    | none => false
    | some t =>
      if t.Slot = SlotNone then false
      else
        match e.GetItem t.Slot with
        | some _ => false
        | none => Equipment.isValidItemForSlot h item t.Slot

/-- Method `Equipment.Equip`.  Building the message of the `slotOccupied` error
reads the template of the item in the slot, which panics when that is nil.  The
write `e.Slots[slot] = item` panics on a nil map, after `item.IsEquipped = true`. -/
def Equipment.Equip (h : Heap) (e : Equipment) (item : Option Ptr) :
    Res Unit × Heap × Equipment :=
  match item with
  | none => (.error .nilItem, h, e)
  | some p =>
    match (h p).Template with
    | none => (.error .nilItem, h, e)
    | some t =>
      if t.Slot = SlotNone then (.error .notEquippable, h, e)
      else if !Equipment.isValidItemForSlot h item t.Slot then (.error .wrongSlot, h, e)
      else
        match e.GetItem t.Slot with
        | some cur =>
          match (h cur).Template with
          | none => (.panic, h, e)
          | some _ => (.error .slotOccupied, h, e)
        | none =>
          if e.NilMap then (.panic, h.setEquipped p true, e)
          else (.ok (), h.setEquipped p true, { e with Slots := e.Slots.set t.Slot (some p) })

/-- Method `Equipment.Unequip`. -/
def Equipment.Unequip (h : Heap) (e : Equipment) (slot : EquipmentSlot) :
    Res Ptr × Heap × Equipment :=
  match e.GetItem slot with
  | none => (.error .slotEmpty, h, e)
  | some p => (.ok p, h.setEquipped p false, { e with Slots := e.Slots.delete slot })

/-- Method `Equipment.GetTotalBonuses`: the entries are visited in list order. -/
def Equipment.GetTotalBonuses (h : Heap) (e : Equipment) : Item :=
  e.Slots.foldl
    (fun total entry =>
      match entry.2 with
      | none => total
      | some p =>
        { total with
          Strength := wrapInt (total.Strength + (h p).Strength)
          Agility := wrapInt (total.Agility + (h p).Agility)
          Intelligence := wrapInt (total.Intelligence + (h p).Intelligence)
          Attack := round32 (total.Attack + (h p).Attack)
          Defense := round32 (total.Defense + (h p).Defense)
          Health := round32 (total.Health + (h p).Health)
          Mana := round32 (total.Mana + (h p).Mana) })
    {}

/-! ## Character (`Struct/Character/Character.go`) -/

def MinHP : Int := 0
def MinStrength : Int := 1
def MinAgility : Int := 1
def MinIntelligence : Int := 1

structure Character where
  Name : String := ""
  CurrentHP : Int := 0
  MaxHP : Int := 0
  Strength : Int := 0
  Agility : Int := 0
  Intelligence : Int := 0
  Description : String := ""
  BaseHP : Int := 0
  BaseStrength : Int := 0
  BaseAgility : Int := 0
  BaseIntelligence : Int := 0
  Inventory : Inventory := { Items := [], Capacity := 0 }
  Equipment : Equipment := { Slots := [] }
  AttackValue : ℚ := 0
  DefenseValue : ℚ := 0
  AttackSpeed : ℚ := 0
  CritChance : ℚ := 0
  CritDamage : ℚ := 0
  HealthRegen : ℚ := 0
  Mana : ℚ := 0
  MaxMana : ℚ := 0
  ManaRegen : ℚ := 0
  deriving DecidableEq

/-- Method `Character.CalculateStats`. -/
def Character.CalculateStats (h : Heap) (c : Character) : Character :=
  let bonuses := c.Equipment.GetTotalBonuses h
  let maxHP := wrapInt (c.BaseHP + floatToInt bonuses.Health)
  let agility := wrapInt (c.BaseAgility + bonuses.Agility)
  { c with
    MaxHP := maxHP
    Strength := wrapInt (c.BaseStrength + bonuses.Strength)
    Agility := agility
    Intelligence := wrapInt (c.BaseIntelligence + bonuses.Intelligence)
    AttackValue := round32 (0 + bonuses.Attack)
    DefenseValue := round32 (0 + bonuses.Defense)
    CritChance :=
      round32 (round32 (5 / 100) + round32 (round32 agility * round32 (1 / 1000)))
    CritDamage := round32 (15 / 10)
    CurrentHP := if c.CurrentHP > maxHP then maxHP else c.CurrentHP }

/-- Method `Character.TakeDamage`; `roll` is the value drawn by `rng.Float32()`. -/
def Character.TakeDamage (c : Character) (damage : Int) (roll : ℚ) : Character :=
  let damage := if damage < 0 then 0 else damage
  if damage = 0 then c
  else
    let dodgeChance := round32 (round32 c.Agility * round32 (1 / 100))
    if roll < dodgeChance then c
    else
      let actualDamage := wrapInt (damage - floatToInt c.DefenseValue)
      let actualDamage := if actualDamage < 1 then 1 else actualDamage
      { c with CurrentHP := max MinHP (wrapInt (c.CurrentHP - actualDamage)) }

/-- Method `Character.Heal`. -/
def Character.Heal (c : Character) (amount : ℚ) : Character :=
  if amount ≤ 0 then c
  else
    let healAmount := floatToInt amount
    { c with CurrentHP := min (wrapInt (c.CurrentHP + healAmount)) c.MaxHP }

/-- Method `Character.SetHP`. -/
def Character.SetHP (c : Character) (hp : Int) : Character :=
  if hp < MinHP then { c with CurrentHP := MinHP }
  else if hp > c.MaxHP then { c with CurrentHP := c.MaxHP }
  else { c with CurrentHP := hp }

/-- Method `Character.SetAttack`. -/
def Character.SetAttack (c : Character) (attack : ℚ) : Character :=
  { c with AttackValue := if attack < 0 then 0 else attack }

/-- Method `Character.SetDefense`. -/
def Character.SetDefense (c : Character) (defense : ℚ) : Character :=
  { c with DefenseValue := if defense < 0 then 0 else defense }

/-- Method `Character.SetMana`. -/
def Character.SetMana (c : Character) (mana : ℚ) : Character :=
  let mana := if mana < 0 then 0 else mana
  let mana := if mana > c.MaxMana then c.MaxMana else mana
  { c with Mana := mana }

/-- Method `Character.IsAlive`. -/
def Character.IsAlive (c : Character) : Bool := c.CurrentHP > 0

/-- Method `Character.EquipItem`. -/
def Character.EquipItem (h : Heap) (c : Character) (itemID : Int) :
    Res Unit × Heap × Character :=
  match c.Inventory.FindItemByID h itemID with
  | none => (.error .notInInventory, h, c)
  | some p =>
    if !c.Equipment.CanEquipItem h (some p) then (.error .cannotEquip, h, c)
    else
      match c.Equipment.Equip h (some p) with
      | (.error e, h1, eq1) => (.error e, h1, { c with Equipment := eq1 })
      | (.panic, h1, eq1) => (.panic, h1, { c with Equipment := eq1 })
      | (.ok _, h1, eq1) =>
        match c.Inventory.RemoveItem h1 itemID with
        | (.panic, inv1) => (.panic, h1, { c with Equipment := eq1, Inventory := inv1 })
        | (.error e, inv1) =>
          match (h1 p).Template with
          | none => (.panic, h1, { c with Equipment := eq1, Inventory := inv1 })
          | some t =>
            let (_, h2, eq2) := eq1.Unequip h1 t.Slot
            (.error (.removeFailed e), h2, { c with Equipment := eq2, Inventory := inv1 })
        | (.ok _, inv1) =>
          let c1 : Character := { c with Equipment := eq1, Inventory := inv1 }
          (.ok (), h1, c1.CalculateStats h1)

/-- Method `Character.UnequipItem`. -/
def Character.UnequipItem (h : Heap) (c : Character) (slot : EquipmentSlot) :
    Res Unit × Heap × Character :=
  match c.Equipment.Unequip h slot with
  | (.error e, h1, eq1) => (.error e, h1, { c with Equipment := eq1 })
  | (.panic, h1, eq1) => (.panic, h1, { c with Equipment := eq1 })
  | (.ok p, h1, eq1) =>
    match c.Inventory.AddItem h1 (some p) with
    | (.ok _, inv1) =>
      let c1 : Character := { c with Equipment := eq1, Inventory := inv1 }
      (.ok (), h1, c1.CalculateStats h1)
    | (.panic, inv1) => (.panic, h1, { c with Equipment := eq1, Inventory := inv1 })
    | (.error e, inv1) =>
      match eq1.Equip h1 (some p) with
      | (.panic, h2, eq2) => (.panic, h2, { c with Equipment := eq2, Inventory := inv1 })
      | (_, h2, eq2) =>
        (.error (.addFailed e), h2, { c with Equipment := eq2, Inventory := inv1 })

/-- Function `validateBaseStats`. -/
def validateBaseStats (hp strength agility intelligence : Int) : Option Err :=
  if hp < MinHP then some .hpTooLow
  else if strength < MinStrength then some .strengthTooLow
  else if agility < MinAgility then some .agilityTooLow
  else if intelligence < MinIntelligence then some .intelligenceTooLow
  else none

/-- Method `Character.AddStarterItems`; the two new items are allocated at the
addresses `fresh` and `fresh + 1`. -/
def Character.AddStarterItems (h : Heap) (fresh : Ptr) (c : Character) : Heap × Character :=
  let (h1, c1) : Heap × Character :=
    match CreateSword with
    | some sword =>
      let h1 : Heap := Function.update h fresh sword
      (h1, { c with Inventory := (c.Inventory.AddItem h1 (some fresh)).2 })
    | none => (h, c)
  match CreateHealthPotion with
  | some potion =>
    let h2 : Heap := Function.update h1 (fresh + 1) potion
    (h2, { c1 with Inventory := (c1.Inventory.AddItem h2 (some (fresh + 1))).2 })
  | none => (h1, c1)

/-- Function `New` of package `Character`; new items go to `fresh`, `fresh + 1`. -/
def Character.New (h : Heap) (fresh : Ptr) (name : String)
    (hp strength agility intelligence : Int) : Res (Heap × Character) :=
  match validateBaseStats hp strength agility intelligence with
  | some e => .error e
  | none =>
    let char : Character :=
      { Name := name
        CurrentHP := hp
        MaxHP := hp
        Strength := strength
        Agility := agility
        Intelligence := intelligence
        BaseHP := hp
        BaseStrength := strength
        BaseAgility := agility
        BaseIntelligence := intelligence
        Inventory := NewInventory 20
        Equipment := NewEquipment
        AttackValue := 0
        DefenseValue := 0
        CritChance := round32 (1 / 10)
        CritDamage := round32 (15 / 10)
        HealthRegen := round32 (5 / 10)
        MaxMana := 100
        Mana := 100
        ManaRegen := 1 }
    let (h1, c1) := char.AddStarterItems h fresh
    .ok (h1, c1.CalculateStats h1)

/-- Function `NewWarrior`. -/
def NewWarrior (h : Heap) (fresh : Ptr) (name : String) : Res (Heap × Character) :=
  Character.New h fresh name 100 15 8 5

/-! ## Go library functions used by the codec -/

/-- Go string that is scanned or built character by character. -/
abbrev GoString := List Char

/-- Predicate `unicode.IsSpace`. -/
def isSpace (c : Char) : Bool :=
  let n := c.toNat
  (9 ≤ n ∧ n ≤ 13) ∨ n = 32 ∨ n = 0x85 ∨ n = 0xA0 ∨ n = 0x1680
    ∨ (0x2000 ≤ n ∧ n ≤ 0x200A) ∨ n = 0x2028 ∨ n = 0x2029 ∨ n = 0x202F ∨ n = 0x205F
    ∨ n = 0x3000

/-- Function `strings.Fields`: the maximal runs of non-space characters. -/
def Fields : GoString → List GoString
  | [] => []
  | c :: cs =>
    if isSpace c then Fields cs
    else
      match cs with
      | [] => [[c]]
      | d :: _ =>
        if isSpace d then [c] :: Fields cs
        else
          match Fields cs with
          | [] => [[c]]
          | f :: fs => (c :: f) :: fs

/-- Function `strings.HasPrefix`. -/
def HasPrefix (s pre : GoString) : Bool := pre.isPrefixOf s

/-- Function `strings.Split` for a one-character separator. -/
def Split (sep : Char) : GoString → List GoString
  | [] => [[]]
  | c :: cs =>
    if c = sep then [] :: Split sep cs
    else
      match Split sep cs with
      | [] => [[c]]
      | x :: xs => (c :: x) :: xs

/-- The text before the first `sep` and, when there is one, the text after it. -/
def cutAt (sep : Char) : GoString → GoString × Option GoString
  | [] => ([], none)
  | c :: cs =>
    if c = sep then ([], some cs)
    else ((c :: (cutAt sep cs).1), (cutAt sep cs).2)

/-- Function `strings.SplitN` for a one-character separator and a count `n ≥ 0`:
at most `n` pieces, the last one being the unsplit remainder. -/
def SplitN (sep : Char) : Nat → GoString → List GoString
  | 0, _ => []
  | 1, s => [s]
  | n + 2, s =>
    match cutAt sep s with
    | (a, none) => [a]
    | (a, some rest) => a :: SplitN sep (n + 1) rest

/-- Decimal digit for a number below ten. -/
def digitChar (d : Nat) : Char := Char.ofNat (48 + d)

/-- Value of an ASCII decimal digit. -/
def digitVal (c : Char) : Option Nat :=
  if 48 ≤ c.toNat ∧ c.toNat ≤ 57 then some (c.toNat - 48) else none

/-- Decimal digits of `n`, most significant first, in front of `acc`. -/
def natDigitsAux : Nat → Nat → GoString → GoString
  | 0, _, acc => acc
  | fuel + 1, n, acc =>
    if n < 10 then digitChar n :: acc
    else natDigitsAux fuel (n / 10) (digitChar (n % 10) :: acc)

/-- Decimal representation of a natural number. -/
def formatNat (n : Nat) : GoString := natDigitsAux (n + 1) n []

/-- Verb `%d` of `fmt.Sprintf` for an `int`. -/
def formatInt (n : Int) : GoString :=
  if n < 0 then '-' :: formatNat n.natAbs else formatNat n.natAbs

/-- Value of a digit string read left to right, `none` on a non-digit. -/
def parseDigits : GoString → Nat → Option Nat
  | [], acc => some acc
  | c :: cs, acc =>
    match digitVal c with
    | some d => parseDigits cs (acc * 10 + d)
    | none => none

/-- Digits of `strconv.Atoi` after the optional sign: value and success flag.  A
syntax error yields 0, a value out of range the nearest `int` bound. -/
def atoiDigits (neg : Bool) (body : GoString) : Int × Bool :=
  if body = [] then (0, false)
  else
    match parseDigits body 0 with
    | none => (0, false)
    | some n =>
      let v : Int := if neg then -(n : Int) else (n : Int)
      if v < MinInt64 then (MinInt64, false)
      else if v > MaxInt64 then (MaxInt64, false)
      else (v, true)

/-- Function `strconv.Atoi`: the returned value and whether the error is nil. -/
def Atoi (s : GoString) : Int × Bool :=
  match s with
  | [] => (0, false)
  | c :: r =>
    if c = '-' then atoiDigits true r
    else if c = '+' then atoiDigits false r
    else atoiDigits false (c :: r)

/-! ## Protocol codec (`game/pvp_protocol.go`) -/

structure Init where
  P1Name : GoString := []
  P1HP : Int := 0
  P1Max : Int := 0
  P2Name : GoString := []
  P2HP : Int := 0
  P2Max : Int := 0
  Round : Int := 0
  Turn : Int := 0
  deriving DecidableEq

structure State where
  Round : Int := 0
  P1HP : Int := 0
  P2HP : Int := 0
  Turn : Int := 0
  deriving DecidableEq

structure Action where
  Kind : GoString := []
  BodyPart : GoString := []
  BlockPart : GoString := []
  Damage : Int := 0
  ItemIdx : Int := 0
  deriving DecidableEq

structure End where
  Winner : Int := 0
  deriving DecidableEq

/-- Loop body of `ParseInit`. -/
def parseInitPart (i : Init) (part : GoString) : Init :=
  if HasPrefix part "p1name=".toList then { i with P1Name := part.drop 7 }
  else if HasPrefix part "p2name=".toList then { i with P2Name := part.drop 7 }
  else if HasPrefix part "p1hp=".toList then { i with P1HP := (Atoi (part.drop 5)).1 }
  else if HasPrefix part "p1max=".toList then { i with P1Max := (Atoi (part.drop 6)).1 }
  else if HasPrefix part "p2hp=".toList then { i with P2HP := (Atoi (part.drop 5)).1 }
  else if HasPrefix part "p2max=".toList then { i with P2Max := (Atoi (part.drop 6)).1 }
  else if HasPrefix part "round=".toList then { i with Round := (Atoi (part.drop 6)).1 }
  else if HasPrefix part "turn=".toList then { i with Turn := (Atoi (part.drop 5)).1 }
  else i

/-- Function `ParseInit`. -/
def ParseInit (line : GoString) : Res Init :=
  .ok ((Fields line).foldl parseInitPart
    { P1Name := "Игрок1".toList, P2Name := "Игрок2".toList, P1Max := 100, P2Max := 100 })

/-- Function `SerializeInit`. -/
def SerializeInit (i : Init) : GoString :=
  "INIT p1name=".toList ++ i.P1Name ++ " p1hp=".toList ++ formatInt i.P1HP
    ++ " p1max=".toList ++ formatInt i.P1Max ++ " p2name=".toList ++ i.P2Name
    ++ " p2hp=".toList ++ formatInt i.P2HP ++ " p2max=".toList ++ formatInt i.P2Max
    ++ " round=".toList ++ formatInt i.Round ++ " turn=".toList ++ formatInt i.Turn

/-- Loop body of `ParseState`. -/
def parseStatePart (s : State) (part : GoString) : State :=
  if HasPrefix part "round=".toList then { s with Round := (Atoi (part.drop 6)).1 }
  else if HasPrefix part "p1hp=".toList then { s with P1HP := (Atoi (part.drop 5)).1 }
  else if HasPrefix part "p2hp=".toList then { s with P2HP := (Atoi (part.drop 5)).1 }
  else if HasPrefix part "turn=".toList then { s with Turn := (Atoi (part.drop 5)).1 }
  else s

/-- Function `ParseState`. -/
def ParseState (line : GoString) : Res State :=
  .ok ((Fields line).foldl parseStatePart {})

/-- Function `SerializeState`. -/
def SerializeState (s : State) : GoString :=
  "STATE round=".toList ++ formatInt s.Round ++ " p1hp=".toList ++ formatInt s.P1HP
    ++ " p2hp=".toList ++ formatInt s.P2HP ++ " turn=".toList ++ formatInt s.Turn

/-- Function `ParseAction`. -/
def ParseAction (line : GoString) : Res Action :=
  match SplitN ' ' 3 line with
  | [] => .error .invalidAction
  | [_] => .error .invalidAction
  | [_, kind] => .ok { Kind := kind }
  | _ :: kind :: payload :: _ =>
    if kind = "attack".toList then
      match Split '|' payload with
      | [] => .ok { Kind := kind }
      | [body] => .ok { Kind := kind, BodyPart := body }
      | [body, block] => .ok { Kind := kind, BodyPart := body, BlockPart := block }
      | body :: block :: dmg :: _ =>
        .ok { Kind := kind, BodyPart := body, BlockPart := block, Damage := (Atoi dmg).1 }
    else if kind = "item".toList then .ok { Kind := kind, ItemIdx := (Atoi payload).1 }
    else .ok { Kind := kind }

/-- Function `SerializeAction`. -/
def SerializeAction (a : Action) : GoString :=
  if a.Kind = "attack".toList then
    "ACTION attack ".toList ++ a.BodyPart ++ ['|'] ++ a.BlockPart ++ ['|'] ++ formatInt a.Damage
  else if a.Kind = "item".toList then "ACTION item ".toList ++ formatInt a.ItemIdx
  else if a.Kind = "surrender".toList then "ACTION surrender".toList
  else []

/-- First `winner=` field of the line, as `ParseEnd` reads it. -/
def parseEndLoop : List GoString → End
  | [] => {}
  | part :: rest =>
    if HasPrefix part "winner=".toList then { Winner := (Atoi (part.drop 7)).1 }
    else parseEndLoop rest

/-- Function `ParseEnd`. -/
def ParseEnd (line : GoString) : Res End := .ok (parseEndLoop (Fields line))

/-- Function `SerializeEnd`. -/
def SerializeEnd (e : End) : GoString := "END winner=".toList ++ formatInt e.Winner

/-! ## Sample states -/

/-- Heap in which every address holds the zero item. -/
def emptyHeap : Heap := fun _ => {}

/-- Heap and character produced by `NewWarrior("Hero")` on the empty heap. -/
def heroState : Heap × Character :=
  match NewWarrior emptyHeap 0 "Hero" with
  | .ok hc => hc
  | _ => (emptyHeap, {})

/-! ## Well-formedness of a character's containers -/

/-- No nil items and no items without a template in the inventory or in the slots. -/
def NoNilEntries (h : Heap) (c : Character) : Prop :=
  (∀ x ∈ c.Inventory.Items, ∃ p, x = some p ∧ (h p).Template ≠ none)
  ∧ (∀ entry ∈ c.Equipment.Slots, ∃ p, entry.2 = some p ∧ (h p).Template ≠ none)

/-- Inventory invariant: no stored item is flagged as equipped. -/
def InventoryUnequipped (h : Heap) (c : Character) : Prop :=
  ∀ p, some p ∈ c.Inventory.Items → (h p).IsEquipped = false

/-- Equipment invariant: an occupied slot holds an item flagged as equipped whose
template names that slot and whose type the slot accepts. -/
def EquipmentWellFormed (h : Heap) (c : Character) : Prop :=
  ∀ slot p, c.Equipment.GetItem slot = some p →
    (h p).IsEquipped = true
    ∧ (∃ t, (h p).Template = some t ∧ t.Slot = slot)
    ∧ Equipment.isValidItemForSlot h (some p) slot = true

/-- The observable item state is unchanged: same item objects, same inventory, same
slot mapping, and the same character otherwise. -/
def SameItemState (h : Heap) (c : Character) (h1 : Heap) (c1 : Character) : Prop :=
  h1 = h ∧ c1.Inventory = c.Inventory
  ∧ (∀ s, c1.Equipment.Slots.get s = c.Equipment.Slots.get s)
  ∧ c1 = { c with Equipment := c1.Equipment }

/-- Starter sword already flagged as equipped, at address 0. -/
def flaggedHeap : Heap :=
  fun p => if p = 0 then { (CreateSword.getD {}) with IsEquipped := true } else {}

/-- Character holding item 0 in its inventory, nothing equipped. -/
def flaggedChar : Character :=
  { Inventory := { Items := [some 0], Capacity := 20 }, Equipment := NewEquipment }

/-- Character with a full (capacity 0) inventory that carries item 0, a weapon, in
the head slot. -/
def misplacedChar : Character :=
  { Inventory := NewInventory 0, Equipment := { Slots := [(SlotHead, some 0)] } }

/-- Character with a full (capacity 0) inventory that carries item 0, a weapon, in
the weapon slot. -/
def armedChar : Character :=
  { Inventory := NewInventory 0, Equipment := { Slots := [(SlotWeapon, some 0)] } }

/-- INIT snapshot whose first player name contains a space. -/
def spacedInit : Init :=
  { P1Name := "Sir Lancelot".toList, P1HP := 100, P1Max := 100,
    P2Name := "Merlin".toList, P2HP := 100, P2Max := 100, Round := 1, Turn := 1 }

/-- INIT snapshot as the relay server sends it. -/
def relayInit : Init :=
  { P1Name := "Игрок1".toList, P1HP := 100, P1Max := 100,
    P2Name := "Игрок2".toList, P2HP := 100, P2Max := 100, Round := 1, Turn := 1 }

/-- A string without Unicode white space, that is, a single field for `strings.Fields`. -/
def NoSpace (s : GoString) : Prop := ∀ c ∈ s, isSpace c = false

instance (s : GoString) : Decidable (NoSpace s) := by
  unfold NoSpace; exact inferInstance

/-- Attack with an item index set, a field the wire format of an attack omits. -/
def attackWithIndex : Action :=
  { Kind := "attack".toList, BodyPart := "Голова".toList, BlockPart := "Тело".toList,
    Damage := 12, ItemIdx := 3 }

/-- Action of a kind the serializer does not know. -/
def defendAction : Action := { Kind := "defend".toList }

/-- Attack as the client sends it. -/
def plainAttack : Action :=
  { Kind := "attack".toList, BodyPart := "Правая нога".toList, BlockPart := "Тело".toList,
    Damage := 12 }

/-- Actions that carry only the fields their kind puts on the wire: an attack has
item index 0 and no `|` inside its two body parts; an item action has empty body
parts and damage 0; a surrender has every other field zero. -/
def Action.WireForm (a : Action) : Prop :=
  (a.Kind = "attack".toList ∧ '|' ∉ a.BodyPart ∧ '|' ∉ a.BlockPart ∧ a.ItemIdx = 0)
  ∨ (a.Kind = "item".toList ∧ a.BodyPart = [] ∧ a.BlockPart = [] ∧ a.Damage = 0)
  ∨ (a.Kind = "surrender".toList ∧ a.BodyPart = [] ∧ a.BlockPart = [] ∧ a.Damage = 0
      ∧ a.ItemIdx = 0)

instance (a : Action) : Decidable a.WireForm := by
  unfold Action.WireForm; exact inferInstance

/-! ## The roll formula of the specification -/

/-- Rarity multipliers as the decimal numbers written in the table. -/
def rarityMultiplierExact (r : Rarity) : ℚ :=
  if r = Common then 1
  else if r = Uncommon then 13 / 10
  else if r = Rare then 17 / 10
  else if r = Epic then 22 / 10
  else if r = Legendary then 3
  else if r = Mythic then 4
  else 0

/-- Product `baseStat × rarityMultiplier[rarity] × (1 + 0.1 × (level − 1))` in exact
arithmetic. -/
def exactProduct (base : ℚ) (rarity : Rarity) (level : Int) : ℚ :=
  base * rarityMultiplierExact rarity * (1 + (1 / 10) * ((level : ℚ) - 1))

/-- Rolled stat of the specification: the floor of the exact product. -/
def exactRoll (base : ℚ) (rarity : Rarity) (level : Int) : Int :=
  ⌊exactProduct base rarity level⌋

/-- Integer base stats that occur in the catalog. -/
def intBases : List Int := [0, 1, 2, 4]

/-- Fractional base stats that occur in the catalog. -/
def floatBases : List ℚ := [0, 2, 3, 4, 5, 7, 10, 30, 50]

/-- Ten times the rarity multiplier written in the table, an integer. -/
def rarityTenths (r : Rarity) : Int :=
  if r = Common then 10
  else if r = Uncommon then 13
  else if r = Rare then 17
  else if r = Epic then 22
  else if r = Legendary then 30
  else if r = Mythic then 40
  else 0

/-- Unit roundoff of `float64`: half the distance between 1 and the next `float64`. -/
def unit64 : ℚ := 1 / 2 ^ 53

/-- The value `y` lies within `k` roundings to `float64` of the exact value `A`:
`A (1 - 2^-53)^k ≤ y ≤ A (1 + 2^-53)^k`. -/
def Near (k : ℕ) (A y : ℚ) : Prop :=
  A * (1 - unit64) ^ k ≤ y ∧ y ≤ A * (1 + unit64) ^ k

/-- The positive rational `q` lies exactly halfway between two adjacent `float32`
values. -/
def isTie32 (q : ℚ) : Bool := decide (Int.fract (q / pow2 (ilog2 q - 23)) = 1 / 2)

/-- HP invariant of a character: `0 ≤ CurrentHP ≤ MaxHP`. -/
def Character.HPInRange (c : Character) : Prop := 0 ≤ c.CurrentHP ∧ c.CurrentHP ≤ c.MaxHP

instance (c : Character) : Decidable c.HPInRange := by
  unfold Character.HPInRange; exact inferInstance

/-- Heap and character produced by `New("Titan", 2^39, 1, 1, 1)` on the empty heap. -/
def titanState : Heap × Character :=
  match Character.New emptyHeap 0 "Titan" (2 ^ 39) 1 1 1 with
  | .ok hc => hc
  | _ => (emptyHeap, {})

/-- Character at 5 of 10 HP whose base HP field is negative. -/
def negativeBaseChar : Character := { CurrentHP := 5, MaxHP := 10, BaseHP := -3 }

/-- Character at 50 of 100 HP with defense 3. -/
def woundedChar : Character :=
  { CurrentHP := 50, MaxHP := 100, BaseHP := 100, Agility := 8, DefenseValue := 3 }

/-! ## Combat resolution (`game/battle_logic.go`) -/

/-- Function `bodyPartMultiplier`. -/
def bodyPartMultiplier (bodyPart : String) : ℚ :=
  if bodyPart = "Голова" then round64 (15 / 10)
  else if bodyPart = "Тело" then round64 1
  else if bodyPart = "Правая нога" ∨ bodyPart = "Левая нога" then round64 (8 / 10)
  else if bodyPart = "Правая рука" ∨ bodyPart = "Левая рука" then round64 (9 / 10)
  else round64 1

/-- Value of the variable `damage` of `TurnHandler.CalculateDamage` just before the
final conversion to `int`.  `draw` is the value of `th.rng.Float64()`, or `none`
when `th.rng` is nil. -/
def damageValue (draw : Option ℚ) (attacker defender : Character) (bodyPart : String) : ℚ :=
  let baseDamage := wrapInt (attacker.Strength + floatToInt attacker.AttackValue)
  let defense := floatToInt defender.DefenseValue
  let m := bodyPartMultiplier bodyPart
  let damage := round64 (round64 (round64 baseDamage * m) - round64 (round64 defense * round64 (5 / 10)))
  let damage :=
    match draw with
    | some r => round64 (damage * round64 (round64 (9 / 10) + round64 (r * round64 (2 / 10))))
    | none => damage
  if damage < 1 then 1 else damage

/-- Method `TurnHandler.CalculateDamage`. -/
def CalculateDamage (draw : Option ℚ) (attacker defender : Character) (bodyPart : String) : Int :=
  floatToInt (damageValue draw attacker defender bodyPart)

/-! ## PvP client model (`game/pvp_fight_model.go`) -/

abbrev FightViewState := Int

def FightViewActionMenu : FightViewState := 0
def FightViewItemMenu : FightViewState := 1
def FightViewSurrenderConfirm : FightViewState := 2
def FightViewExitConfirm : FightViewState := 3
def FightViewEnd : FightViewState := 4

/-- Connection wrapper: `conn` is nil after `Close`; otherwise it is represented by
the lines written to it so far. -/
structure Session where
  conn : Option (List GoString)
  deriving DecidableEq

/-- Method `Session.WriteLine`: false stands for the error `io.ErrClosedPipe`. -/
def Session.WriteLine (s : Session) (line : GoString) : Bool × Session :=
  match s.conn with
  | none => (false, s)
  | some sent => (true, { conn := some (sent ++ [line]) })

/-- Method `Session.Close`. -/
def Session.Close (_s : Session) : Session := { conn := none }

/-- Text shown to the player, by message kind (the wording is not modelled). -/
inductive Message where
  | empty
  | opponentSurrendered
  | attackLanded (attacker : String) (damage hp maxHP : Int)
  | attackBlocked (attacker : String)
  | opponentUsedItem
  deriving DecidableEq

/-- The fields of `PvPFightModel` that the protocol logic reads or writes.  The two
character objects `player` and `enemy` are distinct; `wire` keeps what was written
to a session that has been closed and dropped since. -/
structure PvPFightModel where
  session : Option Session := none
  MySide : Int := 0
  player : Character := {}
  enemy : Character := {}
  round : Int := 1
  turn : Int := 1
  state : FightViewState := FightViewActionMenu
  message : Message := .empty
  showMessage : Bool := false
  gameOver : Bool := false
  winnerSide : Int := 0
  waitingForMatch : Bool := false
  waitingForState : Bool := false
  wire : List GoString := []
  deriving DecidableEq

/-- Method `PvPFightModel.myTurn`. -/
def PvPFightModel.myTurn (m : PvPFightModel) : Bool := m.MySide ≠ 0 ∧ m.turn = m.MySide

/-- Method `PvPFightModel.pvpSend`; the error result is dropped by every caller. -/
def PvPFightModel.pvpSend (m : PvPFightModel) (line : GoString) : PvPFightModel :=
  match m.session with
  | none => m
  | some s => { m with session := some (s.WriteLine line).2 }

/-- Lines written so far to the connection of the model. -/
def PvPFightModel.sent (m : PvPFightModel) : List GoString :=
  match m.session with
  | some { conn := some lines } => lines
  | _ => m.wire

/-- Method `PvPFightModel.applyState`. -/
def PvPFightModel.applyState (m : PvPFightModel) (s : State) : PvPFightModel :=
  let m : PvPFightModel := { m with round := s.Round }
  let m : PvPFightModel :=
    if m.MySide = 1 then { m with player := m.player.SetHP s.P1HP, enemy := m.enemy.SetHP s.P2HP }
    else { m with player := m.player.SetHP s.P2HP, enemy := m.enemy.SetHP s.P1HP }
  if s.Turn = 1 ∨ s.Turn = 2 then
    let m : PvPFightModel := { m with turn := s.Turn, waitingForState := false }
    if m.turn = m.MySide then { m with state := FightViewActionMenu } else m
  else m

/-- Method `PvPFightModel.applyAction`; `roll` is the dodge roll drawn inside
`TakeDamage`.  The returned timer command is not modelled. -/
def PvPFightModel.applyAction (m : PvPFightModel) (a : Action) (roll : ℚ) : PvPFightModel :=
  if a.Kind = "surrender".toList then
    { m with gameOver := true, winnerSide := m.MySide, state := FightViewEnd,
             message := .opponentSurrendered, showMessage := true }
  else if a.Kind = "attack".toList ∧ a.BodyPart ≠ [] then
    if a.Damage > 0 then
      let defender := m.player.TakeDamage a.Damage roll
      { m with player := defender,
               message := .attackLanded m.enemy.Name a.Damage defender.CurrentHP defender.MaxHP,
               showMessage := true }
    else { m with message := .attackBlocked m.enemy.Name, showMessage := true }
  else if a.Kind = "item".toList then
    { m with message := .opponentUsedItem, showMessage := true }
  else m

/-- End of match inside `sendState`: END is sent, the session closed and dropped. -/
def PvPFightModel.finish (m : PvPFightModel) (winner : Int) : PvPFightModel :=
  let m : PvPFightModel := { m with gameOver := true, winnerSide := winner, state := FightViewEnd }
  let m := m.pvpSend (SerializeEnd { Winner := m.winnerSide })
  { m with wire := m.sent, session := none }

/-- Method `PvPFightModel.sendState`. -/
def PvPFightModel.sendState (m : PvPFightModel) : PvPFightModel :=
  match m.session with
  | none => m
  | some _ =>
    let s : State :=
      if m.MySide = 1 then { Round := m.round, P1HP := m.player.CurrentHP, P2HP := m.enemy.CurrentHP }
      else { Round := m.round, P1HP := m.enemy.CurrentHP, P2HP := m.player.CurrentHP }
    if m.player.CurrentHP ≤ 0 then m.finish (wrapInt (3 - m.MySide))
    else if m.enemy.CurrentHP ≤ 0 then m.finish m.MySide
    else
      let m : PvPFightModel := { m with turn := wrapInt (3 - m.MySide) }
      let s : State := { s with Turn := m.turn }
      let m : PvPFightModel := { m with waitingForState := true }
      m.pvpSend (SerializeState s)

/-- HP field of a STATE message for the given side (1 or, otherwise, 2). -/
def State.hpOf (s : State) (side : Int) : Int := if side = 1 then s.P1HP else s.P2HP

/-- State `MyTurn` of the client: it is the client's turn, it is not waiting for a
STATE message, and the action menu is shown. -/
def PvPFightModel.InMyTurn (m : PvPFightModel) : Prop :=
  m.myTurn = true ∧ m.waitingForState = false ∧ m.state = FightViewActionMenu

instance (m : PvPFightModel) : Decidable m.InMyTurn := by
  unfold PvPFightModel.InMyTurn; exact inferInstance

/-- What a STATE message `s` must have done to a client: `before` is the model it
was applied to and `after` the result. -/
def StateApplied (before after : PvPFightModel) (s : State) : Prop :=
  after.player.CurrentHP = s.hpOf before.MySide
  ∧ after.enemy.CurrentHP = s.hpOf (3 - before.MySide)
  ∧ after.round = s.Round
  ∧ after.turn = s.Turn
  ∧ after.waitingForState = false
  ∧ (after.InMyTurn ↔ s.Turn = before.MySide)
  ∧ (after.myTurn = true ↔ s.Turn = before.MySide)
  ∧ (s.Turn = before.MySide → after.state = FightViewActionMenu)
  ∧ (s.Turn ≠ before.MySide → after.state = before.state)

/-- Character of a PvP match as `NewPvPFightModel` builds it (100 HP, 14/7/4). -/
def pvpChar (name : String) : Character :=
  match Character.New emptyHeap 0 name 100 14 7 4 with
  | .ok hc => hc.2
  | _ => {}

/-- Client of side 2 waiting for the opponent's move, connection open. -/
def sideTwoClient : PvPFightModel :=
  { session := some { conn := some [] }, MySide := 2, player := pvpChar "Игрок2",
    enemy := pvpChar "Игрок1", round := 1, turn := 1 }

/-- Attack of 12 damage on the head, blocked on the torso. -/
def attackTwelve : Action :=
  { Kind := "attack".toList, BodyPart := "Голова".toList, BlockPart := "Тело".toList,
    Damage := 12 }

/-- STATE message after that attack: side 2 is down to 88 HP and moves next. -/
def stateAfterAttack : State := { Round := 2, P1HP := 100, P2HP := 88, Turn := 2 }

/-- Client of side 1 on its turn, connection open, after its attack took the
opponent to 88 HP. -/
def sideOneClient : PvPFightModel :=
  { session := some { conn := some [] }, MySide := 1, player := pvpChar "Игрок1",
    enemy := { pvpChar "Игрок2" with CurrentHP := 88 }, round := 2, turn := 1 }

/-- The same client with no session (`m.session == nil`). -/
def offlineClient : PvPFightModel := { sideOneClient with session := none }

/-- Attacker with the largest `int` as strength. -/
def giantChar : Character := { CurrentHP := 100, MaxHP := 100, Strength := MaxInt64 }

/-- Attacker with strength 14 and attack 5. -/
def fighterChar : Character :=
  { CurrentHP := 100, MaxHP := 100, Strength := 14, AttackValue := 5 }

/-- Defender with defense 1000. -/
def fortressChar : Character := { CurrentHP := 100, MaxHP := 100, DefenseValue := 1000 }


/-! ## Strikes (`game/battle_logic.go`) -/

/-- Body parts a strike can aim at (variable `bodyParts` of `Character.go`);
`Hit` and `Block` return one of them, drawn at random. -/
def bodyParts : List String :=
  ["Голова", "Тело", "Правая нога", "Левая нога", "Правая рука", "Левая рука"]

/-- Method `TurnHandler.SimpleStrike`.  A nil combatant is `none`; `attackPart`
and `blockPart` are the values that `attacker.Hit()` and `defender.Block()`
return, `draw` is the draw of `CalculateDamage` and `roll` the dodge roll of
`TakeDamage`.  Returns the damage, the blocked flag and the defender after the
call. -/
def SimpleStrike (draw : Option ℚ) (attacker defender : Option Character)
    (attackPart blockPart : String) (roll : ℚ) : Int × Bool × Option Character :=
  match attacker, defender with
  | some a, some d =>
    if d.CurrentHP ≤ 0 then (0, false, some d)
    else if attackPart = blockPart then (0, true, some d)
    else
      let damage := CalculateDamage draw a d attackPart
      (damage, false, some (d.TakeDamage damage roll))
  | _, _ => (0, false, defender)

/-- The body parts that a call of `SimpleStrike` draws.  `attacker.Hit()` and
`defender.Block()` are called only after the guard
`attacker == nil || defender == nil || defender.GetHP() <= 0` has let the call
through: `attackPart` and `blockPart` are the values they then return, and a call
that returns at the guard draws no body part. -/
def SimpleStrike.picks (attacker defender : Option Character)
    (attackPart blockPart : String) : Option (String × String) :=
  match attacker, defender with
  | some _, some d => if d.CurrentHP ≤ 0 then none else some (attackPart, blockPart)
  | _, _ => none

/-- Factor `0.9 + th.rng.Float64()*0.2` of `CalculateDamage` for the draw `r`. -/
def randomFactor (r : ℚ) : ℚ := round64 (round64 (9 / 10) + round64 (r * round64 (2 / 10)))

/-- Damage formula in the words of the specification, in exact arithmetic:
`max(1, floor(((strength + floor(attack)) * m - defense * 0.5) * f))`. -/
def specDamage (strength : Int) (attack defense m f : ℚ) : Int :=
  max 1 ⌊(((strength : ℚ) + (⌊attack⌋ : ℚ)) * m - defense * (1 / 2)) * f⌋

/-- Multiplier table in the words of the specification. -/
def specMultiplier (bodyPart : String) : ℚ :=
  if bodyPart = "Голова" then 3 / 2
  else if bodyPart = "Тело" then 1
  else if bodyPart = "Правая нога" ∨ bodyPart = "Левая нога" then 8 / 10
  else if bodyPart = "Правая рука" ∨ bodyPart = "Левая рука" then 9 / 10
  else 1

/-- Value `((strength + floor(attack)) * m - floor(defense) * 0.5)` with the
defense floored first and each operation carried out in float64. -/
def flooredValue (strength : Int) (attack defense m : ℚ) : ℚ :=
  round64 (round64 (round64 ((strength : ℚ) + (⌊attack⌋ : ℚ)) * m)
    - round64 (round64 (⌊defense⌋ : ℚ) * round64 (1 / 2)))

/-- Damage formula of the specification with the defense floored first and each
operation carried out in float64; the factor `f` is absent when the handler has
no random source. -/
def flooredDamage (strength : Int) (attack defense m : ℚ) (f : Option ℚ) : Int :=
  match f with
  | some f => max 1 ⌊round64 (flooredValue strength attack defense m * f)⌋
  | none => max 1 ⌊flooredValue strength attack defense m⌋

/-- A draw for which the random factor is the float64 value just below 0.9375. -/
def oddDraw : ℚ := 844424930131965 / 4503599627370496

/-- An attacker of strength 4 without attack bonus. -/
def noviceChar : Character := { CurrentHP := 100, MaxHP := 100, Strength := 4 }

/-- A defender without defense. -/
def bareChar : Character := { CurrentHP := 100, MaxHP := 100 }

/-- Stat bound under which no integer operation of a strike wraps. -/
def Character.CombatBounded (c : Character) : Prop :=
  |c.Strength| ≤ 2 ^ 50 ∧ |c.AttackValue| ≤ 2 ^ 50 ∧ |c.DefenseValue| ≤ 2 ^ 50

instance (c : Character) : Decidable c.CombatBounded := by
  unfold Character.CombatBounded; infer_instance

/-- Dodge chance `float32(c.Agility) * 0.01` of `TakeDamage`. -/
def Character.dodgeChance (c : Character) : ℚ :=
  round32 (round32 c.Agility * round32 (1 / 100))

/-- An attacker of strength 14 with 5 points of attack. -/
def recruitChar : Character :=
  { CurrentHP := 100, MaxHP := 100, Strength := 14, AttackValue := 5 }

/-- A defender whose defense has a fractional part. -/
def shieldedChar : Character := { CurrentHP := 100, MaxHP := 100, DefenseValue := 5 / 2 }

/-- A character whose defense field was set below zero by hand. -/
def cursedChar : Character := { CurrentHP := 50, MaxHP := 100, DefenseValue := -(1 / 2) }

/-! ## Transfers between inventories (`Struct/Inventory/Inventory.go`) -/

/-- Argument `targetInventory` of `TransferItem`: a nil pointer, the source
inventory itself, or another inventory. -/
inductive TransferTarget where
  | missing
  | self
  | other (inv : Inventory)
  deriving DecidableEq

/-- Method `Inventory.TransferItem`.  Returns the result, the source inventory
and the target after the call.  With the target `self` every step acts on the
one inventory. -/
def Inventory.TransferItem (h : Heap) (inv : Inventory) (itemID : Int)
    (target : TransferTarget) : Res Unit × Inventory × TransferTarget :=
  match target with
  | .missing => (.error .targetMissing, inv, .missing)
  | .self =>
    match inv.FindItemByID h itemID with
    | none => (.error .transferNotFound, inv, .self)
    | some p =>
      if (h p).IsEquipped then (.error .transferEquipped, inv, .self)
      else
        match inv.AddItem h (some p) with
        | (.error e, inv1) => (.error (.transferFailed e), inv1, .self)
        | (.panic, inv1) => (.panic, inv1, .self)
        | (.ok _, inv1) =>
          match inv1.RemoveItem h itemID with
          | (.ok _, inv2) => (.ok (), inv2, .self)
          | (.panic, inv2) => (.panic, inv2, .self)
          | (.error e, inv2) =>
            match (h p).Template with
            | none => (.panic, inv2, .self)
            | some t =>
              match inv2.RemoveItem h t.ID with
              | (.panic, inv3) => (.panic, inv3, .self)
              | (.error _, inv3) => (.error (.transferRemoveFailed e), inv3, .self)
              | (.ok q, inv3) =>
                (.error (.transferRemoveFailed e), (inv3.AddItem h (some q)).2, .self)
  | .other tgt =>
    match inv.FindItemByID h itemID with
    | none => (.error .transferNotFound, inv, .other tgt)
    | some p =>
      if (h p).IsEquipped then (.error .transferEquipped, inv, .other tgt)
      else
        match tgt.AddItem h (some p) with
        | (.error e, tgt1) => (.error (.transferFailed e), inv, .other tgt1)
        | (.panic, tgt1) => (.panic, inv, .other tgt1)
        | (.ok _, tgt1) =>
          match inv.RemoveItem h itemID with
          | (.ok _, inv1) => (.ok (), inv1, .other tgt1)
          | (.panic, inv1) => (.panic, inv1, .other tgt1)
          | (.error e, inv1) =>
            match (h p).Template with
            | none => (.panic, inv1, .other tgt1)
            | some t =>
              match tgt1.RemoveItem h t.ID with
              | (.panic, tgt2) => (.panic, inv1, .other tgt2)
              | (.error _, tgt2) => (.error (.transferRemoveFailed e), inv1, .other tgt2)
              | (.ok q, tgt2) =>
                (.error (.transferRemoveFailed e), (inv1.AddItem h (some q)).2, .other tgt2)

/-- Item list of the target of a transfer; for `self` it is the list of the
given source. -/
def TransferTarget.items (source : Inventory) : TransferTarget → List (Option Ptr)
  | .missing => []
  | .self => source.Items
  | .other tgt => tgt.Items

/-- One call on a collection of inventories, picked by position. -/
inductive InventoryOp where
  | add (i : Nat) (item : Option Ptr)
  | remove (i : Nat) (itemID : Int)
  | transfer (i : Nat) (itemID : Int) (target : Option Nat)

/-- Effect of one call on the collection; a call on a position that holds no
inventory does not happen. -/
def applyInventoryOp (h : Heap) (invs : List Inventory) : InventoryOp → List Inventory
  | .add i item =>
    match invs.get? i with
    | none => invs
    | some inv => invs.set i (inv.AddItem h item).2
  | .remove i itemID =>
    match invs.get? i with
    | none => invs
    | some inv => invs.set i (inv.RemoveItem h itemID).2
  | .transfer i itemID target =>
    match invs.get? i with
    | none => invs
    | some inv =>
      match target with
      | none => invs.set i (inv.TransferItem h itemID .missing).2.1
      | some j =>
        if j = i then invs.set i (inv.TransferItem h itemID .self).2.1
        else
          match invs.get? j with
          | none => invs
          | some tgt =>
            match inv.TransferItem h itemID (.other tgt) with
            | (_, inv1, .other tgt1) => (invs.set i inv1).set j tgt1
            | (_, inv1, _) => invs.set i inv1

/-- Effect of a sequence of calls. -/
def runInventoryOps (h : Heap) (invs : List Inventory) (ops : List InventoryOp) :
    List Inventory :=
  ops.foldl (applyInventoryOp h) invs

/-- At most `Capacity` entries, none nil and none with the equipped flag. -/
def Inventory.Sound (h : Heap) (inv : Inventory) : Prop :=
  (inv.Items.length : Int) ≤ inv.Capacity ∧
    ∀ x ∈ inv.Items, ∃ p, x = some p ∧ (h p).IsEquipped = false

/-- Heap with the unequipped sword of template 1 at address 0. -/
def swordHeap : Heap := fun _ => { Template := some swordTemplate }

/-- An inventory of capacity 2 that holds the sword at address 0. -/
def sourceBag : Inventory := { Items := [some 0], Capacity := 2 }

/-- An inventory that is full: capacity 1 and one item. -/
def fullBag : Inventory := { Items := [some 7], Capacity := 1 }

/-- An inventory with 20 of 20 places taken. -/
def crowdedBag : Inventory := { Items := List.replicate 20 (some 0), Capacity := 20 }

/-- A sequence of calls on two inventories: fill the first, move the sword to the
second, try to move it again, add once more and remove from the second. -/
def sampleOps : List InventoryOp :=
  [.add 0 (some 0), .add 0 (some 1), .add 0 (some 2), .transfer 0 1 (some 1),
    .transfer 0 1 (some 1), .transfer 1 1 (some 1), .add 1 none, .remove 1 1,
    .transfer 0 1 none]

/-! ## Sequences of equipment calls (`Struct/Equipment/Equipment.go`) -/

/-- Compatibility of an item type with a slot in the words of the specification:
weapons go to the weapon slot, armor to the head, body, hands, feet and boots
slots, accessories to the accessory slot. -/
def slotAccepts (slot : EquipmentSlot) (typ : ItemType) : Prop :=
  (slot = SlotWeapon ∧ typ = Weapon)
  ∨ ((slot = SlotHead ∨ slot = SlotBody ∨ slot = SlotHands ∨ slot = SlotFeet
      ∨ slot = SlotBoots) ∧ typ = Armor)
  ∨ (slot = SlotAccessory ∧ typ = Accessory)

instance (slot : EquipmentSlot) (typ : ItemType) : Decidable (slotAccepts slot typ) := by
  unfold slotAccepts; infer_instance

/-- One call on an equipment. -/
inductive EquipmentOp where
  | equip (item : Option Ptr)
  | unequip (slot : EquipmentSlot)

/-- Effect of one call on the items and the equipment. -/
def applyEquipmentOp (s : Heap × Equipment) : EquipmentOp → Heap × Equipment
  | .equip item => (s.2.Equip s.1 item).2
  | .unequip slot => (s.2.Unequip s.1 slot).2

/-- Effect of a sequence of calls. -/
def runEquipmentOps (s : Heap × Equipment) (ops : List EquipmentOp) : Heap × Equipment :=
  ops.foldl applyEquipmentOp s

/-- Each slot occurs once in the mapping, and an occupied slot holds an item that
is flagged as equipped, whose template names that slot and whose type the slot
accepts. -/
def Equipment.Sound (h : Heap) (e : Equipment) : Prop :=
  (e.Slots.map Prod.fst).Nodup
    ∧ ∀ slot p, e.GetItem slot = some p →
        (h p).IsEquipped = true
          ∧ ∃ t, (h p).Template = some t ∧ t.Slot = slot ∧ slotAccepts slot t.Typ

/-- Template of a helmet: armor for the head slot. -/
def helmetTemplate : ItemTemplate := { ID := 101, Name := "Шлем", Typ := Armor, Slot := SlotHead }

/-- Template of a breastplate: armor for the body slot. -/
def plateTemplate : ItemTemplate := { ID := 102, Name := "Кираса", Typ := Armor, Slot := SlotBody }

/-- Template of a pair of gloves: armor for the hands slot. -/
def glovesTemplate : ItemTemplate := { ID := 103, Name := "Перчатки", Typ := Armor, Slot := SlotHands }

/-- Heap with a sword at 0, a helmet at 1, a breastplate at 2, gloves at 3 and a
health potion elsewhere. -/
def armoryHeap : Heap := fun p =>
  if p = 0 then { Template := some swordTemplate }
  else if p = 1 then { Template := some helmetTemplate }
  else if p = 2 then { Template := some plateTemplate }
  else if p = 3 then { Template := some glovesTemplate }
  else CreateHealthPotion.getD {}

/-- A sequence of calls: equip sword and helmet, try the sword again, try a potion
and a nil item, take the sword off, take it off again, put it back. -/
def sampleEquipmentOps : List EquipmentOp :=
  [.equip (some 0), .equip (some 1), .equip (some 0), .equip (some 9), .equip none,
    .unequip SlotWeapon, .unequip SlotWeapon, .equip (some 0)]

/-! ## Order of the range over the slot map -/

/-- Method `CalculateStats` when the range over the slot map in `GetTotalBonuses`
visits the entries in the order `order`.  Go does not fix the order of a range over
a map, and it can differ from one range to the next; `Character.CalculateStats`
is the case in which the order is that of the list `Slots`. -/
def Character.CalculateStatsIn (h : Heap) (c : Character) (order : SlotMap) : Character :=
  { (({ c with Equipment := { Slots := order } } : Character).CalculateStats h) with
    Equipment := c.Equipment }

/-- The four fractional stats of an item are float32 values, as their type says. -/
def Item.Float32Valued (i : Item) : Prop :=
  round32 i.Attack = i.Attack ∧ round32 i.Defense = i.Defense
    ∧ round32 i.Health = i.Health ∧ round32 i.Mana = i.Mana

instance (i : Item) : Decidable i.Float32Valued := by
  unfold Item.Float32Valued; infer_instance

/-- Heap with three pieces of armor, flagged as equipped: a helmet at 1 with health
16777216 and defense 0.1, a breastplate at 2 with health 1 and defense 0.2, gloves
at 3 with health 1 and defense 0.4. -/
def relicHeap : Heap := fun p =>
  if p = 1 then
    { Template := some helmetTemplate, Health := 16777216, Defense := round32 (1 / 10),
      IsEquipped := true }
  else if p = 2 then
    { Template := some plateTemplate, Health := 1, Defense := round32 (2 / 10),
      IsEquipped := true }
  else if p = 3 then
    { Template := some glovesTemplate, Health := 1, Defense := round32 (4 / 10),
      IsEquipped := true }
  else {}

/-- A character wearing the three pieces of `relicHeap`. -/
def paladinChar : Character :=
  { Name := "Paladin", CurrentHP := 100, MaxHP := 100, BaseHP := 100, BaseStrength := 10,
    BaseAgility := 5, BaseIntelligence := 3,
    Equipment := { Slots := [(SlotHead, some 1), (SlotBody, some 2), (SlotHands, some 3)] } }

/-- Body of the loop of `GetTotalBonuses` for one entry of the map. -/
def bonusStep (h : Heap) (total : Item) (entry : EquipmentSlot × Option Ptr) : Item :=
  match entry.2 with
  | none => total
  | some p =>
    { total with
      Strength := wrapInt (total.Strength + (h p).Strength)
      Agility := wrapInt (total.Agility + (h p).Agility)
      Intelligence := wrapInt (total.Intelligence + (h p).Intelligence)
      Attack := round32 (total.Attack + (h p).Attack)
      Defense := round32 (total.Defense + (h p).Defense)
      Health := round32 (total.Health + (h p).Health)
      Mana := round32 (total.Mana + (h p).Mana) }

/-- Wrapping sum of one integer stat over the entries of the map. -/
def wrapStep (f : Ptr → Int) (acc : Int) (entry : EquipmentSlot × Option Ptr) : Int :=
  match entry.2 with
  | none => acc
  | some p => wrapInt (acc + f p)

/-- Heap with an uncommon starter sword at 0 and an uncommon ring of regeneration at
4, both flagged as equipped. -/
def jewelHeap : Heap := fun p =>
  if p = 0 then { ((CreateItem 1 Uncommon 1).toOption.getD {}) with IsEquipped := true }
  else if p = 4 then { ((CreateItem 4 Uncommon 1).toOption.getD {}) with IsEquipped := true }
  else {}

/-- A character wearing the sword and the ring of `jewelHeap`. -/
def knightChar : Character :=
  { Name := "Knight", CurrentHP := 100, MaxHP := 100, BaseHP := 100, BaseStrength := 10,
    BaseAgility := 5, BaseIntelligence := 3,
    Equipment := { Slots := [(SlotWeapon, some 0), (SlotAccessory, some 4)] } }
/-! ## Samples for the constructors -/

/-- An equipment whose weapon slot holds the sword at address 0. -/
def armedEquipment : Equipment := { Slots := [(SlotWeapon, some 0)] }

/-! ## Save games (`core/game_manager.go`) -/

abbrev GameState := Int

/-- Snapshot `GameSaveDTO` as `json.Unmarshal` fills it from a save file. -/
structure GameSaveDTO where
  PlayerName : String := ""
  PlayerCurrentHP : Int := 0
  PlayerMaxHP : Int := 0
  PlayerStrength : Int := 0
  PlayerAgility : Int := 0
  PlayerIntelligence : Int := 0
  GameState : GameState := 0
  PlayTimeNs : Int := 0
  SaveTime : String := ""
  Version : String := ""
  deriving DecidableEq

/-- The fields of `GameManager` that `Load` writes, apart from the clock. -/
structure GameManager where
  State : GameState := 0
  Player : Option Character := none
  PlayTime : Int := 0
  deriving DecidableEq

/-- Method `GameManager.Load` after the snapshot has been decoded (a save file that
`json.Unmarshal` rejects is refused before this point); the items of the new player
are allocated at `fresh` and `fresh + 1`. -/
def GameManager.Load (h : Heap) (fresh : Ptr) (gm : GameManager) (dto : GameSaveDTO) :
    Res (Heap × GameManager) :=
  match Character.New h fresh dto.PlayerName dto.PlayerMaxHP dto.PlayerStrength
      dto.PlayerAgility dto.PlayerIntelligence with
  | .error e => .error (.loadFailed e)
  | .panic => .panic
  | .ok (h1, player) =>
    let player : Character := { player with CurrentHP := dto.PlayerCurrentHP }
    let player : Character :=
      if player.CurrentHP > player.MaxHP then { player with CurrentHP := player.MaxHP }
      else player
    .ok (h1, { gm with Player := some player, State := dto.GameState,
                       PlayTime := dto.PlayTimeNs })

/-- A save file whose current HP was edited to -5. -/
def tamperedSave : GameSaveDTO :=
  { PlayerName := "Hero", PlayerCurrentHP := -5, PlayerMaxHP := 100, PlayerStrength := 15,
    PlayerAgility := 8, PlayerIntelligence := 5, GameState := 1, Version := "1.0.0" }

/-- A save file as `Save` writes it for a wounded warrior. -/
def honestSave : GameSaveDTO :=
  { PlayerName := "Hero", PlayerCurrentHP := 40, PlayerMaxHP := 100, PlayerStrength := 15,
    PlayerAgility := 8, PlayerIntelligence := 5, GameState := 1, Version := "1.0.0" }

/-- Player of a manager after a load; the empty character if there is none. -/
def loadedPlayer (r : Res (Heap × GameManager)) : Character :=
  match r with
  | .ok (_, gm) => gm.Player.getD {}
  | _ => {}

/-! ## Using items (`Struct/Item/Item.go`, `Struct/Character/Character.go`,
`game/battle_logic.go`) -/

/-- Method `Item.CanUse`. -/
def Item.CanUse (i : Item) : Bool :=
  match i.Template with
  | none => false
  | some t => decide (t.Typ = Potion ∨ t.Typ = Consumable)

/-- The map that `Item.Use` returns, one optional entry per key. -/
structure UseEffects where
  health : Option ℚ := none
  mana : Option ℚ := none
  attack : Option ℚ := none
  defense : Option ℚ := none
  healthRegen : Option ℚ := none
  manaRegen : Option ℚ := none
  deriving DecidableEq

/-- Method `Item.Use` on the item at address `p`: the effects or the error, and the
heap afterwards. -/
def Item.Use (h : Heap) (p : Ptr) : Res UseEffects × Heap :=
  if !(h p).CanUse then (.error .cannotUse, h)
  else if (h p).Durability ≤ 0 then (.error .itemBroken, h)
  else
    match (h p).Template with
    | none => (.panic, h)
    | some t =>
      let effects : UseEffects :=
        { health := if (h p).Health ≠ 0 then some (h p).Health else none
          mana := if (h p).Mana ≠ 0 then some (h p).Mana else none
          attack := if (h p).Attack ≠ 0 then some (h p).Attack else none
          defense := if (h p).Defense ≠ 0 then some (h p).Defense else none
          healthRegen := if t.HealthRegen ≠ 0 then some t.HealthRegen else none
          manaRegen := if t.ManaRegen ≠ 0 then some t.ManaRegen else none }
      let durability :=
        if t.Typ = Consumable then 0
        else if t.Typ = Potion then wrapInt ((h p).Durability - 1)
        else (h p).Durability
      (.ok effects, Function.update h p { h p with Durability := durability })

/-- Function `minFloat32`. -/
def minFloat32 (a b : ℚ) : ℚ := if a < b then a else b

/-- Method `Character.UseItem`.  The two effects that change the character touch
different fields, so the order in which the map is ranged over does not matter. -/
def Character.UseItem (h : Heap) (c : Character) (itemID : Int) :
    Res Unit × Heap × Character :=
  match c.Inventory.FindItemByID h itemID with
  | none => (.error .useNotFound, h, c)
  | some p =>
    if !(h p).CanUse then (.error .cannotUse, h, c)
    else
      match Item.Use h p with
      | (.error e, h1) => (.error e, h1, c)
      | (.panic, h1) => (.panic, h1, c)
      | (.ok effects, h1) =>
        let c1 : Character :=
          match effects.health with
          | some v => c.Heal v
          | none => c
        let c2 : Character :=
          match effects.mana with
          | some v => { c1 with Mana := minFloat32 (round32 (c1.Mana + v)) c1.MaxMana }
          | none => c1
        if (h1 p).Durability ≤ 0 then
          match c2.Inventory.RemoveItem h1 itemID with
          | (.panic, inv) => (.panic, h1, { c2 with Inventory := inv })
          | (_, inv) => (.ok (), h1, { c2 with Inventory := inv })
        else (.ok (), h1, c2)

/-- Struct `ItemEffect`. -/
structure ItemEffect where
  Health : ℚ := 0
  Mana : ℚ := 0
  Attack : ℚ := 0
  Defense : ℚ := 0
  Duration : Int := 0
  deriving DecidableEq

/-- Struct `ItemEffectManager`; the map `effects` as an association list. -/
structure ItemEffectManager where
  effects : List (Int × ItemEffect)
  deriving DecidableEq

/-- Map read `iem.effects[id]` with the presence flag. -/
def ItemEffectManager.lookup (iem : ItemEffectManager) (id : Int) : Option ItemEffect :=
  (iem.effects.find? (fun kv => kv.1 == id)).map (fun kv => kv.2)

/-- Function `NewItemEffectManager`. -/
def NewItemEffectManager : ItemEffectManager :=
  { effects := [(19, { Health := 50 }), (22, { Mana := 30 }),
                (23, { Attack := 10, Duration := 3 })] }

/-- Function `canUseInBattle`. -/
def canUseInBattle (h : Heap) (item : Option Ptr) : Bool :=
  match item with
  | none => false
  | some p =>
    match (h p).Template with
    | none => false
    | some t =>
      if (h p).IsEquipped then false
      else if t.Slot ≠ SlotNone then false
      else decide (t.Typ = Potion ∨ t.Typ = Consumable)

/-- Method `ItemEffectManager.UseItem`.  A nil manager, player or item is `none`;
returns the flag, the heap and the player afterwards. -/
def ItemEffectManager.UseItem (iem : Option ItemEffectManager) (h : Heap)
    (player _enemy : Option Character) (item : Option Ptr) :
    Bool × Heap × Option Character :=
  match player, item with
  | some pl, some p =>
    match (h p).Template with
    | none => (false, h, player)
    | some t =>
      if !canUseInBattle h (some p) then (false, h, player)
      else
        match iem.bind (fun m => m.lookup t.ID) with
        | some eff =>
          let pl : Character := if eff.Health > 0 then pl.Heal eff.Health else pl
          let pl : Character :=
            if eff.Mana > 0 then pl.SetMana (round32 (pl.Mana + eff.Mana)) else pl
          let pl : Character :=
            if eff.Attack > 0 then pl.SetAttack (round32 (pl.AttackValue + eff.Attack))
            else pl
          let pl : Character :=
            if eff.Defense > 0 then pl.SetDefense (round32 (pl.DefenseValue + eff.Defense))
            else pl
          (true, h, some pl)
        | none =>
          match Item.Use h p with
          | (.ok effects, h1) =>
            let pl : Character :=
              match effects.health with
              | some v => if v > 0 then pl.Heal v else pl
              | none => pl
            let pl : Character :=
              match effects.mana with
              | some v => if v > 0 then pl.SetMana (round32 (pl.Mana + v)) else pl
              | none => pl
            let pl : Character :=
              match effects.attack with
              | some v => if v > 0 then pl.SetAttack (round32 (pl.AttackValue + v)) else pl
              | none => pl
            let pl : Character :=
              match effects.defense with
              | some v => if v > 0 then pl.SetDefense (round32 (pl.DefenseValue + v)) else pl
              | none => pl
            (true, h1, some pl)
          | (_, h1) => (false, h1, player)
  | _, _ => (false, h, player)

/-- A health potion (template 19) used up: durability 0. -/
def brokenPotion : Item := { (CreateHealthPotion.getD {}) with Durability := 0 }

/-- Heap with the used-up health potion at address 0, a fresh health potion at
address 1 and a used-up scroll (template 20) at address 2. -/
def potionHeap : Heap := fun p =>
  if p = 0 then brokenPotion
  else if p = 1 then CreateHealthPotion.getD {}
  else if p = 2 then { ((CreateItem 20 Common 1).toOption.getD {}) with Durability := 0 }
  else {}

/-! ## Public operations on a character -/

/-- One call of a public operation that changes a character. -/
inductive CharacterOp where
  | equipItem (itemID : Int)
  | unequipItem (slot : EquipmentSlot)
  | takeDamage (damage : Int) (roll : ℚ)
  | heal (amount : ℚ)
  | useItem (itemID : Int)
  | setAttack (attack : ℚ)
  | setDefense (defense : ℚ)
  | managerUse (iem : Option ItemEffectManager) (item : Option Ptr)

/-- Runs one call on the heap and the character; `none` when the call panics. -/
def applyCharacterOp (s : Heap × Character) : CharacterOp → Option (Heap × Character)
  | .equipItem itemID =>
    match s.2.EquipItem s.1 itemID with
    | (.panic, _, _) => none
    | (_, h1, c1) => some (h1, c1)
  | .unequipItem slot =>
    match s.2.UnequipItem s.1 slot with
    | (.panic, _, _) => none
    | (_, h1, c1) => some (h1, c1)
  | .takeDamage damage roll => some (s.1, s.2.TakeDamage damage roll)
  | .heal amount => some (s.1, s.2.Heal amount)
  | .useItem itemID =>
    match s.2.UseItem s.1 itemID with
    | (.panic, _, _) => none
    | (_, h1, c1) => some (h1, c1)
  | .setAttack attack => some (s.1, s.2.SetAttack attack)
  | .setDefense defense => some (s.1, s.2.SetDefense defense)
  | .managerUse iem item =>
    match ItemEffectManager.UseItem iem s.1 (some s.2) none item with
    | (_, h1, some c1) => some (h1, c1)
    | (_, h1, none) => some (h1, s.2)

/-- Runs a sequence of calls, stopping at the first panic. -/
def runCharacterOps (s : Heap × Character) : List CharacterOp → Option (Heap × Character)
  | [] => some s
  | op :: rest => (applyCharacterOp s op).bind (fun s1 => runCharacterOps s1 rest)

/-- The call sets neither attack nor defense: it is not `SetAttack` or `SetDefense`,
and for a use through the manager the effect that applies to the item (the entry of
the effect table, else the item's own values) has no positive attack or defense. -/
def CharacterOp.Plain (h : Heap) : CharacterOp → Prop
  | .setAttack _ => False
  | .setDefense _ => False
  | .managerUse iem item =>
    match item with
    | none => True
    | some p =>
      match (h p).Template with
      | none => True
      | some t =>
        match iem.bind (fun m => m.lookup t.ID) with
        | some eff => eff.Attack ≤ 0 ∧ eff.Defense ≤ 0
        | none => (h p).Attack ≤ 0 ∧ (h p).Defense ≤ 0
  | _ => True

instance (h : Heap) (op : CharacterOp) : Decidable (op.Plain h) := by
  cases op with
  | managerUse iem item =>
    cases item with
    | none => exact isTrue trivial
    | some p =>
      unfold CharacterOp.Plain
      simp only
      split
      · exact isTrue trivial
      · split <;> infer_instance
  | setAttack a => exact isFalse (fun hf => hf)
  | setDefense d => exact isFalse (fun hf => hf)
  | equipItem i => exact isTrue trivial
  | unequipItem s => exact isTrue trivial
  | takeDamage d r => exact isTrue trivial
  | heal a => exact isTrue trivial
  | useItem i => exact isTrue trivial

/-- Every call of the sequence is plain in the state in which it runs. -/
def PlainRun (s : Heap × Character) : List CharacterOp → Prop
  | [] => True
  | op :: rest =>
    op.Plain s.1 ∧
      match applyCharacterOp s op with
      | some s1 => PlainRun s1 rest
      | none => True

/-- The derived attributes of a character. -/
def Character.derived (c : Character) : Int × Int × Int × Int × ℚ × ℚ × ℚ × ℚ :=
  (c.MaxHP, c.Strength, c.Agility, c.Intelligence, c.AttackValue, c.DefenseValue,
    c.CritChance, c.CritDamage)

/-- The base attributes of a character. -/
def Character.base (c : Character) : Int × Int × Int × Int :=
  (c.BaseHP, c.BaseStrength, c.BaseAgility, c.BaseIntelligence)

/-- Heap with a strength potion (template 23) at address 9. -/
def shelfHeap : Heap := fun p =>
  if p = 9 then (CreateItem 23 Common 1).toOption.getD {} else {}

instance decidablePlainRun :
    (s : Heap × Character) → (ops : List CharacterOp) → Decidable (PlainRun s ops)
  | _, [] => isTrue trivial
  | s, op :: rest => by
    unfold PlainRun
    cases h : applyCharacterOp s op with
    | none => simp only; infer_instance
    | some s1 =>
      simp only
      have := decidablePlainRun s1 rest
      infer_instance

/-- The heap `h1` holds the same items as `h`, apart from their durability: same
template, same equipped flag, same rolled stats at every address. -/
def Heap.SameGear (h h1 : Heap) : Prop :=
  ∀ p, { h1 p with Durability := (h p).Durability } = h p

/-- The derived attributes are current: they are the ones `CalculateStats` computes
from the base attributes and the equipped items, for some order in which its range
over the slot map visits the equipped items. -/
def Character.UpToDate (h : Heap) (c : Character) : Prop :=
  ∃ order : SlotMap,
    (order.filterMap Prod.snd).Perm (c.Equipment.Slots.filterMap Prod.snd)
      ∧ c.derived = (c.CalculateStatsIn h order).derived

/-- State of a character whose equipment is sound and whose derived attributes are
current. -/
def Character.Current (h : Heap) (c : Character) : Prop :=
  c.Equipment.Sound h ∧ c.UpToDate h

/-- The knight wearing the sword and the ring of `jewelHeap`, right after
`CalculateStats`, with an inventory of capacity 1. -/
def knightState : Heap × Character :=
  (jewelHeap, { (knightChar.CalculateStats jewelHeap) with Inventory := NewInventory 1 })

/-- A sequence of plain calls on the knight: a hit of 30, the ring taken off, an
attempt to put it on again, a heal, the sword taken off while the inventory is full,
and an unequip of the empty head slot. -/
def knightOps : List CharacterOp :=
  [.takeDamage 30 1, .unequipItem SlotAccessory, .equipItem 4, .heal 10,
   .unequipItem SlotWeapon, .unequipItem SlotHead]

/-! ## Equip and unequip round trip -/

/-- The calls `Equipment.Equip(item)`, `CalculateStats()`, `Equipment.Unequip(slot)`,
`CalculateStats()` on a character, in this order.  The last `CalculateStats` ranges
over the slot map in the order `order`. -/
def equipRoundTripIn (h : Heap) (c : Character) (p : Ptr) (slot : EquipmentSlot)
    (order : SlotMap) : Heap × Character :=
  match c.Equipment.Equip h (some p) with
  | (_, h1, e1) =>
    let c1 : Character := ({ c with Equipment := e1 } : Character).CalculateStats h1
    match c1.Equipment.Unequip h1 slot with
    | (_, h2, e2) => (h2, ({ c1 with Equipment := e2 } : Character).CalculateStatsIn h2 order)

/-- The round trip when the last `CalculateStats` ranges over the slot map in the
order of the list `Slots`. -/
def equipRoundTrip (h : Heap) (c : Character) (p : Ptr) (slot : EquipmentSlot) :
    Heap × Character :=
  match c.Equipment.Equip h (some p) with
  | (_, h1, e1) =>
    let c1 : Character := ({ c with Equipment := e1 } : Character).CalculateStats h1
    match c1.Equipment.Unequip h1 slot with
    | (_, h2, e2) => (h2, ({ c1 with Equipment := e2 } : Character).CalculateStats h2)

/-- The heap `relicHeap` with the starter sword, not equipped, at address 0. -/
def reliquaryHeap : Heap := fun p => if p = 0 then CreateSword.getD {} else relicHeap p

/-- The paladin wearing the three pieces, with current derived attributes. -/
def crusaderChar : Character := paladinChar.CalculateStats reliquaryHeap

/-! ## Key handling of the PvP client (`PvPFightModel.Update`) -/

def MsgState : GoString := "STATE".toList
def MsgAction : GoString := "ACTION".toList
def MsgChat : GoString := "CHAT".toList
def MsgEnd : GoString := "END".toList

/-- Function `strings.TrimSpace`. -/
def TrimSpace (s : GoString) : GoString :=
  (((s.dropWhile isSpace).reverse).dropWhile isSpace).reverse

/-- A key event: the value of `keyMsg.String()` and the field `Runes`. -/
structure KeyMsg where
  String : GoString := []
  Runes : GoString := []
  deriving DecidableEq

/-- The client model with the fields that only the key handling uses. -/
structure PvPFightScreen extends PvPFightModel where
  selected : Int := 0
  itemSelected : Int := 0
  chatLines : List GoString := []
  chatInput : GoString := []
  chatFocused : Bool := false
  connectionErr : GoString := []
  deriving DecidableEq

/-- Text stored in `connectionErr` when the connection is lost. -/
def connectionLost : GoString :=
  "⚠️ Соединение разорвано. Нажмите Enter для выхода в меню.".toList

/-- Head of `PvPFightModel.Update`: a lost connection is noted in `connectionErr`. -/
def PvPFightScreen.noteLostConnection (m : PvPFightScreen) : PvPFightScreen :=
  if m.session = none ∧ m.gameOver = false ∧ m.connectionErr = []
      ∧ m.waitingForMatch = false then
    { m with connectionErr := connectionLost }
  else m

/-- The part of `PvPFightModel.Update` that handles a key event (`tea.KeyMsg`), after
the head; the returned command is not modelled.  `fixRunes` is the function
`fixRunesForWindows`, whose result depends on the UTF-8 and Windows-1251 decoders of
the libraries, and `menus` stands for the four menu handlers (`updatePvPActionMenu`,
`updatePvPItemMenu`, `updatePvPSurrender`, `updatePvPExitConfirm`) selected by the
view state. -/
def PvPFightScreen.handleKey (fixRunes : GoString → GoString)
    (menus : FightViewState → PvPFightScreen → KeyMsg → PvPFightScreen)
    (m : PvPFightScreen) (keyMsg : KeyMsg) : PvPFightScreen :=
  if m.gameOver = true ∧ m.state = FightViewEnd then m
  else if m.chatFocused then
    if keyMsg.String = "enter".toList then
      let text := TrimSpace m.chatInput
      let m : PvPFightScreen := { m with chatInput := [], chatFocused := false }
      if text ≠ [] then
        let text := fixRunes text
        let m : PvPFightScreen :=
          { m with chatLines := m.chatLines ++ ["Вы: ".toList ++ text] }
        { m with toPvPFightModel := m.toPvPFightModel.pvpSend ("CHAT ".toList ++ text) }
      else m
    else if keyMsg.String = "esc".toList then { m with chatFocused := false }
    else if keyMsg.String = "backspace".toList then
      if m.chatInput.length > 0 then { m with chatInput := m.chatInput.dropLast } else m
    else { m with chatInput := m.chatInput ++ fixRunes keyMsg.Runes }
  else if keyMsg.String = "t".toList ∨ keyMsg.String = "T".toList then
    { m with chatFocused := true }
  else if keyMsg.String = "ctrl+c".toList ∨ keyMsg.String = "esc".toList then
    match m.session with
    | some _ => { m with wire := m.sent, session := none }
    | none => m
  else if m.connectionErr ≠ [] then m
  else if m.waitingForMatch then m
  else if m.waitingForState then m
  else if !m.myTurn then m
  else if m.state = FightViewActionMenu ∨ m.state = FightViewItemMenu
      ∨ m.state = FightViewSurrenderConfirm ∨ m.state = FightViewExitConfirm then
    menus m.state m keyMsg
  else m

/-- Method `PvPFightModel.Update` for a key event: the head, then the key handling. -/
def PvPFightScreen.Update (fixRunes : GoString → GoString)
    (menus : FightViewState → PvPFightScreen → KeyMsg → PvPFightScreen)
    (m : PvPFightScreen) (keyMsg : KeyMsg) : PvPFightScreen :=
  m.noteLostConnection.handleKey fixRunes menus keyMsg

/-- The lines that a peer reads from what was written: every `WriteLine` writes its
argument and a line feed, and `ReadLine` cuts at each line feed. -/
def wireLines (sent : List GoString) : List GoString :=
  sent.flatMap (Split '\n')

/-- The receiving client takes the line for an ACTION, STATE or END message: `Update`
trims the line and tests the prefix. -/
def carriesGameMessage (line : GoString) : Bool :=
  HasPrefix (TrimSpace line) MsgAction || HasPrefix (TrimSpace line) MsgState
    || HasPrefix (TrimSpace line) MsgEnd

/-- Client of side 2 waiting for the opponent's STATE, with the chat line focused and
a pasted text of two lines in the chat input. -/
def pastingClient : PvPFightScreen :=
  { sideTwoClient with
    waitingForState := true, chatFocused := true,
    chatInput := "hi\nEND winner=2".toList }

/-- Client of side 2 waiting for the opponent's STATE, typing `hi` into the chat. -/
def chattingClient : PvPFightScreen :=
  { sideTwoClient with waitingForState := true, chatFocused := true, chatInput := "hi".toList }

/-- Menu handlers that send a surrender, for the samples. -/
def surrenderMenus (_state : FightViewState) (m : PvPFightScreen) (_key : KeyMsg) :
    PvPFightScreen :=
  { m with toPvPFightModel := m.toPvPFightModel.pvpSend "ACTION surrender".toList }
/-! # Theorems -/

/-! ## Auxiliary facts: heap and containers -/

theorem Heap.setEquipped_template (h : Heap) (p q : Ptr) (b : Bool) :
    (h.setEquipped p b q).Template = (h q).Template := by
  unfold Heap.setEquipped
  by_cases hq : q = p
  · subst hq; simp
  · simp [Function.update_noteq hq]

theorem Heap.setEquipped_flag_self (h : Heap) (p : Ptr) (b : Bool) :
    (h.setEquipped p b p).IsEquipped = b := by
  simp [Heap.setEquipped]

theorem Heap.setEquipped_other (h : Heap) (p q : Ptr) (b : Bool) (hq : q ≠ p) :
    h.setEquipped p b q = h q := by
  simp [Heap.setEquipped, Function.update_noteq hq]

/-- The entry that `FindItemByID` returns is the first one `RemoveItem` can stop at:
when that item is flagged as equipped, `RemoveItem` does not succeed. -/
theorem removeItemLoop_of_find_equipped (h h1 : Heap) (itemID : Int) (p : Ptr)
    (htpl : ∀ q, (h1 q).Template = (h q).Template) (hflag : (h1 p).IsEquipped = true) :
    ∀ (items before : List (Option Ptr)), findItemByIDLoop h itemID items = some p →
      ∀ v, removeItemLoop h1 itemID before items ≠ .ok v := by
  intro items
  induction items with
  | nil => intro before hf; simp [findItemByIDLoop] at hf
  | cons x rest ih =>
    intro before hf v
    cases x with
    | none =>
      simp only [findItemByIDLoop] at hf
      simp only [removeItemLoop]
      exact ih _ hf v
    | some q =>
      simp only [findItemByIDLoop] at hf
      simp only [removeItemLoop, htpl q]
      cases hq : (h q).Template with
      | none => simp
      | some t =>
        simp only [hq] at hf
        by_cases hid : t.ID = itemID
        · simp only [hid, if_true] at hf
          have : q = p := by simpa using hf
          subst this
          simp [hid, hflag]
        · simp only [hid, if_false] at hf
          simp only [hid, if_false]
          exact ih _ hf v

theorem Equipment.Equip_ok_heap (h : Heap) (e : Equipment) (p : Ptr) (h1 : Heap)
    (e1 : Equipment) (u : Unit) (hok : e.Equip h (some p) = (.ok u, h1, e1)) :
    h1 = h.setEquipped p true := by
  unfold Equipment.Equip at hok
  simp only at hok
  split at hok
  · simp at hok
  · split at hok
    · simp at hok
    · split at hok
      · simp at hok
      · split at hok
        · split at hok <;> simp at hok
        · split at hok
          · simp at hok
          · simp only [Prod.mk.injEq] at hok
            exact hok.2.1.symm

/-- Method `Character.EquipItem` never returns without an error. -/
theorem Character.EquipItem_not_ok (h : Heap) (c : Character) (itemID : Int) :
    (c.EquipItem h itemID).1 ≠ .ok () := by
  unfold Character.EquipItem
  cases hfind : c.Inventory.FindItemByID h itemID with
  | none => simp
  | some p =>
    simp only
    split
    · simp
    · rcases heq : c.Equipment.Equip h (some p) with ⟨r, h1, eq1⟩
      cases r with
      | error e => simp
      | panic => simp
      | ok u =>
        simp only
        have hh := Equipment.Equip_ok_heap h c.Equipment p h1 eq1 u heq
        have hrem := removeItemLoop_of_find_equipped h h1 itemID p
          (fun q => by rw [hh]; exact Heap.setEquipped_template h p q true)
          (by rw [hh]; exact Heap.setEquipped_flag_self h p true)
          c.Inventory.Items [] hfind
        unfold Inventory.RemoveItem
        cases hr : removeItemLoop h1 itemID [] c.Inventory.Items with
        | ok v => exact absurd hr (hrem v)
        | error e =>
          simp only
          split <;> simp
        | panic => simp

/-- C1 (defect of the code): `Character.EquipItem` cannot succeed.  `Equip` flags the
item as equipped before `Inventory.RemoveItem` runs, and `RemoveItem` refuses an
equipped item, so the call is rolled back.  For the fresh warrior, whose inventory
holds the unequipped starter sword (template 1, a weapon for the empty weapon
slot), `EquipItem(1)` returns an error, the sword stays in the inventory, the slot
stays empty and strength and attack stay at their base values; and for every heap,
character and id the call does not return without an error. -/
theorem C1_EquipItem_fails_after_equip :
    (heroState.2.Inventory.Items = [some 0, some 1]
      ∧ ((heroState.1 0).Template.map (fun t => (t.ID, t.Typ, t.Slot))
          = some (1, Weapon, SlotWeapon))
      ∧ (heroState.1 0).IsEquipped = false
      ∧ (heroState.1 0).Strength = 2 ∧ (heroState.1 0).Attack = 5
      ∧ heroState.2.Equipment.GetItem SlotWeapon = none
      ∧ Equipment.isValidItemForSlot heroState.1 (some 0) SlotWeapon = true)
    ∧ ((heroState.2.EquipItem heroState.1 1).1 = .error (.removeFailed .removeEquipped)
      ∧ (heroState.2.EquipItem heroState.1 1).2.2.Equipment.GetItem SlotWeapon = none
      ∧ (heroState.2.EquipItem heroState.1 1).2.2.Inventory.Items = [some 0, some 1]
      ∧ ((heroState.2.EquipItem heroState.1 1).2.1 0).IsEquipped = false
      ∧ (heroState.2.EquipItem heroState.1 1).2.2.Strength = 15
      ∧ (heroState.2.EquipItem heroState.1 1).2.2.AttackValue = 0)
    ∧ ∀ (h : Heap) (c : Character) (itemID : Int), (c.EquipItem h itemID).1 ≠ .ok () := by
  refine ⟨by decide!, by decide!, ?_⟩
  intro h c itemID
  exact Character.EquipItem_not_ok h c itemID

/-! ## Slot map -/

theorem SlotMap.get_set (m : SlotMap) (k : EquipmentSlot) (v : Option Ptr) (s : EquipmentSlot) :
    (m.set k v).get s = if s = k then some v else m.get s := by
  induction m with
  | nil =>
    by_cases hs : s = k
    · simp [SlotMap.set, SlotMap.get, hs]
    · have : ¬ k = s := fun hk => hs hk.symm
      simp [SlotMap.set, SlotMap.get, hs, this]
  | cons entry rest ih =>
    obtain ⟨k1, v1⟩ := entry
    by_cases hk : k1 = k
    · subst hk
      by_cases hs : s = k1
      · simp [SlotMap.set, SlotMap.get, hs]
      · have : ¬ k1 = s := fun hk => hs hk.symm
        simp [SlotMap.set, SlotMap.get, hs, this]
    · by_cases hs : k1 = s
      · subst hs
        simp [SlotMap.set, SlotMap.get, hk]
      · simp [SlotMap.set, SlotMap.get, hk, hs, ih]

theorem SlotMap.get_delete (m : SlotMap) (k s : EquipmentSlot) :
    (m.delete k).get s = if s = k then none else m.get s := by
  induction m with
  | nil => simp [SlotMap.delete, SlotMap.get]
  | cons entry rest ih =>
    obtain ⟨k1, v1⟩ := entry
    by_cases hk : k1 = k
    · subst hk
      by_cases hs : s = k1
      · subst hs
        simpa [SlotMap.delete, SlotMap.get] using ih
      · have : ¬ k1 = s := fun hk => hs hk.symm
        simp [SlotMap.delete, SlotMap.get, hs, this, ih]
    · by_cases hs : k1 = s
      · subst hs
        simp [SlotMap.delete, SlotMap.get, hk]
      · simp [SlotMap.delete, SlotMap.get, hk, hs, ih]

theorem SlotMap.get_mem (m : SlotMap) (k : EquipmentSlot) (v : Option Ptr)
    (hg : m.get k = some v) : (k, v) ∈ m := by
  induction m with
  | nil => simp [SlotMap.get] at hg
  | cons entry rest ih =>
    obtain ⟨k1, v1⟩ := entry
    by_cases hk : k1 = k
    · subst hk
      simp [SlotMap.get] at hg
      simp [hg]
    · simp [SlotMap.get, hk] at hg
      exact List.mem_cons_of_mem _ (ih hg)

theorem findItemByIDLoop_mem (h : Heap) (itemID : Int) (p : Ptr) :
    ∀ items, findItemByIDLoop h itemID items = some p → some p ∈ items := by
  intro items
  induction items with
  | nil => intro hf; simp [findItemByIDLoop] at hf
  | cons x rest ih =>
    intro hf
    cases x with
    | none =>
      simp only [findItemByIDLoop] at hf
      exact List.mem_cons_of_mem _ (ih hf)
    | some q =>
      simp only [findItemByIDLoop] at hf
      cases hq : (h q).Template with
      | none =>
        simp only [hq] at hf
        exact List.mem_cons_of_mem _ (ih hf)
      | some t =>
        simp only [hq] at hf
        by_cases hid : t.ID = itemID
        · simp only [hid, if_true] at hf
          have : q = p := by simpa using hf
          simp [this]
        · simp only [hid, if_false] at hf
          exact List.mem_cons_of_mem _ (ih hf)

theorem Heap.setEquipped_undo (h : Heap) (p : Ptr) (b : Bool) (hb : (h p).IsEquipped = b) :
    (h.setEquipped p (!b)).setEquipped p b = h := by
  funext q
  by_cases hq : q = p
  · subst hq
    simp [Heap.setEquipped, ← hb]
  · simp [Heap.setEquipped, Function.update_noteq hq]

theorem Equipment.isValidItemForSlot_congr (h h1 : Heap) (item : Option Ptr)
    (slot : EquipmentSlot) (htpl : ∀ q, (h1 q).Template = (h q).Template) :
    Equipment.isValidItemForSlot h1 item slot = Equipment.isValidItemForSlot h item slot := by
  cases item with
  | none => rfl
  | some p => simp only [Equipment.isValidItemForSlot, htpl p]

/-! ## Failure paths of `EquipItem` and `UnequipItem` -/

theorem SameItemState.refl (h : Heap) (c : Character) : SameItemState h c h c :=
  ⟨rfl, rfl, fun _ => rfl, rfl⟩

/-- When `CanEquipItem` accepts an item, `Equip` stores it under its template slot. -/
theorem Equipment.Equip_of_CanEquipItem (h : Heap) (e : Equipment) (p : Ptr)
    (hcan : e.CanEquipItem h (some p) = true) (hmade : e.NilMap = false) :
    ∃ t, (h p).Template = some t ∧ e.GetItem t.Slot = none
      ∧ e.Equip h (some p)
          = (.ok (), h.setEquipped p true, { e with Slots := e.Slots.set t.Slot (some p) }) := by
  unfold Equipment.CanEquipItem at hcan
  simp only at hcan
  cases ht : (h p).Template with
  | none => simp [ht] at hcan
  | some t =>
    simp only [ht] at hcan
    by_cases hnone : t.Slot = SlotNone
    · simp [hnone] at hcan
    · simp only [hnone, if_false] at hcan
      cases hget : e.GetItem t.Slot with
      | some q => simp [hget] at hcan
      | none =>
        simp only [hget] at hcan
        refine ⟨t, rfl, hget, ?_⟩
        simp [Equipment.Equip, ht, hnone, hcan, hget, hmade]

/-- When `CanEquipItem` accepts an item but the slot map is nil, `Equip` flags the
item and panics in the map write. -/
theorem Equipment.Equip_of_CanEquipItem_nil (h : Heap) (e : Equipment) (p : Ptr)
    (hcan : e.CanEquipItem h (some p) = true) (hnil : e.NilMap = true) :
    e.Equip h (some p) = (.panic, h.setEquipped p true, e) := by
  unfold Equipment.CanEquipItem at hcan
  simp only at hcan
  cases ht : (h p).Template with
  | none => simp [ht] at hcan
  | some t =>
    simp only [ht] at hcan
    by_cases hnone : t.Slot = SlotNone
    · simp [hnone] at hcan
    · simp only [hnone, if_false] at hcan
      cases hget : e.GetItem t.Slot with
      | some q => simp [hget] at hcan
      | none =>
        simp only [hget] at hcan
        simp [Equipment.Equip, ht, hnone, hcan, hget, hnil]

theorem SlotMap.get_eq_none_of_join (h : Heap) (c : Character) (hnn : NoNilEntries h c)
    (k : EquipmentSlot) (hget : c.Equipment.GetItem k = none) : c.Equipment.Slots.get k = none := by
  unfold Equipment.GetItem at hget
  cases hg : c.Equipment.Slots.get k with
  | none => rfl
  | some v =>
    cases v with
    | some q => simp [hg] at hget
    | none =>
      obtain ⟨q, hq, _⟩ := hnn.2 _ (SlotMap.get_mem _ _ _ hg)
      simp at hq

theorem Character.EquipItem_error_same (h : Heap) (c : Character) (hnn : NoNilEntries h c)
    (hinv : InventoryUnequipped h c) (itemID : Int) (e : Err)
    (herr : (c.EquipItem h itemID).1 = .error e) :
    SameItemState h c (c.EquipItem h itemID).2.1 (c.EquipItem h itemID).2.2 := by
  cases hfind : c.Inventory.FindItemByID h itemID with
  | none => simp only [Character.EquipItem, hfind]; exact SameItemState.refl h c
  | some p =>
    cases hcan : c.Equipment.CanEquipItem h (some p) with
    | false =>
      simp only [Character.EquipItem, hfind, hcan]
      exact SameItemState.refl h c
    | true =>
      cases hmade : c.Equipment.NilMap with
      | true =>
        have hequip := Equipment.Equip_of_CanEquipItem_nil h c.Equipment p hcan hmade
        simp [Character.EquipItem, hfind, hcan, hequip] at herr
      | false =>
      obtain ⟨t, ht, hget, hequip⟩ :=
        Equipment.Equip_of_CanEquipItem h c.Equipment p hcan hmade
      have hrem := removeItemLoop_of_find_equipped h (h.setEquipped p true) itemID p
        (fun q => Heap.setEquipped_template h p q true)
        (Heap.setEquipped_flag_self h p true) c.Inventory.Items [] hfind
      have hflag : (h p).IsEquipped = false :=
        hinv p (findItemByIDLoop_mem h itemID p _ hfind)
      have ht1 : (h.setEquipped p true p).Template = some t := by
        rw [Heap.setEquipped_template]; exact ht
      cases hr : removeItemLoop (h.setEquipped p true) itemID [] c.Inventory.Items with
      | ok v => exact absurd hr (hrem v)
      | panic =>
        simp [Character.EquipItem, hfind, hcan, hequip, Inventory.RemoveItem, hr] at herr
      | error e1 =>
        have hgi : Equipment.GetItem
            { c.Equipment with Slots := c.Equipment.Slots.set t.Slot (some p) } t.Slot
            = some p := by
          simp [Equipment.GetItem, SlotMap.get_set]
        simp only [Character.EquipItem, hfind, hcan, hequip, Inventory.RemoveItem, hr, ht1,
          Equipment.Unequip, hgi, Bool.not_true, Bool.false_eq_true, if_false]
        refine ⟨?_, rfl, ?_, rfl⟩
        · have := Heap.setEquipped_undo h p false hflag
          simpa using this
        · intro s
          simp only [SlotMap.get_delete, SlotMap.get_set]
          by_cases hs : s = t.Slot
          · subst hs
            simp [SlotMap.get_eq_none_of_join h c hnn _ hget]
          · simp [hs]

theorem Character.UnequipItem_error_same (h : Heap) (c : Character)
    (hwf : EquipmentWellFormed h c) (slot : EquipmentSlot) (e : Err)
    (herr : (c.UnequipItem h slot).1 = .error e) :
    SameItemState h c (c.UnequipItem h slot).2.1 (c.UnequipItem h slot).2.2 := by
  cases hget : c.Equipment.GetItem slot with
  | none =>
    simp only [Character.UnequipItem, Equipment.Unequip, hget]
    exact SameItemState.refl h c
  | some p =>
    obtain ⟨hflag, ⟨t, ht, hslot⟩, hvalid⟩ := hwf slot p hget
    have hf1 : (h.setEquipped p false p).IsEquipped = false := Heap.setEquipped_flag_self h p false
    by_cases hfull : (c.Inventory.Items.length : Int) ≥ c.Inventory.Capacity
    · have ht1 : (h.setEquipped p false p).Template = some t := by
        rw [Heap.setEquipped_template]; exact ht
      have hnone : t.Slot ≠ SlotNone := by
        intro hn
        simp [Equipment.isValidItemForSlot, ht, hn] at hvalid
      have hvalid1 : Equipment.isValidItemForSlot (h.setEquipped p false) (some p) t.Slot = true := by
        rw [Equipment.isValidItemForSlot_congr h _ _ _
          (fun q => Heap.setEquipped_template h p q false), hslot]
        exact hvalid
      have hgi : ∀ b : Bool, Equipment.GetItem
          { Slots := c.Equipment.Slots.delete slot, NilMap := b } t.Slot = none := by
        intro b
        simp [Equipment.GetItem, SlotMap.get_delete, hslot]
      cases hmade : c.Equipment.NilMap with
      | true =>
        simp [Character.UnequipItem, Equipment.Unequip, hget, Inventory.AddItem, hfull,
          Equipment.Equip, ht1, hnone, hvalid1, hgi, hmade] at herr
      | false =>
      simp only [Character.UnequipItem, Equipment.Unequip, hget, Inventory.AddItem, hfull,
        if_true, Equipment.Equip, ht1, hnone, if_false, hvalid1, hgi, Bool.not_true,
        Bool.false_eq_true, hmade]
      refine ⟨?_, rfl, ?_, rfl⟩
      · have := Heap.setEquipped_undo h p true hflag
        simpa using this
      · intro s
        simp only [SlotMap.get_set, SlotMap.get_delete, hslot]
        by_cases hs : s = slot
        · subst hs
          unfold Equipment.GetItem at hget
          cases hg : c.Equipment.Slots.get s with
          | none => simp [hg] at hget
          | some v =>
            cases v with
            | none => simp [hg] at hget
            | some q =>
              simp [hg] at hget
              simp [hget]
        · simp [hs]
    · simp [Character.UnequipItem, Equipment.Unequip, hget, Inventory.AddItem, hfull, hf1]
        at herr

theorem heroState_wellFormed :
    NoNilEntries heroState.1 heroState.2 ∧ InventoryUnequipped heroState.1 heroState.2
      ∧ EquipmentWellFormed heroState.1 heroState.2 := by
  have hitems : heroState.2.Inventory.Items = [some 0, some 1] := by decide!
  have hslots : heroState.2.Equipment.Slots = [] := by decide!
  have h0 : (heroState.1 0).Template ≠ none ∧ (heroState.1 0).IsEquipped = false := by decide!
  have h1 : (heroState.1 1).Template ≠ none ∧ (heroState.1 1).IsEquipped = false := by decide!
  refine ⟨⟨?_, ?_⟩, ?_, ?_⟩
  · intro x hx
    rw [hitems] at hx
    simp only [List.mem_cons, List.mem_singleton, List.not_mem_nil, or_false] at hx
    rcases hx with rfl | rfl
    · exact ⟨0, rfl, h0.1⟩
    · exact ⟨1, rfl, h1.1⟩
  · intro entry hentry
    rw [hslots] at hentry
    simp at hentry
  · intro p hp
    rw [hitems] at hp
    simp only [List.mem_cons, List.mem_singleton, List.not_mem_nil, or_false,
      Option.some.injEq] at hp
    rcases hp with rfl | rfl
    · exact h0.2
    · exact h1.2
  · intro slot p hget
    simp [Equipment.GetItem, hslots, SlotMap.get] at hget

theorem armedChar_wellFormed :
    NoNilEntries flaggedHeap armedChar ∧ InventoryUnequipped flaggedHeap armedChar
      ∧ EquipmentWellFormed flaggedHeap armedChar := by
  have h0 : (flaggedHeap 0).Template ≠ none ∧ (flaggedHeap 0).IsEquipped = true
      ∧ (∃ t, (flaggedHeap 0).Template = some t ∧ t.Slot = SlotWeapon)
      ∧ Equipment.isValidItemForSlot flaggedHeap (some 0) SlotWeapon = true := by
    refine ⟨by decide!, by decide!, ⟨_, rfl, by decide!⟩, by decide!⟩
  refine ⟨⟨?_, ?_⟩, ?_, ?_⟩
  · intro x hx
    simp [armedChar, NewInventory] at hx
  · intro entry hentry
    simp only [armedChar, List.mem_singleton] at hentry
    subst hentry
    exact ⟨0, rfl, h0.1⟩
  · intro p hp
    simp [armedChar, NewInventory] at hp
  · intro slot p hget
    by_cases hs : SlotWeapon = slot
    · subst hs
      have : p = 0 := by
        simp [Equipment.GetItem, armedChar, SlotMap.get] at hget
        exact hget.symm
      subst this
      exact ⟨h0.2.1, h0.2.2.1, h0.2.2.2⟩
    · simp [Equipment.GetItem, armedChar, SlotMap.get, hs] at hget

/-- C2 (as stated, refuted): with no nil item or template anywhere, a failing call
can still change the item state.  (a) An inventory item that is already flagged as
equipped loses the flag when `EquipItem` fails.  (b) With a full inventory and a
weapon stored under the head slot, the failing `UnequipItem(SlotHead)` moves the
weapon to the weapon slot. -/
theorem C2_counterexample_failed_call_changes_state :
    (NoNilEntries flaggedHeap flaggedChar
      ∧ (flaggedChar.EquipItem flaggedHeap 1).1 = .error (.removeFailed .removeEquipped)
      ∧ (flaggedHeap 0).IsEquipped = true
      ∧ ((flaggedChar.EquipItem flaggedHeap 1).2.1 0).IsEquipped = false)
    ∧ (NoNilEntries flaggedHeap misplacedChar
      ∧ (misplacedChar.UnequipItem flaggedHeap SlotHead).1 = .error (.addFailed .inventoryFull)
      ∧ misplacedChar.Equipment.GetItem SlotHead = some 0
      ∧ misplacedChar.Equipment.GetItem SlotWeapon = none
      ∧ (misplacedChar.UnequipItem flaggedHeap SlotHead).2.2.Equipment.GetItem SlotHead = none
      ∧ (misplacedChar.UnequipItem flaggedHeap SlotHead).2.2.Equipment.GetItem SlotWeapon
          = some 0) := by
  have h0 : (flaggedHeap 0).Template ≠ none := by decide!
  refine ⟨⟨⟨?_, ?_⟩, by decide!, by decide!, by decide!⟩,
    ⟨⟨?_, ?_⟩, by decide!, by decide!, by decide!, by decide!, by decide!⟩⟩
  · intro x hx
    simp only [flaggedChar, List.mem_singleton] at hx
    subst hx
    exact ⟨0, rfl, h0⟩
  · intro entry hentry
    simp [flaggedChar, NewEquipment] at hentry
  · intro x hx
    simp [misplacedChar, NewInventory] at hx
  · intro entry hentry
    simp only [misplacedChar, List.mem_singleton] at hentry
    subst hentry
    exact ⟨0, rfl, h0⟩

/-- C2 (amended): for every character with no nil items or templates in its
containers whose inventory items are all unflagged and whose occupied slots each
hold a flagged item that names and fits that slot, whenever `EquipItem` or
`UnequipItem` returns an error, the item objects (hence every equipped flag), the
inventory, the slot mapping and all other fields are what they were before. -/
theorem C2_failed_equip_unequip_keep_state (h : Heap) (c : Character)
    (hnn : NoNilEntries h c) (hinv : InventoryUnequipped h c)
    (hwf : EquipmentWellFormed h c) :
    (∀ (itemID : Int) (e : Err), (c.EquipItem h itemID).1 = .error e →
        SameItemState h c (c.EquipItem h itemID).2.1 (c.EquipItem h itemID).2.2)
    ∧ (∀ (slot : EquipmentSlot) (e : Err), (c.UnequipItem h slot).1 = .error e →
        SameItemState h c (c.UnequipItem h slot).2.1 (c.UnequipItem h slot).2.2) :=
  ⟨fun itemID e herr => Character.EquipItem_error_same h c hnn hinv itemID e herr,
   fun slot e herr => Character.UnequipItem_error_same h c hwf slot e herr⟩

/-- C2 witness: the fresh warrior (failing `EquipItem(1)`) and a character with a
full inventory and an equipped weapon (failing `UnequipItem(SlotWeapon)`) satisfy
the hypotheses, both calls return an error, and the state is kept. -/
theorem C2_failed_equip_unequip_keep_state_witness :
    ((NoNilEntries heroState.1 heroState.2 ∧ InventoryUnequipped heroState.1 heroState.2
        ∧ EquipmentWellFormed heroState.1 heroState.2)
      ∧ (heroState.2.EquipItem heroState.1 1).1 = .error (.removeFailed .removeEquipped)
      ∧ SameItemState heroState.1 heroState.2 (heroState.2.EquipItem heroState.1 1).2.1
          (heroState.2.EquipItem heroState.1 1).2.2)
    ∧ ((NoNilEntries flaggedHeap armedChar ∧ InventoryUnequipped flaggedHeap armedChar
        ∧ EquipmentWellFormed flaggedHeap armedChar)
      ∧ (armedChar.UnequipItem flaggedHeap SlotWeapon).1 = .error (.addFailed .inventoryFull)
      ∧ SameItemState flaggedHeap armedChar (armedChar.UnequipItem flaggedHeap SlotWeapon).2.1
          (armedChar.UnequipItem flaggedHeap SlotWeapon).2.2) := by
  have e1 : (heroState.2.EquipItem heroState.1 1).1 = .error (.removeFailed .removeEquipped) := by
    decide!
  have e2 : (armedChar.UnequipItem flaggedHeap SlotWeapon).1
      = .error (.addFailed .inventoryFull) := by decide!
  exact ⟨⟨heroState_wellFormed, e1,
      (C2_failed_equip_unequip_keep_state heroState.1 heroState.2 heroState_wellFormed.1
        heroState_wellFormed.2.1 heroState_wellFormed.2.2).1 1 _ e1⟩,
    ⟨armedChar_wellFormed, e2,
      (C2_failed_equip_unequip_keep_state flaggedHeap armedChar armedChar_wellFormed.1
        armedChar_wellFormed.2.1 armedChar_wellFormed.2.2).2 SlotWeapon _ e2⟩⟩

/-! ## Decimal formatting and parsing -/

theorem digitVal_digitChar (d : Nat) (hd : d < 10) : digitVal (digitChar d) = some d := by
  interval_cases d <;> decide

theorem digitChar_props (d : Nat) (hd : d < 10) :
    isSpace (digitChar d) = false ∧ digitChar d ≠ '|' ∧ digitChar d ≠ '-'
      ∧ digitChar d ≠ '+' := by
  interval_cases d <;> decide

theorem parseDigits_natDigitsAux :
    ∀ (fuel n : Nat) (acc : GoString), n < fuel →
      parseDigits (natDigitsAux fuel n acc) 0 = parseDigits acc n := by
  intro fuel
  induction fuel with
  | zero => intro n acc hn; omega
  | succ fuel ih =>
    intro n acc hn
    by_cases h10 : n < 10
    · simp [natDigitsAux, h10, parseDigits, digitVal_digitChar n h10]
    · simp only [natDigitsAux, h10, if_false]
      rw [ih (n / 10) _ (by omega)]
      simp only [parseDigits, digitVal_digitChar (n % 10) (Nat.mod_lt _ (by omega))]
      congr 1
      omega

theorem natDigitsAux_mem :
    ∀ (fuel n : Nat) (acc : GoString) (c : Char), c ∈ natDigitsAux fuel n acc →
      c ∈ acc ∨ ∃ d, d < 10 ∧ c = digitChar d := by
  intro fuel
  induction fuel with
  | zero => intro n acc c hc; exact Or.inl hc
  | succ fuel ih =>
    intro n acc c hc
    by_cases h10 : n < 10
    · simp only [natDigitsAux, h10, if_true, List.mem_cons] at hc
      rcases hc with rfl | hc
      · exact Or.inr ⟨n, h10, rfl⟩
      · exact Or.inl hc
    · simp only [natDigitsAux, h10, if_false] at hc
      rcases ih _ _ _ hc with hc | hc
      · simp only [List.mem_cons] at hc
        rcases hc with rfl | hc
        · exact Or.inr ⟨n % 10, Nat.mod_lt _ (by omega), rfl⟩
        · exact Or.inl hc
      · exact Or.inr hc

theorem natDigitsAux_head :
    ∀ (fuel n : Nat) (acc : GoString), n < fuel →
      ∃ d rest, d < 10 ∧ natDigitsAux fuel n acc = digitChar d :: rest := by
  intro fuel
  induction fuel with
  | zero => intro n acc hn; omega
  | succ fuel ih =>
    intro n acc hn
    by_cases h10 : n < 10
    · exact ⟨n, acc, h10, by simp [natDigitsAux, h10]⟩
    · simp only [natDigitsAux, h10, if_false]
      exact ih _ _ (by omega)

theorem formatNat_mem (n : Nat) (c : Char) (hc : c ∈ formatNat n) :
    ∃ d, d < 10 ∧ c = digitChar d := by
  rcases natDigitsAux_mem _ _ _ _ hc with h | h
  · simp at h
  · exact h

/-- Characters of a formatted integer are never white space or the `|` separator. -/
theorem formatInt_mem (n : Int) (c : Char) (hc : c ∈ formatInt n) :
    isSpace c = false ∧ c ≠ '|' := by
  unfold formatInt at hc
  split at hc
  · simp only [List.mem_cons] at hc
    rcases hc with rfl | hc
    · exact ⟨by decide, by decide⟩
    · obtain ⟨d, hd, rfl⟩ := formatNat_mem _ _ hc
      exact ⟨(digitChar_props d hd).1, (digitChar_props d hd).2.1⟩
  · obtain ⟨d, hd, rfl⟩ := formatNat_mem _ _ hc
    exact ⟨(digitChar_props d hd).1, (digitChar_props d hd).2.1⟩

theorem formatInt_ne_nil (n : Int) : formatInt n ≠ [] := by
  unfold formatInt
  split
  · simp
  · obtain ⟨d, rest, _, h⟩ := natDigitsAux_head (n.natAbs + 1) n.natAbs [] (by omega)
    simp [formatNat, h]

theorem atoiDigits_formatNat (neg : Bool) (n : Nat)
    (hr : InIntRange (if neg then -(n : Int) else (n : Int))) :
    atoiDigits neg (formatNat n) = (if neg then -(n : Int) else (n : Int), true) := by
  obtain ⟨d, rest, _, h⟩ := natDigitsAux_head (n + 1) n [] (by omega)
  have hne : formatNat n ≠ [] := by simp [formatNat, h]
  have hp : parseDigits (formatNat n) 0 = some n := by
    unfold formatNat
    rw [parseDigits_natDigitsAux _ _ _ (by omega)]
    rfl
  obtain ⟨h1, h2⟩ := hr
  simp only [atoiDigits, hne, if_false, hp]
  rw [if_neg (by omega), if_neg (by omega)]

/-- Round trip of `%d` and `strconv.Atoi` on the range of `int`. -/
theorem Atoi_formatInt (n : Int) (hr : InIntRange n) : Atoi (formatInt n) = (n, true) := by
  unfold formatInt
  by_cases hneg : n < 0
  · simp only [hneg, if_true, Atoi]
    have := atoiDigits_formatNat true n.natAbs (by
      simp only [if_true]
      rw [show -(n.natAbs : Int) = n by omega]
      exact hr)
    rw [this]
    simp only [if_true]
    congr 1
    omega
  · simp only [hneg, if_false]
    obtain ⟨d, rest, hd, h⟩ := natDigitsAux_head (n.natAbs + 1) n.natAbs [] (by omega)
    have hfmt : formatNat n.natAbs = digitChar d :: rest := by simp [formatNat, h]
    have := atoiDigits_formatNat false n.natAbs (by
      simp only [Bool.false_eq_true, if_false]
      rw [show (n.natAbs : Int) = n by omega]
      exact hr)
    rw [hfmt] at this ⊢
    simp only [Atoi, (digitChar_props d hd).2.2.1, (digitChar_props d hd).2.2.2, if_false]
    rw [this]
    simp only [Bool.false_eq_true, if_false]
    congr 1
    omega

/-! ## Splitting -/

theorem Fields_token (t : GoString) (hne : t ≠ []) (hns : ∀ c ∈ t, isSpace c = false) :
    Fields t = [t] ∧ ∀ rest, Fields (t ++ ' ' :: rest) = t :: Fields rest := by
  induction t with
  | nil => exact absurd rfl hne
  | cons c cs ih =>
    have hc : isSpace c = false := hns c (List.mem_cons_self _ _)
    cases cs with
    | nil =>
      refine ⟨by simp [Fields, hc], fun rest => ?_⟩
      have hsp : isSpace ' ' = true := by decide
      simp [Fields, hc, hsp]
    | cons d ds =>
      have hd : isSpace d = false := hns d (by simp)
      obtain ⟨ih1, ih2⟩ := ih (by simp) (fun x hx => hns x (List.mem_cons_of_mem _ hx))
      refine ⟨?_, fun rest => ?_⟩
      · simp only [Fields, hc, hd, Bool.false_eq_true, if_false] at ih1 ⊢
        rw [ih1]
      · have e := ih2 rest
        rw [List.cons_append] at e
        rw [List.cons_append, List.cons_append, Fields]
        simp only [hc, hd, Bool.false_eq_true, if_false, e]

/-! ## STATE round trip -/

theorem token_key_int (key : GoString) (hk : ∀ c ∈ key, isSpace c = false) (n : Int) :
    key ++ formatInt n ≠ [] ∧ ∀ c ∈ key ++ formatInt n, isSpace c = false := by
  refine ⟨?_, ?_⟩
  · intro h
    exact formatInt_ne_nil n (List.append_eq_nil.mp h).2
  · intro c hc
    rcases List.mem_append.mp hc with h | h
    · exact hk c h
    · exact (formatInt_mem n c h).1

theorem SerializeState_fields (s : State) :
    Fields (SerializeState s)
      = ["STATE".toList, "round=".toList ++ formatInt s.Round,
          "p1hp=".toList ++ formatInt s.P1HP, "p2hp=".toList ++ formatInt s.P2HP,
          "turn=".toList ++ formatInt s.Turn] := by
  have e : SerializeState s
      = "STATE".toList ++ ' ' :: (("round=".toList ++ formatInt s.Round)
        ++ ' ' :: (("p1hp=".toList ++ formatInt s.P1HP)
        ++ ' ' :: (("p2hp=".toList ++ formatInt s.P2HP)
        ++ ' ' :: ("turn=".toList ++ formatInt s.Turn)))) := by
    simp [SerializeState, String.toList]
  rw [e]
  rw [(Fields_token "STATE".toList (by decide) (by decide)).2,
    (Fields_token _ (token_key_int "round=".toList (by decide) s.Round).1
      (token_key_int "round=".toList (by decide) s.Round).2).2,
    (Fields_token _ (token_key_int "p1hp=".toList (by decide) s.P1HP).1
      (token_key_int "p1hp=".toList (by decide) s.P1HP).2).2,
    (Fields_token _ (token_key_int "p2hp=".toList (by decide) s.P2HP).1
      (token_key_int "p2hp=".toList (by decide) s.P2HP).2).2,
    (Fields_token _ (token_key_int "turn=".toList (by decide) s.Turn).1
      (token_key_int "turn=".toList (by decide) s.Turn).2).1]

theorem parseStatePart_round (s : State) (n : Int) (hn : InIntRange n) :
    parseStatePart s ("round=".toList ++ formatInt n) = { s with Round := n } := by
  simp [parseStatePart, HasPrefix, String.toList, Atoi_formatInt n hn]

theorem parseStatePart_p1hp (s : State) (n : Int) (hn : InIntRange n) :
    parseStatePart s ("p1hp=".toList ++ formatInt n) = { s with P1HP := n } := by
  simp [parseStatePart, HasPrefix, String.toList, Atoi_formatInt n hn]

theorem parseStatePart_p2hp (s : State) (n : Int) (hn : InIntRange n) :
    parseStatePart s ("p2hp=".toList ++ formatInt n) = { s with P2HP := n } := by
  simp [parseStatePart, HasPrefix, String.toList, Atoi_formatInt n hn]

theorem parseStatePart_turn (s : State) (n : Int) (hn : InIntRange n) :
    parseStatePart s ("turn=".toList ++ formatInt n) = { s with Turn := n } := by
  simp [parseStatePart, HasPrefix, String.toList, Atoi_formatInt n hn]

theorem parseStatePart_STATE (s : State) : parseStatePart s "STATE".toList = s := by
  simp [parseStatePart, HasPrefix, String.toList]

/-- C3: for every `State` whose four fields are Go `int` values (negative ones
included), `ParseState(SerializeState(s))` returns `s` and no error. -/
theorem C3_ParseState_SerializeState (s : State) (hRound : InIntRange s.Round)
    (hP1 : InIntRange s.P1HP) (hP2 : InIntRange s.P2HP) (hTurn : InIntRange s.Turn) :
    ParseState (SerializeState s) = .ok s := by
  unfold ParseState
  rw [SerializeState_fields]
  simp only [List.foldl, parseStatePart_STATE, parseStatePart_round _ _ hRound,
    parseStatePart_p1hp _ _ hP1, parseStatePart_p2hp _ _ hP2, parseStatePart_turn _ _ hTurn]

/-- C3 witness: a state with a negative HP field. -/
theorem C3_ParseState_SerializeState_witness :
    (InIntRange (3 : Int) ∧ InIntRange (100 : Int) ∧ InIntRange (-5 : Int)
      ∧ InIntRange (2 : Int))
    ∧ ParseState (SerializeState { Round := 3, P1HP := 100, P2HP := -5, Turn := 2 })
        = .ok { Round := 3, P1HP := 100, P2HP := -5, Turn := 2 } :=
  ⟨by decide, C3_ParseState_SerializeState { Round := 3, P1HP := 100, P2HP := -5, Turn := 2 }
    (by decide) (by decide) (by decide) (by decide)⟩

/-! ## INIT round trip -/

theorem token_key_name (key name : GoString) (hne : key ≠ [])
    (hk : ∀ c ∈ key, isSpace c = false) (hname : NoSpace name) :
    key ++ name ≠ [] ∧ ∀ c ∈ key ++ name, isSpace c = false := by
  refine ⟨?_, ?_⟩
  · intro h
    exact hne (List.append_eq_nil.mp h).1
  · intro c hc
    rcases List.mem_append.mp hc with h | h
    · exact hk c h
    · exact hname c h

theorem SerializeInit_fields (i : Init) (h1 : NoSpace i.P1Name) (h2 : NoSpace i.P2Name) :
    Fields (SerializeInit i)
      = ["INIT".toList, "p1name=".toList ++ i.P1Name, "p1hp=".toList ++ formatInt i.P1HP,
          "p1max=".toList ++ formatInt i.P1Max, "p2name=".toList ++ i.P2Name,
          "p2hp=".toList ++ formatInt i.P2HP, "p2max=".toList ++ formatInt i.P2Max,
          "round=".toList ++ formatInt i.Round, "turn=".toList ++ formatInt i.Turn] := by
  have e : SerializeInit i
      = "INIT".toList ++ ' ' :: (("p1name=".toList ++ i.P1Name)
        ++ ' ' :: (("p1hp=".toList ++ formatInt i.P1HP)
        ++ ' ' :: (("p1max=".toList ++ formatInt i.P1Max)
        ++ ' ' :: (("p2name=".toList ++ i.P2Name)
        ++ ' ' :: (("p2hp=".toList ++ formatInt i.P2HP)
        ++ ' ' :: (("p2max=".toList ++ formatInt i.P2Max)
        ++ ' ' :: (("round=".toList ++ formatInt i.Round)
        ++ ' ' :: ("turn=".toList ++ formatInt i.Turn)))))))) := by
    simp [SerializeInit, String.toList]
  rw [e]
  rw [(Fields_token "INIT".toList (by decide) (by decide)).2,
    (Fields_token _ (token_key_name "p1name=".toList _ (by decide) (by decide) h1).1
      (token_key_name "p1name=".toList _ (by decide) (by decide) h1).2).2,
    (Fields_token _ (token_key_int "p1hp=".toList (by decide) i.P1HP).1
      (token_key_int "p1hp=".toList (by decide) i.P1HP).2).2,
    (Fields_token _ (token_key_int "p1max=".toList (by decide) i.P1Max).1
      (token_key_int "p1max=".toList (by decide) i.P1Max).2).2,
    (Fields_token _ (token_key_name "p2name=".toList _ (by decide) (by decide) h2).1
      (token_key_name "p2name=".toList _ (by decide) (by decide) h2).2).2,
    (Fields_token _ (token_key_int "p2hp=".toList (by decide) i.P2HP).1
      (token_key_int "p2hp=".toList (by decide) i.P2HP).2).2,
    (Fields_token _ (token_key_int "p2max=".toList (by decide) i.P2Max).1
      (token_key_int "p2max=".toList (by decide) i.P2Max).2).2,
    (Fields_token _ (token_key_int "round=".toList (by decide) i.Round).1
      (token_key_int "round=".toList (by decide) i.Round).2).2,
    (Fields_token _ (token_key_int "turn=".toList (by decide) i.Turn).1
      (token_key_int "turn=".toList (by decide) i.Turn).2).1]

theorem parseInitPart_INIT (i : Init) : parseInitPart i "INIT".toList = i := by
  simp [parseInitPart, HasPrefix, String.toList]

theorem parseInitPart_p1name (i : Init) (name : GoString) :
    parseInitPart i ("p1name=".toList ++ name) = { i with P1Name := name } := by
  simp [parseInitPart, HasPrefix, String.toList]

theorem parseInitPart_p2name (i : Init) (name : GoString) :
    parseInitPart i ("p2name=".toList ++ name) = { i with P2Name := name } := by
  simp [parseInitPart, HasPrefix, String.toList]

theorem parseInitPart_p1hp (i : Init) (n : Int) (hn : InIntRange n) :
    parseInitPart i ("p1hp=".toList ++ formatInt n) = { i with P1HP := n } := by
  simp [parseInitPart, HasPrefix, String.toList, Atoi_formatInt n hn]

theorem parseInitPart_p1max (i : Init) (n : Int) (hn : InIntRange n) :
    parseInitPart i ("p1max=".toList ++ formatInt n) = { i with P1Max := n } := by
  simp [parseInitPart, HasPrefix, String.toList, Atoi_formatInt n hn]

theorem parseInitPart_p2hp (i : Init) (n : Int) (hn : InIntRange n) :
    parseInitPart i ("p2hp=".toList ++ formatInt n) = { i with P2HP := n } := by
  simp [parseInitPart, HasPrefix, String.toList, Atoi_formatInt n hn]

theorem parseInitPart_p2max (i : Init) (n : Int) (hn : InIntRange n) :
    parseInitPart i ("p2max=".toList ++ formatInt n) = { i with P2Max := n } := by
  simp [parseInitPart, HasPrefix, String.toList, Atoi_formatInt n hn]

theorem parseInitPart_round (i : Init) (n : Int) (hn : InIntRange n) :
    parseInitPart i ("round=".toList ++ formatInt n) = { i with Round := n } := by
  simp [parseInitPart, HasPrefix, String.toList, Atoi_formatInt n hn]

theorem parseInitPart_turn (i : Init) (n : Int) (hn : InIntRange n) :
    parseInitPart i ("turn=".toList ++ formatInt n) = { i with Turn := n } := by
  simp [parseInitPart, HasPrefix, String.toList, Atoi_formatInt n hn]

/-- C4 (as stated, refuted): a player name with a space does not survive the round
trip; the fields are split at white space, so `Sir Lancelot` comes back as `Sir`. -/
theorem C4_counterexample_name_with_space :
    ParseInit (SerializeInit spacedInit) = .ok { spacedInit with P1Name := "Sir".toList }
      ∧ ParseInit (SerializeInit spacedInit) ≠ .ok spacedInit := by
  constructor <;> decide!

/-- C4 (amended): for every `Init` whose two player names contain no white space
(they may be empty) and whose six integer fields are Go `int` values,
`ParseInit(SerializeInit(i))` returns `i` and no error. -/
theorem C4_ParseInit_SerializeInit (i : Init) (hName1 : NoSpace i.P1Name)
    (hName2 : NoSpace i.P2Name) (hP1HP : InIntRange i.P1HP) (hP1Max : InIntRange i.P1Max)
    (hP2HP : InIntRange i.P2HP) (hP2Max : InIntRange i.P2Max) (hRound : InIntRange i.Round)
    (hTurn : InIntRange i.Turn) :
    ParseInit (SerializeInit i) = .ok i := by
  unfold ParseInit
  rw [SerializeInit_fields i hName1 hName2]
  simp only [List.foldl, parseInitPart_INIT, parseInitPart_p1name, parseInitPart_p2name,
    parseInitPart_p1hp _ _ hP1HP, parseInitPart_p1max _ _ hP1Max,
    parseInitPart_p2hp _ _ hP2HP, parseInitPart_p2max _ _ hP2Max,
    parseInitPart_round _ _ hRound, parseInitPart_turn _ _ hTurn]

/-- C4 witness: the INIT line of the relay server. -/
theorem C4_ParseInit_SerializeInit_witness :
    (NoSpace relayInit.P1Name ∧ NoSpace relayInit.P2Name ∧ InIntRange relayInit.P1HP
      ∧ InIntRange relayInit.P1Max ∧ InIntRange relayInit.P2HP ∧ InIntRange relayInit.P2Max
      ∧ InIntRange relayInit.Round ∧ InIntRange relayInit.Turn)
    ∧ ParseInit (SerializeInit relayInit) = .ok relayInit :=
  ⟨by decide, C4_ParseInit_SerializeInit relayInit (by decide) (by decide) (by decide)
    (by decide) (by decide) (by decide) (by decide) (by decide)⟩

/-! ## ACTION round trip -/

theorem Split_ne_nil (sep : Char) (s : GoString) : Split sep s ≠ [] := by
  cases s with
  | nil => simp [Split]
  | cons c cs =>
    simp only [Split]
    split
    · simp
    · split <;> simp

theorem Split_no_sep (sep : Char) (t : GoString) (ht : sep ∉ t) :
    Split sep t = [t] ∧ ∀ rest, ∃ x xs, Split sep rest = x :: xs
      ∧ Split sep (t ++ sep :: rest) = t :: x :: xs := by
  induction t with
  | nil =>
    refine ⟨rfl, fun rest => ?_⟩
    cases hs : Split sep rest with
    | nil => exact absurd hs (Split_ne_nil sep rest)
    | cons x xs => exact ⟨x, xs, rfl, by simp [Split, hs]⟩
  | cons c cs ih =>
    have hc : c ≠ sep := fun h => ht (by simp [h])
    obtain ⟨ih1, ih2⟩ := ih (fun h => ht (List.mem_cons_of_mem _ h))
    refine ⟨by simp [Split, hc, ih1], fun rest => ?_⟩
    obtain ⟨x, xs, hx, hsplit⟩ := ih2 rest
    exact ⟨x, xs, hx, by simp [Split, hc, hsplit]⟩

theorem Split_three (a b c : GoString) (ha : '|' ∉ a) (hb : '|' ∉ b) (hc : '|' ∉ c) :
    Split '|' (a ++ ['|'] ++ b ++ ['|'] ++ c) = [a, b, c] := by
  have e : a ++ ['|'] ++ b ++ ['|'] ++ c = a ++ '|' :: (b ++ '|' :: c) := by simp
  rw [e]
  obtain ⟨x, xs, hx, h1⟩ := (Split_no_sep '|' a ha).2 (b ++ '|' :: c)
  obtain ⟨y, ys, hy, h2⟩ := (Split_no_sep '|' b hb).2 c
  rw [h1]
  rw [h2] at hx
  rw [(Split_no_sep '|' c hc).1] at hy
  simp only [List.cons.injEq] at hx hy
  rw [← hx.1, ← hx.2, ← hy.1, ← hy.2]

theorem formatInt_no_bar (n : Int) : '|' ∉ formatInt n :=
  fun h => (formatInt_mem n '|' h).2 rfl

theorem SplitN_attack (payload : GoString) :
    SplitN ' ' 3 ("ACTION attack ".toList ++ payload)
      = ["ACTION".toList, "attack".toList, payload] := by
  simp [SplitN, cutAt, String.toList]

theorem SplitN_item (payload : GoString) :
    SplitN ' ' 3 ("ACTION item ".toList ++ payload)
      = ["ACTION".toList, "item".toList, payload] := by
  simp [SplitN, cutAt, String.toList]

/-- C5 (as stated, refuted): an action of a kind other than attack, item and
surrender serializes to the empty line, which `ParseAction` rejects; and an attack
with a non-zero item index comes back with item index 0. -/
theorem C5_counterexample_unknown_kind_and_dropped_field :
    (SerializeAction defendAction = []
      ∧ ParseAction (SerializeAction defendAction) = .error .invalidAction)
    ∧ (attackWithIndex.ItemIdx = 3
      ∧ ParseAction (SerializeAction attackWithIndex) = .ok { attackWithIndex with ItemIdx := 0 }
      ∧ ParseAction (SerializeAction attackWithIndex) ≠ .ok attackWithIndex) := by
  refine ⟨⟨by decide!, by decide!⟩, by decide!, by decide!, by decide!⟩

/-- C5 (amended): for every `Action` in wire form (see `Action.WireForm`) whose
damage and item index are Go `int` values, `ParseAction(SerializeAction(a))` returns
`a` and no error. -/
theorem C5_ParseAction_SerializeAction (a : Action) (hwire : a.WireForm)
    (hDamage : InIntRange a.Damage) (hIdx : InIntRange a.ItemIdx) :
    ParseAction (SerializeAction a) = .ok a := by
  obtain ⟨kind, body, block, dmg, idx⟩ := a
  simp only [Action.WireForm] at hwire
  simp only at hDamage hIdx
  rcases hwire with ⟨hk, hbody, hblock, hidx⟩ | ⟨hk, hbody, hblock, hdmg⟩
    | ⟨hk, hbody, hblock, hdmg, hidx⟩
  · subst hk hidx
    simp only [SerializeAction, if_true]
    rw [show "ACTION attack ".toList ++ body ++ ['|'] ++ block ++ ['|'] ++ formatInt dmg
        = "ACTION attack ".toList ++ (body ++ ['|'] ++ block ++ ['|'] ++ formatInt dmg) by simp]
    simp only [ParseAction, SplitN_attack, if_true,
      Split_three body block (formatInt dmg) hbody hblock (formatInt_no_bar dmg),
      Atoi_formatInt dmg hDamage]
  · subst hk hbody hblock hdmg
    have hne : ¬ ("item".toList = "attack".toList) := by decide
    simp only [SerializeAction, hne, if_false, if_true, ParseAction, SplitN_item,
      Atoi_formatInt idx hIdx]
  · subst hk hbody hblock hdmg hidx
    decide

/-- C5 witness: an attack on a body part whose name contains a space. -/
theorem C5_ParseAction_SerializeAction_witness :
    (plainAttack.WireForm ∧ InIntRange plainAttack.Damage ∧ InIntRange plainAttack.ItemIdx)
    ∧ ParseAction (SerializeAction plainAttack) = .ok plainAttack :=
  ⟨by decide, C5_ParseAction_SerializeAction plainAttack (by decide) (by decide) (by decide)⟩

/-! ## Rolled stats of `CreateItem` -/

theorem catalog_bases :
    ∀ t ∈ catalog, t.BaseStrength ∈ intBases ∧ t.BaseAgility ∈ intBases
      ∧ t.BaseIntelligence ∈ intBases ∧ t.BaseAttack ∈ floatBases
      ∧ t.BaseDefense ∈ floatBases ∧ t.BaseHealth ∈ floatBases ∧ t.BaseMana ∈ floatBases := by
  decide!

theorem floatBases_exact : ∀ b ∈ floatBases, round32 b = b := by
  decide!

theorem itemTemplates_mem (templateID : Int) (t : ItemTemplate)
    (ht : itemTemplates templateID = some t) : t ∈ catalog :=
  List.mem_of_find?_eq_some ht

theorem exactRoll_common_one (b : Int) : exactRoll b Common 1 = b := by
  simp [exactRoll, exactProduct, rarityMultiplierExact]

theorem exactProduct_common_one (b : ℚ) : exactProduct b Common 1 = b := by
  simp [exactProduct, rarityMultiplierExact]

theorem exactProduct_legendary_five (b : ℚ) : exactProduct b Legendary 5 = 42 / 10 * b := by
  simp only [exactProduct, rarityMultiplierExact, Common, Uncommon, Rare, Epic, Legendary]
  norm_num
  ring

/-! ## HP bounds -/

theorem wrapInt_le (x : Int) : wrapInt x ≤ MaxInt64 := by
  unfold wrapInt MaxInt64
  have := Int.emod_lt_of_pos (x + 2 ^ 63) (show (0 : Int) < 2 ^ 64 by norm_num)
  omega

theorem wrapInt_ge (x : Int) : MinInt64 ≤ wrapInt x := by
  unfold wrapInt MinInt64
  have := Int.emod_nonneg (x + 2 ^ 63) (show (2 : Int) ^ 64 ≠ 0 by norm_num)
  omega

theorem wrapInt_of_inRange (x : Int) (h : InIntRange x) : wrapInt x = x := by
  unfold InIntRange MinInt64 MaxInt64 at h
  unfold wrapInt
  have h1 : (0 : Int) ≤ x + 2 ^ 63 := by omega
  have h2 : x + 2 ^ 63 < 2 ^ 64 := by omega
  rw [Int.emod_eq_of_lt h1 h2]
  omega

theorem truncQ_nonneg (q : ℚ) (hq : 0 < q) : 0 ≤ truncQ q := by
  unfold truncQ
  rw [if_pos hq.le]
  exact Int.floor_nonneg.mpr hq.le

/-- Shape of the result of `TakeDamage`: nothing changes, or `CurrentHP` drops by
an amount between 1 and the largest `int`, floored at 0. -/
theorem Character.TakeDamage_cases (c : Character) (damage : Int) (roll : ℚ) :
    c.TakeDamage damage roll = c
    ∨ ∃ ad : Int, 1 ≤ ad ∧ ad ≤ MaxInt64
        ∧ c.TakeDamage damage roll
            = { c with CurrentHP := max MinHP (wrapInt (c.CurrentHP - ad)) } := by
  unfold Character.TakeDamage
  by_cases hneg : damage < 0
  · left; simp only [hneg, if_true]
  · by_cases hzero : damage = 0
    · left; subst hzero; simp
    · by_cases hdodge : roll < round32 (round32 c.Agility * round32 (1 / 100))
      · left; simp only [hneg, hzero, hdodge, if_true, if_false]
      · right
        by_cases hsmall : wrapInt (damage - floatToInt c.DefenseValue) < 1
        · exact ⟨1, le_refl _, by unfold MaxInt64; norm_num,
            by simp only [hneg, hzero, hdodge, hsmall, if_true, if_false]⟩
        · exact ⟨wrapInt (damage - floatToInt c.DefenseValue), not_lt.mp hsmall,
            wrapInt_le _, by simp only [hneg, hzero, hdodge, hsmall, if_true, if_false]⟩

theorem Character.TakeDamage_HPInRange (c : Character) (hc : c.HPInRange) (damage : Int)
    (roll : ℚ) : (c.TakeDamage damage roll).HPInRange := by
  rcases Character.TakeDamage_cases c damage roll with h | ⟨ad, had1, had2, h⟩
  · rw [h]; exact hc
  · rw [h]
    obtain ⟨h0, h1⟩ := hc
    simp only [Character.HPInRange, MinHP]
    refine ⟨le_max_left _ _, max_le (le_trans h0 h1) ?_⟩
    by_cases hbig : c.CurrentHP ≤ MaxInt64
    · rw [wrapInt_of_inRange]
      · omega
      · unfold InIntRange MinInt64 MaxInt64 at *
        omega
    · have := wrapInt_le (c.CurrentHP - ad)
      omega

theorem Character.Heal_HPInRange (c : Character) (hc : c.HPInRange) (amount : ℚ)
    (hfit : c.CurrentHP + truncQ amount ≤ MaxInt64) : (c.Heal amount).HPInRange := by
  unfold Character.Heal
  split
  · exact hc
  · rename_i hpos
    obtain ⟨h0, h1⟩ := hc
    have ht : 0 ≤ truncQ amount := truncQ_nonneg amount (not_le.mp hpos)
    have hconv : floatToInt amount = truncQ amount := by
      unfold floatToInt
      rw [if_pos]
      unfold MinInt64
      constructor <;> omega
    have hw : wrapInt (c.CurrentHP + truncQ amount) = c.CurrentHP + truncQ amount := by
      apply wrapInt_of_inRange
      unfold InIntRange MinInt64
      constructor <;> omega
    simp only [Character.HPInRange, hconv, hw]
    exact ⟨le_min (by omega) (le_trans h0 h1), min_le_right _ _⟩

theorem Character.SetHP_HPInRange (c : Character) (hc : c.HPInRange) (hp : Int) :
    (c.SetHP hp).HPInRange := by
  obtain ⟨h0, h1⟩ := hc
  unfold Character.SetHP
  simp only [MinHP]
  split
  · exact ⟨le_refl _, le_trans h0 h1⟩
  · split
    · exact ⟨le_trans h0 h1, le_refl _⟩
    · simp only [Character.HPInRange]
      constructor <;> omega

theorem Character.CalculateStats_HPInRange (h : Heap) (c : Character) (hc : c.HPInRange)
    (hmax : 0 ≤ (c.CalculateStats h).MaxHP) : (c.CalculateStats h).HPInRange := by
  obtain ⟨h0, h1⟩ := hc
  simp only [Character.CalculateStats] at hmax
  simp only [Character.CalculateStats, Character.HPInRange]
  split
  · exact ⟨hmax, le_refl _⟩
  · constructor <;> omega

/-- C7 (as stated, refuted): (a) the character made by `New("Titan", 2^39, 1, 1, 1)` is
at full HP `2^39`; `Heal(2^63 − 2^39)` (a `float32` value) makes `CurrentHP + 2^63 −
2^39` wrap around to `−2^63`.  (b) For a character at 5 of 10 HP whose base HP field
is −3, `CalculateStats` sets both `MaxHP` and `CurrentHP` to −3. -/
theorem C7_counterexample_heal_overflow_and_negative_base :
    (titanState.2.HPInRange ∧ titanState.2.CurrentHP = 2 ^ 39
      ∧ round32 (2 ^ 63 - 2 ^ 39) = 2 ^ 63 - 2 ^ 39
      ∧ (titanState.2.Heal (2 ^ 63 - 2 ^ 39)).CurrentHP = -(2 ^ 63))
    ∧ (negativeBaseChar.HPInRange
      ∧ (negativeBaseChar.CalculateStats emptyHeap).CurrentHP = -3
      ∧ (negativeBaseChar.CalculateStats emptyHeap).MaxHP = -3) := by
  refine ⟨⟨by decide!, by decide!, by decide!, by decide!⟩, by decide!, by decide!, by decide!⟩

/-- C7 (amended): for every character with `0 ≤ CurrentHP ≤ MaxHP`, the bound still
holds after `TakeDamage` with every integer damage and every dodge roll, after
`SetHP` with every integer, after `Heal` with every amount whose integer part added
to `CurrentHP` does not exceed the largest `int`, and after `CalculateStats`
whenever the recomputed `MaxHP` (base HP plus the health bonus) is not negative. -/
theorem C7_HP_stays_in_range (c : Character) (hc : c.HPInRange) :
    (∀ (damage : Int) (roll : ℚ), (c.TakeDamage damage roll).HPInRange)
    ∧ (∀ (amount : ℚ), c.CurrentHP + truncQ amount ≤ MaxInt64 → (c.Heal amount).HPInRange)
    ∧ (∀ (hp : Int), (c.SetHP hp).HPInRange)
    ∧ (∀ (h : Heap), 0 ≤ (c.CalculateStats h).MaxHP → (c.CalculateStats h).HPInRange) :=
  ⟨fun damage roll => Character.TakeDamage_HPInRange c hc damage roll,
   fun amount hfit => Character.Heal_HPInRange c hc amount hfit,
   fun hp => Character.SetHP_HPInRange c hc hp,
   fun h hmax => Character.CalculateStats_HPInRange h c hc hmax⟩

/-- C7 witness: a character at 50 of 100 HP; a hit of `2^63 − 1` that is not dodged
leaves 0 HP, a negative hit leaves 50, a heal of 70.5 leaves 100. -/
theorem C7_HP_stays_in_range_witness :
    woundedChar.HPInRange
    ∧ ((woundedChar.TakeDamage MaxInt64 1).HPInRange
      ∧ (woundedChar.TakeDamage MaxInt64 1).CurrentHP = 0
      ∧ (woundedChar.TakeDamage (-7) 1).CurrentHP = 50)
    ∧ ((woundedChar.Heal (141 / 2)).HPInRange ∧ (woundedChar.Heal (141 / 2)).CurrentHP = 100)
    ∧ (woundedChar.SetHP (-4)).HPInRange
    ∧ (woundedChar.CalculateStats emptyHeap).HPInRange := by
  have hc : woundedChar.HPInRange := by decide
  have hall := C7_HP_stays_in_range woundedChar hc
  exact ⟨hc, ⟨hall.1 MaxInt64 1, by decide!, by decide!⟩,
    ⟨hall.2.1 (141 / 2) (by decide!), by decide!⟩, hall.2.2.1 (-4),
    hall.2.2.2 emptyHeap (by decide!)⟩

/-! ## STATE handling of the PvP client -/

theorem Character.SetHP_of_inRange (c : Character) (hp : Int) (h0 : 0 ≤ hp)
    (h1 : hp ≤ c.MaxHP) : (c.SetHP hp).CurrentHP = hp := by
  unfold Character.SetHP
  simp only [MinHP]
  rw [if_neg (by omega), if_neg (by omega)]

theorem Character.TakeDamage_MaxHP (c : Character) (damage : Int) (roll : ℚ) :
    (c.TakeDamage damage roll).MaxHP = c.MaxHP := by
  rcases Character.TakeDamage_cases c damage roll with h | ⟨ad, _, _, h⟩ <;> rw [h]

theorem PvPFightModel.applyState_spec (m : PvPFightModel) (s : State)
    (hside : m.MySide = 1 ∨ m.MySide = 2) (hturn : s.Turn = 1 ∨ s.Turn = 2)
    (hown : 0 ≤ s.hpOf m.MySide ∧ s.hpOf m.MySide ≤ m.player.MaxHP)
    (hother : 0 ≤ s.hpOf (3 - m.MySide) ∧ s.hpOf (3 - m.MySide) ≤ m.enemy.MaxHP) :
    StateApplied m (m.applyState s) s := by
  unfold StateApplied
  rcases hside with hs | hs
  · simp only [hs, State.hpOf] at hown hother ⊢
    norm_num at hother
    have e1 := Character.SetHP_of_inRange m.player s.P1HP hown.1 hown.2
    have e2 := Character.SetHP_of_inRange m.enemy s.P2HP hother.1 hother.2
    by_cases ht : s.Turn = 1
    · simp [PvPFightModel.applyState, hs, ht, e1, e2, PvPFightModel.myTurn,
        PvPFightModel.InMyTurn]
    · have ht2 : s.Turn = 2 := by rcases hturn with h | h; exact absurd h ht; exact h
      simp [PvPFightModel.applyState, hs, ht2, e1, e2, PvPFightModel.myTurn,
        PvPFightModel.InMyTurn]
  · simp only [hs, State.hpOf] at hown hother ⊢
    norm_num at hown hother
    have e1 := Character.SetHP_of_inRange m.player s.P2HP hown.1 hown.2
    have e2 := Character.SetHP_of_inRange m.enemy s.P1HP hother.1 hother.2
    by_cases ht : s.Turn = 1
    · simp [PvPFightModel.applyState, hs, ht, e1, e2, PvPFightModel.myTurn,
        PvPFightModel.InMyTurn]
    · have ht2 : s.Turn = 2 := by rcases hturn with h | h; exact absurd h ht; exact h
      simp [PvPFightModel.applyState, hs, ht2, e1, e2, PvPFightModel.myTurn,
        PvPFightModel.InMyTurn]

theorem PvPFightModel.applyAction_frame (m : PvPFightModel) (a : Action) (roll : ℚ) :
    (m.applyAction a roll).MySide = m.MySide
    ∧ (m.applyAction a roll).player.MaxHP = m.player.MaxHP
    ∧ (m.applyAction a roll).enemy = m.enemy := by
  unfold PvPFightModel.applyAction
  split
  · exact ⟨rfl, rfl, rfl⟩
  · split
    · split
      · exact ⟨rfl, Character.TakeDamage_MaxHP _ _ _, rfl⟩
      · exact ⟨rfl, rfl, rfl⟩
    · split <;> exact ⟨rfl, rfl, rfl⟩

/-- C8: for every client model with `MySide` 1 or 2 and every STATE message whose
turn is 1 or 2 and whose HP fields lie within `[0, MaxHP]` of the local characters,
applying the message - directly, or right after any ACTION (such as an attack with
positive damage, dodged or not) - sets the player's HP to the field of its own side,
the enemy's HP to the other field, the round and the turn to those of the message,
clears `waitingForState`, and leaves the client on its turn, in the action menu,
exactly when the turn of the message is its own side (otherwise the view state is
kept). -/
theorem C8_applyState_sets_snapshot (m : PvPFightModel) (s : State)
    (hside : m.MySide = 1 ∨ m.MySide = 2) (hturn : s.Turn = 1 ∨ s.Turn = 2)
    (hown : 0 ≤ s.hpOf m.MySide ∧ s.hpOf m.MySide ≤ m.player.MaxHP)
    (hother : 0 ≤ s.hpOf (3 - m.MySide) ∧ s.hpOf (3 - m.MySide) ≤ m.enemy.MaxHP) :
    StateApplied m (m.applyState s) s
    ∧ ∀ (a : Action) (roll : ℚ),
        StateApplied (m.applyAction a roll) ((m.applyAction a roll).applyState s) s := by
  refine ⟨PvPFightModel.applyState_spec m s hside hturn hown hother, fun a roll => ?_⟩
  obtain ⟨e1, e2, e3⟩ := PvPFightModel.applyAction_frame m a roll
  exact PvPFightModel.applyState_spec _ s (by rw [e1]; exact hside) hturn
    (by rw [e1, e2]; exact hown) (by rw [e1, e3]; exact hother)

/-- C8 witness: the scenario of the specification.  Side 2 receives an attack of
12 and then `STATE round=2 p1hp=100 p2hp=88 turn=2`: whether or not the hit is
dodged locally, it ends with 88 own HP, the enemy at 100, and on its turn in the
action menu. -/
theorem C8_applyState_sets_snapshot_witness :
    ((sideTwoClient.MySide = 1 ∨ sideTwoClient.MySide = 2)
      ∧ (stateAfterAttack.Turn = 1 ∨ stateAfterAttack.Turn = 2)
      ∧ (0 ≤ stateAfterAttack.hpOf sideTwoClient.MySide
        ∧ stateAfterAttack.hpOf sideTwoClient.MySide ≤ sideTwoClient.player.MaxHP)
      ∧ (0 ≤ stateAfterAttack.hpOf (3 - sideTwoClient.MySide)
        ∧ stateAfterAttack.hpOf (3 - sideTwoClient.MySide) ≤ sideTwoClient.enemy.MaxHP))
    ∧ (∀ roll : ℚ,
        StateApplied (sideTwoClient.applyAction attackTwelve roll)
          ((sideTwoClient.applyAction attackTwelve roll).applyState stateAfterAttack)
          stateAfterAttack)
    ∧ ((sideTwoClient.applyAction attackTwelve 1).player.CurrentHP = 88
      ∧ (sideTwoClient.applyAction attackTwelve 0).player.CurrentHP = 100
      ∧ ((sideTwoClient.applyAction attackTwelve 0).applyState
            stateAfterAttack).player.CurrentHP = 88
      ∧ ((sideTwoClient.applyAction attackTwelve 0).applyState
            stateAfterAttack).enemy.CurrentHP = 100
      ∧ ((sideTwoClient.applyAction attackTwelve 0).applyState stateAfterAttack).InMyTurn)
    := by
  have h1 : sideTwoClient.MySide = 1 ∨ sideTwoClient.MySide = 2 := by decide
  have h2 : stateAfterAttack.Turn = 1 ∨ stateAfterAttack.Turn = 2 := by decide
  have h3 : 0 ≤ stateAfterAttack.hpOf sideTwoClient.MySide
      ∧ stateAfterAttack.hpOf sideTwoClient.MySide ≤ sideTwoClient.player.MaxHP := by decide!
  have h4 : 0 ≤ stateAfterAttack.hpOf (3 - sideTwoClient.MySide)
      ∧ stateAfterAttack.hpOf (3 - sideTwoClient.MySide) ≤ sideTwoClient.enemy.MaxHP := by
    decide!
  exact ⟨⟨h1, h2, h3, h4⟩,
    fun roll => (C8_applyState_sets_snapshot sideTwoClient stateAfterAttack h1 h2 h3 h4).2
      attackTwelve roll,
    by decide!, by decide!, by decide!, by decide!, by decide!⟩

/-! ## Sending STATE -/

/-- C9 (as stated, refuted): a client on its turn whose session is nil sends
nothing, keeps the turn and does not start waiting (`sendState` returns at once). -/
theorem C9_counterexample_no_session :
    (offlineClient.MySide = 1 ∧ offlineClient.turn = offlineClient.MySide
      ∧ 0 < offlineClient.player.CurrentHP ∧ 0 < offlineClient.enemy.CurrentHP)
    ∧ offlineClient.sendState.sent = []
    ∧ offlineClient.sendState.turn = 1
    ∧ offlineClient.sendState.waitingForState = false := by
  refine ⟨by decide!, by decide!, by decide!, by decide!⟩

/-- C9 (amended): for every client model with an open session (non-nil, connection
not closed), with `MySide` 1 or 2 (in particular when it is its turn, `turn =
MySide`) and whose two characters both have HP above 0, `sendState` writes exactly
one line, the STATE line with the local round, the local HP of side 1 and of side
2, and turn `3 − MySide`; it sets the local turn to `3 − MySide` and
`waitingForState` to true, and changes neither the round nor any HP. -/
theorem C9_sendState_emits_state (m : PvPFightModel) (sent : List GoString)
    (hsession : m.session = some { conn := some sent })
    (hside : m.MySide = 1 ∨ m.MySide = 2)
    (hplayer : 0 < m.player.CurrentHP) (henemy : 0 < m.enemy.CurrentHP) :
    m.sendState.sent
        = sent ++ [SerializeState
            { Round := m.round
              P1HP := if m.MySide = 1 then m.player.CurrentHP else m.enemy.CurrentHP
              P2HP := if m.MySide = 1 then m.enemy.CurrentHP else m.player.CurrentHP
              Turn := 3 - m.MySide }]
    ∧ m.sendState.turn = 3 - m.MySide
    ∧ m.sendState.waitingForState = true
    ∧ m.sendState.round = m.round ∧ m.sendState.player = m.player
    ∧ m.sendState.enemy = m.enemy := by
  have hp : ¬ m.player.CurrentHP ≤ 0 := not_le.mpr hplayer
  have he : ¬ m.enemy.CurrentHP ≤ 0 := not_le.mpr henemy
  have hw1 : wrapInt 1 = 1 := by decide
  have hw2 : wrapInt 2 = 2 := by decide
  rcases hside with hs | hs
  · simp [PvPFightModel.sendState, hsession, hp, he, hw2, PvPFightModel.pvpSend,
      Session.WriteLine, PvPFightModel.sent, hs]
  · simp [PvPFightModel.sendState, hsession, hp, he, hw1, PvPFightModel.pvpSend,
      Session.WriteLine, PvPFightModel.sent, hs]

/-- C9 witness: side 1 after an attack that left the opponent at 88 HP sends
`STATE round=2 p1hp=100 p2hp=88 turn=2`. -/
theorem C9_sendState_emits_state_witness :
    (sideOneClient.session = some { conn := some [] }
      ∧ (sideOneClient.MySide = 1 ∨ sideOneClient.MySide = 2)
      ∧ sideOneClient.turn = sideOneClient.MySide
      ∧ 0 < sideOneClient.player.CurrentHP ∧ 0 < sideOneClient.enemy.CurrentHP)
    ∧ sideOneClient.sendState.sent = ["STATE round=2 p1hp=100 p2hp=88 turn=2".toList]
    ∧ sideOneClient.sendState.turn = 2
    ∧ sideOneClient.sendState.waitingForState = true := by
  have h := C9_sendState_emits_state sideOneClient [] rfl (by decide) (by decide!)
    (by decide!)
  refine ⟨⟨rfl, by decide, by decide, by decide!, by decide!⟩, ?_, ?_, h.2.2.1⟩
  · rw [h.1]; decide!
  · rw [h.2.1]; decide

/-! ## Magnitude of rounded values -/

theorem pow2_eq_zpow (e : ℤ) : pow2 e = (2 : ℚ) ^ e := by
  unfold pow2
  split
  · rename_i h
    conv_rhs => rw [← Int.toNat_of_nonneg h]
    rw [zpow_natCast]
    push_cast
    rfl
  · rename_i h
    have h1 : (0 : ℤ) ≤ -e := by omega
    have h2 : e = -((-e).toNat : ℤ) := by rw [Int.toNat_of_nonneg h1]; ring
    conv_rhs => rw [h2]
    rw [zpow_neg, zpow_natCast]
    push_cast
    rw [one_div]

theorem pow2_pos (e : ℤ) : 0 < pow2 e := by
  rw [pow2_eq_zpow]; positivity

theorem log2Fuel_spec : ∀ (fuel n : Nat), 1 ≤ n → n ≤ fuel →
    2 ^ log2Fuel fuel n ≤ n ∧ n < 2 ^ (log2Fuel fuel n + 1) := by
  intro fuel
  induction fuel with
  | zero => intro n h1 h2; omega
  | succ fuel ih =>
    intro n h1 h2
    by_cases hn : n < 2
    · have : n = 1 := by omega
      subst this
      simp [log2Fuel]
    · simp only [log2Fuel, hn, if_false]
      obtain ⟨ih1, ih2⟩ := ih (n / 2) (by omega) (by omega)
      rw [pow_succ, pow_succ]
      rw [pow_succ] at ih2
      constructor <;> omega

theorem natLog2_spec (n : Nat) (hn : 1 ≤ n) :
    2 ^ natLog2 n ≤ n ∧ n < 2 ^ (natLog2 n + 1) :=
  log2Fuel_spec n n hn (le_refl _)

theorem ilog2_le (q : ℚ) (hq : 0 < q) : pow2 (ilog2 q) ≤ q := by
  unfold ilog2
  split
  · rename_i h1
    have hfl : (1 : ℤ) ≤ ⌊q⌋ := Int.le_floor.mpr (by exact_mod_cast h1)
    have hcast : ((⌊q⌋.toNat : ℕ) : ℤ) = ⌊q⌋ := Int.toNat_of_nonneg (by omega)
    have hn : 1 ≤ ⌊q⌋.toNat := by omega
    obtain ⟨hlo, _⟩ := natLog2_spec _ hn
    rw [pow2_eq_zpow, zpow_natCast]
    calc (2 : ℚ) ^ natLog2 ⌊q⌋.toNat = ((2 ^ natLog2 ⌊q⌋.toNat : ℕ) : ℚ) := by push_cast; rfl
      _ ≤ ((⌊q⌋.toNat : ℕ) : ℚ) := by exact_mod_cast hlo
      _ = ((⌊q⌋ : ℤ) : ℚ) := by rw [← hcast]; push_cast; rfl
      _ ≤ q := Int.floor_le q
  · rename_i h1
    have hq1 : q < 1 := not_le.mp h1
    have hinv : 1 < 1 / q := by rw [lt_div_iff₀ hq]; linarith
    have hfl : (1 : ℤ) ≤ ⌊1 / q⌋ := Int.le_floor.mpr (by exact_mod_cast hinv.le)
    have hcast : ((⌊1 / q⌋.toNat : ℕ) : ℤ) = ⌊1 / q⌋ := Int.toNat_of_nonneg (by omega)
    have hn : 1 ≤ ⌊1 / q⌋.toNat := by omega
    obtain ⟨_, hhi⟩ := natLog2_spec _ hn
    simp only
    split
    · rename_i heq
      rw [pow2_eq_zpow, zpow_natCast] at heq
      rw [pow2_eq_zpow, zpow_neg, zpow_natCast]
      exact (eq_inv_of_mul_eq_one_left heq).ge
    · have hlt : 1 / q < ((⌊1 / q⌋.toNat : ℕ) : ℚ) + 1 := by
        have := Int.lt_floor_add_one (1 / q)
        calc 1 / q < ((⌊1 / q⌋ : ℤ) : ℚ) + 1 := this
          _ = ((⌊1 / q⌋.toNat : ℕ) : ℚ) + 1 := by rw [← hcast]; push_cast; rfl
      have hle : ((⌊1 / q⌋.toNat : ℕ) : ℚ) + 1 ≤ (2 : ℚ) ^ (natLog2 ⌊1 / q⌋.toNat + 1) := by
        have : ⌊1 / q⌋.toNat + 1 ≤ 2 ^ (natLog2 ⌊1 / q⌋.toNat + 1) := hhi
        exact_mod_cast this
      have hbound : 1 / q < (2 : ℚ) ^ (natLog2 ⌊1 / q⌋.toNat + 1) := lt_of_lt_of_le hlt hle
      rw [pow2_eq_zpow]
      have he : -(natLog2 ⌊1 / q⌋.toNat : ℤ) - 1 = -((natLog2 ⌊1 / q⌋.toNat + 1 : ℕ) : ℤ) := by
        push_cast; ring
      rw [he, zpow_neg, zpow_natCast]
      have hpos : (0 : ℚ) < 2 ^ (natLog2 ⌊1 / q⌋.toNat + 1) := by positivity
      rw [inv_le_comm₀ hpos hq, ← one_div]
      exact hbound.le

theorem roundNE_abs_le (x : ℚ) : |(roundNE x : ℚ)| ≤ |x| + 1 / 2 := by
  have h1 := Int.floor_le x
  have h2 := Int.lt_floor_add_one x
  have key : |(roundNE x : ℚ) - x| ≤ 1 / 2 := by
    unfold roundNE
    simp only
    rw [abs_le]
    split
    · rename_i h; constructor <;> linarith
    · split
      · rename_i h3 h4; push_cast; constructor <;> linarith
      · rename_i h3 h4
        have h5 : x - ⌊x⌋ = 1 / 2 := le_antisymm (not_lt.mp h4) (not_lt.mp h3)
        split
        · constructor <;> linarith
        · push_cast; constructor <;> linarith
  calc |(roundNE x : ℚ)| = |((roundNE x : ℚ) - x) + x| := by ring_nf
    _ ≤ |(roundNE x : ℚ) - x| + |x| := abs_add _ _
    _ ≤ |x| + 1 / 2 := by linarith

theorem roundFloat_abs_le (p : ℕ) (hp : 1 ≤ p) (q : ℚ) : |roundFloat p q| ≤ 2 * |q| := by
  unfold roundFloat
  split
  · rename_i h; simp [h]
  · rename_i hq0
    have hqpos : 0 < |q| := abs_pos.mpr hq0
    simp only
    set e := ilog2 |q| - ((p : ℤ) - 1) with he
    have hP : 0 < pow2 e := pow2_pos e
    have hlog := ilog2_le |q| hqpos
    have hx : 1 ≤ |q / pow2 e| := by
      rw [abs_div, abs_of_pos hP, le_div_iff₀ hP, one_mul]
      calc pow2 e ≤ pow2 (ilog2 |q|) := by
            rw [pow2_eq_zpow, pow2_eq_zpow]
            apply zpow_le_zpow_right₀ (by norm_num)
            have : (1 : ℤ) ≤ p := by exact_mod_cast hp
            omega
        _ ≤ |q| := hlog
    have hr := roundNE_abs_le (q / pow2 e)
    rw [abs_mul, abs_of_pos hP]
    have h2 : |(roundNE (q / pow2 e) : ℚ)| ≤ 2 * |q / pow2 e| := by linarith
    calc |(roundNE (q / pow2 e) : ℚ)| * pow2 e ≤ 2 * |q / pow2 e| * pow2 e :=
          mul_le_mul_of_nonneg_right h2 hP.le
      _ = 2 * |q| := by
          rw [abs_div, abs_of_pos hP]
          field_simp

theorem round64_abs_le (q B : ℚ) (h : |q| ≤ B) : |round64 q| ≤ 2 * B :=
  le_trans (roundFloat_abs_le 53 (by norm_num) q) (by linarith)

theorem truncQ_abs_le (q : ℚ) : |(truncQ q : ℚ)| ≤ |q| := by
  unfold truncQ
  split
  · rename_i h
    have h1 : (0 : ℚ) ≤ (⌊q⌋ : ℚ) := by exact_mod_cast Int.floor_nonneg.mpr h
    rw [abs_of_nonneg h1, abs_of_nonneg h]
    exact Int.floor_le q
  · rename_i h
    have hq : q < 0 := not_le.mp h
    have h1 : ((⌈q⌉ : ℤ) : ℚ) ≤ 0 := by exact_mod_cast Int.ceil_le.mpr (by exact_mod_cast hq.le)
    rw [abs_of_nonpos h1, abs_of_neg hq]
    have := Int.le_ceil q
    linarith

theorem floatToInt_abs_le (q : ℚ) (h : |q| ≤ 2 ^ 50) : |floatToInt q| ≤ 2 ^ 50 := by
  have h1 : |(truncQ q : ℚ)| ≤ 2 ^ 50 := le_trans (truncQ_abs_le q) h
  have h2 : |truncQ q| ≤ 2 ^ 50 := by exact_mod_cast h1
  have h3 := abs_le.mp h2
  unfold floatToInt
  rw [if_pos]
  · exact h2
  · unfold MinInt64 MaxInt64
    constructor <;> omega

theorem bodyPartMultiplier_abs_le (bodyPart : String) : |bodyPartMultiplier bodyPart| ≤ 3 := by
  have h15 : |round64 (15 / 10)| ≤ 3 := by
    have := round64_abs_le (15 / 10) (15 / 10) (by rw [abs_of_pos (by norm_num)])
    linarith
  have h1 : |round64 1| ≤ 3 := by
    have := round64_abs_le 1 1 (by simp)
    linarith
  have h8 : |round64 (8 / 10)| ≤ 3 := by
    have := round64_abs_le (8 / 10) 1 (by rw [abs_of_pos] <;> norm_num)
    linarith
  have h9 : |round64 (9 / 10)| ≤ 3 := by
    have := round64_abs_le (9 / 10) 1 (by rw [abs_of_pos] <;> norm_num)
    linarith
  unfold bodyPartMultiplier
  split
  · exact h15
  · split
    · exact h1
    · split
      · exact h8
      · split
        · exact h9
        · exact h1

/-- For stats of magnitude at most `2^50` the damage value fits an `int`. -/
theorem damageValue_lt (draw : Option ℚ) (attacker defender : Character) (bodyPart : String)
    (hS : |attacker.Strength| ≤ 2 ^ 50) (hA : |attacker.AttackValue| ≤ 2 ^ 50)
    (hD : |defender.DefenseValue| ≤ 2 ^ 50)
    (hdraw : ∀ r, draw = some r → 0 ≤ r ∧ r < 1) :
    damageValue draw attacker defender bodyPart < 2 ^ 63 := by
  have hfa := floatToInt_abs_le _ hA
  have hfd := floatToInt_abs_le _ hD
  have hsum : |attacker.Strength + floatToInt attacker.AttackValue| ≤ 2 ^ 51 := by
    have := abs_add attacker.Strength (floatToInt attacker.AttackValue)
    omega
  have hbase : wrapInt (attacker.Strength + floatToInt attacker.AttackValue)
      = attacker.Strength + floatToInt attacker.AttackValue := by
    apply wrapInt_of_inRange
    have := abs_le.mp hsum
    unfold InIntRange MinInt64 MaxInt64
    constructor <;> omega
  have hb : |((attacker.Strength + floatToInt attacker.AttackValue : ℤ) : ℚ)| ≤ 2 ^ 51 := by
    exact_mod_cast hsum
  have hd : |((floatToInt defender.DefenseValue : ℤ) : ℚ)| ≤ 2 ^ 50 := by
    exact_mod_cast hfd
  have hm := bodyPartMultiplier_abs_le bodyPart
  have h1 := round64_abs_le _ _ hb
  have h2 : |round64 ((attacker.Strength + floatToInt attacker.AttackValue : ℤ) : ℚ)
      * bodyPartMultiplier bodyPart| ≤ 2 * 2 ^ 51 * 3 := by
    rw [abs_mul]
    exact mul_le_mul h1 hm (abs_nonneg _) (by norm_num)
  have h3 := round64_abs_le _ _ h2
  have h4 := round64_abs_le _ _ hd
  have h5 : |round64 (5 / 10)| ≤ 1 := by
    have := round64_abs_le (5 / 10) (1 / 2) (by rw [abs_of_pos] <;> norm_num)
    linarith
  have h6 : |round64 ((floatToInt defender.DefenseValue : ℤ) : ℚ) * round64 (5 / 10)|
      ≤ 2 * 2 ^ 50 * 1 := by
    rw [abs_mul]
    exact mul_le_mul h4 h5 (abs_nonneg _) (by norm_num)
  have h7 := round64_abs_le _ _ h6
  have h8 : |round64 (round64 ((attacker.Strength + floatToInt attacker.AttackValue : ℤ) : ℚ)
        * bodyPartMultiplier bodyPart)
      - round64 (round64 ((floatToInt defender.DefenseValue : ℤ) : ℚ) * round64 (5 / 10))|
      ≤ 2 * (2 * 2 ^ 51 * 3) + 2 * (2 * 2 ^ 50 * 1) :=
    le_trans (abs_sub _ _) (add_le_add h3 h7)
  have h9 := round64_abs_le _ _ h8
  unfold damageValue
  simp only [hbase]
  cases draw with
  | none =>
    simp only
    split
    · norm_num
    · exact lt_of_le_of_lt (le_abs_self _) (lt_of_le_of_lt h9 (by norm_num))
  | some r =>
    obtain ⟨hr0, hr1⟩ := hdraw r rfl
    have g1 : |round64 (2 / 10)| ≤ 1 := by
      have := round64_abs_le (2 / 10) (1 / 2) (by rw [abs_of_pos] <;> norm_num)
      linarith
    have g2 : |r * round64 (2 / 10)| ≤ 1 := by
      rw [abs_mul, abs_of_nonneg hr0]
      calc r * |round64 (2 / 10)| ≤ 1 * 1 := mul_le_mul hr1.le g1 (abs_nonneg _) (by norm_num)
        _ = 1 := by norm_num
    have g3 := round64_abs_le _ _ g2
    have g4 : |round64 (9 / 10)| ≤ 2 := by
      have := round64_abs_le (9 / 10) 1 (by rw [abs_of_pos] <;> norm_num)
      linarith
    have g5 : |round64 (9 / 10) + round64 (r * round64 (2 / 10))| ≤ 2 + 2 * 1 :=
      le_trans (abs_add _ _) (add_le_add g4 g3)
    have g6 := round64_abs_le _ _ g5
    have g7 : |round64 (round64 (round64
          ((attacker.Strength + floatToInt attacker.AttackValue : ℤ) : ℚ)
            * bodyPartMultiplier bodyPart)
          - round64 (round64 ((floatToInt defender.DefenseValue : ℤ) : ℚ) * round64 (5 / 10)))
        * round64 (round64 (9 / 10) + round64 (r * round64 (2 / 10)))|
        ≤ 2 * (2 * (2 * 2 ^ 51 * 3) + 2 * (2 * 2 ^ 50 * 1)) * (2 * (2 + 2 * 1)) := by
      rw [abs_mul]
      exact mul_le_mul h9 g6 (abs_nonneg _) (by norm_num)
    have g8 := round64_abs_le _ _ g7
    simp only
    split
    · norm_num
    · exact lt_of_le_of_lt (le_abs_self _) (lt_of_le_of_lt g8 (by norm_num))

/-! ## Damage floor -/



/-- C10 (as stated, refuted): an attacker whose strength is the largest `int`
hitting the head of a defender without defense: the damage value `1.5 × 2^63` does
not fit an `int`, and the conversion yields the smallest `int`. -/
theorem C10_counterexample_conversion_overflow :
    CalculateDamage none giantChar woundedChar "Голова" = MinInt64
      ∧ CalculateDamage (some (1 / 2)) giantChar woundedChar "Голова" = MinInt64
      ∧ ¬ (1 ≤ CalculateDamage none giantChar woundedChar "Голова") := by
  refine ⟨by decide!, by decide!, by decide!⟩

theorem damageValue_ge_one (draw : Option ℚ) (attacker defender : Character)
    (bodyPart : String) : 1 ≤ damageValue draw attacker defender bodyPart := by
  unfold damageValue
  simp only
  split
  · exact le_refl _
  · rename_i h
    exact not_lt.mp h

theorem CalculateDamage_ge_one_of_fit (draw : Option ℚ) (attacker defender : Character)
    (bodyPart : String) (hfit : damageValue draw attacker defender bodyPart < 2 ^ 63) :
    1 ≤ CalculateDamage draw attacker defender bodyPart := by
  have h1 := damageValue_ge_one draw attacker defender bodyPart
  have hpos : (0 : ℚ) ≤ damageValue draw attacker defender bodyPart := by linarith
  have htr : truncQ (damageValue draw attacker defender bodyPart)
      = ⌊damageValue draw attacker defender bodyPart⌋ := by
    unfold truncQ; rw [if_pos hpos]
  have hlo : (1 : Int) ≤ ⌊damageValue draw attacker defender bodyPart⌋ :=
    Int.le_floor.mpr (by exact_mod_cast h1)
  have hhi : ⌊damageValue draw attacker defender bodyPart⌋ < 2 ^ 63 :=
    Int.floor_lt.mpr (by exact_mod_cast hfit)
  unfold CalculateDamage floatToInt
  rw [htr, if_pos]
  · exact hlo
  · unfold MinInt64 MaxInt64
    constructor <;> omega

/-- C10 (amended): for every attacker and defender whose strength, attack value and
defense value have magnitude at most `2^50`, every body part and every random draw
in `[0, 1)` (or none, when the handler has no random source), `CalculateDamage`
returns an integer of at least 1 - also when the defender's defense exceeds the
attacker's base damage. -/
theorem C10_CalculateDamage_at_least_one (draw : Option ℚ) (attacker defender : Character)
    (bodyPart : String) (hStrength : |attacker.Strength| ≤ 2 ^ 50)
    (hAttack : |attacker.AttackValue| ≤ 2 ^ 50) (hDefense : |defender.DefenseValue| ≤ 2 ^ 50)
    (hdraw : ∀ r, draw = some r → 0 ≤ r ∧ r < 1) :
    1 ≤ CalculateDamage draw attacker defender bodyPart :=
  CalculateDamage_ge_one_of_fit draw attacker defender bodyPart
    (damageValue_lt draw attacker defender bodyPart hStrength hAttack hDefense hdraw)

/-- C10 witness: strength 14 plus attack 5 against defense 1000, on the legs, with
the smallest random factor: the damage is 1. -/
theorem C10_CalculateDamage_at_least_one_witness :
    (|fighterChar.Strength| ≤ 2 ^ 50 ∧ |fighterChar.AttackValue| ≤ 2 ^ 50
      ∧ |fortressChar.DefenseValue| ≤ 2 ^ 50
      ∧ ∀ r, (some 0 : Option ℚ) = some r → 0 ≤ r ∧ r < 1)
    ∧ 1 ≤ CalculateDamage (some 0) fighterChar fortressChar "Левая нога"
    ∧ CalculateDamage (some 0) fighterChar fortressChar "Левая нога" = 1 := by
  have h1 : |fighterChar.Strength| ≤ 2 ^ 50 := by decide
  have h2 : |fighterChar.AttackValue| ≤ 2 ^ 50 := by
    simp only [fighterChar]; rw [abs_of_pos (by norm_num)]; norm_num
  have h3 : |fortressChar.DefenseValue| ≤ 2 ^ 50 := by
    simp only [fortressChar]; rw [abs_of_pos (by norm_num)]; norm_num
  have h4 : ∀ r, (some 0 : Option ℚ) = some r → 0 ≤ r ∧ r < 1 := by
    intro r hr
    have : r = 0 := by simpa using hr.symm
    subst this
    norm_num
  exact ⟨⟨h1, h2, h3, h4⟩,
    C10_CalculateDamage_at_least_one (some 0) fighterChar fortressChar "Левая нога" h1 h2 h3 h4,
    by decide!⟩
/-! ## Monotonicity of the rounding -/

theorem ilog2_lt (q : ℚ) (hq : 0 < q) : q < pow2 (ilog2 q + 1) := by
  unfold ilog2
  split
  · rename_i h1
    have hfl : (1 : ℤ) ≤ ⌊q⌋ := Int.le_floor.mpr (by exact_mod_cast h1)
    have hcast : ((⌊q⌋.toNat : ℕ) : ℤ) = ⌊q⌋ := Int.toNat_of_nonneg (by omega)
    have hn : 1 ≤ ⌊q⌋.toNat := by omega
    obtain ⟨_, hhi⟩ := natLog2_spec _ hn
    rw [pow2_eq_zpow]
    have he : ((natLog2 ⌊q⌋.toNat : ℕ) : ℤ) + 1 = ((natLog2 ⌊q⌋.toNat + 1 : ℕ) : ℤ) := by
      push_cast; ring
    rw [he, zpow_natCast]
    have h2 := Int.lt_floor_add_one q
    have h4 : ((⌊q⌋.toNat : ℕ) : ℚ) + 1 ≤ (2 : ℚ) ^ (natLog2 ⌊q⌋.toNat + 1) := by
      have : ⌊q⌋.toNat + 1 ≤ 2 ^ (natLog2 ⌊q⌋.toNat + 1) := hhi
      exact_mod_cast this
    have h5 : ((⌊q⌋.toNat : ℕ) : ℚ) = ((⌊q⌋ : ℤ) : ℚ) := by rw [← hcast]; push_cast; rfl
    rw [h5] at h4
    linarith
  · rename_i h1
    have hq1 : q < 1 := not_le.mp h1
    have hinv : 1 < 1 / q := by rw [lt_div_iff₀ hq]; linarith
    have hfl : (1 : ℤ) ≤ ⌊1 / q⌋ := Int.le_floor.mpr (by exact_mod_cast hinv.le)
    have hcast : ((⌊1 / q⌋.toNat : ℕ) : ℤ) = ⌊1 / q⌋ := Int.toNat_of_nonneg (by omega)
    have hn : 1 ≤ ⌊1 / q⌋.toNat := by omega
    obtain ⟨hlo, _⟩ := natLog2_spec _ hn
    have hpk : (0 : ℚ) < 2 ^ natLog2 ⌊1 / q⌋.toNat := by positivity
    have hle : (2 : ℚ) ^ natLog2 ⌊1 / q⌋.toNat ≤ 1 / q := by
      calc (2 : ℚ) ^ natLog2 ⌊1 / q⌋.toNat
          = ((2 ^ natLog2 ⌊1 / q⌋.toNat : ℕ) : ℚ) := by push_cast; rfl
        _ ≤ ((⌊1 / q⌋.toNat : ℕ) : ℚ) := by exact_mod_cast hlo
        _ = ((⌊1 / q⌋ : ℤ) : ℚ) := by rw [← hcast]; push_cast; rfl
        _ ≤ 1 / q := Int.floor_le _
    have hqk : q * 2 ^ natLog2 ⌊1 / q⌋.toNat ≤ 1 := by
      rw [le_div_iff₀ hq] at hle
      linarith
    simp only
    split
    · rename_i heq
      rw [pow2_eq_zpow, zpow_natCast] at heq
      rw [pow2_eq_zpow, zpow_add₀ (by norm_num), zpow_neg, zpow_natCast, zpow_one]
      have hqe : q = ((2 : ℚ) ^ natLog2 ⌊1 / q⌋.toNat)⁻¹ := eq_inv_of_mul_eq_one_left heq
      have hpos : 0 < ((2 : ℚ) ^ natLog2 ⌊1 / q⌋.toNat)⁻¹ := by positivity
      linarith
    · rename_i hne
      rw [pow2_eq_zpow, zpow_natCast] at hne
      rw [pow2_eq_zpow]
      have he : -(natLog2 ⌊1 / q⌋.toNat : ℤ) - 1 + 1 = -(natLog2 ⌊1 / q⌋.toNat : ℤ) := by ring
      rw [he, zpow_neg, zpow_natCast]
      have hlt : q * 2 ^ natLog2 ⌊1 / q⌋.toNat < 1 := lt_of_le_of_ne hqk hne
      rw [lt_inv_comm₀ hq hpk, ← one_div, lt_div_iff₀ hq]
      linarith

theorem ilog2_mono {q1 q2 : ℚ} (h1 : 0 < q1) (h : q1 ≤ q2) : ilog2 q1 ≤ ilog2 q2 := by
  have a := ilog2_le q1 h1
  have b := ilog2_lt q2 (lt_of_lt_of_le h1 h)
  have c : pow2 (ilog2 q1) < pow2 (ilog2 q2 + 1) := lt_of_le_of_lt (le_trans a h) b
  rw [pow2_eq_zpow, pow2_eq_zpow, zpow_lt_zpow_iff_right₀ (by norm_num)] at c
  omega

theorem roundNE_floor_le (x : ℚ) : ⌊x⌋ ≤ roundNE x := by
  unfold roundNE
  simp only
  split_ifs <;> omega

theorem roundNE_le_floor_add_one (x : ℚ) : roundNE x ≤ ⌊x⌋ + 1 := by
  unfold roundNE
  simp only
  split_ifs <;> omega

theorem roundNE_intCast (n : ℤ) : roundNE (n : ℚ) = n := by
  unfold roundNE
  simp

theorem roundNE_mono {x y : ℚ} (h : x ≤ y) : roundNE x ≤ roundNE y := by
  have hf : ⌊x⌋ ≤ ⌊y⌋ := Int.floor_mono h
  rcases lt_or_eq_of_le hf with hlt | heq
  · calc roundNE x ≤ ⌊x⌋ + 1 := roundNE_le_floor_add_one x
      _ ≤ ⌊y⌋ := by omega
      _ ≤ roundNE y := roundNE_floor_le y
  · unfold roundNE
    simp only
    rw [heq]
    split_ifs <;> first | omega | (exfalso; linarith)

theorem roundNE_neg (x : ℚ) : roundNE (-x) = -roundNE x := by
  by_cases hx : ((⌊x⌋ : ℤ) : ℚ) = x
  · rw [← hx, ← Int.cast_neg, roundNE_intCast, roundNE_intCast]
  · have h1 := Int.floor_le x
    have h2 := Int.lt_floor_add_one x
    have h3 : ((⌊x⌋ : ℤ) : ℚ) < x := lt_of_le_of_ne h1 hx
    have hfl : ⌊-x⌋ = -⌊x⌋ - 1 := by
      rw [Int.floor_eq_iff]
      push_cast
      constructor <;> linarith
    unfold roundNE
    simp only
    rw [hfl]
    push_cast
    split_ifs <;> first | omega | (exfalso; linarith)

theorem roundFloat_neg (p : ℕ) (q : ℚ) : roundFloat p (-q) = -roundFloat p q := by
  unfold roundFloat
  by_cases hq : q = 0
  · simp [hq]
  · have hq2 : -q ≠ 0 := neg_ne_zero.mpr hq
    simp only [hq, hq2, if_false, abs_neg, neg_div, roundNE_neg]
    push_cast
    ring

theorem pow2_split (p : ℕ) (hp : 1 ≤ p) (l : ℤ) :
    pow2 l = ((2 ^ (p - 1) : ℕ) : ℚ) * pow2 (l - ((p : ℤ) - 1)) := by
  rw [pow2_eq_zpow, pow2_eq_zpow]
  have h1 : ((p : ℤ) - 1) = ((p - 1 : ℕ) : ℤ) := by omega
  have h2 : l = ((p - 1 : ℕ) : ℤ) + (l - ((p : ℤ) - 1)) := by omega
  conv_lhs => rw [h2]
  rw [zpow_add₀ (by norm_num), zpow_natCast]
  push_cast
  rfl

theorem roundFloat_bounds (p : ℕ) (hp : 1 ≤ p) (q : ℚ) (hq : 0 < q) :
    pow2 (ilog2 q) ≤ roundFloat p q ∧ roundFloat p q ≤ pow2 (ilog2 q + 1) := by
  have hlo := ilog2_le q hq
  have hhi := ilog2_lt q hq
  have hP : 0 < pow2 (ilog2 q - ((p : ℤ) - 1)) := pow2_pos _
  have hs := pow2_split p hp (ilog2 q)
  have hs2 : pow2 (ilog2 q + 1)
      = ((2 * 2 ^ (p - 1) : ℕ) : ℚ) * pow2 (ilog2 q - ((p : ℤ) - 1)) := by
    rw [pow2_eq_zpow, zpow_add₀ (by norm_num), zpow_one, ← pow2_eq_zpow, hs]
    push_cast
    ring
  have hx1 : ((2 ^ (p - 1) : ℕ) : ℚ) ≤ q / pow2 (ilog2 q - ((p : ℤ) - 1)) := by
    rw [le_div_iff₀ hP, ← hs]
    exact hlo
  have hx2 : q / pow2 (ilog2 q - ((p : ℤ) - 1)) < ((2 * 2 ^ (p - 1) : ℕ) : ℚ) := by
    rw [div_lt_iff₀ hP, ← hs2]
    exact hhi
  have hf1 : ((2 ^ (p - 1) : ℕ) : ℤ) ≤ ⌊q / pow2 (ilog2 q - ((p : ℤ) - 1))⌋ :=
    Int.le_floor.mpr (by exact_mod_cast hx1)
  have hf2 : ⌊q / pow2 (ilog2 q - ((p : ℤ) - 1))⌋ < ((2 * 2 ^ (p - 1) : ℕ) : ℤ) :=
    Int.floor_lt.mpr (by exact_mod_cast hx2)
  have hr1 := roundNE_floor_le (q / pow2 (ilog2 q - ((p : ℤ) - 1)))
  have hr2 := roundNE_le_floor_add_one (q / pow2 (ilog2 q - ((p : ℤ) - 1)))
  have hr3 : ((2 ^ (p - 1) : ℕ) : ℤ) ≤ roundNE (q / pow2 (ilog2 q - ((p : ℤ) - 1))) := by omega
  have hr4 : roundNE (q / pow2 (ilog2 q - ((p : ℤ) - 1))) ≤ ((2 * 2 ^ (p - 1) : ℕ) : ℤ) := by
    omega
  have hr5 : ((2 ^ (p - 1) : ℕ) : ℚ)
      ≤ (roundNE (q / pow2 (ilog2 q - ((p : ℤ) - 1))) : ℚ) := by exact_mod_cast hr3
  have hr6 : (roundNE (q / pow2 (ilog2 q - ((p : ℤ) - 1))) : ℚ)
      ≤ ((2 * 2 ^ (p - 1) : ℕ) : ℚ) := by exact_mod_cast hr4
  unfold roundFloat
  rw [if_neg hq.ne', abs_of_pos hq]
  simp only
  rw [hs2]
  conv_lhs => rw [hs]
  exact ⟨mul_le_mul_of_nonneg_right hr5 hP.le, mul_le_mul_of_nonneg_right hr6 hP.le⟩

theorem roundFloat_nonneg (p : ℕ) (hp : 1 ≤ p) (q : ℚ) (hq : 0 ≤ q) : 0 ≤ roundFloat p q := by
  rcases eq_or_lt_of_le hq with h | h
  · rw [← h]; simp [roundFloat]
  · exact le_trans (pow2_pos _).le (roundFloat_bounds p hp q h).1

theorem roundFloat_mono_pos (p : ℕ) (hp : 1 ≤ p) (q1 q2 : ℚ) (h1 : 0 < q1) (h : q1 ≤ q2) :
    roundFloat p q1 ≤ roundFloat p q2 := by
  have h2 : 0 < q2 := lt_of_lt_of_le h1 h
  rcases lt_or_eq_of_le (ilog2_mono h1 h) with hlt | heq
  · calc roundFloat p q1 ≤ pow2 (ilog2 q1 + 1) := (roundFloat_bounds p hp q1 h1).2
      _ ≤ pow2 (ilog2 q2) := by
          rw [pow2_eq_zpow, pow2_eq_zpow]
          exact zpow_le_zpow_right₀ (by norm_num) (by omega)
      _ ≤ roundFloat p q2 := (roundFloat_bounds p hp q2 h2).1
  · unfold roundFloat
    rw [if_neg h1.ne', if_neg h2.ne', abs_of_pos h1, abs_of_pos h2, heq]
    simp only
    have hP : 0 < pow2 (ilog2 q2 - ((p : ℤ) - 1)) := pow2_pos _
    apply mul_le_mul_of_nonneg_right _ hP.le
    have : roundNE (q1 / pow2 (ilog2 q2 - ((p : ℤ) - 1)))
        ≤ roundNE (q2 / pow2 (ilog2 q2 - ((p : ℤ) - 1))) :=
      roundNE_mono (div_le_div_of_nonneg_right h hP.le)
    exact_mod_cast this

theorem roundFloat_mono (p : ℕ) (hp : 1 ≤ p) (q1 q2 : ℚ) (h : q1 ≤ q2) :
    roundFloat p q1 ≤ roundFloat p q2 := by
  rcases lt_trichotomy 0 q1 with h1 | h1 | h1
  · exact roundFloat_mono_pos p hp q1 q2 h1 h
  · rw [← h1] at h ⊢
    have : roundFloat p 0 = 0 := by simp [roundFloat]
    rw [this]
    exact roundFloat_nonneg p hp q2 h
  · rcases le_or_lt 0 q2 with h2 | h2
    · have a : 0 ≤ roundFloat p (-q1) := roundFloat_nonneg p hp (-q1) (by linarith)
      rw [roundFloat_neg] at a
      have b := roundFloat_nonneg p hp q2 h2
      linarith
    · have a := roundFloat_mono_pos p hp (-q2) (-q1) (by linarith) (by linarith)
      rw [roundFloat_neg, roundFloat_neg] at a
      linarith

theorem round64_mono {q1 q2 : ℚ} (h : q1 ≤ q2) : round64 q1 ≤ round64 q2 :=
  roundFloat_mono 53 (by norm_num) q1 q2 h

theorem round64_nonneg {q : ℚ} (h : 0 ≤ q) : 0 ≤ round64 q :=
  roundFloat_nonneg 53 (by norm_num) q h

theorem truncQ_mono {q1 q2 : ℚ} (h : q1 ≤ q2) : truncQ q1 ≤ truncQ q2 := by
  unfold truncQ
  split_ifs with a b b
  · exact Int.floor_mono h
  · exact absurd (le_trans a h) b
  · have h1 : ⌈q1⌉ ≤ 0 := Int.ceil_le.mpr (by push_cast; linarith)
    have h2 : 0 ≤ ⌊q2⌋ := Int.floor_nonneg.mpr b
    omega
  · exact Int.ceil_mono h

/-! ## Damage grows with the attacker's stats -/

theorem floatToInt_of_abs_le (q : ℚ) (h : |q| ≤ 2 ^ 50) : floatToInt q = truncQ q := by
  have h1 : |(truncQ q : ℚ)| ≤ 2 ^ 50 := le_trans (truncQ_abs_le q) h
  have h2 : |truncQ q| ≤ 2 ^ 50 := by exact_mod_cast h1
  have h3 := abs_le.mp h2
  unfold floatToInt
  rw [if_pos]
  unfold MinInt64 MaxInt64
  constructor <;> omega

theorem bodyPartMultiplier_nonneg (bodyPart : String) : 0 ≤ bodyPartMultiplier bodyPart := by
  unfold bodyPartMultiplier
  split_ifs <;> exact round64_nonneg (by norm_num)

theorem baseDamage_eq (attacker : Character) (hS : |attacker.Strength| ≤ 2 ^ 50)
    (hA : |attacker.AttackValue| ≤ 2 ^ 50) :
    wrapInt (attacker.Strength + floatToInt attacker.AttackValue)
      = attacker.Strength + truncQ attacker.AttackValue := by
  have hfa := floatToInt_abs_le _ hA
  rw [floatToInt_of_abs_le _ hA] at hfa ⊢
  apply wrapInt_of_inRange
  have h1 := abs_le.mp hS
  have h2 := abs_le.mp hfa
  unfold InIntRange MinInt64 MaxInt64
  constructor <;> omega

theorem randomFactor_nonneg (r : ℚ) (hr : 0 ≤ r) : 0 ≤ randomFactor r := by
  unfold randomFactor
  apply round64_nonneg
  have h1 : 0 ≤ round64 (9 / 10) := round64_nonneg (by norm_num)
  have h2 : 0 ≤ round64 (2 / 10) := round64_nonneg (by norm_num)
  have h3 : 0 ≤ round64 (r * round64 (2 / 10)) := round64_nonneg (mul_nonneg hr h2)
  linarith

theorem damageValue_mono (draw : Option ℚ) (a1 a2 defender : Character) (bodyPart : String)
    (hS1 : |a1.Strength| ≤ 2 ^ 50) (hA1 : |a1.AttackValue| ≤ 2 ^ 50)
    (hS2 : |a2.Strength| ≤ 2 ^ 50) (hA2 : |a2.AttackValue| ≤ 2 ^ 50)
    (hdraw : ∀ r, draw = some r → 0 ≤ r ∧ r < 1)
    (hS : a1.Strength ≤ a2.Strength) (hA : a1.AttackValue ≤ a2.AttackValue) :
    damageValue draw a1 defender bodyPart ≤ damageValue draw a2 defender bodyPart := by
  have hb : a1.Strength + truncQ a1.AttackValue ≤ a2.Strength + truncQ a2.AttackValue :=
    add_le_add hS (truncQ_mono hA)
  have hbq : ((a1.Strength + truncQ a1.AttackValue : ℤ) : ℚ)
      ≤ ((a2.Strength + truncQ a2.AttackValue : ℤ) : ℚ) := by exact_mod_cast hb
  have hm := bodyPartMultiplier_nonneg bodyPart
  have h1 := round64_mono (mul_le_mul_of_nonneg_right (round64_mono hbq) hm)
  have h2 := round64_mono (sub_le_sub_right h1
    (round64 (round64 (floatToInt defender.DefenseValue : ℚ) * round64 (5 / 10))))
  unfold damageValue
  simp only [baseDamage_eq a1 hS1 hA1, baseDamage_eq a2 hS2 hA2]
  cases draw with
  | none =>
    simp only
    split_ifs with c1 c2 c2
    · exact le_refl _
    · exact not_lt.mp c2
    · linarith
    · exact h2
  | some r =>
    obtain ⟨hr0, _⟩ := hdraw r rfl
    have hf := randomFactor_nonneg r hr0
    unfold randomFactor at hf
    have h3 := round64_mono (mul_le_mul_of_nonneg_right h2 hf)
    simp only
    split_ifs with c1 c2 c2
    · exact le_refl _
    · exact not_lt.mp c2
    · linarith
    · exact h3

theorem CalculateDamage_eq_floor (draw : Option ℚ) (attacker defender : Character)
    (bodyPart : String) (hfit : damageValue draw attacker defender bodyPart < 2 ^ 63) :
    CalculateDamage draw attacker defender bodyPart
      = ⌊damageValue draw attacker defender bodyPart⌋ := by
  have h1 := damageValue_ge_one draw attacker defender bodyPart
  have hpos : (0 : ℚ) ≤ damageValue draw attacker defender bodyPart := by linarith
  have htr : truncQ (damageValue draw attacker defender bodyPart)
      = ⌊damageValue draw attacker defender bodyPart⌋ := by
    unfold truncQ; rw [if_pos hpos]
  have hlo : (1 : Int) ≤ ⌊damageValue draw attacker defender bodyPart⌋ :=
    Int.le_floor.mpr (by exact_mod_cast h1)
  have hhi : ⌊damageValue draw attacker defender bodyPart⌋ < 2 ^ 63 :=
    Int.floor_lt.mpr (by exact_mod_cast hfit)
  unfold CalculateDamage floatToInt
  rw [htr, if_pos]
  unfold MinInt64 MaxInt64
  constructor <;> omega

/-- C11 (as stated, refuted): against a defender with 1000 defense an attacker of
strength 15 deals the same damage, 1, as one of strength 14, because the damage is
floored at 1; and raising the attack value from 5 to 5.5 changes nothing, because
the attack value is truncated to an integer before it is used. -/
theorem C11_counterexample_no_strict_increase :
    CalculateDamage none recruitChar fortressChar "Тело" = 1
      ∧ CalculateDamage none { recruitChar with Strength := 15 } fortressChar "Тело" = 1
      ∧ ¬ (CalculateDamage none recruitChar fortressChar "Тело"
            < CalculateDamage none { recruitChar with Strength := 15 } fortressChar "Тело")
      ∧ CalculateDamage (some (1 / 2)) recruitChar shieldedChar "Тело" = 18
      ∧ CalculateDamage (some (1 / 2)) { recruitChar with AttackValue := 11 / 2 }
          shieldedChar "Тело" = 18
      ∧ ¬ (CalculateDamage (some (1 / 2)) recruitChar shieldedChar "Тело"
            < CalculateDamage (some (1 / 2)) { recruitChar with AttackValue := 11 / 2 }
                shieldedChar "Тело") := by
  refine ⟨by decide!, by decide!, by decide!, by decide!, by decide!, by decide!⟩

/-- C11 (amended): for every fixed defender, body part and random draw in `[0, 1)`
(or none), and every two attackers of which the second has at least the strength
and at least the attack value of the first, all stats being of magnitude at most
`2^50`, `CalculateDamage` for the second attacker is greater than or equal to
`CalculateDamage` for the first. -/
theorem C11_CalculateDamage_monotone (draw : Option ℚ) (a1 a2 defender : Character)
    (bodyPart : String) (h1 : a1.CombatBounded) (h2 : a2.CombatBounded)
    (hd : defender.CombatBounded) (hdraw : ∀ r, draw = some r → 0 ≤ r ∧ r < 1)
    (hS : a1.Strength ≤ a2.Strength) (hA : a1.AttackValue ≤ a2.AttackValue) :
    CalculateDamage draw a1 defender bodyPart ≤ CalculateDamage draw a2 defender bodyPart := by
  obtain ⟨hS1, hA1, _⟩ := h1
  obtain ⟨hS2, hA2, _⟩ := h2
  obtain ⟨_, _, hD⟩ := hd
  rw [CalculateDamage_eq_floor draw a1 defender bodyPart
      (damageValue_lt draw a1 defender bodyPart hS1 hA1 hD hdraw),
    CalculateDamage_eq_floor draw a2 defender bodyPart
      (damageValue_lt draw a2 defender bodyPart hS2 hA2 hD hdraw)]
  exact Int.floor_mono
    (damageValue_mono draw a1 a2 defender bodyPart hS1 hA1 hS2 hA2 hdraw hS hA)

/-- C11 witness: against a defender with 2.5 defense, on the head with the random
factor 1.0, strength 15 deals at least the damage of strength 14. -/
theorem C11_CalculateDamage_monotone_witness :
    CalculateDamage (some (1 / 2)) recruitChar shieldedChar "Голова"
      ≤ CalculateDamage (some (1 / 2)) { recruitChar with Strength := 15 } shieldedChar
          "Голова" :=
  C11_CalculateDamage_monotone (some (1 / 2)) recruitChar { recruitChar with Strength := 15 }
    shieldedChar "Голова" (by decide!) (by decide!) (by decide!)
    (by intro r hr; cases hr; constructor <;> norm_num) (by decide) (le_refl _)

/-! ## The damage formula -/

theorem bodyPartMultiplier_eq (bodyPart : String) :
    bodyPartMultiplier bodyPart = round64 (specMultiplier bodyPart) := by
  unfold bodyPartMultiplier specMultiplier
  split_ifs <;> norm_num

theorem randomFactor_range (r : ℚ) (h0 : 0 ≤ r) (h1 : r < 1) :
    round64 (9 / 10) ≤ randomFactor r ∧ randomFactor r ≤ round64 (11 / 10) := by
  have hc : 0 ≤ round64 (2 / 10) := round64_nonneg (by norm_num)
  have e1 : round64 (round64 (9 / 10)) = round64 (9 / 10) := by decide!
  have e2 : round64 (round64 (2 / 10)) = round64 (2 / 10) := by decide!
  have e3 : round64 (round64 (9 / 10) + round64 (2 / 10)) = round64 (11 / 10) := by decide!
  have a : 0 ≤ round64 (r * round64 (2 / 10)) := round64_nonneg (mul_nonneg h0 hc)
  have b : round64 (r * round64 (2 / 10)) ≤ round64 (2 / 10) := by
    have : r * round64 (2 / 10) ≤ round64 (2 / 10) := by nlinarith
    have := round64_mono this
    rwa [e2] at this
  unfold randomFactor
  constructor
  · have := round64_mono (show round64 (9 / 10)
        ≤ round64 (9 / 10) + round64 (r * round64 (2 / 10)) by linarith)
    rwa [e1] at this
  · have := round64_mono (show round64 (9 / 10) + round64 (r * round64 (2 / 10))
        ≤ round64 (9 / 10) + round64 (2 / 10) by linarith)
    rwa [e3] at this

theorem floor_clamp (d : ℚ) : ⌊(if d < 1 then 1 else d)⌋ = max 1 ⌊d⌋ := by
  split_ifs with h
  · have : ⌊d⌋ < 1 := Int.floor_lt.mpr (by exact_mod_cast h)
    rw [max_eq_left (by omega)]
    exact Int.floor_one
  · have : (1 : ℤ) ≤ ⌊d⌋ := Int.le_floor.mpr (by exact_mod_cast not_lt.mp h)
    rw [max_eq_right this]

theorem damageValue_eq (draw : Option ℚ) (attacker defender : Character) (bodyPart : String)
    (hS : |attacker.Strength| ≤ 2 ^ 50) (hA : |attacker.AttackValue| ≤ 2 ^ 50)
    (hD : |defender.DefenseValue| ≤ 2 ^ 50)
    (hA0 : 0 ≤ attacker.AttackValue) (hD0 : 0 ≤ defender.DefenseValue) :
    damageValue draw attacker defender bodyPart
      = match draw with
        | some r =>
          (if round64 (flooredValue attacker.Strength attacker.AttackValue
                defender.DefenseValue (bodyPartMultiplier bodyPart) * randomFactor r) < 1
            then 1
            else round64 (flooredValue attacker.Strength attacker.AttackValue
                defender.DefenseValue (bodyPartMultiplier bodyPart) * randomFactor r))
        | none =>
          (if flooredValue attacker.Strength attacker.AttackValue
                defender.DefenseValue (bodyPartMultiplier bodyPart) < 1
            then 1
            else flooredValue attacker.Strength attacker.AttackValue
                defender.DefenseValue (bodyPartMultiplier bodyPart)) := by
  have hta : truncQ attacker.AttackValue = ⌊attacker.AttackValue⌋ := by
    unfold truncQ; rw [if_pos hA0]
  have htd : floatToInt defender.DefenseValue = ⌊defender.DefenseValue⌋ := by
    rw [floatToInt_of_abs_le _ hD]; unfold truncQ; rw [if_pos hD0]
  have hhalf : (5 : ℚ) / 10 = 1 / 2 := by norm_num
  unfold damageValue flooredValue randomFactor
  simp only [baseDamage_eq attacker hS hA, hta, htd, hhalf]
  cases draw with
  | none => simp only [Int.cast_add]
  | some r => simp only [Int.cast_add]

/-- C12 (as stated, refuted): strength 10 against a defense of 2.5 on the torso with
the random factor exactly 1.0 (draw 0.5): the code halves the integer part of the
defense, `10 - 2*0.5 = 9`, where the formula of the claim gives
`floor(10 - 2.5*0.5) = 8`.  And without any defense the float64 evaluation can
still differ from exact arithmetic: strength 4 on a leg with the factor just below
0.9375 gives `3.2 * f = 3.0` after rounding, hence 3, where the exact product is
below 3 and the formula gives 2, whether `m` is 0.8 or its float64 value. -/
theorem C12_counterexample_defense_floored_first :
    randomFactor (1 / 2) = 1
      ∧ CalculateDamage (some (1 / 2)) { recruitChar with Strength := 10, AttackValue := 0 }
          shieldedChar "Тело" = 9
      ∧ specDamage 10 0 shieldedChar.DefenseValue (specMultiplier "Тело")
          (randomFactor (1 / 2)) = 8
      ∧ (9 / 10 ≤ randomFactor oddDraw ∧ randomFactor oddDraw ≤ 11 / 10)
      ∧ CalculateDamage (some oddDraw) noviceChar bareChar "Левая нога" = 3
      ∧ specDamage 4 0 bareChar.DefenseValue (specMultiplier "Левая нога")
          (randomFactor oddDraw) = 2
      ∧ specDamage 4 0 bareChar.DefenseValue (round64 (specMultiplier "Левая нога"))
          (randomFactor oddDraw) = 2 := by
  refine ⟨by decide!, by decide!, by decide!, by decide!, by decide!, by decide!, by decide!⟩

/-- C12 (amended): for every attacker and defender whose strength, attack value and
defense value have magnitude at most `2^50`, with attack and defense values not
negative, every body part and every random draw `r` in `[0, 1)`, `CalculateDamage`
returns `max(1, floor(((strength + floor(attack)) * m - floor(defense) * 0.5) * f))`
evaluated in float64, where the factor `f = 0.9 + r*0.2` lies between the float64
values of 0.9 and 1.1 and `m` is the float64 value of 1.5 for the head, 1.0 for the
torso, 0.8 for either leg, 0.9 for either arm and 1.0 for any other string; without
a random source the factor is absent. -/
theorem C12_CalculateDamage_formula (attacker defender : Character) (bodyPart : String)
    (ha : attacker.CombatBounded) (hd : defender.CombatBounded)
    (hA0 : 0 ≤ attacker.AttackValue) (hD0 : 0 ≤ defender.DefenseValue) :
    (∀ r : ℚ, 0 ≤ r → r < 1 →
        CalculateDamage (some r) attacker defender bodyPart
            = flooredDamage attacker.Strength attacker.AttackValue defender.DefenseValue
                (round64 (specMultiplier bodyPart)) (some (randomFactor r))
          ∧ round64 (9 / 10) ≤ randomFactor r ∧ randomFactor r ≤ round64 (11 / 10))
      ∧ CalculateDamage none attacker defender bodyPart
          = flooredDamage attacker.Strength attacker.AttackValue defender.DefenseValue
              (round64 (specMultiplier bodyPart)) none := by
  obtain ⟨hS, hA, _⟩ := ha
  obtain ⟨_, _, hD⟩ := hd
  constructor
  · intro r h0 h1
    have hdraw : ∀ r', some r = some r' → 0 ≤ r' ∧ r' < 1 := by
      intro r' hr; cases hr; exact ⟨h0, h1⟩
    refine ⟨?_, randomFactor_range r h0 h1⟩
    rw [CalculateDamage_eq_floor _ _ _ _
        (damageValue_lt (some r) attacker defender bodyPart hS hA hD hdraw),
      damageValue_eq (some r) attacker defender bodyPart hS hA hD hA0 hD0,
      ← bodyPartMultiplier_eq]
    exact floor_clamp _
  · have hdraw : ∀ r', (none : Option ℚ) = some r' → 0 ≤ r' ∧ r' < 1 := by
      intro r' hr; cases hr
    rw [CalculateDamage_eq_floor _ _ _ _
        (damageValue_lt none attacker defender bodyPart hS hA hD hdraw),
      damageValue_eq none attacker defender bodyPart hS hA hD hA0 hD0,
      ← bodyPartMultiplier_eq]
    exact floor_clamp _

/-- C12 witness: strength 10 against a defense of 2.5 on the torso with the random
factor 1.0: the formula with the floored defense gives 9, as the code does. -/
theorem C12_CalculateDamage_formula_witness :
    CalculateDamage (some (1 / 2)) { recruitChar with Strength := 10, AttackValue := 0 }
        shieldedChar "Тело"
      = flooredDamage 10 0 (5 / 2) (round64 (specMultiplier "Тело"))
          (some (randomFactor (1 / 2)))
    ∧ flooredDamage 10 0 (5 / 2) (round64 (specMultiplier "Тело"))
          (some (randomFactor (1 / 2))) = 9 :=
  ⟨((C12_CalculateDamage_formula { recruitChar with Strength := 10, AttackValue := 0 }
      shieldedChar "Тело" (by decide!) (by decide!) (by decide!) (by decide!)).1
      (1 / 2) (by norm_num) (by norm_num)).1, by decide!⟩

/-! ## Blocked strikes -/

/-- A call of `SimpleStrike` that returns at its guard (a nil combatant, or a defender
whose HP is 0 or less) draws no body part and reports no block. -/
theorem SimpleStrike_at_guard (draw : Option ℚ) (attacker defender : Option Character)
    (attackPart blockPart : String) (roll : ℚ)
    (hnone : SimpleStrike.picks attacker defender attackPart blockPart = none) :
    SimpleStrike draw attacker defender attackPart blockPart roll = (0, false, defender) := by
  unfold SimpleStrike.picks at hnone
  unfold SimpleStrike
  cases attacker with
  | none => rfl
  | some a =>
    cases defender with
    | none => rfl
    | some d =>
      by_cases hd : d.CurrentHP ≤ 0
      · simp only [hd, if_true]
      · simp [hd] at hnone

/-- C13: for every attacker and defender (nil or not), whatever their stats and HP, the
random draw and the dodge roll: if the body part the attacker picks equals the body
part the defender picks, `SimpleStrike` returns damage 0 and blocked = true, and the
defender, so also the defender's HP, is unchanged.  (The parts are picked by
`attacker.Hit()` and `defender.Block()` after the guard of `SimpleStrike`; a call that
returns at the guard picks none.) -/
theorem C13_SimpleStrike_blocked (draw : Option ℚ) (attacker defender : Option Character)
    (attackPart blockPart : String) (roll : ℚ) (part : String)
    (hpicks : SimpleStrike.picks attacker defender attackPart blockPart
      = some (part, part)) :
    SimpleStrike draw attacker defender attackPart blockPart roll = (0, true, defender) := by
  unfold SimpleStrike.picks at hpicks
  unfold SimpleStrike
  cases attacker with
  | none => simp at hpicks
  | some a =>
    cases defender with
    | none => simp at hpicks
    | some d =>
      by_cases hd : d.CurrentHP ≤ 0
      · simp [hd] at hpicks
      · simp only [hd, if_false, Option.some.injEq, Prod.mk.injEq] at hpicks
        obtain ⟨h1, h2⟩ := hpicks
        simp only [hd, if_false, h1, h2, if_true]

/-- C13 witness: a head strike against a living defender who blocks the head. -/
theorem C13_SimpleStrike_blocked_witness :
    SimpleStrike.picks (some recruitChar) (some shieldedChar) "Голова" "Голова"
        = some ("Голова", "Голова")
      ∧ SimpleStrike (some (1 / 2)) (some recruitChar) (some shieldedChar) "Голова" "Голова"
          (1 / 2) = (0, true, some shieldedChar) :=
  ⟨by decide, C13_SimpleStrike_blocked (some (1 / 2)) (some recruitChar) (some shieldedChar)
    "Голова" "Голова" (1 / 2) "Голова" (by decide)⟩

/-! ## Damage taken -/

theorem Character.TakeDamage_of_nonpos (c : Character) (damage : Int) (roll : ℚ)
    (h : damage ≤ 0) : c.TakeDamage damage roll = c := by
  unfold Character.TakeDamage
  by_cases hneg : damage < 0
  · simp only [hneg, if_true]
  · have hzero : damage = 0 := by omega
    subst hzero
    simp

theorem Character.TakeDamage_of_dodge (c : Character) (damage : Int) (roll : ℚ)
    (h : roll < c.dodgeChance) : c.TakeDamage damage roll = c := by
  unfold Character.dodgeChance at h
  unfold Character.TakeDamage
  by_cases hneg : damage < 0
  · simp only [hneg, if_true]
  · by_cases hzero : damage = 0
    · subst hzero; simp
    · simp only [hneg, hzero, h, if_true, if_false]

theorem Character.TakeDamage_of_hit (c : Character) (damage : Int) (roll : ℚ)
    (hpos : 0 < damage) (hmiss : ¬ roll < c.dodgeChance) :
    c.TakeDamage damage roll
      = { c with CurrentHP := max MinHP (wrapInt (c.CurrentHP
          - max 1 (wrapInt (damage - floatToInt c.DefenseValue)))) } := by
  unfold Character.dodgeChance at hmiss
  have hneg : ¬ damage < 0 := by omega
  have hzero : ¬ damage = 0 := by omega
  by_cases hsmall : wrapInt (damage - floatToInt c.DefenseValue) < 1
  · rw [max_eq_left (show wrapInt (damage - floatToInt c.DefenseValue) ≤ 1 by omega)]
    unfold Character.TakeDamage
    simp only [hneg, hzero, hmiss, hsmall, if_true, if_false]
  · rw [max_eq_right (show 1 ≤ wrapInt (damage - floatToInt c.DefenseValue) by omega)]
    unfold Character.TakeDamage
    simp only [hneg, hzero, hmiss, hsmall, if_true, if_false]

/-- C14 (as stated, refuted): a character whose defense field is -0.5 takes 5
damage that is not dodged: the conversion `int(-0.5)` truncates to 0, so the HP
drops from 50 to 45, where the formula of the claim, with `floor(-0.5) = -1`,
gives 44. -/
theorem C14_counterexample_negative_defense :
    ¬ (1 < cursedChar.dodgeChance)
      ∧ (cursedChar.TakeDamage 5 1).CurrentHP = 45
      ∧ max 0 (cursedChar.CurrentHP - max 1 (5 - ⌊cursedChar.DefenseValue⌋)) = 44 := by
  refine ⟨by decide!, by decide!, by decide!⟩

/-- C14 (amended): for every character with `CurrentHP ≥ 0` and a defense value in
`[0, 2^63)`, and every positive damage that is not dodged, `TakeDamage` sets
`CurrentHP` to `max(0, CurrentHP - max(1, damage - floor(defense)))` and changes no
other field; for every character, with damage `≤ 0`, or when the dodge roll
succeeds (`roll < float32(agility) * 0.01`), the character is entirely unchanged;
and a character at 0 HP stays at 0 HP under any further `TakeDamage`. -/
theorem C14_TakeDamage_effect (c : Character) (damage : Int) (roll : ℚ)
    (hdamage : InIntRange damage) (hhp : InIntRange c.CurrentHP) :
    (0 < damage → ¬ roll < c.dodgeChance → 0 ≤ c.CurrentHP → 0 ≤ c.DefenseValue →
        c.DefenseValue < 2 ^ 63 →
        c.TakeDamage damage roll
          = { c with CurrentHP := max 0 (c.CurrentHP - max 1 (damage - ⌊c.DefenseValue⌋)) })
      ∧ (damage ≤ 0 → c.TakeDamage damage roll = c)
      ∧ (roll < c.dodgeChance → c.TakeDamage damage roll = c)
      ∧ (c.CurrentHP = 0 → (c.TakeDamage damage roll).CurrentHP = 0) := by
  refine ⟨?_, Character.TakeDamage_of_nonpos c damage roll,
    Character.TakeDamage_of_dodge c damage roll, ?_⟩
  · intro hpos hmiss hhp0 hd0 hd1
    have hfl0 : 0 ≤ ⌊c.DefenseValue⌋ := Int.floor_nonneg.mpr hd0
    have hfl1 : ⌊c.DefenseValue⌋ < 2 ^ 63 := Int.floor_lt.mpr (by exact_mod_cast hd1)
    have hconv : floatToInt c.DefenseValue = ⌊c.DefenseValue⌋ := by
      unfold floatToInt truncQ
      rw [if_pos hd0, if_pos]
      unfold MinInt64 MaxInt64
      constructor <;> omega
    unfold InIntRange MinInt64 MaxInt64 at hdamage hhp
    have hw1 : wrapInt (damage - ⌊c.DefenseValue⌋) = damage - ⌊c.DefenseValue⌋ := by
      apply wrapInt_of_inRange
      unfold InIntRange MinInt64 MaxInt64
      constructor <;> omega
    have hw2 : wrapInt (c.CurrentHP - max 1 (damage - ⌊c.DefenseValue⌋))
        = c.CurrentHP - max 1 (damage - ⌊c.DefenseValue⌋) := by
      apply wrapInt_of_inRange
      unfold InIntRange MinInt64 MaxInt64
      have h1 : 1 ≤ max 1 (damage - ⌊c.DefenseValue⌋) := le_max_left _ _
      have h2 : max 1 (damage - ⌊c.DefenseValue⌋) ≤ 2 ^ 63 - 1 := max_le (by norm_num) (by omega)
      constructor <;> omega
    rw [Character.TakeDamage_of_hit c damage roll hpos hmiss, hconv, hw1, hw2]
    rfl
  · intro hzero
    rcases Character.TakeDamage_cases c damage roll with h | ⟨ad, had1, had2, h⟩
    · rw [h]; exact hzero
    · rw [h]
      simp only [MinHP, hzero]
      unfold MaxInt64 at had2
      rw [wrapInt_of_inRange _ (by unfold InIntRange MinInt64 MaxInt64; constructor <;> omega)]
      omega

/-- C14 witness: 12 damage, not dodged, on a fresh PvP fighter with 100 HP and no
defense leaves 88 HP and changes nothing else. -/
theorem C14_TakeDamage_effect_witness :
    (pvpChar "Bob").TakeDamage 12 (1 / 2)
        = { pvpChar "Bob" with CurrentHP := max 0 ((pvpChar "Bob").CurrentHP
            - max 1 (12 - ⌊(pvpChar "Bob").DefenseValue⌋)) }
      ∧ ((pvpChar "Bob").TakeDamage 12 (1 / 2)).CurrentHP = 88 :=
  ⟨(C14_TakeDamage_effect (pvpChar "Bob") 12 (1 / 2) (by decide) (by decide)).1
    (by decide) (by decide!) (by decide) (by decide!) (by decide!), by decide!⟩

/-! ## Inventory operations -/

theorem Inventory.AddItem_cases (h : Heap) (inv : Inventory) (p : Ptr) :
    ((inv.Capacity ≤ (inv.Items.length : Int))
        ∧ inv.AddItem h (some p) = (.error .inventoryFull, inv))
      ∨ (((inv.Items.length : Int) < inv.Capacity) ∧ (h p).IsEquipped = true
        ∧ inv.AddItem h (some p) = (.error .alreadyEquipped, inv))
      ∨ (((inv.Items.length : Int) < inv.Capacity) ∧ (h p).IsEquipped = false
        ∧ inv.AddItem h (some p) = (.ok (), { inv with Items := inv.Items ++ [some p] })) := by
  unfold Inventory.AddItem
  by_cases hfull : (inv.Items.length : Int) ≥ inv.Capacity
  · left
    exact ⟨hfull, by simp only [hfull, if_true]⟩
  · right
    have hlt : (inv.Items.length : Int) < inv.Capacity := not_le.mp hfull
    cases hflag : (h p).IsEquipped with
    | true => left; exact ⟨hlt, rfl, by simp [hfull, hflag]⟩
    | false => right; exact ⟨hlt, rfl, by simp [hfull, hflag]⟩

theorem Inventory.AddItem_sound (h : Heap) (inv : Inventory) (item : Option Ptr)
    (hs : inv.Sound h) : (inv.AddItem h item).2.Sound h := by
  cases item with
  | none => exact hs
  | some p =>
    rcases Inventory.AddItem_cases h inv p with ⟨_, e⟩ | ⟨_, _, e⟩ | ⟨hlt, hflag, e⟩
    · rw [e]; exact hs
    · rw [e]; exact hs
    · rw [e]
      obtain ⟨h1, h2⟩ := hs
      constructor
      · simp only [List.length_append, List.length_singleton]
        push_cast
        omega
      · intro x hx
        rcases List.mem_append.mp hx with hx | hx
        · exact h2 x hx
        · exact ⟨p, by simpa using hx, hflag⟩

theorem removeItemLoop_ok (h : Heap) (itemID : Int) :
    ∀ (items before : List (Option Ptr)) (p : Ptr) (l : List (Option Ptr)),
      removeItemLoop h itemID before items = .ok (p, l) →
      l.length + 1 = before.length + items.length ∧ ∀ x ∈ l, x ∈ before ++ items := by
  intro items
  induction items with
  | nil => intro before p l hr; simp [removeItemLoop] at hr
  | cons x rest ih =>
    intro before p l hr
    cases x with
    | none =>
      simp only [removeItemLoop] at hr
      obtain ⟨a, b⟩ := ih _ p l hr
      refine ⟨by simp at a ⊢; omega, ?_⟩
      intro y hy
      simpa using b y hy
    | some q =>
      simp only [removeItemLoop] at hr
      cases hq : (h q).Template with
      | none => simp [hq] at hr
      | some t =>
        simp only [hq] at hr
        by_cases hid : t.ID = itemID
        · simp only [hid, if_true] at hr
          cases hflag : (h q).IsEquipped with
          | true => simp [hflag] at hr
          | false =>
            simp only [hflag] at hr
            have hl : before ++ rest = l := by
              have := hr
              simp at this
              exact this.2
            subst hl
            refine ⟨by simp; omega, ?_⟩
            intro y hy
            rcases List.mem_append.mp hy with hy | hy
            · exact List.mem_append_left _ hy
            · exact List.mem_append_right _ (List.mem_cons_of_mem _ hy)
        · simp only [hid, if_false] at hr
          obtain ⟨a, b⟩ := ih _ p l hr
          refine ⟨by simp at a ⊢; omega, ?_⟩
          intro y hy
          simpa using b y hy

theorem Inventory.RemoveItem_sound (h : Heap) (inv : Inventory) (itemID : Int)
    (hs : inv.Sound h) : (inv.RemoveItem h itemID).2.Sound h := by
  unfold Inventory.RemoveItem
  cases hr : removeItemLoop h itemID [] inv.Items with
  | error e => exact hs
  | panic => exact hs
  | ok v =>
    obtain ⟨p, l⟩ := v
    obtain ⟨a, b⟩ := removeItemLoop_ok h itemID inv.Items [] p l hr
    obtain ⟨h1, h2⟩ := hs
    simp only [List.length_nil, zero_add, List.nil_append] at a b
    constructor
    · show (l.length : Int) ≤ inv.Capacity
      omega
    · intro x hx
      exact h2 x (b x hx)

theorem removeItemLoop_not_error (h : Heap) (itemID : Int) (p : Ptr)
    (hflag : (h p).IsEquipped = false) :
    ∀ (items before : List (Option Ptr)), findItemByIDLoop h itemID items = some p →
      ∀ e, removeItemLoop h itemID before items ≠ .error e := by
  intro items
  induction items with
  | nil => intro before hf; simp [findItemByIDLoop] at hf
  | cons x rest ih =>
    intro before hf e
    cases x with
    | none =>
      simp only [findItemByIDLoop] at hf
      simp only [removeItemLoop]
      exact ih _ hf e
    | some q =>
      simp only [findItemByIDLoop] at hf
      simp only [removeItemLoop]
      cases hq : (h q).Template with
      | none => simp
      | some t =>
        simp only [hq] at hf
        by_cases hid : t.ID = itemID
        · simp only [hid, if_true] at hf
          have : q = p := by simpa using hf
          subst this
          simp [hid, hflag]
        · simp only [hid, if_false] at hf
          simp only [hid, if_false]
          exact ih _ hf e

theorem findItemByIDLoop_append (h : Heap) (itemID : Int) (p : Ptr)
    (extra : List (Option Ptr)) :
    ∀ items, findItemByIDLoop h itemID items = some p →
      findItemByIDLoop h itemID (items ++ extra) = some p := by
  intro items
  induction items with
  | nil => intro hf; simp [findItemByIDLoop] at hf
  | cons x rest ih =>
    intro hf
    cases x with
    | none =>
      simp only [findItemByIDLoop] at hf
      simp only [List.cons_append, findItemByIDLoop]
      exact ih hf
    | some q =>
      simp only [findItemByIDLoop] at hf
      simp only [List.cons_append, findItemByIDLoop]
      cases hq : (h q).Template with
      | none =>
        simp only [hq] at hf
        exact ih hf
      | some t =>
        simp only [hq] at hf
        by_cases hid : t.ID = itemID
        · simp only [hid, if_true] at hf
          simp only [hid, if_true, hf]
        · simp only [hid, if_false] at hf
          simp only [hid, if_false]
          exact ih hf

theorem Inventory.RemoveItem_not_error (h : Heap) (inv : Inventory) (itemID : Int) (p : Ptr)
    (hflag : (h p).IsEquipped = false) (hf : findItemByIDLoop h itemID inv.Items = some p)
    (e : Err) (inv1 : Inventory) : inv.RemoveItem h itemID ≠ (.error e, inv1) := by
  unfold Inventory.RemoveItem
  cases hr : removeItemLoop h itemID [] inv.Items with
  | error e1 => exact absurd hr (removeItemLoop_not_error h itemID p hflag _ _ hf e1)
  | panic => simp
  | ok v => simp

/-! ## Transfers -/

/-- A transfer that returns an error leaves the source and the target as they
were, and the error is one of the four guards. -/
theorem Inventory.TransferItem_error_same (h : Heap) (inv : Inventory) (itemID : Int)
    (target : TransferTarget) (e : Err)
    (herr : (inv.TransferItem h itemID target).1 = .error e) :
    inv.TransferItem h itemID target = (.error e, inv, target)
      ∧ (e = .targetMissing ∨ e = .transferNotFound ∨ e = .transferEquipped
          ∨ e = .transferFailed .inventoryFull) := by
  cases target with
  | missing =>
    simp only [Inventory.TransferItem] at herr ⊢
    have : Err.targetMissing = e := by simpa using herr
    subst this
    exact ⟨rfl, Or.inl rfl⟩
  | self =>
    unfold Inventory.TransferItem at herr ⊢
    simp only at herr ⊢
    cases hfind : inv.FindItemByID h itemID with
    | none =>
      simp only [hfind] at herr ⊢
      have : Err.transferNotFound = e := by simpa using herr
      subst this
      exact ⟨rfl, Or.inr (Or.inl rfl)⟩
    | some p =>
      simp only [hfind] at herr ⊢
      cases hflag : (h p).IsEquipped with
      | true =>
        simp only [hflag, if_true] at herr ⊢
        have : Err.transferEquipped = e := by simpa using herr
        subst this
        exact ⟨rfl, Or.inr (Or.inr (Or.inl rfl))⟩
      | false =>
        simp only [hflag] at herr ⊢
        rcases Inventory.AddItem_cases h inv p with ⟨_, ea⟩ | ⟨_, hf, _⟩ | ⟨_, _, ea⟩
        · simp only [ea] at herr ⊢
          have : Err.transferFailed .inventoryFull = e := by simpa using herr
          subst this
          exact ⟨rfl, Or.inr (Or.inr (Or.inr rfl))⟩
        · rw [hflag] at hf; cases hf
        · simp only [ea] at herr ⊢
          exfalso
          have hf2 : findItemByIDLoop h itemID
              ({ inv with Items := inv.Items ++ [some p] } : Inventory).Items = some p :=
            findItemByIDLoop_append h itemID p [some p] inv.Items hfind
          have hne := Inventory.RemoveItem_not_error h
            { inv with Items := inv.Items ++ [some p] } itemID p hflag hf2
          cases hr : Inventory.RemoveItem h { inv with Items := inv.Items ++ [some p] } itemID with
          | mk r inv2 =>
            cases r with
            | ok v => simp [hr] at herr
            | panic => simp [hr] at herr
            | error e2 => exact hne e2 inv2 hr
  | other tgt =>
    unfold Inventory.TransferItem at herr ⊢
    simp only at herr ⊢
    cases hfind : inv.FindItemByID h itemID with
    | none =>
      simp only [hfind] at herr ⊢
      have : Err.transferNotFound = e := by simpa using herr
      subst this
      exact ⟨rfl, Or.inr (Or.inl rfl)⟩
    | some p =>
      simp only [hfind] at herr ⊢
      cases hflag : (h p).IsEquipped with
      | true =>
        simp only [hflag, if_true] at herr ⊢
        have : Err.transferEquipped = e := by simpa using herr
        subst this
        exact ⟨rfl, Or.inr (Or.inr (Or.inl rfl))⟩
      | false =>
        simp only [hflag] at herr ⊢
        rcases Inventory.AddItem_cases h tgt p with ⟨_, ea⟩ | ⟨_, hf, _⟩ | ⟨_, _, ea⟩
        · simp only [ea] at herr ⊢
          have : Err.transferFailed .inventoryFull = e := by simpa using herr
          subst this
          exact ⟨rfl, Or.inr (Or.inr (Or.inr rfl))⟩
        · rw [hflag] at hf; cases hf
        · simp only [ea] at herr ⊢
          exfalso
          have hne := Inventory.RemoveItem_not_error h inv itemID p hflag hfind
          cases hr : Inventory.RemoveItem h inv itemID with
          | mk r inv2 =>
            cases r with
            | ok v => simp [hr] at herr
            | panic => simp [hr] at herr
            | error e2 => exact hne e2 inv2 hr

/-- C15: whenever `TransferItem` returns an error, the source and the target (the
item lists included) are exactly what they were before the call, for a missing
target, the source itself or another inventory as the target, and the error is one
of: target missing, item not found, item equipped, target full; in particular with
a full target the call fails and the source still contains the item. -/
theorem C15_TransferItem_error_keeps_lists (h : Heap) (inv : Inventory) (itemID : Int)
    (target : TransferTarget) :
    (∀ e, (inv.TransferItem h itemID target).1 = .error e →
        (inv.TransferItem h itemID target).2.1 = inv
          ∧ (inv.TransferItem h itemID target).2.2 = target
          ∧ (inv.TransferItem h itemID target).2.1.Items = inv.Items
          ∧ (inv.TransferItem h itemID target).2.2.items
              (inv.TransferItem h itemID target).2.1 = target.items inv
          ∧ (e = .targetMissing ∨ e = .transferNotFound ∨ e = .transferEquipped
              ∨ e = .transferFailed .inventoryFull))
      ∧ (∀ tgt p, target = .other tgt → inv.FindItemByID h itemID = some p →
          (h p).IsEquipped = false → tgt.Capacity ≤ (tgt.Items.length : Int) →
          inv.TransferItem h itemID target
              = (.error (.transferFailed .inventoryFull), inv, .other tgt)
            ∧ some p ∈ (inv.TransferItem h itemID target).2.1.Items) := by
  constructor
  · intro e herr
    obtain ⟨h1, h2⟩ := Inventory.TransferItem_error_same h inv itemID target e herr
    rw [h1]
    exact ⟨rfl, rfl, rfl, rfl, h2⟩
  · intro tgt p ht hfind hflag hfull
    subst ht
    have hfull2 : (tgt.Items.length : Int) ≥ tgt.Capacity := hfull
    have e1 : inv.TransferItem h itemID (.other tgt)
        = (.error (.transferFailed .inventoryFull), inv, .other tgt) := by
      unfold Inventory.TransferItem
      simp only [hfind, hflag, Inventory.AddItem, hfull2, if_true]
      rfl
    rw [e1]
    exact ⟨rfl, findItemByIDLoop_mem h itemID p inv.Items hfind⟩

/-- C15 witness: moving the sword into an inventory that is full fails, and the
source still holds the sword. -/
theorem C15_TransferItem_error_keeps_lists_witness :
    (sourceBag.TransferItem swordHeap 1 (.other fullBag)).1
        = .error (.transferFailed .inventoryFull)
      ∧ (sourceBag.TransferItem swordHeap 1 (.other fullBag)).2.1 = sourceBag
      ∧ (sourceBag.TransferItem swordHeap 1 (.other fullBag)).2.2 = .other fullBag
      ∧ some 0 ∈ (sourceBag.TransferItem swordHeap 1 (.other fullBag)).2.1.Items :=
  have a := (C15_TransferItem_error_keeps_lists swordHeap sourceBag 1 (.other fullBag)).1
    (.transferFailed .inventoryFull) (by decide)
  have b := (C15_TransferItem_error_keeps_lists swordHeap sourceBag 1 (.other fullBag)).2
    fullBag 0 rfl (by decide) (by decide) (by decide)
  ⟨by decide, a.1, a.2.1, b.2⟩

/-! ## Adding items -/

/-- C16: `AddItem` returns an error and leaves the inventory unchanged when the item
is nil, when the list already holds at least `Capacity` items, or when the item's
equipped flag is true; otherwise it returns no error, the new list is the old list
with the item appended at the end, and the capacity is unchanged.  An inventory with
20 of 20 items rejects every item. -/
theorem C16_AddItem_behaviour (h : Heap) (inv : Inventory) :
    (inv.AddItem h none = (.error .nilItem, inv))
      ∧ (∀ p, inv.Capacity ≤ (inv.Items.length : Int) →
          inv.AddItem h (some p) = (.error .inventoryFull, inv))
      ∧ (∀ p, (inv.Items.length : Int) < inv.Capacity → (h p).IsEquipped = true →
          inv.AddItem h (some p) = (.error .alreadyEquipped, inv))
      ∧ (∀ p, (inv.Items.length : Int) < inv.Capacity → (h p).IsEquipped = false →
          inv.AddItem h (some p) = (.ok (), { inv with Items := inv.Items ++ [some p] }))
      ∧ (∀ item, (∃ e, (inv.AddItem h item).1 = .error e)
          ↔ (item = none ∨ inv.Capacity ≤ (inv.Items.length : Int)
              ∨ ∃ p, item = some p ∧ (h p).IsEquipped = true))
      ∧ (∀ p, inv.Capacity = 20 → inv.Items.length = 20 →
          inv.AddItem h (some p) = (.error .inventoryFull, inv)) := by
  have full : ∀ p, inv.Capacity ≤ (inv.Items.length : Int) →
      inv.AddItem h (some p) = (.error .inventoryFull, inv) := by
    intro p hfull
    rcases Inventory.AddItem_cases h inv p with ⟨_, e⟩ | ⟨hlt, _, _⟩ | ⟨hlt, _, _⟩
    · exact e
    · omega
    · omega
  have flagged : ∀ p, (inv.Items.length : Int) < inv.Capacity → (h p).IsEquipped = true →
      inv.AddItem h (some p) = (.error .alreadyEquipped, inv) := by
    intro p hlt hflag
    rcases Inventory.AddItem_cases h inv p with ⟨hfull, _⟩ | ⟨_, _, e⟩ | ⟨_, hf, _⟩
    · omega
    · exact e
    · rw [hflag] at hf; cases hf
  have fine : ∀ p, (inv.Items.length : Int) < inv.Capacity → (h p).IsEquipped = false →
      inv.AddItem h (some p) = (.ok (), { inv with Items := inv.Items ++ [some p] }) := by
    intro p hlt hflag
    rcases Inventory.AddItem_cases h inv p with ⟨hfull, _⟩ | ⟨_, hf, _⟩ | ⟨_, _, e⟩
    · omega
    · rw [hflag] at hf; cases hf
    · exact e
  refine ⟨rfl, full, flagged, fine, ?_, ?_⟩
  · intro item
    cases item with
    | none => exact ⟨fun _ => Or.inl rfl, fun _ => ⟨.nilItem, rfl⟩⟩
    | some p =>
      by_cases hfull : inv.Capacity ≤ (inv.Items.length : Int)
      · rw [full p hfull]
        exact ⟨fun _ => Or.inr (Or.inl hfull), fun _ => ⟨.inventoryFull, rfl⟩⟩
      · have hlt : (inv.Items.length : Int) < inv.Capacity := not_le.mp hfull
        cases hflag : (h p).IsEquipped with
        | true =>
          rw [flagged p hlt hflag]
          exact ⟨fun _ => Or.inr (Or.inr ⟨p, rfl, hflag⟩), fun _ => ⟨.alreadyEquipped, rfl⟩⟩
        | false =>
          rw [fine p hlt hflag]
          constructor
          · rintro ⟨e, he⟩; cases he
          · rintro (h1 | h1 | ⟨q, hq, hq2⟩)
            · cases h1
            · exact absurd h1 hfull
            · cases hq; rw [hflag] at hq2; cases hq2
  · intro p hcap hlen
    exact full p (by rw [hcap, hlen]; norm_num)

/-- C16 witness: an inventory with 20 of 20 items rejects an item; one with room
appends it at the end. -/
theorem C16_AddItem_behaviour_witness :
    crowdedBag.Capacity = 20 ∧ crowdedBag.Items.length = 20
      ∧ crowdedBag.AddItem swordHeap (some 3) = (.error .inventoryFull, crowdedBag)
      ∧ sourceBag.AddItem swordHeap (some 3)
          = (.ok (), { sourceBag with Items := sourceBag.Items ++ [some 3] }) :=
  ⟨rfl, rfl, (C16_AddItem_behaviour swordHeap crowdedBag).2.2.2.2.2 3 rfl rfl,
    (C16_AddItem_behaviour swordHeap sourceBag).2.2.2.1 3 (by decide) (by decide)⟩

/-! ## The inventory invariant -/

theorem NewInventory_sound (h : Heap) (capacity : Int) : (NewInventory capacity).Sound h := by
  unfold NewInventory Inventory.Sound
  constructor
  · simp only [List.length_nil]
    split_ifs <;> omega
  · intro x hx; simp at hx

theorem Inventory.TransferItem_sound (h : Heap) (inv : Inventory) (itemID : Int)
    (target : TransferTarget) (hs : inv.Sound h)
    (ht : ∀ tgt, target = .other tgt → tgt.Sound h) :
    (inv.TransferItem h itemID target).2.1.Sound h
      ∧ ∀ tgt1, (inv.TransferItem h itemID target).2.2 = .other tgt1 → tgt1.Sound h := by
  cases target with
  | missing =>
    simp only [Inventory.TransferItem]
    exact ⟨hs, by intro tgt1 h1; cases h1⟩
  | self =>
    refine ⟨?_, ?_⟩
    · unfold Inventory.TransferItem
      simp only
      split
      · exact hs
      · split
        · exact hs
        · have s1 := Inventory.AddItem_sound h inv (some ‹Ptr›) hs
          split
          · rename_i heq; rw [heq] at s1; exact s1
          · rename_i heq; rw [heq] at s1; exact s1
          · rename_i inv1 heq
            rw [heq] at s1
            have s2 := Inventory.RemoveItem_sound h inv1 itemID s1
            split
            · rename_i heq2; rw [heq2] at s2; exact s2
            · rename_i heq2; rw [heq2] at s2; exact s2
            · rename_i inv2 heq2
              rw [heq2] at s2
              split
              · exact s2
              · rename_i t _
                have s3 := Inventory.RemoveItem_sound h inv2 t.ID s2
                split
                · rename_i heq3; rw [heq3] at s3; exact s3
                · rename_i heq3; rw [heq3] at s3; exact s3
                · rename_i q inv3 heq3
                  rw [heq3] at s3
                  exact Inventory.AddItem_sound h inv3 (some q) s3
    · intro tgt1 h1
      exfalso
      unfold Inventory.TransferItem at h1
      simp only at h1
      repeat' split at h1
      all_goals cases h1
  | other tgt =>
    have hst := ht tgt rfl
    unfold Inventory.TransferItem
    simp only
    split
    · exact ⟨hs, by intro tgt1 h1; cases h1; exact hst⟩
    · split
      · exact ⟨hs, by intro tgt1 h1; cases h1; exact hst⟩
      · have s1 := Inventory.AddItem_sound h tgt (some ‹Ptr›) hst
        split
        · rename_i heq; rw [heq] at s1
          exact ⟨hs, by intro tgt1 h1; cases h1; exact s1⟩
        · rename_i heq; rw [heq] at s1
          exact ⟨hs, by intro tgt1 h1; cases h1; exact s1⟩
        · rename_i tgt1 heq
          rw [heq] at s1
          have s2 := Inventory.RemoveItem_sound h inv itemID hs
          split
          · rename_i heq2; rw [heq2] at s2
            exact ⟨s2, by intro tgt2 h1; cases h1; exact s1⟩
          · rename_i heq2; rw [heq2] at s2
            exact ⟨s2, by intro tgt2 h1; cases h1; exact s1⟩
          · rename_i inv1 heq2
            rw [heq2] at s2
            split
            · exact ⟨s2, by intro tgt2 h1; cases h1; exact s1⟩
            · rename_i t _
              have s3 := Inventory.RemoveItem_sound h tgt1 t.ID s1
              split
              · rename_i heq3; rw [heq3] at s3
                exact ⟨s2, by intro tgt2 h1; cases h1; exact s3⟩
              · rename_i heq3; rw [heq3] at s3
                exact ⟨s2, by intro tgt2 h1; cases h1; exact s3⟩
              · rename_i q tgt2 heq3
                rw [heq3] at s3
                exact ⟨Inventory.AddItem_sound h inv1 (some q) s2,
                  by intro tgt3 h1; cases h1; exact s3⟩

theorem allSound_set (h : Heap) (invs : List Inventory) (i : Nat) (v : Inventory)
    (hall : ∀ inv ∈ invs, inv.Sound h) (hv : v.Sound h) :
    ∀ inv ∈ invs.set i v, inv.Sound h := by
  intro inv hmem
  rcases List.mem_or_eq_of_mem_set hmem with hm | hm
  · exact hall inv hm
  · rw [hm]; exact hv

theorem applyInventoryOp_sound (h : Heap) (invs : List Inventory) (op : InventoryOp)
    (hall : ∀ inv ∈ invs, inv.Sound h) :
    ∀ inv ∈ applyInventoryOp h invs op, inv.Sound h := by
  cases op with
  | add i item =>
    simp only [applyInventoryOp]
    cases hi : invs.get? i with
    | none => exact hall
    | some inv0 =>
      have h0 := hall inv0 (List.get?_mem hi)
      exact allSound_set h invs i _ hall (Inventory.AddItem_sound h inv0 item h0)
  | remove i itemID =>
    simp only [applyInventoryOp]
    cases hi : invs.get? i with
    | none => exact hall
    | some inv0 =>
      have h0 := hall inv0 (List.get?_mem hi)
      exact allSound_set h invs i _ hall (Inventory.RemoveItem_sound h inv0 itemID h0)
  | transfer i itemID target =>
    simp only [applyInventoryOp]
    cases hi : invs.get? i with
    | none => exact hall
    | some inv0 =>
      have h0 := hall inv0 (List.get?_mem hi)
      cases target with
      | none =>
        exact allSound_set h invs i _ hall
          (Inventory.TransferItem_sound h inv0 itemID .missing h0
            (by intro tgt ht; cases ht)).1
      | some j =>
        simp only
        by_cases hji : j = i
        · simp only [hji, if_true]
          exact allSound_set h invs i _ hall
            (Inventory.TransferItem_sound h inv0 itemID .self h0
              (by intro tgt ht; cases ht)).1
        · simp only [hji, if_false]
          cases hj : invs.get? j with
          | none => exact hall
          | some tgt =>
            have ht := hall tgt (List.get?_mem hj)
            have hs := Inventory.TransferItem_sound h inv0 itemID (.other tgt) h0
              (by intro tgt2 h2; cases h2; exact ht)
            simp only
            split
            · rename_i r inv1 tgt1 heq
              rw [heq] at hs
              exact allSound_set h _ j _ (allSound_set h invs i _ hall hs.1) (hs.2 tgt1 rfl)
            · rename_i r inv1 x hx heq
              rw [heq] at hs
              exact allSound_set h invs i _ hall hs.1

theorem runInventoryOps_sound (h : Heap) (ops : List InventoryOp) :
    ∀ invs : List Inventory, (∀ inv ∈ invs, inv.Sound h) →
      ∀ inv ∈ runInventoryOps h invs ops, inv.Sound h := by
  induction ops with
  | nil => intro invs hall; exact hall
  | cons op rest ih =>
    intro invs hall
    exact ih _ (applyInventoryOp_sound h invs op hall)

/-- C17: starting from inventories `NewInventory(c)` for any integers `c`, after
every sequence of `AddItem`, `RemoveItem` and `TransferItem` calls (successful or
failing, between two inventories, onto the same inventory or to a missing target,
with any arguments), each inventory holds at most `Capacity` items and holds no item
whose equipped flag is true (and no nil entry). -/
theorem C17_inventory_invariant (h : Heap) (capacities : List Int) (ops : List InventoryOp)
    (inv : Inventory)
    (hmem : inv ∈ runInventoryOps h (capacities.map NewInventory) ops) :
    (inv.Items.length : Int) ≤ inv.Capacity
      ∧ (∀ p, some p ∈ inv.Items → (h p).IsEquipped = false)
      ∧ none ∉ inv.Items := by
  have hall : ∀ inv ∈ capacities.map NewInventory, inv.Sound h := by
    intro inv0 h0
    obtain ⟨c, _, hc⟩ := List.mem_map.mp h0
    rw [← hc]
    exact NewInventory_sound h c
  obtain ⟨h1, h2⟩ := runInventoryOps_sound h ops _ hall inv hmem
  refine ⟨h1, ?_, ?_⟩
  · intro p hp
    obtain ⟨q, hq, hflag⟩ := h2 (some p) hp
    cases hq
    exact hflag
  · intro hn
    obtain ⟨q, hq, _⟩ := h2 none hn
    cases hq

/-- C17 witness: two inventories of capacity 2 and 1 after nine calls, successful
and failing. -/
theorem C17_inventory_invariant_witness :
    runInventoryOps swordHeap ([2, 1].map NewInventory) sampleOps
        = [{ Items := [some 1], Capacity := 2 }, { Items := [], Capacity := 1 }]
      ∧ ((1 : Int) ≤ 2 ∧ (∀ p, some p ∈ [some 1] → (swordHeap p).IsEquipped = false)
          ∧ none ∉ [some 1]) :=
  ⟨by decide, C17_inventory_invariant swordHeap [2, 1] sampleOps
    { Items := [some 1], Capacity := 2 } (by decide)⟩

/-! ## Equipping -/

theorem Equipment.isValidItemForSlot_iff (h : Heap) (p : Ptr) (t : ItemTemplate)
    (ht : (h p).Template = some t) (slot : EquipmentSlot) :
    Equipment.isValidItemForSlot h (some p) slot = true
      ↔ t.Slot ≠ SlotNone ∧ slotAccepts slot t.Typ := by
  unfold Equipment.isValidItemForSlot slotAccepts
  simp only [ht]
  unfold SlotWeapon SlotHead SlotBody SlotHands SlotFeet SlotBoots SlotAccessory SlotNone
  by_cases h0 : t.Slot = 6
  · simp [h0]
  · by_cases h1 : slot = 0
    · subst h1; simp [h0]
    · by_cases h2 : slot = 1 ∨ slot = 2 ∨ slot = 3 ∨ slot = 4 ∨ slot = 7
      · have h5 : ¬ slot = 5 := by
          intro h5
          rw [h5] at h2
          norm_num at h2
        simp [h0, h1, h2, h5]
      · by_cases h3 : slot = 5
        · subst h3; simp [h0]
        · simp [h0, h1, h2, h3]

/-- Outcome of `Equip`: success with the item stored under its template slot and
flagged, or no success and nothing changed. -/
theorem Equipment.Equip_cases (h : Heap) (e : Equipment) (item : Option Ptr) :
    (∃ p t, item = some p ∧ (h p).Template = some t ∧ t.Slot ≠ SlotNone
        ∧ slotAccepts t.Slot t.Typ ∧ e.GetItem t.Slot = none ∧ e.NilMap = false
        ∧ e.Equip h item
            = (.ok (), h.setEquipped p true, { e with Slots := e.Slots.set t.Slot (some p) }))
      ∨ ((e.Equip h item).1 ≠ .ok () ∧ (e.Equip h item).2 = (h, e)
          ∧ ¬ ∃ p t, item = some p ∧ (h p).Template = some t ∧ t.Slot ≠ SlotNone
              ∧ slotAccepts t.Slot t.Typ ∧ e.GetItem t.Slot = none)
      ∨ (∃ p t, item = some p ∧ (h p).Template = some t ∧ t.Slot ≠ SlotNone
          ∧ slotAccepts t.Slot t.Typ ∧ e.GetItem t.Slot = none ∧ e.NilMap = true
          ∧ e.Equip h item = (.panic, h.setEquipped p true, e)) := by
  cases item with
  | none =>
    right; left
    refine ⟨by simp [Equipment.Equip], by simp [Equipment.Equip], ?_⟩
    rintro ⟨p, t, hp, _⟩
    cases hp
  | some p =>
    cases ht : (h p).Template with
    | none =>
      right; left
      refine ⟨by simp [Equipment.Equip, ht], by simp [Equipment.Equip, ht], ?_⟩
      rintro ⟨p1, t, hp, ht1, _⟩
      cases hp
      rw [ht] at ht1
      cases ht1
    | some t =>
      have hiff := Equipment.isValidItemForSlot_iff h p t ht t.Slot
      by_cases hnone : t.Slot = SlotNone
      · right; left
        refine ⟨by simp [Equipment.Equip, ht, hnone], by simp [Equipment.Equip, ht, hnone], ?_⟩
        rintro ⟨p1, t1, hp, ht1, hn, _⟩
        cases hp
        rw [ht] at ht1
        cases ht1
        exact hn hnone
      · cases hvalid : Equipment.isValidItemForSlot h (some p) t.Slot with
        | false =>
          right; left
          refine ⟨by simp [Equipment.Equip, ht, hnone, hvalid],
            by simp [Equipment.Equip, ht, hnone, hvalid], ?_⟩
          rintro ⟨p1, t1, hp, ht1, _, hacc, _⟩
          cases hp
          rw [ht] at ht1
          cases ht1
          have := hiff.mpr ⟨hnone, hacc⟩
          rw [hvalid] at this
          cases this
        | true =>
          have hacc := (hiff.mp hvalid).2
          cases hcur : e.GetItem t.Slot with
          | none =>
            cases hnil : e.NilMap with
            | false =>
              left
              exact ⟨p, t, rfl, ht, hnone, hacc, hcur, rfl,
                by simp [Equipment.Equip, ht, hnone, hvalid, hcur, hnil]⟩
            | true =>
              right; right
              exact ⟨p, t, rfl, ht, hnone, hacc, hcur, rfl,
                by simp [Equipment.Equip, ht, hnone, hvalid, hcur, hnil]⟩
          | some cur =>
            right; left
            refine ⟨?_, ?_, ?_⟩
            · cases hc : (h cur).Template <;> simp [Equipment.Equip, ht, hnone, hvalid, hcur, hc]
            · cases hc : (h cur).Template <;> simp [Equipment.Equip, ht, hnone, hvalid, hcur, hc]
            · rintro ⟨p1, t1, hp, ht1, _, _, hempty⟩
              cases hp
              rw [ht] at ht1
              cases ht1
              rw [hcur] at hempty
              cases hempty

/-- C18 (as stated, refuted): the zero value `Equipment{}` has a nil slot map.  For
the helmet (non-nil item and template, head slot, armor, slot empty) all conditions
of the claim hold, yet `Equip` does not succeed: it sets the helmet's equipped flag
and panics in the map write, so the call fails with the flag changed. -/
theorem C18_counterexample_nil_map :
    zeroEquipment.NilMap = true
      ∧ (∃ p t, (some 1 : Option Ptr) = some p ∧ (armoryHeap p).Template = some t
          ∧ t.Slot ≠ SlotNone ∧ slotAccepts t.Slot t.Typ ∧ zeroEquipment.GetItem t.Slot = none)
      ∧ (zeroEquipment.Equip armoryHeap (some 1)).1 = .panic
      ∧ (zeroEquipment.Equip armoryHeap (some 1)).1 ≠ .ok ()
      ∧ (armoryHeap 1).IsEquipped = false
      ∧ ((zeroEquipment.Equip armoryHeap (some 1)).2.1 1).IsEquipped = true := by
  refine ⟨rfl, ⟨1, helmetTemplate, rfl, by decide!, by decide, by decide, by decide⟩,
    by decide!, by decide!, by decide!, by decide!⟩

/-- C18 (amended): for every equipment whose slot map is not nil (as `NewEquipment`
makes it) and every item, `Equipment.Equip` succeeds exactly when the item and its
template are non-nil, the template's slot is not `SlotNone`, the item type is
compatible with that slot and that slot is currently empty; on success the slot holds
the item, the item's equipped flag is true, all other slots and all other items are
unchanged; on failure (an error or a panic) the slot mapping and every equipped flag
are unchanged.  For an equipment whose slot map is nil, `Equip` never succeeds: when
the four conditions hold it sets the item's equipped flag and panics, the mapping
staying nil, and otherwise it fails with the mapping and every flag unchanged. -/
theorem C18_Equip_succeeds_iff (h : Heap) (e : Equipment) (item : Option Ptr) :
    (e.NilMap = false →
      ((e.Equip h item).1 = .ok ()
          ↔ ∃ p t, item = some p ∧ (h p).Template = some t ∧ t.Slot ≠ SlotNone
              ∧ slotAccepts t.Slot t.Typ ∧ e.GetItem t.Slot = none)
        ∧ (∀ p t, item = some p → (h p).Template = some t → (e.Equip h item).1 = .ok () →
            (e.Equip h item).2.2.GetItem t.Slot = some p
              ∧ ((e.Equip h item).2.1 p).IsEquipped = true
              ∧ (∀ s, s ≠ t.Slot → (e.Equip h item).2.2.Slots.get s = e.Slots.get s)
              ∧ (∀ q, q ≠ p → (e.Equip h item).2.1 q = h q))
        ∧ ((e.Equip h item).1 ≠ .ok () →
            (e.Equip h item).2.1 = h ∧ (e.Equip h item).2.2 = e))
      ∧ (e.NilMap = true →
          (e.Equip h item).1 ≠ .ok ()
            ∧ (e.Equip h item).2.2 = e
            ∧ (∀ p t, item = some p → (h p).Template = some t → t.Slot ≠ SlotNone →
                slotAccepts t.Slot t.Typ → e.GetItem t.Slot = none →
                e.Equip h item = (.panic, h.setEquipped p true, e))
            ∧ ((¬ ∃ p t, item = some p ∧ (h p).Template = some t ∧ t.Slot ≠ SlotNone
                  ∧ slotAccepts t.Slot t.Typ ∧ e.GetItem t.Slot = none) →
                (e.Equip h item).2.1 = h)) := by
  rcases Equipment.Equip_cases h e item with
    ⟨p, t, hp, ht, hn, hacc, hcur, hmade, heq⟩ | ⟨hne, hsame, hnot⟩
      | ⟨p, t, hp, ht, hn, hacc, hcur, hnil, heq⟩
  · refine ⟨fun _ => ⟨⟨fun _ => ⟨p, t, hp, ht, hn, hacc, hcur⟩, fun _ => by rw [heq]⟩, ?_, ?_⟩,
      fun hnil => ?_⟩
    · intro p1 t1 hp1 ht1 _
      rw [hp] at hp1
      cases hp1
      rw [ht] at ht1
      cases ht1
      rw [heq]
      refine ⟨?_, Heap.setEquipped_flag_self h p true, ?_, ?_⟩
      · simp [Equipment.GetItem, SlotMap.get_set]
      · intro s hs
        simp [SlotMap.get_set, hs]
      · intro q hq
        exact Heap.setEquipped_other h p q true hq
    · intro hne
      rw [heq] at hne
      exact absurd rfl hne
    · rw [hmade] at hnil
      cases hnil
  · refine ⟨fun _ => ⟨⟨fun hok => absurd hok hne, fun hex => absurd hex hnot⟩, ?_, ?_⟩,
      fun _ => ⟨hne, by rw [hsame], ?_, fun _ => by rw [hsame]⟩⟩
    · intro p t _ _ hok
      exact absurd hok hne
    · intro _
      rw [hsame]
      exact ⟨rfl, rfl⟩
    · intro p t hp ht hn hacc hcur
      exact absurd ⟨p, t, hp, ht, hn, hacc, hcur⟩ hnot
  · refine ⟨fun hmade => ?_, fun _ => ⟨by rw [heq]; simp, by rw [heq], ?_, ?_⟩⟩
    · rw [hnil] at hmade
      cases hmade
    · intro p1 t1 hp1 _ _ _ _
      rw [hp] at hp1
      cases hp1
      exact heq
    · intro hnot
      exact absurd ⟨p, t, hp, ht, hn, hacc, hcur⟩ hnot

/-- C18 witness: equipping a helmet on an empty equipment succeeds, the head slot
holds it and its flag is set. -/
theorem C18_Equip_succeeds_iff_witness :
    NewEquipment.NilMap = false
      ∧ (NewEquipment.Equip armoryHeap (some 1)).1 = .ok ()
      ∧ (NewEquipment.Equip armoryHeap (some 1)).2.2.GetItem helmetTemplate.Slot = some 1
      ∧ ((NewEquipment.Equip armoryHeap (some 1)).2.1 1).IsEquipped = true :=
  have a := ((C18_Equip_succeeds_iff armoryHeap NewEquipment (some 1)).1 rfl).2.1 1
    helmetTemplate rfl (by decide!) (by decide!)
  ⟨rfl, by decide!, a.1, a.2.1⟩

theorem SlotMap.mem_keys_set (m : SlotMap) (k : EquipmentSlot) (v : Option Ptr)
    (x : EquipmentSlot) (hx : x ∈ (m.set k v).map Prod.fst) :
    x = k ∨ x ∈ m.map Prod.fst := by
  induction m with
  | nil =>
    simp [SlotMap.set] at hx
    exact Or.inl hx
  | cons entry rest ih =>
    obtain ⟨k1, v1⟩ := entry
    by_cases hk : k1 = k
    · simp only [SlotMap.set, hk, if_true, List.map_cons, List.mem_cons] at hx ⊢
      rcases hx with hx | hx
      · exact Or.inl hx
      · exact Or.inr (Or.inr hx)
    · simp only [SlotMap.set, hk, if_false, List.map_cons, List.mem_cons] at hx ⊢
      rcases hx with hx | hx
      · exact Or.inr (Or.inl hx)
      · rcases ih hx with h1 | h1
        · exact Or.inl h1
        · exact Or.inr (Or.inr h1)

theorem SlotMap.nodup_set (m : SlotMap) (k : EquipmentSlot) (v : Option Ptr)
    (hm : (m.map Prod.fst).Nodup) : ((m.set k v).map Prod.fst).Nodup := by
  induction m with
  | nil => simp [SlotMap.set]
  | cons entry rest ih =>
    obtain ⟨k1, v1⟩ := entry
    simp only [List.map_cons, List.nodup_cons] at hm
    obtain ⟨hnot, hrest⟩ := hm
    by_cases hk : k1 = k
    · simp only [SlotMap.set, hk, if_true, List.map_cons, List.nodup_cons]
      rw [hk] at hnot
      exact ⟨hnot, hrest⟩
    · simp only [SlotMap.set, hk, if_false, List.map_cons, List.nodup_cons]
      refine ⟨?_, ih hrest⟩
      intro hx
      rcases SlotMap.mem_keys_set rest k v k1 hx with h1 | h1
      · exact hk h1
      · exact hnot h1

theorem SlotMap.mem_keys_delete (m : SlotMap) (k : EquipmentSlot) (x : EquipmentSlot)
    (hx : x ∈ (m.delete k).map Prod.fst) : x ∈ m.map Prod.fst := by
  induction m with
  | nil => simp [SlotMap.delete] at hx
  | cons entry rest ih =>
    obtain ⟨k1, v1⟩ := entry
    by_cases hk : k1 = k
    · simp only [SlotMap.delete, hk, if_true] at hx
      simp only [List.map_cons, List.mem_cons]
      exact Or.inr (ih hx)
    · simp only [SlotMap.delete, hk, if_false, List.map_cons, List.mem_cons] at hx ⊢
      rcases hx with hx | hx
      · exact Or.inl hx
      · exact Or.inr (ih hx)

theorem SlotMap.nodup_delete (m : SlotMap) (k : EquipmentSlot)
    (hm : (m.map Prod.fst).Nodup) : ((m.delete k).map Prod.fst).Nodup := by
  induction m with
  | nil => simp [SlotMap.delete]
  | cons entry rest ih =>
    obtain ⟨k1, v1⟩ := entry
    simp only [List.map_cons, List.nodup_cons] at hm
    obtain ⟨hnot, hrest⟩ := hm
    by_cases hk : k1 = k
    · simp only [SlotMap.delete, hk, if_true]
      exact ih hrest
    · simp only [SlotMap.delete, hk, if_false, List.map_cons, List.nodup_cons]
      exact ⟨fun hx => hnot (SlotMap.mem_keys_delete rest k k1 hx), ih hrest⟩

theorem Equipment.Equip_sound (h : Heap) (e : Equipment) (item : Option Ptr)
    (hs : e.Sound h) : (e.Equip h item).2.2.Sound (e.Equip h item).2.1 := by
  rcases Equipment.Equip_cases h e item with
    ⟨p, t, hp, ht, hn, hacc, hcur, _, heq⟩ | ⟨_, hsame, _⟩ | ⟨p, t, _, _, _, _, _, _, heq⟩
  rotate_left
  · rw [hsame]
    exact hs
  · rw [heq]
    show Equipment.Sound (h.setEquipped p true) e
    obtain ⟨hnd, hinv⟩ := hs
    refine ⟨hnd, ?_⟩
    intro slot q hq
    obtain ⟨hflag, t1, ht1, hslot1, hacc1⟩ := hinv slot q hq
    refine ⟨?_, t1, ?_, hslot1, hacc1⟩
    · by_cases hqp : q = p
      · rw [hqp]; exact Heap.setEquipped_flag_self h p true
      · rw [Heap.setEquipped_other h p q true hqp]; exact hflag
    · rw [Heap.setEquipped_template]; exact ht1
  · rw [heq]
    show Equipment.Sound (h.setEquipped p true) { e with Slots := e.Slots.set t.Slot (some p) }
    obtain ⟨hnd, hinv⟩ := hs
    refine ⟨SlotMap.nodup_set e.Slots t.Slot (some p) hnd, ?_⟩
    intro slot q hq
    simp only [Equipment.GetItem, SlotMap.get_set] at hq
    by_cases hslot : slot = t.Slot
    · simp only [hslot, if_true, Option.join] at hq
      have hqp : p = q := by simpa using hq
      subst hqp
      refine ⟨Heap.setEquipped_flag_self h p true, t, ?_, hslot.symm, ?_⟩
      · rw [Heap.setEquipped_template]; exact ht
      · rw [hslot]; exact hacc
    · simp only [hslot, if_false] at hq
      obtain ⟨hflag, t1, ht1, hslot1, hacc1⟩ := hinv slot q hq
      refine ⟨?_, t1, ?_, hslot1, hacc1⟩
      · by_cases hqp : q = p
        · rw [hqp]; exact Heap.setEquipped_flag_self h p true
        · rw [Heap.setEquipped_other h p q true hqp]; exact hflag
      · rw [Heap.setEquipped_template]; exact ht1

theorem Equipment.Unequip_sound (h : Heap) (e : Equipment) (slot : EquipmentSlot)
    (hs : e.Sound h) : (e.Unequip h slot).2.2.Sound (e.Unequip h slot).2.1 := by
  unfold Equipment.Unequip
  cases hcur : e.GetItem slot with
  | none => exact hs
  | some p =>
    obtain ⟨hnd, hinv⟩ := hs
    obtain ⟨_, tp, htp, hslotp, _⟩ := hinv slot p hcur
    refine ⟨SlotMap.nodup_delete e.Slots slot hnd, ?_⟩
    intro s q hq
    simp only [Equipment.GetItem, SlotMap.get_delete] at hq
    by_cases hsl : s = slot
    · simp [hsl] at hq
    · simp only [hsl, if_false] at hq
      obtain ⟨hflag, t1, ht1, hslot1, hacc1⟩ := hinv s q hq
      have hqp : q ≠ p := by
        intro heq
        rw [heq, htp] at ht1
        cases ht1
        exact hsl (hslot1.symm.trans hslotp)
      refine ⟨?_, t1, ?_, hslot1, hacc1⟩
      · show (h.setEquipped p false q).IsEquipped = true
        rw [Heap.setEquipped_other h p q false hqp]; exact hflag
      · show (h.setEquipped p false q).Template = some t1
        rw [Heap.setEquipped_template]; exact ht1

theorem runEquipmentOps_sound (ops : List EquipmentOp) :
    ∀ s : Heap × Equipment, s.2.Sound s.1 →
      (runEquipmentOps s ops).2.Sound (runEquipmentOps s ops).1 := by
  induction ops with
  | nil => intro s hs; exact hs
  | cons op rest ih =>
    intro s hs
    apply ih
    cases op with
    | equip item => exact Equipment.Equip_sound s.1 s.2 item hs
    | unequip slot => exact Equipment.Unequip_sound s.1 s.2 slot hs

/-- C19: starting from `NewEquipment()`, with any items, after every sequence of
`Equip` and `Unequip` calls (successful or failing) every slot occurs at most once
in the mapping and every occupied slot holds an item whose equipped flag is true and
whose template slot equals that slot, with a Weapon-type item in the weapon slot, an
Armor-type item in the head, body, hands, feet and boots slots and an
Accessory-type item in the accessory slot. -/
theorem C19_equipment_invariant (h : Heap) (ops : List EquipmentOp) :
    ((runEquipmentOps (h, NewEquipment) ops).2.Slots.map Prod.fst).Nodup
      ∧ ∀ slot p, (runEquipmentOps (h, NewEquipment) ops).2.GetItem slot = some p →
          ((runEquipmentOps (h, NewEquipment) ops).1 p).IsEquipped = true
            ∧ ∃ t, ((runEquipmentOps (h, NewEquipment) ops).1 p).Template = some t
                ∧ t.Slot = slot
                ∧ ((slot = SlotWeapon ∧ t.Typ = Weapon)
                  ∨ ((slot = SlotHead ∨ slot = SlotBody ∨ slot = SlotHands ∨ slot = SlotFeet
                      ∨ slot = SlotBoots) ∧ t.Typ = Armor)
                  ∨ (slot = SlotAccessory ∧ t.Typ = Accessory)) := by
  have h0 : (NewEquipment).Sound h := by
    refine ⟨by simp [NewEquipment], ?_⟩
    intro slot p hp
    simp [NewEquipment, Equipment.GetItem, SlotMap.get] at hp
  exact runEquipmentOps_sound ops (h, NewEquipment) h0

/-- C19 witness: after eight calls the head slot holds the helmet, flagged, of type
Armor. -/
theorem C19_equipment_invariant_witness :
    (runEquipmentOps (armoryHeap, NewEquipment) sampleEquipmentOps).2.Slots
        = [(SlotHead, some 1), (SlotWeapon, some 0)]
      ∧ ((runEquipmentOps (armoryHeap, NewEquipment) sampleEquipmentOps).1 1).IsEquipped = true
      ∧ ∃ t, ((runEquipmentOps (armoryHeap, NewEquipment) sampleEquipmentOps).1 1).Template
            = some t ∧ t.Slot = SlotHead
          ∧ ((SlotHead = SlotWeapon ∧ t.Typ = Weapon)
            ∨ ((SlotHead = SlotHead ∨ SlotHead = SlotBody ∨ SlotHead = SlotHands
                ∨ SlotHead = SlotFeet ∨ SlotHead = SlotBoots) ∧ t.Typ = Armor)
            ∨ (SlotHead = SlotAccessory ∧ t.Typ = Accessory)) :=
  ⟨by decide!, (C19_equipment_invariant armoryHeap sampleEquipmentOps).2 SlotHead 1
    (by decide!)⟩

/-! ## Recomputing the stats -/

theorem wrapInt_add_left (a b : Int) : wrapInt (wrapInt a + b) = wrapInt (a + b) := by
  unfold wrapInt
  omega

theorem Character.CalculateStats_idem (h : Heap) (c : Character) :
    (c.CalculateStats h).CalculateStats h = c.CalculateStats h := by
  unfold Character.CalculateStats
  simp only
  congr 1
  split_ifs <;> rfl

theorem Character.CalculateStatsIn_idem (h : Heap) (c : Character) (order : SlotMap) :
    (c.CalculateStatsIn h order).CalculateStatsIn h order = c.CalculateStatsIn h order := by
  unfold Character.CalculateStatsIn Character.CalculateStats
  simp only
  congr 1
  split_ifs <;> rfl

theorem Character.CalculateStatsIn_self (h : Heap) (c : Character) :
    c.CalculateStatsIn h c.Equipment.Slots = c.CalculateStats h := rfl

/-- The result depends on the order only through the total of the bonuses. -/
theorem Character.CalculateStatsIn_congr (h : Heap) (c : Character) (o1 o2 : SlotMap)
    (hb : Equipment.GetTotalBonuses h { Slots := o1 }
      = Equipment.GetTotalBonuses h { Slots := o2 }) :
    c.CalculateStatsIn h o1 = c.CalculateStatsIn h o2 := by
  unfold Character.CalculateStatsIn Character.CalculateStats
  simp only [hb]

theorem Equipment.GetTotalBonuses_eq_foldl (h : Heap) (e : Equipment) :
    e.GetTotalBonuses h = e.Slots.foldl (bonusStep h) {} := rfl

theorem bonusStep_foldl_ints (h : Heap) (o : SlotMap) :
    ∀ init : Item,
      (o.foldl (bonusStep h) init).Strength
          = o.foldl (wrapStep (fun p => (h p).Strength)) init.Strength
        ∧ (o.foldl (bonusStep h) init).Agility
          = o.foldl (wrapStep (fun p => (h p).Agility)) init.Agility
        ∧ (o.foldl (bonusStep h) init).Intelligence
          = o.foldl (wrapStep (fun p => (h p).Intelligence)) init.Intelligence := by
  induction o with
  | nil => intro init; exact ⟨rfl, rfl, rfl⟩
  | cons entry rest ih =>
    intro init
    simp only [List.foldl_cons]
    obtain ⟨a, b, c⟩ := ih (bonusStep h init entry)
    rw [a, b, c]
    obtain ⟨k, v⟩ := entry
    cases v <;> exact ⟨rfl, rfl, rfl⟩

theorem wrapStep_perm (f : Ptr → Int) (o1 o2 : SlotMap) (hp : o1.Perm o2) (init : Int) :
    o1.foldl (wrapStep f) init = o2.foldl (wrapStep f) init := by
  apply List.Perm.foldl_eq' hp
  intro x _ y _ z
  obtain ⟨kx, vx⟩ := x
  obtain ⟨ky, vy⟩ := y
  cases vx <;> cases vy <;> simp only [wrapStep]
  rw [wrapInt_add_left, wrapInt_add_left]
  congr 1
  ring

/-- The integer totals of `GetTotalBonuses` do not depend on the order. -/
theorem Equipment.GetTotalBonuses_perm (h : Heap) (o1 o2 : SlotMap) (hp : o1.Perm o2) :
    (Equipment.GetTotalBonuses h { Slots := o1 }).Strength
        = (Equipment.GetTotalBonuses h { Slots := o2 }).Strength
      ∧ (Equipment.GetTotalBonuses h { Slots := o1 }).Agility
        = (Equipment.GetTotalBonuses h { Slots := o2 }).Agility
      ∧ (Equipment.GetTotalBonuses h { Slots := o1 }).Intelligence
        = (Equipment.GetTotalBonuses h { Slots := o2 }).Intelligence := by
  rw [Equipment.GetTotalBonuses_eq_foldl, Equipment.GetTotalBonuses_eq_foldl]
  obtain ⟨a1, b1, c1⟩ := bonusStep_foldl_ints h o1 {}
  obtain ⟨a2, b2, c2⟩ := bonusStep_foldl_ints h o2 {}
  simp only at a1 b1 c1 a2 b2 c2 ⊢
  rw [a1, b1, c1, a2, b2, c2]
  exact ⟨wrapStep_perm _ o1 o2 hp _, wrapStep_perm _ o1 o2 hp _, wrapStep_perm _ o1 o2 hp _⟩

theorem bonusStep_foldl_filterMap (h : Heap) (o : SlotMap) :
    ∀ init : Item,
      o.foldl (bonusStep h) init
        = (o.filterMap Prod.snd).foldl (fun total p => bonusStep h total (0, some p)) init := by
  induction o with
  | nil => intro init; rfl
  | cons entry rest ih =>
    intro init
    obtain ⟨k, v⟩ := entry
    cases v with
    | none =>
      simp only [List.foldl_cons, List.filterMap_cons]
      exact ih _
    | some p =>
      simp only [List.foldl_cons, List.filterMap_cons]
      exact ih _

theorem bonusStep_pair_comm (h : Heap) (a b : Ptr) (ha : (h a).Float32Valued)
    (hb : (h b).Float32Valued) :
    bonusStep h (bonusStep h {} (0, some a)) (0, some b)
      = bonusStep h (bonusStep h {} (0, some b)) (0, some a) := by
  obtain ⟨a1, a2, a3, a4⟩ := ha
  obtain ⟨b1, b2, b3, b4⟩ := hb
  simp only [bonusStep, zero_add, wrapInt_add_left, a1, a2, a3, a4, b1, b2, b3, b4]
  rw [add_comm (h a).Strength, add_comm (h a).Agility, add_comm (h a).Intelligence,
    add_comm (h a).Attack, add_comm (h a).Defense, add_comm (h a).Health,
    add_comm (h a).Mana]

theorem perm_pair {α : Type} (a b : α) (l : List α) (hp : List.Perm [a, b] l) :
    l = [a, b] ∨ l = [b, a] := by
  have hlen := hp.length_eq
  match l, hlen with
  | [x, y], _ =>
    have hx : x ∈ [a, b] := hp.symm.subset (List.mem_cons_self _ _)
    simp only [List.mem_cons, List.mem_singleton, List.not_mem_nil, or_false] at hx
    rcases hx with hx | hx
    · subst hx
      have := (List.perm_cons x).mp hp
      have hy : b = y := by simpa using this
      exact Or.inl (by rw [hy])
    · subst hx
      have h2 : List.Perm [x, a] [x, y] := (List.Perm.swap a x []).trans hp
      have := (List.perm_cons x).mp h2
      have hy : a = y := by simpa using this
      exact Or.inr (by rw [hy])

/-- With at most two occupied slots holding float32-valued items the total of the
bonuses does not depend on the order. -/
theorem Equipment.GetTotalBonuses_perm_two (h : Heap) (o1 o2 : SlotMap) (hp : o1.Perm o2)
    (hlen : (o1.filterMap Prod.snd).length ≤ 2) (hf : ∀ p, (h p).Float32Valued) :
    Equipment.GetTotalBonuses h { Slots := o1 } = Equipment.GetTotalBonuses h { Slots := o2 } := by
  rw [Equipment.GetTotalBonuses_eq_foldl, Equipment.GetTotalBonuses_eq_foldl]
  simp only
  rw [bonusStep_foldl_filterMap, bonusStep_foldl_filterMap]
  have hperm : (o1.filterMap Prod.snd).Perm (o2.filterMap Prod.snd) := hp.filterMap _
  match hl : o1.filterMap Prod.snd, hlen with
  | [], _ =>
    rw [hl] at hperm
    rw [List.nil_perm.mp hperm]
  | [a], _ =>
    rw [hl] at hperm
    rw [← List.singleton_perm.mp hperm]
  | [a, b], _ =>
    rw [hl] at hperm
    rcases perm_pair a b _ hperm with e | e
    · rw [e]
    · rw [e]
      simp only [List.foldl_cons, List.foldl_nil]
      exact bonusStep_pair_comm h a b (hf a) (hf b)

/-- C20 (as stated, refuted): a character wears three pieces of armor with health
bonuses 16777216, 1 and 1.  The first `CalculateStats` visits them in the order
head, body, hands: the float32 sum is `(16777216 + 1) + 1 = 16777216` and `MaxHP`
becomes 16777316.  The second call, with no equipment change, visits them in the
order body, hands, head: the sum is `(1 + 1) + 16777216 = 16777218` and `MaxHP`
becomes 16777318.  With defense bonuses 0.1, 0.2 and 0.4 the order hands, head, body
changes the defense value in the same way. -/
theorem C20_counterexample_order_of_range :
    (runEquipmentOps (relicHeap, NewEquipment)
        [.equip (some 1), .equip (some 2), .equip (some 3)]).2 = paladinChar.Equipment
      ∧ List.Perm [(SlotBody, some 2), (SlotHands, some 3), (SlotHead, some 1)]
          paladinChar.Equipment.Slots
      ∧ (paladinChar.CalculateStats relicHeap).MaxHP = 16777316
      ∧ ((paladinChar.CalculateStats relicHeap).CalculateStatsIn relicHeap
          [(SlotBody, some 2), (SlotHands, some 3), (SlotHead, some 1)]).MaxHP = 16777318
      ∧ ((paladinChar.CalculateStats relicHeap).CalculateStatsIn relicHeap
          [(SlotHands, some 3), (SlotHead, some 1), (SlotBody, some 2)]).DefenseValue
        ≠ (paladinChar.CalculateStats relicHeap).DefenseValue := by
  refine ⟨by decide!, ?_, by decide!, by decide!, by decide!⟩
  show List.Perm _ [(SlotHead, some 1), (SlotBody, some 2), (SlotHands, some 3)]
  exact (List.Perm.cons _ (List.Perm.swap _ _ _)).trans (List.Perm.swap _ _ _)

/-- C20 (amended): for every character, applying `CalculateStats` twice in a row
with no equipment change in between gives the same character state as applying it
once whenever the second call visits the equipment slots in the same order as the
first; in whatever order the calls visit the slots, strength, agility, intelligence,
crit chance and crit damage are the same after the second call as after the first;
and with at most two occupied slots (items with float32 bonuses) the whole state is
the same in whatever order the slots are visited. -/
theorem C20_CalculateStats_idempotent (h : Heap) (c : Character) :
    (c.CalculateStats h).CalculateStats h = c.CalculateStats h
      ∧ (∀ order : SlotMap,
          (c.CalculateStatsIn h order).CalculateStatsIn h order = c.CalculateStatsIn h order)
      ∧ (∀ o1 o2 : SlotMap, o1.Perm o2 →
          ((c.CalculateStatsIn h o1).CalculateStatsIn h o2).Strength
              = (c.CalculateStatsIn h o1).Strength
            ∧ ((c.CalculateStatsIn h o1).CalculateStatsIn h o2).Agility
              = (c.CalculateStatsIn h o1).Agility
            ∧ ((c.CalculateStatsIn h o1).CalculateStatsIn h o2).Intelligence
              = (c.CalculateStatsIn h o1).Intelligence
            ∧ ((c.CalculateStatsIn h o1).CalculateStatsIn h o2).CritChance
              = (c.CalculateStatsIn h o1).CritChance
            ∧ ((c.CalculateStatsIn h o1).CalculateStatsIn h o2).CritDamage
              = (c.CalculateStatsIn h o1).CritDamage)
      ∧ (∀ o1 o2 : SlotMap, o1.Perm o2 → (o1.filterMap Prod.snd).length ≤ 2 →
          (∀ p, (h p).Float32Valued) →
          (c.CalculateStatsIn h o1).CalculateStatsIn h o2 = c.CalculateStatsIn h o1) := by
  refine ⟨Character.CalculateStats_idem h c, Character.CalculateStatsIn_idem h c, ?_, ?_⟩
  · intro o1 o2 hp
    obtain ⟨hs, ha, hi⟩ := Equipment.GetTotalBonuses_perm h o1 o2 hp
    refine ⟨?_, ?_, ?_, ?_, ?_⟩ <;>
      simp only [Character.CalculateStatsIn, Character.CalculateStats, hs, ha, hi]
  · intro o1 o2 hp hlen hf
    rw [Character.CalculateStatsIn_congr h _ o2 o1
      (Equipment.GetTotalBonuses_perm_two h o1 o2 hp hlen hf).symm]
    exact Character.CalculateStatsIn_idem h c o1

/-- C20 witness: a character wearing an uncommon sword and an uncommon ring: the
second call changes nothing, in either order of the two slots. -/
theorem C20_CalculateStats_idempotent_witness :
    (knightChar.CalculateStats jewelHeap).CalculateStats jewelHeap
        = knightChar.CalculateStats jewelHeap
      ∧ (knightChar.CalculateStatsIn jewelHeap [(SlotWeapon, some 0), (SlotAccessory, some 4)]
          ).CalculateStatsIn jewelHeap [(SlotAccessory, some 4), (SlotWeapon, some 0)]
        = knightChar.CalculateStatsIn jewelHeap [(SlotWeapon, some 0), (SlotAccessory, some 4)]
      ∧ (knightChar.CalculateStats jewelHeap).MaxHP = 113
      ∧ (knightChar.CalculateStats jewelHeap).AttackValue = 13 / 2 :=
  ⟨(C20_CalculateStats_idempotent jewelHeap knightChar).1,
    (C20_CalculateStats_idempotent jewelHeap knightChar).2.2.2
      [(SlotWeapon, some 0), (SlotAccessory, some 4)]
      [(SlotAccessory, some 4), (SlotWeapon, some 0)] (List.Perm.swap _ _ _) (by decide)
      (fun p => by unfold jewelHeap; split_ifs <;> decide!),
    by decide!, by decide!⟩


/-! ## Constructors -/

theorem itemTemplates_id (templateID : Int) (t : ItemTemplate)
    (h : itemTemplates templateID = some t) : t.ID = templateID ∧ t ∈ catalog := by
  unfold itemTemplates at h
  have h1 := List.find?_some h
  have h2 := List.mem_of_find?_eq_some h
  exact ⟨by simpa using h1, h2⟩

theorem itemTemplates_none (templateID : Int) :
    itemTemplates templateID = none ↔ ∀ t ∈ catalog, t.ID ≠ templateID := by
  unfold itemTemplates
  rw [List.find?_eq_none]
  constructor
  · intro h t ht; simpa using h t ht
  · intro h t ht; simpa using h t ht

/-- C24: `CreateItem(templateId, rarity, level)` returns an error exactly when
`templateId` is not in the catalog, or `level < 1`, or the rarity is outside
`Common..Mythic`, and returns an item otherwise (it never panics); every item it
returns references the catalog template with that id, records the given rarity and
level, has durability 100 and max durability 100, and is not equipped. -/
theorem C24_CreateItem_contract (templateID : Int) (rarity : Rarity) (level : Int) :
    ((∃ e, CreateItem templateID rarity level = .error e)
        ↔ ((∀ t ∈ catalog, t.ID ≠ templateID) ∨ level < 1 ∨ rarity < Common ∨ rarity > Mythic))
      ∧ ((∃ item, CreateItem templateID rarity level = .ok item)
        ↔ ¬ ((∀ t ∈ catalog, t.ID ≠ templateID) ∨ level < 1 ∨ rarity < Common
              ∨ rarity > Mythic))
      ∧ (∀ item, CreateItem templateID rarity level = .ok item →
          (∃ t, t ∈ catalog ∧ t.ID = templateID ∧ itemTemplates templateID = some t
              ∧ item.Template = some t)
            ∧ item.Rarity = rarity ∧ item.Level = level
            ∧ item.Durability = 100 ∧ item.MaxDurability = 100
            ∧ item.IsEquipped = false) := by
  cases ht : itemTemplates templateID with
  | none =>
    have hn := (itemTemplates_none templateID).mp ht
    have hc : CreateItem templateID rarity level = .error .templateNotFound := by
      simp only [CreateItem, ht]
    rw [hc]
    refine ⟨⟨fun _ => Or.inl hn, fun _ => ⟨_, rfl⟩⟩, ⟨?_, ?_⟩, ?_⟩
    · rintro ⟨item, hi⟩; cases hi
    · intro hneg; exact absurd (Or.inl hn) hneg
    · intro item hi; cases hi
  | some t =>
    obtain ⟨hid, hmem⟩ := itemTemplates_id templateID t ht
    have hin : ¬ ∀ t ∈ catalog, t.ID ≠ templateID := fun hall => hall t hmem hid
    by_cases hl : level < 1
    · have hc : CreateItem templateID rarity level = .error .levelNotPositive := by
        simp only [CreateItem, ht, hl, if_true]
      rw [hc]
      refine ⟨⟨fun _ => Or.inr (Or.inl hl), fun _ => ⟨_, rfl⟩⟩, ⟨?_, ?_⟩, ?_⟩
      · rintro ⟨item, hi⟩; cases hi
      · intro hneg; exact absurd (Or.inr (Or.inl hl)) hneg
      · intro item hi; cases hi
    · by_cases hr : rarity < Common ∨ rarity > Mythic
      · have hc : CreateItem templateID rarity level = .error .badRarity := by
          simp only [CreateItem, ht, hl, hr, if_true, if_false]
        rw [hc]
        refine ⟨⟨fun _ => Or.inr (Or.inr hr), fun _ => ⟨_, rfl⟩⟩, ⟨?_, ?_⟩, ?_⟩
        · rintro ⟨item, hi⟩; cases hi
        · intro hneg; exact absurd (Or.inr (Or.inr hr)) hneg
        · intro item hi; cases hi
      · have hnot : ¬ ((∀ t ∈ catalog, t.ID ≠ templateID) ∨ level < 1 ∨ rarity < Common
            ∨ rarity > Mythic) := by
          rintro (h1 | h1 | h1)
          · exact hin h1
          · exact hl h1
          · exact hr h1
        have hc : ∃ item, CreateItem templateID rarity level = .ok item
            ∧ item.Template = some t ∧ item.Rarity = rarity ∧ item.Level = level
            ∧ item.Durability = 100 ∧ item.MaxDurability = 100 ∧ item.IsEquipped = false := by
          simp only [CreateItem, ht, hl, hr, if_false]
          exact ⟨_, rfl, rfl, rfl, rfl, rfl, rfl, rfl⟩
        obtain ⟨it, hok, h1, h2, h3, h4, h5, h6⟩ := hc
        rw [hok]
        refine ⟨⟨?_, fun h1 => absurd h1 hnot⟩, ⟨fun _ => hnot, fun _ => ⟨_, rfl⟩⟩, ?_⟩
        · rintro ⟨e, he⟩; cases he
        · intro item hi
          have hi2 := Res.ok.inj hi
          subst hi2
          exact ⟨⟨t, hmem, hid, rfl, h1⟩, h2, h3, h4, h5, h6⟩

/-- C24 witness: the catalog has an entry 19 and none with id 999; level 0 and
rarity 6 are rejected; a rare level-3 health potion comes back intact. -/
theorem C24_CreateItem_contract_witness :
    (∃ e, CreateItem 999 Common 1 = .error e) ∧ (∃ e, CreateItem 19 Common 0 = .error e)
      ∧ (∃ e, CreateItem 19 6 1 = .error e)
      ∧ ∃ item, CreateItem 19 Rare 3 = .ok item ∧ item.Rarity = Rare ∧ item.Level = 3
          ∧ item.Durability = 100 ∧ item.MaxDurability = 100 ∧ item.IsEquipped = false :=
  ⟨(C24_CreateItem_contract 999 Common 1).1.mpr (Or.inl (by decide!)),
    (C24_CreateItem_contract 19 Common 0).1.mpr (Or.inr (Or.inl (by decide))),
    (C24_CreateItem_contract 19 6 1).1.mpr (Or.inr (Or.inr (Or.inr (by decide)))),
    by
      obtain ⟨item, hi⟩ := (C24_CreateItem_contract 19 Rare 3).2.1.mpr (by decide!)
      obtain ⟨_, h1, h2, h3, h4, h5⟩ := (C24_CreateItem_contract 19 Rare 3).2.2 item hi
      exact ⟨item, hi, h1, h2, h3, h4, h5⟩⟩


theorem validateBaseStats_eq_none (hp strength agility intelligence : Int) :
    validateBaseStats hp strength agility intelligence = none
      ↔ ¬ (hp < 0 ∨ strength < 1 ∨ agility < 1 ∨ intelligence < 1) := by
  unfold validateBaseStats MinHP MinStrength MinAgility MinIntelligence
  split_ifs with h1 h2 h3 h4 <;> simp [*]

theorem Character.AddStarterItems_frame (h : Heap) (fresh : Ptr) (c : Character) :
    ∃ inv, (c.AddStarterItems h fresh).2 = { c with Inventory := inv } := by
  unfold Character.AddStarterItems
  cases CreateSword <;> cases CreateHealthPotion <;> exact ⟨_, rfl⟩

theorem Equipment.GetTotalBonuses_empty (h : Heap) :
    Equipment.GetTotalBonuses h NewEquipment = {} := rfl

/-- Result of `CalculateStats` with nothing equipped. -/
theorem Character.CalculateStats_unequipped (h : Heap) (c : Character)
    (he : c.Equipment = NewEquipment) :
    (c.CalculateStats h).Name = c.Name
      ∧ (c.CalculateStats h).MaxHP = wrapInt c.BaseHP
      ∧ (c.CalculateStats h).CurrentHP
          = (if c.CurrentHP > wrapInt c.BaseHP then wrapInt c.BaseHP else c.CurrentHP)
      ∧ (c.CalculateStats h).Strength = wrapInt c.BaseStrength
      ∧ (c.CalculateStats h).Agility = wrapInt c.BaseAgility
      ∧ (c.CalculateStats h).Intelligence = wrapInt c.BaseIntelligence
      ∧ (c.CalculateStats h).AttackValue = 0
      ∧ (c.CalculateStats h).DefenseValue = 0 := by
  have hzero : floatToInt 0 = 0 := by decide!
  have hr0 : round32 0 = 0 := by decide!
  have hb : c.Equipment.GetTotalBonuses h = {} := by rw [he]; rfl
  refine ⟨?_, ?_, ?_, ?_, ?_, ?_, ?_, ?_⟩ <;>
    simp only [Character.CalculateStats, hb, hzero, hr0, add_zero]

theorem Character.CalculateStats_frame (h : Heap) (c : Character) :
    (c.CalculateStats h).Equipment = c.Equipment
      ∧ (c.CalculateStats h).Inventory = c.Inventory
      ∧ (c.CalculateStats h).BaseHP = c.BaseHP
      ∧ (c.CalculateStats h).BaseStrength = c.BaseStrength
      ∧ (c.CalculateStats h).BaseAgility = c.BaseAgility
      ∧ (c.CalculateStats h).BaseIntelligence = c.BaseIntelligence
      ∧ (c.CalculateStats h).Mana = c.Mana
      ∧ (c.CalculateStats h).MaxMana = c.MaxMana :=
  ⟨rfl, rfl, rfl, rfl, rfl, rfl, rfl, rfl⟩

/-- A valid call of `Character.New` returns a character with the given values. -/
theorem Character.New_of_valid (h : Heap) (fresh : Ptr) (name : String)
    (hp strength agility intelligence : Int)
    (hhp : InIntRange hp) (hs : InIntRange strength) (ha : InIntRange agility)
    (hi : InIntRange intelligence)
    (hgood : ¬ (hp < 0 ∨ strength < 1 ∨ agility < 1 ∨ intelligence < 1)) :
    ∃ hc, Character.New h fresh name hp strength agility intelligence = .ok hc
        ∧ hc.2.Name = name ∧ hc.2.CurrentHP = hp ∧ hc.2.MaxHP = hp
        ∧ hc.2.BaseHP = hp
        ∧ hc.2.BaseStrength = strength ∧ hc.2.Strength = strength
        ∧ hc.2.BaseAgility = agility ∧ hc.2.Agility = agility
        ∧ hc.2.BaseIntelligence = intelligence ∧ hc.2.Intelligence = intelligence
        ∧ hc.2.AttackValue = 0 ∧ hc.2.DefenseValue = 0
        ∧ hc.2.Equipment = NewEquipment := by
  have hv := (validateBaseStats_eq_none hp strength agility intelligence).mpr hgood
  obtain ⟨inv, hinv⟩ := Character.AddStarterItems_frame h fresh
    { Name := name, CurrentHP := hp, MaxHP := hp, Strength := strength, Agility := agility,
      Intelligence := intelligence, BaseHP := hp, BaseStrength := strength,
      BaseAgility := agility, BaseIntelligence := intelligence,
      Inventory := NewInventory 20, Equipment := NewEquipment, AttackValue := 0,
      DefenseValue := 0, CritChance := round32 (1 / 10), CritDamage := round32 (15 / 10),
      HealthRegen := round32 (5 / 10), MaxMana := 100, Mana := 100, ManaRegen := 1 }
  refine ⟨_, by simp only [Character.New, hv]; rfl, ?_⟩
  show (Character.CalculateStats _ _).Name = name ∧ _
  rw [hinv]
  obtain ⟨q1, q2, q3, q4, q5, q6, q7, q8⟩ := Character.CalculateStats_unequipped
    (Character.AddStarterItems h fresh
      { Name := name, CurrentHP := hp, MaxHP := hp, Strength := strength,
        Agility := agility, Intelligence := intelligence, BaseHP := hp,
        BaseStrength := strength, BaseAgility := agility,
        BaseIntelligence := intelligence, Inventory := NewInventory 20,
        Equipment := NewEquipment, AttackValue := 0, DefenseValue := 0,
        CritChance := round32 (1 / 10), CritDamage := round32 (15 / 10),
        HealthRegen := round32 (5 / 10), MaxMana := 100, Mana := 100, ManaRegen := 1 }).1
    { Name := name, CurrentHP := hp, MaxHP := hp, Strength := strength, Agility := agility,
      Intelligence := intelligence, BaseHP := hp, BaseStrength := strength,
      BaseAgility := agility, BaseIntelligence := intelligence,
      Inventory := inv, Equipment := NewEquipment, AttackValue := 0,
      DefenseValue := 0, CritChance := round32 (1 / 10), CritDamage := round32 (15 / 10),
      HealthRegen := round32 (5 / 10), MaxMana := 100, Mana := 100, ManaRegen := 1 } rfl
  simp only [wrapInt_of_inRange _ hhp, wrapInt_of_inRange _ hs, wrapInt_of_inRange _ ha,
    wrapInt_of_inRange _ hi, gt_iff_lt, lt_irrefl, if_false] at q2 q3 q4 q5 q6
  exact ⟨q1, q3, q2, rfl, rfl, q4, rfl, q5, rfl, q6, q7, q8, rfl⟩

/-- C25: `Character.New(name, hp, strength, agility, intelligence)`, for arguments
in the range of `int`, returns an error exactly when `hp < 0` or `strength < 1` or
`agility < 1` or `intelligence < 1`, and a character otherwise; every character it
returns has the given name, `CurrentHP = MaxHP = hp`, base and derived strength,
agility and intelligence equal to the given values, attack = defense = 0, and
nothing equipped. -/
theorem C25_New_contract (h : Heap) (fresh : Ptr) (name : String)
    (hp strength agility intelligence : Int)
    (hhp : InIntRange hp) (hs : InIntRange strength) (ha : InIntRange agility)
    (hi : InIntRange intelligence) :
    ((∃ e, Character.New h fresh name hp strength agility intelligence = .error e)
        ↔ (hp < 0 ∨ strength < 1 ∨ agility < 1 ∨ intelligence < 1))
      ∧ ((∃ hc, Character.New h fresh name hp strength agility intelligence = .ok hc)
        ↔ ¬ (hp < 0 ∨ strength < 1 ∨ agility < 1 ∨ intelligence < 1))
      ∧ (∀ hc, Character.New h fresh name hp strength agility intelligence = .ok hc →
          hc.2.Name = name ∧ hc.2.CurrentHP = hp ∧ hc.2.MaxHP = hp
            ∧ hc.2.BaseHP = hp
            ∧ hc.2.BaseStrength = strength ∧ hc.2.Strength = strength
            ∧ hc.2.BaseAgility = agility ∧ hc.2.Agility = agility
            ∧ hc.2.BaseIntelligence = intelligence ∧ hc.2.Intelligence = intelligence
            ∧ hc.2.AttackValue = 0 ∧ hc.2.DefenseValue = 0
            ∧ hc.2.Equipment = NewEquipment
            ∧ ∀ slot, hc.2.Equipment.GetItem slot = none) := by
  cases hv : validateBaseStats hp strength agility intelligence with
  | some e =>
    have hbad : hp < 0 ∨ strength < 1 ∨ agility < 1 ∨ intelligence < 1 := by
      by_contra hcon
      rw [(validateBaseStats_eq_none hp strength agility intelligence).mpr hcon] at hv
      cases hv
    have hc : Character.New h fresh name hp strength agility intelligence = .error e := by
      simp only [Character.New, hv]
    rw [hc]
    refine ⟨⟨fun _ => hbad, fun _ => ⟨_, rfl⟩⟩, ⟨?_, fun hneg => absurd hbad hneg⟩, ?_⟩
    · rintro ⟨x, hx⟩; cases hx
    · intro x hx; cases hx
  | none =>
    have hgood := (validateBaseStats_eq_none hp strength agility intelligence).mp hv
    obtain ⟨hc0, hok, hprops⟩ := Character.New_of_valid h fresh name hp strength agility
      intelligence hhp hs ha hi hgood
    rw [hok]
    refine ⟨⟨?_, fun hbad => absurd hbad hgood⟩, ⟨fun _ => hgood, fun _ => ⟨_, rfl⟩⟩, ?_⟩
    · rintro ⟨e, he⟩; cases he
    · intro x hx
      have hx2 := Res.ok.inj hx
      subst hx2
      obtain ⟨p1, p2, p3, p4, p5, p6, p7, p8, p9, p10, p11, p12, p13⟩ := hprops
      refine ⟨p1, p2, p3, p4, p5, p6, p7, p8, p9, p10, p11, p12, p13, ?_⟩
      intro slot
      rw [p13]
      rfl

/-- C25 witness: the warrior of `NewWarrior` (100 HP, 15/8/5), and a character
refused for a strength of 0. -/
theorem C25_New_contract_witness :
    (∃ e, Character.New emptyHeap 0 "Hero" 100 0 8 5 = .error e)
      ∧ heroState.2.CurrentHP = 100 ∧ heroState.2.MaxHP = 100 ∧ heroState.2.Strength = 15
      ∧ heroState.2.AttackValue = 0 ∧ heroState.2.Equipment = NewEquipment :=
  ⟨(C25_New_contract emptyHeap 0 "Hero" 100 0 8 5 (by decide) (by decide) (by decide)
      (by decide)).1.mpr (Or.inr (Or.inl (by decide))),
    by
      obtain ⟨hc, hok⟩ := (C25_New_contract emptyHeap 0 "Hero" 100 15 8 5 (by decide)
        (by decide) (by decide) (by decide)).2.1.mpr (by decide)
      have hh := (C25_New_contract emptyHeap 0 "Hero" 100 15 8 5 (by decide) (by decide)
        (by decide) (by decide)).2.2 hc hok
      have hhero : heroState = hc := by simp only [heroState, NewWarrior, hok]
      rw [hhero]
      exact ⟨hh.2.1, hh.2.2.1, hh.2.2.2.2.2.1, hh.2.2.2.2.2.2.2.2.2.2.1,
        hh.2.2.2.2.2.2.2.2.2.2.2.2.1⟩⟩

/-! ## `CanEquipItem` against `Equip` -/

theorem Equipment.CanEquipItem_iff (h : Heap) (e : Equipment) (item : Option Ptr) :
    e.CanEquipItem h item = true
      ↔ ∃ p t, item = some p ∧ (h p).Template = some t ∧ t.Slot ≠ SlotNone
          ∧ slotAccepts t.Slot t.Typ ∧ e.GetItem t.Slot = none := by
  constructor
  · intro hcan
    cases item with
    | none => simp [Equipment.CanEquipItem] at hcan
    | some p =>
      unfold Equipment.CanEquipItem at hcan
      simp only at hcan
      cases ht : (h p).Template with
      | none => simp [ht] at hcan
      | some t =>
        simp only [ht] at hcan
        by_cases hnone : t.Slot = SlotNone
        · simp [hnone] at hcan
        · simp only [hnone, if_false] at hcan
          cases hget : e.GetItem t.Slot with
          | some q => simp [hget] at hcan
          | none =>
            simp only [hget] at hcan
            exact ⟨p, t, rfl, ht, hnone,
              ((Equipment.isValidItemForSlot_iff h p t ht t.Slot).mp hcan).2, hget⟩
  · rintro ⟨p, t, hp, ht, hn, hacc, hcur⟩
    subst hp
    have hv := (Equipment.isValidItemForSlot_iff h p t ht t.Slot).mpr ⟨hn, hacc⟩
    simp only [Equipment.CanEquipItem, ht, hn, if_false, hcur, hv]

/-- C29 (as stated, refuted): the zero value `Equipment{}` has a nil slot map.
`CanEquipItem` only reads the map and returns true for the helmet, but `Equip` panics
in the map write (after setting the helmet's equipped flag) instead of returning no
error. -/
theorem C29_counterexample_nil_map :
    zeroEquipment.NilMap = true
      ∧ zeroEquipment.CanEquipItem armoryHeap (some 1) = true
      ∧ (zeroEquipment.Equip armoryHeap (some 1)).1 = .panic
      ∧ (zeroEquipment.Equip armoryHeap (some 1)).1 ≠ .ok ()
      ∧ ((zeroEquipment.Equip armoryHeap (some 1)).2.1 1).IsEquipped = true := by
  refine ⟨rfl, by decide!, by decide!, by decide!, by decide!⟩

/-- C29 (amended): for every equipment whose slot map is not nil (as `NewEquipment`
makes it) and every item (including nil and template-less items),
`CanEquipItem(item)` returns true if and only if `Equip(item)` on the same equipment
returns no error; when it returns false, `Equip` returns an error or, with the slot
occupied by an item without template, panics.  For every equipment, also with a nil
map, `Equip` returns no error only if `CanEquipItem` is true, and fails when
`CanEquipItem` is false; on a nil map `Equip` panics whenever `CanEquipItem` is
true. -/
theorem C29_CanEquipItem_iff_Equip (h : Heap) (e : Equipment) (item : Option Ptr) :
    (e.NilMap = false →
        (e.CanEquipItem h item = true ↔ (e.Equip h item).1 = .ok ())
          ∧ (e.CanEquipItem h item = false
              ↔ ((∃ err, (e.Equip h item).1 = .error err) ∨ (e.Equip h item).1 = .panic)))
      ∧ ((e.Equip h item).1 = .ok () → e.CanEquipItem h item = true)
      ∧ (e.CanEquipItem h item = false →
          ((∃ err, (e.Equip h item).1 = .error err) ∨ (e.Equip h item).1 = .panic))
      ∧ (e.NilMap = true → e.CanEquipItem h item = true → (e.Equip h item).1 = .panic) := by
  have hback : (e.Equip h item).1 = .ok () → e.CanEquipItem h item = true := by
    intro hok
    rcases Equipment.Equip_cases h e item with
      ⟨p, t, hp, ht, hn, hacc, hcur, _, _⟩ | ⟨hne, _, _⟩ | ⟨p, t, _, _, _, _, _, _, heq⟩
    · exact (Equipment.CanEquipItem_iff h e item).mpr ⟨p, t, hp, ht, hn, hacc, hcur⟩
    · exact absurd hok hne
    · rw [heq] at hok
      cases hok
  have hfail : e.CanEquipItem h item = false →
      ((∃ err, (e.Equip h item).1 = .error err) ∨ (e.Equip h item).1 = .panic) := by
    intro hno
    cases hres : (e.Equip h item).1 with
    | ok u =>
      have := hback hres
      rw [hno] at this
      cases this
    | error err => exact Or.inl ⟨err, rfl⟩
    | panic => exact Or.inr rfl
  have hnil : e.NilMap = true → e.CanEquipItem h item = true →
      (e.Equip h item).1 = .panic := by
    intro hn hcan
    obtain ⟨p, t, hp, _⟩ := (Equipment.CanEquipItem_iff h e item).mp hcan
    subst hp
    rw [Equipment.Equip_of_CanEquipItem_nil h e p hcan hn]
  refine ⟨fun hmade => ?_, hback, hfail, hnil⟩
  have key : e.CanEquipItem h item = true ↔ (e.Equip h item).1 = .ok () := by
    refine ⟨fun hcan => ?_, hback⟩
    obtain ⟨p, t, hp, _⟩ := (Equipment.CanEquipItem_iff h e item).mp hcan
    subst hp
    obtain ⟨t1, _, _, heq⟩ := Equipment.Equip_of_CanEquipItem h e p hcan hmade
    rw [heq]
  refine ⟨key, ?_⟩
  rw [← Bool.not_eq_true, key]
  cases hres : (e.Equip h item).1 with
  | ok u => simp
  | error err => simp
  | panic => simp

/-- C29 witness: the helmet fits the empty equipment; the sword does not fit an
equipment whose weapon slot is taken. -/
theorem C29_CanEquipItem_iff_Equip_witness :
    NewEquipment.NilMap = false
      ∧ (NewEquipment.CanEquipItem armoryHeap (some 1) = true
        ∧ (NewEquipment.Equip armoryHeap (some 1)).1 = .ok ())
      ∧ (armedEquipment.CanEquipItem armoryHeap (some 0) = false
        ∧ (armedEquipment.Equip armoryHeap (some 0)).1 = .error .slotOccupied) :=
  ⟨rfl, ⟨by decide!, ((C29_CanEquipItem_iff_Equip armoryHeap NewEquipment (some 1)).1 rfl).1.mp
      (by decide!)⟩, by decide!, by decide!⟩


/-! ## ACTION handling of the PvP client -/

/-- C28 (defect of the code): `GameManager.Load` clamps the stored current HP from
above only.  For every snapshot with values in the range of `int`, the load is
accepted exactly when `Character.New` accepts the stored maximum HP, strength,
agility and intelligence, whatever the stored current HP; the player it builds has
`MaxHP` = the stored maximum and `CurrentHP` = the smaller of the stored current HP
and the stored maximum, so `CurrentHP <= MaxHP` holds but `0 <= CurrentHP` holds only
when the stored current HP is not negative.  A save with current HP -5 is accepted
and yields a player with -5 HP. -/
theorem C28_Load_keeps_negative_hp (h : Heap) (fresh : Ptr) (gm : GameManager)
    (dto : GameSaveDTO)
    (hhp : InIntRange dto.PlayerMaxHP) (hs : InIntRange dto.PlayerStrength)
    (ha : InIntRange dto.PlayerAgility) (hi : InIntRange dto.PlayerIntelligence) :
    ((∃ r, gm.Load h fresh dto = .ok r)
        ↔ ¬ (dto.PlayerMaxHP < 0 ∨ dto.PlayerStrength < 1 ∨ dto.PlayerAgility < 1
              ∨ dto.PlayerIntelligence < 1))
      ∧ (∀ r, gm.Load h fresh dto = .ok r →
          ∃ p, r.2.Player = some p
            ∧ p.MaxHP = dto.PlayerMaxHP
            ∧ p.CurrentHP = min dto.PlayerCurrentHP dto.PlayerMaxHP
            ∧ p.CurrentHP ≤ p.MaxHP
            ∧ (0 ≤ p.CurrentHP ↔ 0 ≤ dto.PlayerCurrentHP))
      ∧ (∃ r, GameManager.Load emptyHeap 0 {} tamperedSave = .ok r)
      ∧ (loadedPlayer (GameManager.Load emptyHeap 0 {} tamperedSave)).CurrentHP = -5 := by
  refine ⟨?_, ?_, ?_, ?_⟩
  · constructor
    · rintro ⟨r, hr⟩ hbad
      have hv : validateBaseStats dto.PlayerMaxHP dto.PlayerStrength dto.PlayerAgility
          dto.PlayerIntelligence ≠ none := by
        intro hn
        exact (validateBaseStats_eq_none _ _ _ _).mp hn hbad
      cases hv2 : validateBaseStats dto.PlayerMaxHP dto.PlayerStrength dto.PlayerAgility
          dto.PlayerIntelligence with
      | none => exact hv hv2
      | some e =>
        simp only [GameManager.Load, Character.New, hv2] at hr
        cases hr
    · intro hgood
      obtain ⟨hc, hok, _⟩ := Character.New_of_valid h fresh dto.PlayerName dto.PlayerMaxHP
        dto.PlayerStrength dto.PlayerAgility dto.PlayerIntelligence hhp hs ha hi hgood
      simp only [GameManager.Load, hok]
      exact ⟨_, rfl⟩
  · intro r hr
    by_cases hgood : ¬ (dto.PlayerMaxHP < 0 ∨ dto.PlayerStrength < 1 ∨ dto.PlayerAgility < 1
              ∨ dto.PlayerIntelligence < 1)
    · obtain ⟨hc, hok, _, _, hmax, _⟩ := Character.New_of_valid h fresh dto.PlayerName
        dto.PlayerMaxHP dto.PlayerStrength dto.PlayerAgility dto.PlayerIntelligence
        hhp hs ha hi hgood
      simp only [GameManager.Load, hok] at hr
      have hr2 := (Res.ok.inj hr).symm
      subst hr2
      have h0 : 0 ≤ dto.PlayerMaxHP := by
        by_contra hneg
        exact hgood (Or.inl (not_le.mp hneg))
      by_cases hbig : dto.PlayerCurrentHP > hc.2.MaxHP
      · refine ⟨{ hc.2 with CurrentHP := hc.2.MaxHP }, ?_, hmax, ?_, ?_, ?_⟩
        · simp only [hbig, if_true]
        · show hc.2.MaxHP = _
          rw [hmax] at hbig ⊢
          omega
        · exact le_refl _
        · show 0 ≤ hc.2.MaxHP ↔ _
          rw [hmax] at hbig ⊢
          omega
      · refine ⟨{ hc.2 with CurrentHP := dto.PlayerCurrentHP }, ?_, hmax, ?_, ?_, ?_⟩
        · simp only [hbig, if_false]
        · show dto.PlayerCurrentHP = _
          rw [hmax] at hbig
          omega
        · show dto.PlayerCurrentHP ≤ hc.2.MaxHP
          omega
        · exact Iff.rfl
    · exfalso
      have hbad := not_not.mp hgood
      cases hv2 : validateBaseStats dto.PlayerMaxHP dto.PlayerStrength dto.PlayerAgility
          dto.PlayerIntelligence with
      | none => exact (validateBaseStats_eq_none _ _ _ _).mp hv2 hbad
      | some e =>
        simp only [GameManager.Load, Character.New, hv2] at hr
        cases hr
  · obtain ⟨hc, hok, _⟩ := Character.New_of_valid emptyHeap 0 "Hero" 100 15 8 5
      (by decide) (by decide) (by decide) (by decide) (by decide)
    simp only [GameManager.Load, tamperedSave, hok]
    exact ⟨_, rfl⟩
  · obtain ⟨hc, hok, _, _, hmax, _⟩ := Character.New_of_valid emptyHeap 0 "Hero" 100 15 8 5
      (by decide) (by decide) (by decide) (by decide) (by decide)
    simp only [GameManager.Load, tamperedSave, hok, loadedPlayer, hmax]
    rfl

/-- C28 witness: the edited save is accepted and its player has -5 HP; the honest
save of a wounded warrior gives back its 40 HP. -/
theorem C28_Load_keeps_negative_hp_witness :
    (InIntRange tamperedSave.PlayerMaxHP ∧ InIntRange tamperedSave.PlayerStrength
        ∧ InIntRange tamperedSave.PlayerAgility ∧ InIntRange tamperedSave.PlayerIntelligence)
      ∧ (∃ r, GameManager.Load emptyHeap 0 {} tamperedSave = .ok r)
      ∧ (loadedPlayer (GameManager.Load emptyHeap 0 {} tamperedSave)).CurrentHP = -5
      ∧ (∀ r, GameManager.Load emptyHeap 0 {} honestSave = .ok r →
          ∃ p, r.2.Player = some p ∧ p.CurrentHP = 40) := by
  have hw := C28_Load_keeps_negative_hp emptyHeap 0 {} honestSave (by decide) (by decide)
    (by decide) (by decide)
  have ht := C28_Load_keeps_negative_hp emptyHeap 0 {} tamperedSave (by decide) (by decide)
    (by decide) (by decide)
  refine ⟨⟨by decide, by decide, by decide, by decide⟩, ht.2.2.1, ht.2.2.2, ?_⟩
  intro r hr
  obtain ⟨p, hp, _, hcur, _⟩ := hw.2.1 r hr
  exact ⟨p, hp, by rw [hcur]; decide⟩

/-! ## HP lost in a strike -/

/-- The result of `CalculateDamage` lies in `[1, 2^63)` when the damage value fits. -/
theorem CalculateDamage_lt_of_fit (draw : Option ℚ) (attacker defender : Character)
    (bodyPart : String) (hfit : damageValue draw attacker defender bodyPart < 2 ^ 63) :
    CalculateDamage draw attacker defender bodyPart < 2 ^ 63 := by
  rw [CalculateDamage_eq_floor draw attacker defender bodyPart hfit]
  exact Int.floor_lt.mpr (by exact_mod_cast hfit)

/-- C30 (as stated, refuted): an attacker whose strength is the largest `int` strikes
the head of a living defender with defense 3 who blocks the body: the damage value
does not fit an `int`, `SimpleStrike` returns the smallest `int` as damage and the
defender loses nothing, so the loss of 0 HP is above the returned number. -/
theorem C30_counterexample_negative_damage :
    0 < woundedChar.CurrentHP ∧ 0 ≤ woundedChar.DefenseValue
      ∧ SimpleStrike none (some giantChar) (some woundedChar) "Голова" "Тело" 1
          = (MinInt64, false, some woundedChar)
      ∧ ¬ (woundedChar.CurrentHP - woundedChar.CurrentHP
            ≤ (SimpleStrike none (some giantChar) (some woundedChar) "Голова" "Тело" 1).1) := by
  refine ⟨by decide, by decide!, by decide!, by decide!⟩

/-- C30 (amended): for every attacker and every living defender whose strength,
attack value and defense value have magnitude at most `2^50`, with defense >= 0 and
`0 < CurrentHP`, every pair of chosen body parts, every random draw in `[0, 1)` (or
none) and every dodge roll, the amount by which `SimpleStrike` lowers the defender's
HP is between 0 and the damage value it returns; when the parts are equal both are 0,
when the strike is dodged the loss is 0, and otherwise the loss is the smaller of the
defender's HP and `max(1, damage - floor(defense))`. -/
theorem C30_SimpleStrike_loss_bounded (draw : Option ℚ) (attacker defender : Character)
    (attackPart blockPart : String) (roll : ℚ)
    (hattacker : attacker.CombatBounded) (hdefender : defender.CombatBounded)
    (hdraw : ∀ r, draw = some r → 0 ≤ r ∧ r < 1)
    (halive : 0 < defender.CurrentHP) (hhp : defender.CurrentHP ≤ MaxInt64)
    (hdef : 0 ≤ defender.DefenseValue) :
    ∃ after, (SimpleStrike draw (some attacker) (some defender) attackPart blockPart roll).2.2
          = some after
      ∧ 0 ≤ defender.CurrentHP - after.CurrentHP
      ∧ defender.CurrentHP - after.CurrentHP
          ≤ (SimpleStrike draw (some attacker) (some defender) attackPart blockPart roll).1
      ∧ (attackPart = blockPart →
          after = defender
            ∧ (SimpleStrike draw (some attacker) (some defender) attackPart blockPart roll).1
                = 0)
      ∧ (attackPart ≠ blockPart → roll < defender.dodgeChance → after = defender)
      ∧ (attackPart ≠ blockPart → ¬ roll < defender.dodgeChance →
          defender.CurrentHP - after.CurrentHP
            = min defender.CurrentHP
                (max 1 ((SimpleStrike draw (some attacker) (some defender) attackPart
                  blockPart roll).1 - ⌊defender.DefenseValue⌋))) := by
  obtain ⟨hS, hA, _⟩ := hattacker
  obtain ⟨_, _, hD⟩ := hdefender
  by_cases hsame : attackPart = blockPart
  · refine ⟨defender, ?_, by omega, ?_, ?_, fun hne => absurd hsame hne,
      fun hne => absurd hsame hne⟩
    · simp only [SimpleStrike, not_le.mpr halive, hsame, if_true, if_false]
    · simp only [SimpleStrike, not_le.mpr halive, hsame, if_true, if_false]
      omega
    · intro _
      refine ⟨rfl, ?_⟩
      simp only [SimpleStrike, not_le.mpr halive, hsame, if_true, if_false]
  · have hfit := damageValue_lt draw attacker defender attackPart hS hA hD hdraw
    have h1 := CalculateDamage_ge_one_of_fit draw attacker defender attackPart hfit
    have h2 := CalculateDamage_lt_of_fit draw attacker defender attackPart hfit
    have hres : SimpleStrike draw (some attacker) (some defender) attackPart blockPart roll
        = (CalculateDamage draw attacker defender attackPart, false,
            some (defender.TakeDamage (CalculateDamage draw attacker defender attackPart)
              roll)) := by
      simp only [SimpleStrike, not_le.mpr halive, hsame, if_false]
    rw [hres]
    by_cases hdodge : roll < defender.dodgeChance
    · rw [Character.TakeDamage_of_dodge _ _ _ hdodge]
      refine ⟨defender, rfl, by omega, ?_, fun hs => absurd hs hsame, fun _ _ => rfl,
        fun _ hnd => absurd hdodge hnd⟩
      show defender.CurrentHP - defender.CurrentHP
        ≤ CalculateDamage draw attacker defender attackPart
      omega
    · rw [Character.TakeDamage_of_hit _ _ _ (by omega) hdodge]
      have hfl : floatToInt defender.DefenseValue = ⌊defender.DefenseValue⌋ := by
        rw [floatToInt_of_abs_le _ hD]
        unfold truncQ
        rw [if_pos hdef]
      have hfl0 : 0 ≤ ⌊defender.DefenseValue⌋ := Int.floor_nonneg.mpr hdef
      have hfl1 : |floatToInt defender.DefenseValue| ≤ 2 ^ 50 := floatToInt_abs_le _ hD
      rw [hfl] at hfl1 ⊢
      have hfl2 := abs_le.mp hfl1
      have hw1 : wrapInt (CalculateDamage draw attacker defender attackPart
          - ⌊defender.DefenseValue⌋)
          = CalculateDamage draw attacker defender attackPart - ⌊defender.DefenseValue⌋ := by
        apply wrapInt_of_inRange
        unfold InIntRange MinInt64 MaxInt64
        constructor <;> omega
      rw [hw1]
      have hw2 : wrapInt (defender.CurrentHP
          - max 1 (CalculateDamage draw attacker defender attackPart
              - ⌊defender.DefenseValue⌋))
          = defender.CurrentHP - max 1 (CalculateDamage draw attacker defender attackPart
              - ⌊defender.DefenseValue⌋) := by
        apply wrapInt_of_inRange
        unfold InIntRange MinInt64 MaxInt64
        unfold MaxInt64 at hhp
        constructor <;> omega
      rw [hw2]
      refine ⟨_, rfl, ?_, ?_, fun hs => absurd hs hsame, fun _ hd => absurd hd hdodge, ?_⟩
      · show 0 ≤ defender.CurrentHP - max MinHP _
        unfold MinHP
        omega
      · show defender.CurrentHP - max MinHP _
          ≤ CalculateDamage draw attacker defender attackPart
        unfold MinHP
        omega
      · intro _ _
        show defender.CurrentHP - max MinHP _ = min defender.CurrentHP (max 1 _)
        unfold MinHP
        omega

/-- C30 witness: strength 14 plus attack 5 on the head of a defender with defense 3
and 50 HP, no random source, not dodged: the returned damage is 27, the HP lost is
24. -/
theorem C30_SimpleStrike_loss_bounded_witness :
    (recruitChar.CombatBounded ∧ woundedChar.CombatBounded
        ∧ 0 < woundedChar.CurrentHP ∧ woundedChar.CurrentHP ≤ MaxInt64
        ∧ 0 ≤ woundedChar.DefenseValue)
      ∧ (SimpleStrike none (some recruitChar) (some woundedChar) "Голова" "Тело" 1).1 = 27
      ∧ ∃ after, (SimpleStrike none (some recruitChar) (some woundedChar) "Голова" "Тело"
            1).2.2 = some after
          ∧ 0 ≤ woundedChar.CurrentHP - after.CurrentHP
          ∧ woundedChar.CurrentHP - after.CurrentHP
            ≤ (SimpleStrike none (some recruitChar) (some woundedChar) "Голова" "Тело" 1).1
          ∧ woundedChar.CurrentHP - after.CurrentHP = 24 := by
  obtain ⟨after, h1, h2, h3, _, _, h6⟩ := C30_SimpleStrike_loss_bounded none recruitChar
    woundedChar "Голова" "Тело" 1 (by decide!) (by decide!) (fun r hr => by cases hr)
    (by decide) (by decide) (by decide!)
  have hd : (SimpleStrike none (some recruitChar) (some woundedChar) "Голова" "Тело" 1).1
      = 27 := by decide!
  refine ⟨⟨by decide!, by decide!, by decide, by decide, by decide!⟩, hd, after, h1, h2, h3, ?_⟩
  have h7 := h6 (by decide) (by decide!)
  rw [hd] at h7
  rw [h7]
  decide!

/-! ## Items that cannot be used in battle -/

/-- C23 (as stated, refuted): a used-up health potion (template 19, durability 0, for
which `Item.Use` fails) given to the manager of `NewItemEffectManager`: the effect
table has an entry for template 19, so `UseItem` returns true and heals the player
from 50 to 100 HP without calling `Item.Use`. -/
theorem C23_counterexample_broken_potion_heals :
    (potionHeap 0).Durability ≤ 0
      ∧ (Item.Use potionHeap 0).1 = .error .itemBroken
      ∧ (ItemEffectManager.UseItem (some NewItemEffectManager) potionHeap (some woundedChar)
          none (some 0)).1 = true
      ∧ woundedChar.CurrentHP = 50
      ∧ ((ItemEffectManager.UseItem (some NewItemEffectManager) potionHeap
          (some woundedChar) none (some 0)).2.2.map (fun c => c.CurrentHP)) = some 100 := by
  refine ⟨by decide!, by decide!, by decide!, by decide!, by decide!⟩

theorem canUseInBattle_eq_true (h : Heap) (p : Ptr) :
    canUseInBattle h (some p) = true
      ↔ ∃ t, (h p).Template = some t ∧ (h p).IsEquipped = false ∧ t.Slot = SlotNone
          ∧ (t.Typ = Potion ∨ t.Typ = Consumable) := by
  cases ht : (h p).Template with
  | none => simp [canUseInBattle, ht]
  | some t =>
    cases hflag : (h p).IsEquipped with
    | true => simp [canUseInBattle, ht, hflag]
    | false =>
      by_cases hslot : t.Slot = SlotNone
      · simp [canUseInBattle, ht, hflag, hslot]
      · simp [canUseInBattle, ht, hflag, hslot]

theorem Item.Use_of_broken (h : Heap) (p : Ptr) (hbroken : (h p).Durability ≤ 0) :
    (∃ e, (Item.Use h p).1 = .error e) ∧ (Item.Use h p).2 = h := by
  unfold Item.Use
  split_ifs with h1
  · exact ⟨⟨_, rfl⟩, rfl⟩
  · exact ⟨⟨_, rfl⟩, rfl⟩

/-- C23 (amended): for every manager (or none), user and item: with a nil user
`UseItem` returns false; if the item is nil, has no template, is equipped, is not of
type Potion or Consumable, or is equippable into a slot, it returns false and changes
neither the user nor any item; if the item is broken (durability <= 0) and the manager
is nil or its effect table has no entry for the item's template id, it returns false
and changes neither the user nor any item; and when the table has an entry for the
template id of a usable item, `UseItem` returns true whatever the durability, and
changes no item. -/
theorem C23_UseItem_refuses (iem : Option ItemEffectManager) (h : Heap)
    (player enemy : Option Character) (item : Option Ptr) :
    (player = none → ItemEffectManager.UseItem iem h player enemy item = (false, h, none))
      ∧ ((item = none ∨ ∃ p, item = some p ∧ ((h p).Template = none
            ∨ (h p).IsEquipped = true
            ∨ (∃ t, (h p).Template = some t
                ∧ (¬ (t.Typ = Potion ∨ t.Typ = Consumable) ∨ t.Slot ≠ SlotNone)))) →
          ItemEffectManager.UseItem iem h player enemy item = (false, h, player))
      ∧ (∀ p t, item = some p → (h p).Template = some t → (h p).Durability ≤ 0 →
          iem.bind (fun m => m.lookup t.ID) = none →
          ItemEffectManager.UseItem iem h player enemy item = (false, h, player))
      ∧ (∀ p t eff pl, item = some p → (h p).Template = some t → player = some pl →
          canUseInBattle h (some p) = true → iem.bind (fun m => m.lookup t.ID) = some eff →
          (ItemEffectManager.UseItem iem h player enemy item).1 = true
            ∧ (ItemEffectManager.UseItem iem h player enemy item).2.1 = h) := by
  refine ⟨?_, ?_, ?_, ?_⟩
  · intro hp
    subst hp
    rfl
  · intro hbad
    cases player with
    | none => cases item <;> rfl
    | some pl =>
      rcases hbad with hnil | ⟨p, hp, hcase⟩
      · subst hnil
        rfl
      · subst hp
        cases ht : (h p).Template with
        | none => simp only [ItemEffectManager.UseItem, ht]
        | some t =>
          have hno : canUseInBattle h (some p) = false := by
            rw [← Bool.not_eq_true, canUseInBattle_eq_true]
            rintro ⟨t2, ht2, hflag, hslot, htyp⟩
            rw [ht] at ht2
            have ht3 := Option.some.inj ht2
            subst ht3
            rcases hcase with hc | hc | ⟨t3, ht3, hc⟩
            · rw [ht] at hc
              cases hc
            · rw [hflag] at hc
              cases hc
            · rw [ht] at ht3
              have ht4 := Option.some.inj ht3
              subst ht4
              rcases hc with hc | hc
              · exact hc htyp
              · exact hc hslot
          simp only [ItemEffectManager.UseItem, ht, hno, Bool.not_false, if_true]
  · intro p t hp ht hbroken hlookup
    subst hp
    cases player with
    | none => rfl
    | some pl =>
      by_cases hcan : canUseInBattle h (some p) = true
      · obtain ⟨⟨e, he⟩, hheap⟩ := Item.Use_of_broken h p hbroken
        have hpair : Item.Use h p = (.error e, h) := Prod.ext he hheap
        simp only [ItemEffectManager.UseItem, ht, hcan, Bool.not_true, hlookup, hpair]
        rfl
      · have hno : canUseInBattle h (some p) = false := by
          rw [← Bool.not_eq_true]
          exact hcan
        simp only [ItemEffectManager.UseItem, ht, hno, Bool.not_false, if_true]
  · intro p t eff pl hp ht hpl hcan hlookup
    subst hp
    subst hpl
    simp only [ItemEffectManager.UseItem, ht, hcan, Bool.not_true, hlookup]
    exact ⟨rfl, rfl⟩

/-- C23 witness: the used-up scroll (template 20, no entry in the effect table) is
refused and nothing changes; the used-up health potion is refused when there is no
manager. -/
theorem C23_UseItem_refuses_witness :
    ItemEffectManager.UseItem (some NewItemEffectManager) potionHeap (some woundedChar) none
        (some 2) = (false, potionHeap, some woundedChar)
      ∧ ItemEffectManager.UseItem none potionHeap (some woundedChar) none (some 0)
        = (false, potionHeap, some woundedChar)
      ∧ ItemEffectManager.UseItem (some NewItemEffectManager) potionHeap none none (some 1)
        = (false, potionHeap, none) :=
  ⟨(C23_UseItem_refuses (some NewItemEffectManager) potionHeap (some woundedChar) none
      (some 2)).2.2.1 2 ((potionHeap 2).Template.getD swordTemplate)
      rfl (by decide!) (by decide!) (by decide!),
    (C23_UseItem_refuses none potionHeap (some woundedChar) none (some 0)).2.2.1 0
      ((potionHeap 0).Template.getD swordTemplate) rfl (by decide!) (by decide!) rfl,
    (C23_UseItem_refuses (some NewItemEffectManager) potionHeap none none (some 1)).1 rfl⟩

/-! ## Equip and unequip round trip -/

theorem SlotMap.delete_of_not_mem (m : SlotMap) (k : EquipmentSlot)
    (hk : k ∉ m.map Prod.fst) : m.delete k = m := by
  induction m with
  | nil => rfl
  | cons first rest ih =>
    obtain ⟨k1, v1⟩ := first
    simp only [List.map_cons, List.mem_cons, not_or] at hk
    have h1 : ¬ k1 = k := fun hf => hk.1 hf.symm
    simp only [SlotMap.delete, h1, if_false]
    rw [ih hk.2]

/-- Writing an item under a key that held nothing and deleting the key again keeps
the stored items, in their order. -/
theorem SlotMap.filterMap_delete_set (m : SlotMap) (k : EquipmentSlot) (p : Ptr)
    (hnd : (m.map Prod.fst).Nodup) (hget : (m.get k).join = none) :
    ((m.set k (some p)).delete k).filterMap Prod.snd = m.filterMap Prod.snd := by
  induction m with
  | nil => simp [SlotMap.set, SlotMap.delete]
  | cons first rest ih =>
    obtain ⟨k1, v1⟩ := first
    simp only [List.map_cons, List.nodup_cons] at hnd
    by_cases hk : k1 = k
    · subst hk
      simp only [SlotMap.get, if_true, Option.join] at hget
      have hv1 : v1 = none := by
        cases v1 with
        | none => rfl
        | some q => simp at hget
      subst hv1
      simp only [SlotMap.set, if_true, SlotMap.delete]
      rw [SlotMap.delete_of_not_mem rest k1 hnd.1]
      rfl
    · simp only [SlotMap.get, hk, if_false] at hget
      simp only [SlotMap.set, hk, if_false, SlotMap.delete, List.filterMap_cons]
      rw [ih hnd.2 hget]

theorem bonusStep_setEquipped (h : Heap) (p : Ptr) (b : Bool) (total : Item)
    (entry : EquipmentSlot × Option Ptr) :
    bonusStep (h.setEquipped p b) total entry = bonusStep h total entry := by
  obtain ⟨k, v⟩ := entry
  cases v with
  | none => rfl
  | some q =>
    by_cases hq : q = p
    · subst hq
      simp [bonusStep, Heap.setEquipped]
    · simp only [bonusStep, Heap.setEquipped_other h p q b hq]

theorem Equipment.GetTotalBonuses_setEquipped (h : Heap) (p : Ptr) (b : Bool)
    (e : Equipment) :
    e.GetTotalBonuses (h.setEquipped p b) = e.GetTotalBonuses h := by
  rw [Equipment.GetTotalBonuses_eq_foldl, Equipment.GetTotalBonuses_eq_foldl]
  have hstep : bonusStep (h.setEquipped p b) = bonusStep h := by
    funext total entry
    exact bonusStep_setEquipped h p b total entry
  rw [hstep]

theorem Equipment.GetTotalBonuses_of_filterMap (h : Heap) (e1 e2 : Equipment)
    (hsame : e1.Slots.filterMap Prod.snd = e2.Slots.filterMap Prod.snd) :
    e1.GetTotalBonuses h = e2.GetTotalBonuses h := by
  rw [Equipment.GetTotalBonuses_eq_foldl, Equipment.GetTotalBonuses_eq_foldl,
    bonusStep_foldl_filterMap, bonusStep_foldl_filterMap, hsame]

theorem Character.derived_CalculateStats_congr (h1 h2 : Heap) (c1 c2 : Character)
    (hbase : c1.base = c2.base)
    (hbon : c1.Equipment.GetTotalBonuses h1 = c2.Equipment.GetTotalBonuses h2) :
    (c1.CalculateStats h1).derived = (c2.CalculateStats h2).derived := by
  simp only [Character.base, Prod.mk.injEq] at hbase
  obtain ⟨b1, b2, b3, b4⟩ := hbase
  simp only [Character.derived, Character.CalculateStats, hbon, b1, b2, b3, b4]

/-- Shape of the round trip for an item that can be equipped. -/
theorem equipRoundTripIn_eq (h : Heap) (c : Character) (p : Ptr) (t : ItemTemplate)
    (ht : (h p).Template = some t) (hcan : c.Equipment.CanEquipItem h (some p) = true)
    (hmade : c.Equipment.NilMap = false) (order : SlotMap) :
    c.Equipment.Equip h (some p)
        = (.ok (), h.setEquipped p true,
            { c.Equipment with Slots := c.Equipment.Slots.set t.Slot (some p) })
      ∧ Equipment.Unequip (h.setEquipped p true)
          { c.Equipment with Slots := c.Equipment.Slots.set t.Slot (some p) } t.Slot
        = (.ok p, (h.setEquipped p true).setEquipped p false,
            { c.Equipment with
              Slots := SlotMap.delete (c.Equipment.Slots.set t.Slot (some p)) t.Slot })
      ∧ equipRoundTripIn h c p t.Slot order
        = ((h.setEquipped p true).setEquipped p false,
            ({ (({ c with
                    Equipment :=
                      { c.Equipment with
                        Slots := c.Equipment.Slots.set t.Slot (some p) } } :
                  Character).CalculateStats (h.setEquipped p true)) with
                Equipment :=
                  { c.Equipment with
                    Slots := SlotMap.delete (c.Equipment.Slots.set t.Slot (some p)) t.Slot } } :
              Character).CalculateStatsIn ((h.setEquipped p true).setEquipped p false)
                order) := by
  obtain ⟨t1, ht1, _, hequip⟩ := Equipment.Equip_of_CanEquipItem h c.Equipment p hcan hmade
  rw [ht] at ht1
  have ht2 := Option.some.inj ht1
  subst ht2
  have hgi : Equipment.GetItem
      { c.Equipment with Slots := c.Equipment.Slots.set t.Slot (some p) } t.Slot
      = some p := by
    simp [Equipment.GetItem, SlotMap.get_set]
  have hun : Equipment.Unequip (h.setEquipped p true)
      { c.Equipment with Slots := c.Equipment.Slots.set t.Slot (some p) } t.Slot
      = (.ok p, (h.setEquipped p true).setEquipped p false,
          { c.Equipment with
            Slots := SlotMap.delete (c.Equipment.Slots.set t.Slot (some p)) t.Slot }) := by
    simp only [Equipment.Unequip, hgi]
  refine ⟨hequip, hun, ?_⟩
  have hc1 : (({ c with
      Equipment := { c.Equipment with Slots := c.Equipment.Slots.set t.Slot (some p) } } :
      Character).CalculateStats (h.setEquipped p true)).Equipment
      = { c.Equipment with Slots := c.Equipment.Slots.set t.Slot (some p) } := rfl
  simp only [equipRoundTripIn, hequip, hc1, hun]

theorem Character.derived_CalculateStatsIn (h : Heap) (c : Character) (order : SlotMap) :
    (c.CalculateStatsIn h order).derived
      = (({ c with Equipment := { Slots := order } } : Character).CalculateStats h).derived :=
  rfl

theorem equipRoundTrip_eq_In (h : Heap) (c : Character) (p : Ptr) (slot : EquipmentSlot) :
    equipRoundTrip h c p slot
      = equipRoundTripIn h c p slot (equipRoundTrip h c p slot).2.Equipment.Slots := by
  unfold equipRoundTrip equipRoundTripIn
  rfl

/-- C21 (as stated, refuted): a character wears three pieces of armor with health
bonuses 16777216, 1 and 1 and its derived attributes are current (`MaxHP` 16777316,
summed in the order head, body, hands).  The starter sword is equipped into the free
weapon slot, `CalculateStats` is called, the weapon slot is unequipped and
`CalculateStats` is called again; this last call visits the three remaining slots in
the order body, hands, head, the float32 sum is 16777218 and `MaxHP` is 16777318, not
the pre-equip value. -/
theorem C21_counterexample_order_after_round_trip :
    crusaderChar.derived = (crusaderChar.CalculateStats reliquaryHeap).derived
      ∧ crusaderChar.Equipment.CanEquipItem reliquaryHeap (some 0) = true
      ∧ (reliquaryHeap 0).Template = some swordTemplate
      ∧ (equipRoundTrip reliquaryHeap crusaderChar 0 swordTemplate.Slot).2.Equipment.Slots
          = [(SlotHead, some 1), (SlotBody, some 2), (SlotHands, some 3)]
      ∧ List.Perm [(SlotBody, some 2), (SlotHands, some 3), (SlotHead, some 1)]
          [(SlotHead, some 1), (SlotBody, some 2), (SlotHands, some 3)]
      ∧ crusaderChar.MaxHP = 16777316
      ∧ (equipRoundTripIn reliquaryHeap crusaderChar 0 swordTemplate.Slot
          [(SlotBody, some 2), (SlotHands, some 3), (SlotHead, some 1)]).2.MaxHP = 16777318 := by
  refine ⟨?_, by decide!, by decide!, by decide!, ?_, by decide!, by decide!⟩
  · unfold crusaderChar
    rw [Character.CalculateStats_idem]
  · exact (List.Perm.cons _ (List.Perm.swap _ _ _)).trans (List.Perm.swap _ _ _)

/-- C21 (amended): for every character whose slot map has no duplicate key and every
item that can be equipped into a free slot (`CanEquipItem` is true): `Equip` succeeds,
and after `Equip`, `CalculateStats`, `Unequip` of that slot and `CalculateStats` the
slots hold the same items as before and the derived attributes (`MaxHP`, strength,
agility, intelligence, attack, defense, crit chance, crit damage) are those that
`CalculateStats` gives on the character before the equip - so exactly the pre-equip
ones when these were up to date - provided the last `CalculateStats` visits the slots
in the order of the model's list, or in any order that gives the same bonus totals; in
whatever order it visits the slots, strength, agility, intelligence, crit chance and
crit damage are restored. -/
theorem C21_equip_unequip_restores (h : Heap) (c : Character) (p : Ptr) (t : ItemTemplate)
    (ht : (h p).Template = some t)
    (hcan : c.Equipment.CanEquipItem h (some p) = true)
    (hmade : c.Equipment.NilMap = false)
    (hkeys : (c.Equipment.Slots.map Prod.fst).Nodup) :
    (c.Equipment.Equip h (some p)).1 = .ok ()
      ∧ (equipRoundTrip h c p t.Slot).2.derived = (c.CalculateStats h).derived
      ∧ (c.derived = (c.CalculateStats h).derived →
          (equipRoundTrip h c p t.Slot).2.derived = c.derived)
      ∧ (∀ slot, (equipRoundTrip h c p t.Slot).2.Equipment.GetItem slot
          = c.Equipment.GetItem slot)
      ∧ (∀ order : SlotMap,
          Equipment.GetTotalBonuses h { Slots := order } = c.Equipment.GetTotalBonuses h →
          (equipRoundTripIn h c p t.Slot order).2.derived = (c.CalculateStats h).derived)
      ∧ (∀ order : SlotMap, order.Perm (equipRoundTrip h c p t.Slot).2.Equipment.Slots →
          (equipRoundTripIn h c p t.Slot order).2.Strength = (c.CalculateStats h).Strength
            ∧ (equipRoundTripIn h c p t.Slot order).2.Agility = (c.CalculateStats h).Agility
            ∧ (equipRoundTripIn h c p t.Slot order).2.Intelligence
                = (c.CalculateStats h).Intelligence
            ∧ (equipRoundTripIn h c p t.Slot order).2.CritChance
                = (c.CalculateStats h).CritChance
            ∧ (equipRoundTripIn h c p t.Slot order).2.CritDamage
                = (c.CalculateStats h).CritDamage) := by
  obtain ⟨t1, ht1, hget, _⟩ := Equipment.Equip_of_CanEquipItem h c.Equipment p hcan hmade
  rw [ht] at ht1
  have ht2 := Option.some.inj ht1
  subst ht2
  have hshape := fun order => (equipRoundTripIn_eq h c p t ht hcan hmade order).2.2
  have hequip := (equipRoundTripIn_eq h c p t ht hcan hmade []).1
  have hfm : (SlotMap.delete (c.Equipment.Slots.set t.Slot (some p)) t.Slot).filterMap Prod.snd
      = c.Equipment.Slots.filterMap Prod.snd :=
    SlotMap.filterMap_delete_set c.Equipment.Slots t.Slot p hkeys hget
  have hheap : ∀ e : Equipment,
      e.GetTotalBonuses ((h.setEquipped p true).setEquipped p false) = e.GetTotalBonuses h := by
    intro e
    rw [Equipment.GetTotalBonuses_setEquipped, Equipment.GetTotalBonuses_setEquipped]
  have hbon : ∀ b : Bool,
      Equipment.GetTotalBonuses ((h.setEquipped p true).setEquipped p false)
        { Slots := SlotMap.delete (c.Equipment.Slots.set t.Slot (some p)) t.Slot, NilMap := b }
      = c.Equipment.GetTotalBonuses h := by
    intro b
    rw [hheap]
    exact Equipment.GetTotalBonuses_of_filterMap h _ _ hfm
  have hslots : (equipRoundTrip h c p t.Slot).2.Equipment.Slots
      = SlotMap.delete (c.Equipment.Slots.set t.Slot (some p)) t.Slot := by
    rw [equipRoundTrip_eq_In, hshape]
    rfl
  have hgen : ∀ order : SlotMap,
      Equipment.GetTotalBonuses h { Slots := order } = c.Equipment.GetTotalBonuses h →
      (equipRoundTripIn h c p t.Slot order).2.derived = (c.CalculateStats h).derived := by
    intro order hord
    rw [hshape order]
    simp only
    rw [Character.derived_CalculateStatsIn]
    have hb2 : Equipment.GetTotalBonuses ((h.setEquipped p true).setEquipped p false)
        { Slots := order } = c.Equipment.GetTotalBonuses h := by
      rw [hheap, hord]
    exact Character.derived_CalculateStats_congr _ h _ c rfl hb2
  have hmain : (equipRoundTrip h c p t.Slot).2.derived = (c.CalculateStats h).derived := by
    rw [equipRoundTrip_eq_In]
    apply hgen
    rw [hslots, ← hheap]
    exact hbon _
  refine ⟨by rw [hequip], hmain, fun hcur => by rw [hmain, ← hcur], ?_, hgen, ?_⟩
  · intro slot
    show Equipment.GetItem { Slots := (equipRoundTrip h c p t.Slot).2.Equipment.Slots } slot = _
    rw [hslots]
    unfold Equipment.GetItem
    simp only [SlotMap.get_delete, SlotMap.get_set]
    by_cases hs : slot = t.Slot
    · subst hs
      simp only [if_true]
      unfold Equipment.GetItem at hget
      rw [hget]
      rfl
    · simp only [hs, if_false]
  · intro order hperm
    rw [hslots] at hperm
    obtain ⟨hs, ha, hi⟩ := Equipment.GetTotalBonuses_perm
      ((h.setEquipped p true).setEquipped p false) order _ hperm
    rw [hbon false] at hs ha hi
    rw [hshape order]
    refine ⟨?_, ?_, ?_, ?_, ?_⟩ <;>
      simp only [Character.CalculateStatsIn, Character.CalculateStats, hs, ha, hi]

/-- C21 witness: the paladin with three pieces of armor equips the starter sword into
the free weapon slot and unequips it again: the derived attributes are the pre-equip
ones, with `MaxHP` 16777316. -/
theorem C21_equip_unequip_restores_witness :
    ((reliquaryHeap 0).Template = some swordTemplate
        ∧ crusaderChar.Equipment.CanEquipItem reliquaryHeap (some 0) = true
        ∧ crusaderChar.Equipment.NilMap = false
        ∧ (crusaderChar.Equipment.Slots.map Prod.fst).Nodup)
      ∧ (equipRoundTrip reliquaryHeap crusaderChar 0 swordTemplate.Slot).2.derived
          = crusaderChar.derived
      ∧ (equipRoundTrip reliquaryHeap crusaderChar 0 swordTemplate.Slot).2.MaxHP = 16777316 := by
  have h1 : (reliquaryHeap 0).Template = some swordTemplate := by decide!
  have h2 : crusaderChar.Equipment.CanEquipItem reliquaryHeap (some 0) = true := by decide!
  have h3 : (crusaderChar.Equipment.Slots.map Prod.fst).Nodup := by decide
  have hcur : crusaderChar.derived = (crusaderChar.CalculateStats reliquaryHeap).derived := by
    unfold crusaderChar
    rw [Character.CalculateStats_idem]
  exact ⟨⟨h1, h2, rfl, h3⟩,
    (C21_equip_unequip_restores reliquaryHeap crusaderChar 0 swordTemplate h1 h2 rfl
      h3).2.2.1 hcur,
    by decide!⟩

/-! ## Derived attributes along the public operations -/

theorem Heap.SameGear.self (h : Heap) : Heap.SameGear h h := fun _ => rfl

theorem Heap.SameGear.trans {h h1 h2 : Heap} (a : Heap.SameGear h h1)
    (b : Heap.SameGear h1 h2) : Heap.SameGear h h2 := by
  intro p
  have ha := a p
  have hb := b p
  rw [← ha, ← hb]

theorem Heap.SameGear.fields {h h1 : Heap} (a : Heap.SameGear h h1) (p : Ptr) :
    (h1 p).Template = (h p).Template ∧ (h1 p).IsEquipped = (h p).IsEquipped
      ∧ (h1 p).Strength = (h p).Strength ∧ (h1 p).Agility = (h p).Agility
      ∧ (h1 p).Intelligence = (h p).Intelligence ∧ (h1 p).Attack = (h p).Attack
      ∧ (h1 p).Defense = (h p).Defense ∧ (h1 p).Health = (h p).Health
      ∧ (h1 p).Mana = (h p).Mana := by
  have ha := a p
  refine ⟨?_, ?_, ?_, ?_, ?_, ?_, ?_, ?_, ?_⟩
  · have := congrArg Item.Template ha; exact this
  · have := congrArg Item.IsEquipped ha; exact this
  · have := congrArg Item.Strength ha; exact this
  · have := congrArg Item.Agility ha; exact this
  · have := congrArg Item.Intelligence ha; exact this
  · have := congrArg Item.Attack ha; exact this
  · have := congrArg Item.Defense ha; exact this
  · have := congrArg Item.Health ha; exact this
  · have := congrArg Item.Mana ha; exact this

theorem Equipment.GetTotalBonuses_sameGear {h h1 : Heap} (a : Heap.SameGear h h1)
    (e : Equipment) : e.GetTotalBonuses h1 = e.GetTotalBonuses h := by
  rw [Equipment.GetTotalBonuses_eq_foldl, Equipment.GetTotalBonuses_eq_foldl]
  have hstep : bonusStep h1 = bonusStep h := by
    funext total entry
    obtain ⟨k, v⟩ := entry
    cases v with
    | none => rfl
    | some q =>
      obtain ⟨_, _, f1, f2, f3, f4, f5, f6, f7⟩ := a.fields q
      simp only [bonusStep, f1, f2, f3, f4, f5, f6, f7]
  rw [hstep]

theorem Equipment.Sound.sameGear {h h1 : Heap} (a : Heap.SameGear h h1) {e : Equipment}
    (hs : e.Sound h) : e.Sound h1 := by
  obtain ⟨hnd, hinv⟩ := hs
  refine ⟨hnd, ?_⟩
  intro slot p hp
  obtain ⟨hflag, t, ht, rest⟩ := hinv slot p hp
  obtain ⟨f1, f2, _⟩ := a.fields p
  exact ⟨by rw [f2]; exact hflag, t, by rw [f1]; exact ht, rest⟩

theorem Item.Use_sameGear (h : Heap) (p : Ptr) : Heap.SameGear h (Item.Use h p).2 := by
  unfold Item.Use
  by_cases hc : (!(h p).CanUse) = true
  · rw [if_pos hc]; exact Heap.SameGear.self h
  · rw [if_neg hc]
    by_cases hd : (h p).Durability ≤ 0
    · rw [if_pos hd]; exact Heap.SameGear.self h
    · rw [if_neg hd]
      cases ht : (h p).Template with
      | none => exact Heap.SameGear.self h
      | some t =>
        intro q
        by_cases hq : q = p
        · subst hq
          simp only [Function.update_same]
        · simp only [Function.update_noteq hq]

theorem Heap.setEquipped_bonuses (h : Heap) (p : Ptr) (b c : Bool) (e : Equipment) :
    e.GetTotalBonuses ((h.setEquipped p b).setEquipped p c) = e.GetTotalBonuses h := by
  rw [Equipment.GetTotalBonuses_setEquipped, Equipment.GetTotalBonuses_setEquipped]

/-- Derived attributes that were current stay current when they, the base attributes,
the equipped items and the items' stats are kept. -/
theorem Character.UpToDate.of_frame {h h1 : Heap} {c c1 : Character} (hcur : c.UpToDate h)
    (hd : c1.derived = c.derived) (hb : c1.base = c.base)
    (hbon : ∀ e : MiniGame.Equipment, e.GetTotalBonuses h1 = e.GetTotalBonuses h)
    (hperm : (c1.Equipment.Slots.filterMap Prod.snd).Perm
      (c.Equipment.Slots.filterMap Prod.snd)) :
    c1.UpToDate h1 := by
  obtain ⟨order, hord, hder⟩ := hcur
  refine ⟨order, hord.trans hperm.symm, ?_⟩
  rw [hd, hder, Character.derived_CalculateStatsIn, Character.derived_CalculateStatsIn]
  exact Character.derived_CalculateStats_congr _ _ _ _ hb.symm (hbon _).symm

theorem Character.CalculateStats_upToDate (h : Heap) (c : Character) :
    (c.CalculateStats h).UpToDate h := by
  refine ⟨c.Equipment.Slots, List.Perm.refl _, ?_⟩
  rw [Character.derived_CalculateStatsIn]
  have h1 : (({ (c.CalculateStats h) with Equipment := { Slots := c.Equipment.Slots } } :
      Character).CalculateStats h).derived = ((c.CalculateStats h).CalculateStats h).derived :=
    Character.derived_CalculateStats_congr _ _ _ _ rfl
      (Equipment.GetTotalBonuses_of_filterMap h _ _ rfl)
  rw [h1, Character.CalculateStats_idem]

theorem slotAccepts_ne_none (slot : EquipmentSlot) (typ : ItemType)
    (h : slotAccepts slot typ) : slot ≠ SlotNone := by
  unfold slotAccepts SlotWeapon SlotHead SlotBody SlotHands SlotFeet SlotBoots
    SlotAccessory at h
  unfold SlotNone
  intro hn
  rw [hn] at h
  norm_num at h

theorem SlotMap.set_of_not_mem (m : SlotMap) (k : EquipmentSlot) (v : Option Ptr)
    (hk : k ∉ m.map Prod.fst) : m.set k v = m ++ [(k, v)] := by
  induction m with
  | nil => rfl
  | cons first rest ih =>
    obtain ⟨k1, v1⟩ := first
    simp only [List.map_cons, List.mem_cons, not_or] at hk
    have h1 : ¬ k1 = k := fun hf => hk.1 hf.symm
    simp only [SlotMap.set, h1, if_false, List.cons_append]
    rw [ih hk.2]

/-- Deleting an occupied key and writing its item back keeps the stored items, up to
their order. -/
theorem SlotMap.filterMap_set_delete_perm (m : SlotMap) (k : EquipmentSlot) (p : Ptr)
    (hnd : (m.map Prod.fst).Nodup) (hget : (m.get k).join = some p) :
    (((m.delete k).set k (some p)).filterMap Prod.snd).Perm (m.filterMap Prod.snd) := by
  induction m with
  | nil => simp [SlotMap.get] at hget
  | cons first rest ih =>
    obtain ⟨k1, v1⟩ := first
    simp only [List.map_cons, List.nodup_cons] at hnd
    by_cases hk : k1 = k
    · subst hk
      simp only [SlotMap.get, if_true, Option.join] at hget
      have hv1 : v1 = some p := by
        cases v1 with
        | none => simp at hget
        | some q =>
          have hq : q = p := by simpa using hget
          rw [hq]
      subst hv1
      simp only [SlotMap.delete, if_true]
      rw [SlotMap.delete_of_not_mem rest k1 hnd.1, SlotMap.set_of_not_mem rest k1 _ hnd.1]
      simp only [List.filterMap_append, List.filterMap_cons, List.filterMap_nil]
      exact List.perm_append_singleton p _
    · simp only [SlotMap.get, hk, if_false] at hget
      simp only [SlotMap.delete, hk, if_false, SlotMap.set, List.filterMap_cons]
      cases v1 with
      | none => exact ih hnd.2 hget
      | some q => exact List.Perm.cons q (ih hnd.2 hget)

theorem Character.EquipItem_current (h : Heap) (c : Character) (itemID : Int)
    (hcur : c.Current h) (hnp : (c.EquipItem h itemID).1 ≠ .panic) :
    (c.EquipItem h itemID).2.2.Current (c.EquipItem h itemID).2.1
      ∧ (c.EquipItem h itemID).2.2.base = c.base := by
  cases hfind : c.Inventory.FindItemByID h itemID with
  | none =>
    have hres : c.EquipItem h itemID = (.error .notInInventory, h, c) := by
      simp only [Character.EquipItem, hfind]
    rw [hres]
    exact ⟨hcur, rfl⟩
  | some p =>
    cases hcan : c.Equipment.CanEquipItem h (some p) with
    | false =>
      have hres : c.EquipItem h itemID = (.error .cannotEquip, h, c) := by
        simp only [Character.EquipItem, hfind, hcan]
        rfl
      rw [hres]
      exact ⟨hcur, rfl⟩
    | true =>
      cases hmade : c.Equipment.NilMap with
      | true =>
        exfalso
        apply hnp
        have hequip := Equipment.Equip_of_CanEquipItem_nil h c.Equipment p hcan hmade
        simp only [Character.EquipItem, hfind, hcan, hequip]
        rfl
      | false =>
        obtain ⟨t, ht, hget, hequip⟩ :=
          Equipment.Equip_of_CanEquipItem h c.Equipment p hcan hmade
        have hrem := removeItemLoop_of_find_equipped h (h.setEquipped p true) itemID p
          (fun q => Heap.setEquipped_template h p q true)
          (Heap.setEquipped_flag_self h p true) c.Inventory.Items [] hfind
        have ht1 : (h.setEquipped p true p).Template = some t := by
          rw [Heap.setEquipped_template]; exact ht
        cases hr : removeItemLoop (h.setEquipped p true) itemID [] c.Inventory.Items with
        | ok v => exact absurd hr (hrem v)
        | panic =>
          exfalso
          apply hnp
          simp only [Character.EquipItem, hfind, hcan, hequip, Inventory.RemoveItem, hr]
          rfl
        | error e1 =>
          have hgi : Equipment.GetItem
              { c.Equipment with Slots := c.Equipment.Slots.set t.Slot (some p) } t.Slot
              = some p := by
            simp [Equipment.GetItem, SlotMap.get_set]
          have hun : Equipment.Unequip (h.setEquipped p true)
              { c.Equipment with Slots := c.Equipment.Slots.set t.Slot (some p) } t.Slot
              = (.ok p, (h.setEquipped p true).setEquipped p false,
                  { c.Equipment with
                    Slots := SlotMap.delete (c.Equipment.Slots.set t.Slot (some p)) t.Slot }) := by
            simp only [Equipment.Unequip, hgi]
          have hres : c.EquipItem h itemID
              = (.error (.removeFailed e1), (h.setEquipped p true).setEquipped p false,
                  { c with
                    Equipment :=
                      { c.Equipment with
                        Slots := SlotMap.delete (c.Equipment.Slots.set t.Slot (some p))
                          t.Slot } }) := by
            simp only [Character.EquipItem, hfind, hcan, hequip, Inventory.RemoveItem, hr, ht1,
              hun, Bool.not_true, Bool.false_eq_true, if_false]
          rw [hres]
          dsimp only
          have hs1 := Equipment.Equip_sound h c.Equipment (some p) hcur.1
          rw [hequip] at hs1
          have hs2 := Equipment.Unequip_sound _ _ t.Slot hs1
          rw [hun] at hs2
          refine ⟨⟨hs2, ?_⟩, rfl⟩
          refine Character.UpToDate.of_frame hcur.2 ?_ ?_
            (Heap.setEquipped_bonuses h p true false) ?_
          · rfl
          · rfl
          · show (List.filterMap Prod.snd
              (SlotMap.delete (c.Equipment.Slots.set t.Slot (some p)) t.Slot)).Perm _
            rw [SlotMap.filterMap_delete_set c.Equipment.Slots t.Slot p hcur.1.1 hget]

theorem Character.UnequipItem_current (h : Heap) (c : Character) (slot : EquipmentSlot)
    (hcur : c.Current h) (hnp : (c.UnequipItem h slot).1 ≠ .panic) :
    (c.UnequipItem h slot).2.2.Current (c.UnequipItem h slot).2.1
      ∧ (c.UnequipItem h slot).2.2.base = c.base := by
  cases hget : c.Equipment.GetItem slot with
  | none =>
    have hres : c.UnequipItem h slot = (.error .slotEmpty, h, c) := by
      simp only [Character.UnequipItem, Equipment.Unequip, hget]
    rw [hres]
    exact ⟨hcur, rfl⟩
  | some p =>
    obtain ⟨hflag, t, ht, hslot, hacc⟩ := hcur.1.2 slot p hget
    have hun : c.Equipment.Unequip h slot
        = (.ok p, h.setEquipped p false,
            { c.Equipment with Slots := c.Equipment.Slots.delete slot }) := by
      simp only [Equipment.Unequip, hget]
    have hs1 := Equipment.Unequip_sound h c.Equipment slot hcur.1
    rw [hun] at hs1
    have hf1 : (h.setEquipped p false p).IsEquipped = false :=
      Heap.setEquipped_flag_self h p false
    rcases Inventory.AddItem_cases (h.setEquipped p false) c.Inventory p with
      ⟨_, hadd⟩ | ⟨_, hbad, _⟩ | ⟨_, _, hadd⟩
    · -- the inventory is full: the item is equipped again
      have ht1 : (h.setEquipped p false p).Template = some t := by
        rw [Heap.setEquipped_template]; exact ht
      have hcan : Equipment.CanEquipItem (h.setEquipped p false)
          { c.Equipment with Slots := c.Equipment.Slots.delete slot } (some p) = true := by
        rw [Equipment.CanEquipItem_iff]
        refine ⟨p, t, rfl, ht1, ?_, ?_, ?_⟩
        · rw [hslot]; exact slotAccepts_ne_none slot t.Typ hacc
        · rw [hslot]; exact hacc
        · simp [Equipment.GetItem, SlotMap.get_delete, hslot]
      cases hmade : c.Equipment.NilMap with
      | true =>
        exfalso
        apply hnp
        have hequip := Equipment.Equip_of_CanEquipItem_nil (h.setEquipped p false)
          { c.Equipment with Slots := c.Equipment.Slots.delete slot } p hcan hmade
        simp only [Character.UnequipItem, hun, hadd, hequip]
      | false =>
        obtain ⟨t2, ht2, _, hequip⟩ := Equipment.Equip_of_CanEquipItem (h.setEquipped p false)
          { c.Equipment with Slots := c.Equipment.Slots.delete slot } p hcan hmade
        rw [ht1] at ht2
        have ht3 := Option.some.inj ht2
        subst ht3
        have hres : c.UnequipItem h slot
            = (.error (.addFailed .inventoryFull),
                (h.setEquipped p false).setEquipped p true,
                { c with
                  Equipment :=
                    { c.Equipment with
                      Slots := (c.Equipment.Slots.delete slot).set t.Slot (some p) } }) := by
          simp only [Character.UnequipItem, hun, hadd, hequip]
        rw [hres]
        dsimp only
        have hs2 := Equipment.Equip_sound _ _ (some p) hs1
        rw [hequip] at hs2
        refine ⟨⟨hs2, ?_⟩, rfl⟩
        refine Character.UpToDate.of_frame hcur.2 ?_ ?_
          (Heap.setEquipped_bonuses h p false true) ?_
        · rfl
        · rfl
        · show (List.filterMap Prod.snd
            ((c.Equipment.Slots.delete slot).set t.Slot (some p))).Perm _
          rw [hslot]
          exact SlotMap.filterMap_set_delete_perm c.Equipment.Slots slot p hcur.1.1 hget
    · rw [hf1] at hbad
      cases hbad
    · have hres : c.UnequipItem h slot
          = (.ok (), h.setEquipped p false,
              ({ c with
                  Equipment := { c.Equipment with Slots := c.Equipment.Slots.delete slot },
                  Inventory := { c.Inventory with Items := c.Inventory.Items ++ [some p] } } :
                Character).CalculateStats (h.setEquipped p false)) := by
        simp only [Character.UnequipItem, hun, hadd]
      rw [hres]
      dsimp only
      exact ⟨⟨hs1, Character.CalculateStats_upToDate _ _⟩, rfl⟩

theorem Character.Heal_frame (c : Character) (amount : ℚ) :
    (c.Heal amount).derived = c.derived ∧ (c.Heal amount).base = c.base
      ∧ (c.Heal amount).Equipment = c.Equipment := by
  unfold Character.Heal
  split_ifs <;> exact ⟨rfl, rfl, rfl⟩

theorem Character.TakeDamage_frame (c : Character) (damage : Int) (roll : ℚ) :
    (c.TakeDamage damage roll).derived = c.derived
      ∧ (c.TakeDamage damage roll).base = c.base
      ∧ (c.TakeDamage damage roll).Equipment = c.Equipment := by
  rcases Character.TakeDamage_cases c damage roll with h | ⟨ad, _, _, h⟩ <;> rw [h] <;>
    exact ⟨rfl, rfl, rfl⟩

theorem Character.SetMana_frame (c : Character) (mana : ℚ) :
    (c.SetMana mana).derived = c.derived ∧ (c.SetMana mana).base = c.base
      ∧ (c.SetMana mana).Equipment = c.Equipment :=
  ⟨rfl, rfl, rfl⟩

theorem Character.UseItem_frame (h : Heap) (c : Character) (itemID : Int) :
    (c.UseItem h itemID).2.2.derived = c.derived
      ∧ (c.UseItem h itemID).2.2.base = c.base
      ∧ (c.UseItem h itemID).2.2.Equipment = c.Equipment := by
  cases hfind : c.Inventory.FindItemByID h itemID with
  | none =>
    refine ⟨?_, ?_, ?_⟩ <;> simp only [Character.UseItem, hfind]
  | some p =>
    cases hcan : (h p).CanUse with
    | false =>
      refine ⟨?_, ?_, ?_⟩ <;> simp only [Character.UseItem, hfind, hcan] <;> rfl
    | true =>
      rcases hu : Item.Use h p with ⟨r, h1⟩
      cases r with
      | error e =>
        refine ⟨?_, ?_, ?_⟩ <;> simp only [Character.UseItem, hfind, hcan, hu] <;> rfl
      | panic =>
        refine ⟨?_, ?_, ?_⟩ <;> simp only [Character.UseItem, hfind, hcan, hu] <;> rfl
      | ok effects =>
        obtain ⟨eh, em, ea, ed, ehr, emr⟩ := effects
        cases eh <;> cases em <;>
          simp only [Character.UseItem, hfind, hcan, hu, Bool.not_true, Bool.false_eq_true,
            if_false] <;>
          split_ifs <;>
          first
            | exact ⟨rfl, rfl, rfl⟩
            | exact Character.Heal_frame c _
            | (split <;> first | exact ⟨rfl, rfl, rfl⟩ | exact Character.Heal_frame c _)

theorem Character.UseItem_heap (h : Heap) (c : Character) (itemID : Int) :
    Heap.SameGear h (c.UseItem h itemID).2.1 := by
  cases hfind : c.Inventory.FindItemByID h itemID with
  | none =>
    simp only [Character.UseItem, hfind]
    exact Heap.SameGear.self h
  | some p =>
    cases hcan : (h p).CanUse with
    | false =>
      simp only [Character.UseItem, hfind, hcan]
      exact Heap.SameGear.self h
    | true =>
      have hgear := Item.Use_sameGear h p
      rcases hu : Item.Use h p with ⟨r, h1⟩
      rw [hu] at hgear
      cases r with
      | error e =>
        simp only [Character.UseItem, hfind, hcan, hu]
        exact hgear
      | panic =>
        simp only [Character.UseItem, hfind, hcan, hu]
        exact hgear
      | ok effects =>
        have hres : (c.UseItem h itemID).2.1 = h1 := by
          simp only [Character.UseItem, hfind, hcan, hu, Bool.not_true, Bool.false_eq_true,
            if_false]
          split_ifs
          · split <;> rfl
          · rfl
        rw [hres]
        exact hgear

theorem ItemEffectManager.UseItem_keeps_gear (iem : Option ItemEffectManager) (h : Heap)
    (player enemy : Option Character) (item : Option Ptr) :
    Heap.SameGear h (ItemEffectManager.UseItem iem h player enemy item).2.1 := by
  cases player with
  | none => exact Heap.SameGear.self h
  | some pl =>
    cases item with
    | none => exact Heap.SameGear.self h
    | some p =>
      cases ht : (h p).Template with
      | none =>
        simp only [ItemEffectManager.UseItem, ht]
        exact Heap.SameGear.self h
      | some t =>
        cases hcan : canUseInBattle h (some p) with
        | false =>
          simp only [ItemEffectManager.UseItem, ht, hcan]
          exact Heap.SameGear.self h
        | true =>
          cases hl : iem.bind (fun m => m.lookup t.ID) with
          | some eff =>
            simp only [ItemEffectManager.UseItem, ht, hcan, hl, Bool.not_true,
              Bool.false_eq_true, if_false]
            exact Heap.SameGear.self h
          | none =>
            have hgear := Item.Use_sameGear h p
            rcases hu : Item.Use h p with ⟨r, h1⟩
            rw [hu] at hgear
            cases r with
            | error e =>
              simp only [ItemEffectManager.UseItem, ht, hcan, hl, hu]
              exact hgear
            | panic =>
              simp only [ItemEffectManager.UseItem, ht, hcan, hl, hu]
              exact hgear
            | ok effects =>
              simp only [ItemEffectManager.UseItem, ht, hcan, hl, hu, Bool.not_true,
                Bool.false_eq_true, if_false]
              exact hgear

theorem Item.Use_ok_effects (h : Heap) (p : Ptr) (effects : UseEffects) (h1 : Heap)
    (hu : Item.Use h p = (.ok effects, h1)) :
    effects.attack = (if (h p).Attack ≠ 0 then some (h p).Attack else none)
      ∧ effects.defense = (if (h p).Defense ≠ 0 then some (h p).Defense else none) := by
  unfold Item.Use at hu
  by_cases hc : (!(h p).CanUse) = true
  · rw [if_pos hc] at hu
    cases hu
  · rw [if_neg hc] at hu
    by_cases hd : (h p).Durability ≤ 0
    · rw [if_pos hd] at hu
      cases hu
    · rw [if_neg hd] at hu
      cases ht : (h p).Template with
      | none =>
        simp only [ht] at hu
        cases hu
      | some t =>
        simp only [ht, Prod.mk.injEq, Res.ok.injEq] at hu
        rw [← hu.1]
        exact ⟨rfl, rfl⟩

theorem ItemEffectManager.UseItem_plain_frame (iem : Option ItemEffectManager) (h : Heap)
    (c : Character) (enemy : Option Character) (item : Option Ptr)
    (hplain : CharacterOp.Plain h (.managerUse iem item)) :
    ∃ c1, (ItemEffectManager.UseItem iem h (some c) enemy item).2.2 = some c1
      ∧ c1.derived = c.derived ∧ c1.base = c.base ∧ c1.Equipment = c.Equipment := by
  cases item with
  | none => exact ⟨c, rfl, rfl, rfl, rfl⟩
  | some p =>
    cases ht : (h p).Template with
    | none => exact ⟨c, by simp only [ItemEffectManager.UseItem, ht], rfl, rfl, rfl⟩
    | some t =>
      cases hcan : canUseInBattle h (some p) with
      | false =>
        exact ⟨c, by simp only [ItemEffectManager.UseItem, ht, hcan]; rfl, rfl, rfl, rfl⟩
      | true =>
        simp only [CharacterOp.Plain, ht] at hplain
        cases hl : iem.bind (fun m => m.lookup t.ID) with
        | some eff =>
          rw [hl] at hplain
          simp only at hplain
          have ha : ¬ eff.Attack > 0 := not_lt.mpr hplain.1
          have hd : ¬ eff.Defense > 0 := not_lt.mpr hplain.2
          simp only [ItemEffectManager.UseItem, ht, hcan, hl, ha, hd, Bool.not_true,
            Bool.false_eq_true, if_false]
          refine ⟨_, rfl, ?_⟩
          split_ifs
          all_goals first
            | exact ⟨rfl, rfl, rfl⟩
            | exact Character.Heal_frame c eff.Health
        | none =>
          rw [hl] at hplain
          simp only at hplain
          rcases hu : Item.Use h p with ⟨r, h1⟩
          cases r with
          | error e =>
            exact ⟨c, by simp only [ItemEffectManager.UseItem, ht, hcan, hl, hu]; rfl,
              rfl, rfl, rfl⟩
          | panic =>
            exact ⟨c, by simp only [ItemEffectManager.UseItem, ht, hcan, hl, hu]; rfl,
              rfl, rfl, rfl⟩
          | ok effects =>
            obtain ⟨hatt, hdef⟩ := Item.Use_ok_effects h p effects h1 hu
            have hc1 : ∃ c1 : Character, (match effects.health with
                | some v => if v > 0 then c.Heal v else c
                | none => c) = c1 ∧ c1.derived = c.derived ∧ c1.base = c.base
                  ∧ c1.Equipment = c.Equipment := by
              cases effects.health with
              | none => exact ⟨c, rfl, rfl, rfl, rfl⟩
              | some v =>
                refine ⟨_, rfl, ?_⟩
                simp only
                split_ifs
                · exact Character.Heal_frame c v
                · exact ⟨rfl, rfl, rfl⟩
            obtain ⟨c1, hc1, hfr⟩ := hc1
            have hc2 : ∃ c2 : Character, (match effects.mana with
                | some v => if v > 0 then c1.SetMana (round32 (c1.Mana + v)) else c1
                | none => c1) = c2 ∧ c2.derived = c.derived ∧ c2.base = c.base
                  ∧ c2.Equipment = c.Equipment := by
              cases effects.mana with
              | none => exact ⟨c1, rfl, hfr⟩
              | some v =>
                refine ⟨_, rfl, ?_⟩
                simp only
                split_ifs
                · exact hfr
                · exact hfr
            obtain ⟨c2, hc2, hfr2⟩ := hc2
            have hc3 : (match effects.attack with
                | some v => if v > 0 then c2.SetAttack (round32 (c2.AttackValue + v)) else c2
                | none => c2) = c2 := by
              rw [hatt]
              split_ifs with h0
              · simp only [not_lt.mpr hplain.1, if_false]
              · rfl
            have hc4 : (match effects.defense with
                | some v => if v > 0 then c2.SetDefense (round32 (c2.DefenseValue + v)) else c2
                | none => c2) = c2 := by
              rw [hdef]
              split_ifs with h0
              · simp only [not_lt.mpr hplain.2, if_false]
              · rfl
            refine ⟨c2, ?_, hfr2⟩
            simp only [ItemEffectManager.UseItem, ht, hcan, hl, hu, Bool.not_true,
              Bool.false_eq_true, if_false, hc1, hc2, hc3, hc4]

theorem Character.Current.of_sameGear {h h1 : Heap} {c c1 : Character} (hcur : c.Current h)
    (hg : Heap.SameGear h h1) (hd : c1.derived = c.derived) (hb : c1.base = c.base)
    (he : c1.Equipment = c.Equipment) : c1.Current h1 := by
  refine ⟨?_, ?_⟩
  · rw [he]
    exact hcur.1.sameGear hg
  · refine Character.UpToDate.of_frame hcur.2 hd hb
      (fun e => Equipment.GetTotalBonuses_sameGear hg e) ?_
    rw [he]

theorem applyCharacterOp_current (s : Heap × Character) (op : CharacterOp)
    (s1 : Heap × Character) (hcur : s.2.Current s.1) (hplain : op.Plain s.1)
    (hstep : applyCharacterOp s op = some s1) :
    s1.2.Current s1.1 ∧ s1.2.base = s.2.base := by
  cases op with
  | equipItem itemID =>
    have hfr := Character.EquipItem_current s.1 s.2 itemID hcur
    rcases hres : s.2.EquipItem s.1 itemID with ⟨r, h1, c1⟩
    rw [hres] at hfr
    cases r with
    | panic =>
      simp only [applyCharacterOp, hres] at hstep
      cases hstep
    | ok u =>
      simp only [applyCharacterOp, hres, Option.some.injEq] at hstep
      subst hstep
      exact hfr (by simp)
    | error e =>
      simp only [applyCharacterOp, hres, Option.some.injEq] at hstep
      subst hstep
      exact hfr (by simp)
  | unequipItem slot =>
    have hfr := Character.UnequipItem_current s.1 s.2 slot hcur
    rcases hres : s.2.UnequipItem s.1 slot with ⟨r, h1, c1⟩
    rw [hres] at hfr
    cases r with
    | panic =>
      simp only [applyCharacterOp, hres] at hstep
      cases hstep
    | ok u =>
      simp only [applyCharacterOp, hres, Option.some.injEq] at hstep
      subst hstep
      exact hfr (by simp)
    | error e =>
      simp only [applyCharacterOp, hres, Option.some.injEq] at hstep
      subst hstep
      exact hfr (by simp)
  | takeDamage damage roll =>
    simp only [applyCharacterOp, Option.some.injEq] at hstep
    subst hstep
    obtain ⟨q1, q2, q3⟩ := Character.TakeDamage_frame s.2 damage roll
    exact ⟨hcur.of_sameGear (Heap.SameGear.self _) q1 q2 q3, q2⟩
  | heal amount =>
    simp only [applyCharacterOp, Option.some.injEq] at hstep
    subst hstep
    obtain ⟨q1, q2, q3⟩ := Character.Heal_frame s.2 amount
    exact ⟨hcur.of_sameGear (Heap.SameGear.self _) q1 q2 q3, q2⟩
  | useItem itemID =>
    have hfr := Character.UseItem_frame s.1 s.2 itemID
    have hg := Character.UseItem_heap s.1 s.2 itemID
    rcases hres : s.2.UseItem s.1 itemID with ⟨r, h1, c1⟩
    rw [hres] at hfr hg
    obtain ⟨q1, q2, q3⟩ := hfr
    cases r with
    | panic =>
      simp only [applyCharacterOp, hres] at hstep
      cases hstep
    | ok u =>
      simp only [applyCharacterOp, hres, Option.some.injEq] at hstep
      subst hstep
      exact ⟨hcur.of_sameGear hg q1 q2 q3, q2⟩
    | error e =>
      simp only [applyCharacterOp, hres, Option.some.injEq] at hstep
      subst hstep
      exact ⟨hcur.of_sameGear hg q1 q2 q3, q2⟩
  | setAttack attack => exact absurd hplain (fun hf => hf)
  | setDefense defense => exact absurd hplain (fun hf => hf)
  | managerUse iem item =>
    obtain ⟨c1, hres, q1, q2, q3⟩ :=
      ItemEffectManager.UseItem_plain_frame iem s.1 s.2 none item hplain
    have hg := ItemEffectManager.UseItem_keeps_gear iem s.1 (some s.2) none item
    rcases hall : ItemEffectManager.UseItem iem s.1 (some s.2) none item with ⟨flag, h1, pl⟩
    rw [hall] at hres hg
    simp only at hres
    subst hres
    simp only [applyCharacterOp, hall, Option.some.injEq] at hstep
    subst hstep
    exact ⟨hcur.of_sameGear hg q1 q2 q3, q2⟩

theorem runCharacterOps_current (ops : List CharacterOp) :
    ∀ (s s1 : Heap × Character), s.2.Current s.1 → PlainRun s ops →
      runCharacterOps s ops = some s1 → s1.2.Current s1.1 ∧ s1.2.base = s.2.base := by
  induction ops with
  | nil =>
    intro s s1 hs _ hrun
    simp only [runCharacterOps, Option.some.injEq] at hrun
    subst hrun
    exact ⟨hs, rfl⟩
  | cons op rest ih =>
    intro s s1 hs hplain hrun
    unfold PlainRun at hplain
    unfold runCharacterOps at hrun
    cases hstep : applyCharacterOp s op with
    | none =>
      rw [hstep] at hrun
      cases hrun
    | some s2 =>
      rw [hstep] at hrun hplain
      obtain ⟨q1, q2⟩ := applyCharacterOp_current s op s2 hs hplain.1 hstep
      obtain ⟨r1, r2⟩ := ih s2 s1 q1 hplain.2 hrun
      exact ⟨r1, by rw [r2, q2]⟩

theorem Equipment.Sound_new (h : Heap) : Equipment.Sound h NewEquipment := by
  refine ⟨List.nodup_nil, ?_⟩
  intro slot p hp
  cases hp

/-- The character returned by `Character.New` has sound (empty) equipment and
current derived attributes. -/
theorem Character.New_current (h : Heap) (fresh : Ptr) (name : String)
    (hp strength agility intelligence : Int) (hc : Heap × Character)
    (hok : Character.New h fresh name hp strength agility intelligence = .ok hc) :
    hc.2.Current hc.1 := by
  unfold Character.New at hok
  cases hv : validateBaseStats hp strength agility intelligence with
  | some e =>
    rw [hv] at hok
    cases hok
  | none =>
    rw [hv] at hok
    obtain ⟨inv, hinv⟩ := Character.AddStarterItems_frame h fresh
      { Name := name, CurrentHP := hp, MaxHP := hp, Strength := strength, Agility := agility,
        Intelligence := intelligence, BaseHP := hp, BaseStrength := strength,
        BaseAgility := agility, BaseIntelligence := intelligence,
        Inventory := NewInventory 20, Equipment := NewEquipment, AttackValue := 0,
        DefenseValue := 0, CritChance := round32 (1 / 10), CritDamage := round32 (15 / 10),
        HealthRegen := round32 (5 / 10), MaxMana := 100, Mana := 100, ManaRegen := 1 }
    simp only at hok
    have hok2 := (Res.ok.inj hok).symm
    subst hok2
    simp only
    rw [hinv]
    exact ⟨Equipment.Sound_new _, Character.CalculateStats_upToDate _ _⟩

theorem filterMap_items (ps : List Ptr) :
    (ps.map (fun p => ((0 : EquipmentSlot), some p))).filterMap Prod.snd = ps := by
  induction ps with
  | nil => rfl
  | cons p rest ih => simp only [List.map_cons, List.filterMap_cons, ih]

/-- The integer totals of `GetTotalBonuses` depend only on which items are visited. -/
theorem Equipment.GetTotalBonuses_ints_of_items (h : Heap) (o1 o2 : SlotMap)
    (hp : (o1.filterMap Prod.snd).Perm (o2.filterMap Prod.snd)) :
    (Equipment.GetTotalBonuses h { Slots := o1 }).Strength
        = (Equipment.GetTotalBonuses h { Slots := o2 }).Strength
      ∧ (Equipment.GetTotalBonuses h { Slots := o1 }).Agility
        = (Equipment.GetTotalBonuses h { Slots := o2 }).Agility
      ∧ (Equipment.GetTotalBonuses h { Slots := o1 }).Intelligence
        = (Equipment.GetTotalBonuses h { Slots := o2 }).Intelligence := by
  have e1 := Equipment.GetTotalBonuses_of_filterMap h { Slots := o1 }
    { Slots := (o1.filterMap Prod.snd).map (fun p => ((0 : EquipmentSlot), some p)) }
    (filterMap_items _).symm
  have e2 := Equipment.GetTotalBonuses_of_filterMap h { Slots := o2 }
    { Slots := (o2.filterMap Prod.snd).map (fun p => ((0 : EquipmentSlot), some p)) }
    (filterMap_items _).symm
  rw [e1, e2]
  exact Equipment.GetTotalBonuses_perm h _ _ (hp.map _)

/-- With at most two items, all totals of `GetTotalBonuses` depend only on which
items are visited. -/
theorem Equipment.GetTotalBonuses_of_items_two (h : Heap) (o1 o2 : SlotMap)
    (hp : (o1.filterMap Prod.snd).Perm (o2.filterMap Prod.snd))
    (hlen : (o1.filterMap Prod.snd).length ≤ 2) (hf : ∀ p, (h p).Float32Valued) :
    Equipment.GetTotalBonuses h { Slots := o1 } = Equipment.GetTotalBonuses h { Slots := o2 } := by
  have e1 := Equipment.GetTotalBonuses_of_filterMap h { Slots := o1 }
    { Slots := (o1.filterMap Prod.snd).map (fun p => ((0 : EquipmentSlot), some p)) }
    (filterMap_items _).symm
  have e2 := Equipment.GetTotalBonuses_of_filterMap h { Slots := o2 }
    { Slots := (o2.filterMap Prod.snd).map (fun p => ((0 : EquipmentSlot), some p)) }
    (filterMap_items _).symm
  rw [e1, e2]
  exact Equipment.GetTotalBonuses_perm_two h _ _ (hp.map _)
    (by rw [filterMap_items]; exact hlen) hf

theorem knightState_current : knightState.2.Current knightState.1 := by
  refine ⟨⟨by decide, ?_⟩, ?_⟩
  · intro slot p hp
    have hslots : knightState.2.Equipment.Slots
        = [(SlotWeapon, some 0), (SlotAccessory, some 4)] := rfl
    unfold Equipment.GetItem at hp
    rw [hslots] at hp
    simp only [SlotMap.get] at hp
    by_cases h0 : SlotWeapon = slot
    · simp only [h0, if_true] at hp
      have hp0 : (0 : Ptr) = p := by simpa using hp
      subst hp0
      subst h0
      exact ⟨by decide!, swordTemplate, by decide!, by decide!, by decide!⟩
    · simp only [h0, if_false] at hp
      by_cases h5 : SlotAccessory = slot
      · simp only [h5, if_true] at hp
        have hp4 : (4 : Ptr) = p := by simpa using hp
        subst hp4
        subst h5
        exact ⟨by decide!, (itemTemplates 4).getD swordTemplate, by decide!, by decide!,
          by decide!⟩
      · simp [h5] at hp
  · exact Character.UpToDate.of_frame (Character.CalculateStats_upToDate jewelHeap knightChar)
      rfl rfl (fun _ => rfl) (List.Perm.refl _)

/-- C22 (as stated, refuted): `SetAttack(5)` on the fresh warrior leaves an attack of
5 with nothing equipped, and a strength potion (template 23) used through the manager
of `NewItemEffectManager` leaves an attack of 10 with nothing equipped; in both states
`CalculateStats` would set the attack back to 0, the sum over the equipped items. -/
theorem C22_counterexample_attack_not_derived :
    (runCharacterOps heroState [.setAttack 5]).map
        (fun s => (s.2.AttackValue, (s.2.CalculateStats s.1).AttackValue,
          s.2.Equipment.Slots)) = some (5, 0, [])
      ∧ ((Character.New shelfHeap 0 "Hero" 100 15 8 5).toOption.bind
          (fun s => runCharacterOps s [.managerUse (some NewItemEffectManager) (some 9)])).map
        (fun s => (s.2.AttackValue, (s.2.CalculateStats s.1).AttackValue,
          s.2.Equipment.Slots)) = some (10, 0, []) := by
  refine ⟨by decide!, by decide!⟩

/-- C22 (amended): take a state returned by `Character.New`, or any state in which the
equipment is sound and the derived attributes are current (as right after
`CalculateStats`), and run on it any sequence of `EquipItem`, `UnequipItem`,
`TakeDamage`, `Heal`, `Character.UseItem` and those uses through
`ItemEffectManager.UseItem` whose effect has no positive attack or defense part -
`SetAttack` and `SetDefense` excluded - that does not panic.  In the state reached the
base attributes are the initial ones, the equipment is sound, strength, agility and
intelligence equal base plus the bonuses of the equipped items, and there is an order
of visiting the equipped items in which attack and defense are the `float32` sums over
the equipped items, `MaxHP` is the base HP plus their health, and `CalculateStats`
changes none of the derived attributes; with at most two items equipped this holds for
every order, so for `CalculateStats` itself. -/
theorem C22_derived_follow_base (s0 : Heap × Character)
    (hstart : (∃ h fresh name hp strength agility intelligence,
        Character.New h fresh name hp strength agility intelligence = .ok s0)
      ∨ s0.2.Current s0.1)
    (ops : List CharacterOp) (hplain : PlainRun s0 ops) (s1 : Heap × Character)
    (hrun : runCharacterOps s0 ops = some s1) :
    s1.2.base = s0.2.base
      ∧ s1.2.Equipment.Sound s1.1
      ∧ s1.2.Strength
          = wrapInt (s1.2.BaseStrength + (s1.2.Equipment.GetTotalBonuses s1.1).Strength)
      ∧ s1.2.Agility
          = wrapInt (s1.2.BaseAgility + (s1.2.Equipment.GetTotalBonuses s1.1).Agility)
      ∧ s1.2.Intelligence
          = wrapInt (s1.2.BaseIntelligence
              + (s1.2.Equipment.GetTotalBonuses s1.1).Intelligence)
      ∧ (∃ order : SlotMap,
          (order.filterMap Prod.snd).Perm (s1.2.Equipment.Slots.filterMap Prod.snd)
            ∧ s1.2.AttackValue
                = round32 (0 + (Equipment.GetTotalBonuses s1.1 { Slots := order }).Attack)
            ∧ s1.2.DefenseValue
                = round32 (0 + (Equipment.GetTotalBonuses s1.1 { Slots := order }).Defense)
            ∧ s1.2.MaxHP
                = wrapInt (s1.2.BaseHP
                    + floatToInt (Equipment.GetTotalBonuses s1.1 { Slots := order }).Health)
            ∧ (s1.2.CalculateStatsIn s1.1 order).derived = s1.2.derived)
      ∧ ((s1.2.Equipment.Slots.filterMap Prod.snd).length ≤ 2 →
          (∀ p, (s1.1 p).Float32Valued) →
          s1.2.AttackValue = round32 (0 + (s1.2.Equipment.GetTotalBonuses s1.1).Attack)
            ∧ s1.2.DefenseValue = round32 (0 + (s1.2.Equipment.GetTotalBonuses s1.1).Defense)
            ∧ (s1.2.CalculateStats s1.1).derived = s1.2.derived) := by
  have hcur0 : s0.2.Current s0.1 := by
    rcases hstart with ⟨h, fresh, name, hp, st, ag, it, hnew⟩ | hc
    · exact Character.New_current h fresh name hp st ag it s0 hnew
    · exact hc
  obtain ⟨⟨hsound, order, hperm, hder⟩, hbase⟩ :=
    runCharacterOps_current ops s0 s1 hcur0 hplain hrun
  have hd := hder
  simp only [Character.derived, Character.CalculateStatsIn, Character.CalculateStats,
    Prod.mk.injEq] at hd
  obtain ⟨d1, d2, d3, d4, d5, d6, _, _⟩ := hd
  obtain ⟨i1, i2, i3⟩ := Equipment.GetTotalBonuses_ints_of_items s1.1 order
    s1.2.Equipment.Slots hperm
  have hsame : ∀ e : Equipment, Equipment.GetTotalBonuses s1.1 { Slots := e.Slots }
      = e.GetTotalBonuses s1.1 := fun e => Equipment.GetTotalBonuses_of_filterMap _ _ _ rfl
  rw [hsame] at i1 i2 i3
  refine ⟨hbase, hsound, ?_, ?_, ?_, ⟨order, hperm, d5, d6, d1, hder.symm⟩, ?_⟩
  · rw [d2, i1]
  · rw [d3, i2]
  · rw [d4, i3]
  · intro hlen hf
    have hall := Equipment.GetTotalBonuses_of_items_two s1.1 order s1.2.Equipment.Slots hperm
      (by rw [hperm.length_eq]; exact hlen) hf
    rw [hsame] at hall
    refine ⟨by rw [d5, hall], by rw [d6, hall], ?_⟩
    rw [hder, Character.derived_CalculateStatsIn]
    exact Character.derived_CalculateStats_congr _ _ _ _ rfl (by rw [← hall])

/-- C22 witness: the knight wearing a sword and a ring takes a hit, takes the ring off,
fails to put it on again, heals, and fails to take the sword off because the inventory
is full: the sword is still equipped, strength is 12 (base 10 plus the sword's 2),
attack is 6.5 (the sword's), and `CalculateStats` would change no derived attribute. -/
theorem C22_derived_follow_base_witness :
    knightState.2.Current knightState.1
      ∧ PlainRun knightState knightOps
      ∧ ∃ s1, runCharacterOps knightState knightOps = some s1
          ∧ s1.2.Equipment.GetItem SlotWeapon = some 0
          ∧ s1.2.BaseStrength = 10 ∧ s1.2.Strength = 12 ∧ s1.2.AttackValue = 13 / 2
          ∧ s1.2.Strength
              = wrapInt (s1.2.BaseStrength + (s1.2.Equipment.GetTotalBonuses s1.1).Strength)
          ∧ ∃ order : SlotMap,
              (order.filterMap Prod.snd).Perm (s1.2.Equipment.Slots.filterMap Prod.snd)
                ∧ s1.2.AttackValue
                    = round32 (0 + (Equipment.GetTotalBonuses s1.1 { Slots := order }).Attack)
                ∧ (s1.2.CalculateStatsIn s1.1 order).derived = s1.2.derived := by
  have hplain : PlainRun knightState knightOps := by decide!
  have hsome : (runCharacterOps knightState knightOps).isSome = true := by decide!
  obtain ⟨s1, hs1⟩ := Option.isSome_iff_exists.mp hsome
  have hvals : (runCharacterOps knightState knightOps).map
      (fun s => (s.2.Equipment.GetItem SlotWeapon, s.2.BaseStrength, s.2.Strength,
        s.2.AttackValue)) = some (some 0, 10, 12, 13 / 2) := by decide!
  rw [hs1] at hvals
  simp only [Option.map_some', Option.some.injEq, Prod.mk.injEq] at hvals
  obtain ⟨v1, v2, v3, v4⟩ := hvals
  obtain ⟨_, _, q3, _, _, ⟨order, hperm, q6, _, _, q9⟩, _⟩ :=
    C22_derived_follow_base knightState (Or.inr knightState_current) knightOps hplain s1 hs1
  exact ⟨knightState_current, hplain, s1, hs1, v1, v2, v3, v4, q3, order, hperm, q6, q9⟩

/-! ## Key events outside the own turn -/

theorem PvPFightModel.sent_pvpSend (m : PvPFightModel) (line : GoString) :
    (m.pvpSend line).sent = m.sent ∨ (m.pvpSend line).sent = m.sent ++ [line] := by
  unfold PvPFightModel.pvpSend
  cases hs : m.session with
  | none => left; simp only
  | some s =>
    obtain ⟨conn⟩ := s
    cases conn with
    | none =>
      left
      simp only [PvPFightModel.sent, Session.WriteLine, hs]
    | some lines =>
      right
      simp only [PvPFightModel.sent, Session.WriteLine, hs]

theorem PvPFightModel.pvpSend_frame (m : PvPFightModel) (line : GoString) :
    (m.pvpSend line).round = m.round ∧ (m.pvpSend line).turn = m.turn
      ∧ (m.pvpSend line).player = m.player ∧ (m.pvpSend line).enemy = m.enemy
      ∧ (m.pvpSend line).MySide = m.MySide := by
  unfold PvPFightModel.pvpSend
  cases m.session <;> exact ⟨rfl, rfl, rfl, rfl, rfl⟩

theorem Split_of_not_mem (sep : Char) (s : GoString) (hs : sep ∉ s) : Split sep s = [s] := by
  induction s with
  | nil => rfl
  | cons c cs ih =>
    simp only [List.mem_cons, not_or] at hs
    have hc : ¬ c = sep := fun hf => hs.1 hf.symm
    simp only [Split, hc, if_false, ih hs.2]

theorem dropWhile_append_last (c : Char) (hc : isSpace c = false) (l : GoString) :
    ∃ r, (l ++ [c]).dropWhile isSpace = r ++ [c] := by
  induction l with
  | nil => exact ⟨[], by simp [List.dropWhile, hc]⟩
  | cons d ds ih =>
    by_cases hd : isSpace d = true
    · obtain ⟨r, hr⟩ := ih
      exact ⟨r, by simp only [List.cons_append, List.dropWhile, hd]; exact hr⟩
    · exact ⟨d :: ds, by simp [List.dropWhile, hd]⟩

/-- Trimming keeps a first character that is not a space. -/
theorem TrimSpace_cons (c : Char) (hc : isSpace c = false) (rest : GoString) :
    ∃ r, TrimSpace (c :: rest) = c :: r := by
  unfold TrimSpace
  have h1 : (c :: rest).dropWhile isSpace = c :: rest := by
    simp [List.dropWhile, hc]
  rw [h1, List.reverse_cons]
  obtain ⟨r, hr⟩ := dropWhile_append_last c hc rest.reverse
  rw [hr]
  exact ⟨r.reverse, by simp⟩

theorem carriesGameMessage_chat (text : GoString) :
    carriesGameMessage ("CHAT ".toList ++ text) = false := by
  obtain ⟨r, hr⟩ := TrimSpace_cons 'C' (by decide) ("HAT ".toList ++ text)
  have hline : "CHAT ".toList ++ text = 'C' :: ("HAT ".toList ++ text) := rfl
  unfold carriesGameMessage
  rw [hline, hr]
  rfl
theorem PvPFightScreen.noteLostConnection_frame (m : PvPFightScreen) :
    m.noteLostConnection.toPvPFightModel = m.toPvPFightModel
      ∧ m.noteLostConnection.chatInput = m.chatInput
      ∧ m.noteLostConnection.chatFocused = m.chatFocused := by
  unfold PvPFightScreen.noteLostConnection
  split_ifs <;> exact ⟨rfl, rfl, rfl⟩

theorem PvPFightScreen.handleKey_offTurn (fixRunes : GoString → GoString)
    (menus : FightViewState → PvPFightScreen → KeyMsg → PvPFightScreen)
    (m : PvPFightScreen) (keyMsg : KeyMsg)
    (hoff : m.waitingForMatch = true ∨ m.waitingForState = true ∨ m.turn ≠ m.MySide) :
    (m.handleKey fixRunes menus keyMsg).round = m.round
      ∧ (m.handleKey fixRunes menus keyMsg).turn = m.turn
      ∧ (m.handleKey fixRunes menus keyMsg).player = m.player
      ∧ (m.handleKey fixRunes menus keyMsg).enemy = m.enemy
      ∧ (m.handleKey fixRunes menus keyMsg).MySide = m.MySide
      ∧ ((m.handleKey fixRunes menus keyMsg).sent = m.sent
          ∨ (m.chatFocused = true ∧ keyMsg.String = "enter".toList
              ∧ TrimSpace m.chatInput ≠ []
              ∧ (m.handleKey fixRunes menus keyMsg).sent
                  = m.sent ++ ["CHAT ".toList ++ fixRunes (TrimSpace m.chatInput)])) := by
  unfold PvPFightScreen.handleKey
  by_cases h1 : m.gameOver = true ∧ m.state = FightViewEnd
  · rw [if_pos h1]
    exact ⟨rfl, rfl, rfl, rfl, rfl, Or.inl rfl⟩
  rw [if_neg h1]
  by_cases h2 : m.chatFocused = true
  · rw [if_pos h2]
    by_cases h3 : keyMsg.String = "enter".toList
    · rw [if_pos h3]
      by_cases h4 : TrimSpace m.chatInput ≠ []
      · dsimp only
        rw [if_pos h4]
        obtain ⟨f1, f2, f3, f4, f5⟩ := PvPFightModel.pvpSend_frame m.toPvPFightModel
          ("CHAT ".toList ++ fixRunes (TrimSpace m.chatInput))
        refine ⟨f1, f2, f3, f4, f5, ?_⟩
        rcases PvPFightModel.sent_pvpSend m.toPvPFightModel
          ("CHAT ".toList ++ fixRunes (TrimSpace m.chatInput)) with hs | hs
        · exact Or.inl hs
        · exact Or.inr ⟨h2, h3, h4, hs⟩
      · dsimp only
        rw [if_neg h4]
        exact ⟨rfl, rfl, rfl, rfl, rfl, Or.inl rfl⟩
    · rw [if_neg h3]
      split_ifs <;> exact ⟨rfl, rfl, rfl, rfl, rfl, Or.inl rfl⟩
  rw [if_neg h2]
  by_cases h5 : keyMsg.String = "t".toList ∨ keyMsg.String = "T".toList
  · rw [if_pos h5]
    exact ⟨rfl, rfl, rfl, rfl, rfl, Or.inl rfl⟩
  rw [if_neg h5]
  by_cases h6 : keyMsg.String = "ctrl+c".toList ∨ keyMsg.String = "esc".toList
  · rw [if_pos h6]
    cases hs : m.session with
    | none => exact ⟨rfl, rfl, rfl, rfl, rfl, Or.inl rfl⟩
    | some s => exact ⟨rfl, rfl, rfl, rfl, rfl, Or.inl rfl⟩
  rw [if_neg h6]
  by_cases h7 : m.connectionErr ≠ []
  · rw [if_pos h7]
    exact ⟨rfl, rfl, rfl, rfl, rfl, Or.inl rfl⟩
  rw [if_neg h7]
  by_cases h8 : m.waitingForMatch = true
  · rw [if_pos h8]
    exact ⟨rfl, rfl, rfl, rfl, rfl, Or.inl rfl⟩
  rw [if_neg h8]
  by_cases h9 : m.waitingForState = true
  · rw [if_pos h9]
    exact ⟨rfl, rfl, rfl, rfl, rfl, Or.inl rfl⟩
  rw [if_neg h9]
  have h10 : (!m.myTurn) = true := by
    rcases hoff with hg | hg | hg
    · exact absurd hg h8
    · exact absurd hg h9
    · simp [PvPFightModel.myTurn, hg]
  rw [if_pos h10]
  exact ⟨rfl, rfl, rfl, rfl, rfl, Or.inl rfl⟩

theorem HasPrefix_chat (text : GoString) :
    HasPrefix ("CHAT ".toList ++ text) "CHAT ".toList = true
      ∧ HasPrefix ("CHAT ".toList ++ text) MsgAction = false
      ∧ HasPrefix ("CHAT ".toList ++ text) MsgState = false
      ∧ HasPrefix ("CHAT ".toList ++ text) MsgEnd = false := by
  refine ⟨?_, rfl, rfl, rfl⟩
  unfold HasPrefix
  simp

/-- C27 (as stated, refuted): side 2 waits for the opponent's STATE, its chat line is
focused and holds the pasted text `hi`, line feed, `END winner=2` (ASCII, which
`fixRunesForWindows` returns as it is).  The key enter makes `Update` write
`"CHAT " + text`; `WriteLine` adds a line feed, so the peer reads the two lines
`CHAT hi` and `END winner=2`, and the second is an END message. -/
theorem C27_counterexample_pasted_line :
    pastingClient.waitingForState = true
      ∧ pastingClient.sent = []
      ∧ (pastingClient.Update id surrenderMenus { String := "enter".toList }).sent
          = ["CHAT hi\nEND winner=2".toList]
      ∧ wireLines (pastingClient.Update id surrenderMenus { String := "enter".toList }).sent
          = ["CHAT hi".toList, "END winner=2".toList]
      ∧ carriesGameMessage "END winner=2".toList = true
      ∧ ParseEnd "END winner=2".toList = .ok { Winner := 2 } := by
  refine ⟨by decide, by decide, by decide!, by decide!, by decide!, by decide!⟩

/-- C27 (amended): for every client model and every key event handled by `Update`
while the match is not yet started, while `waitingForState` is true, or while `turn`
differs from `MySide` - whatever the four menu handlers would do -: the round, the
turn, the side and both characters (so their HP) are unchanged; at most one line is
written to the connection, namely `"CHAT " + text` when the chat line is focused, the
key is enter and the trimmed chat input is not empty, so no ACTION, STATE or END
message is passed to `WriteLine`; and when that text contains no line feed, no line
that the peer reads from what was written is an ACTION, STATE or END line. -/
theorem C27_off_turn_keys_send_chat_only (fixRunes : GoString → GoString)
    (menus : FightViewState → PvPFightScreen → KeyMsg → PvPFightScreen)
    (m : PvPFightScreen) (keyMsg : KeyMsg)
    (hoff : m.waitingForMatch = true ∨ m.waitingForState = true ∨ m.turn ≠ m.MySide) :
    ((m.Update fixRunes menus keyMsg).round = m.round
        ∧ (m.Update fixRunes menus keyMsg).turn = m.turn
        ∧ (m.Update fixRunes menus keyMsg).MySide = m.MySide
        ∧ (m.Update fixRunes menus keyMsg).player = m.player
        ∧ (m.Update fixRunes menus keyMsg).enemy = m.enemy
        ∧ (m.Update fixRunes menus keyMsg).player.CurrentHP = m.player.CurrentHP
        ∧ (m.Update fixRunes menus keyMsg).enemy.CurrentHP = m.enemy.CurrentHP)
      ∧ ((m.Update fixRunes menus keyMsg).sent = m.sent
          ∨ (m.chatFocused = true ∧ keyMsg.String = "enter".toList
              ∧ TrimSpace m.chatInput ≠ []
              ∧ (m.Update fixRunes menus keyMsg).sent
                  = m.sent ++ ["CHAT ".toList ++ fixRunes (TrimSpace m.chatInput)]))
      ∧ (∃ written, (m.Update fixRunes menus keyMsg).sent = m.sent ++ written
          ∧ ∀ line ∈ written, HasPrefix line "CHAT ".toList = true
              ∧ HasPrefix line MsgAction = false ∧ HasPrefix line MsgState = false
              ∧ HasPrefix line MsgEnd = false)
      ∧ ('\n' ∉ fixRunes (TrimSpace m.chatInput) →
          ∃ lines, wireLines (m.Update fixRunes menus keyMsg).sent
              = wireLines m.sent ++ lines
            ∧ ∀ line ∈ lines, carriesGameMessage line = false) := by
  obtain ⟨hcore, hinput, hfocus⟩ := PvPFightScreen.noteLostConnection_frame m
  have hoff0 : m.noteLostConnection.waitingForMatch = true
      ∨ m.noteLostConnection.waitingForState = true
      ∨ m.noteLostConnection.turn ≠ m.noteLostConnection.MySide := by
    rw [hcore]
    exact hoff
  obtain ⟨g1, g2, g3, g4, g5, g6⟩ :=
    PvPFightScreen.handleKey_offTurn fixRunes menus m.noteLostConnection keyMsg hoff0
  rw [hcore] at g1 g2 g3 g4 g5
  rw [hinput, hfocus] at g6
  have hsent0 : m.noteLostConnection.sent = m.sent := by rw [hcore]
  rw [hsent0] at g6
  have hupd : m.Update fixRunes menus keyMsg
      = m.noteLostConnection.handleKey fixRunes menus keyMsg := rfl
  rw [hupd]
  refine ⟨⟨g1, g2, g5, g3, g4, by rw [g3], by rw [g4]⟩, g6, ?_, ?_⟩
  · rcases g6 with hs | ⟨_, _, _, hs⟩
    · exact ⟨[], by rw [hs, List.append_nil], fun line hl => by cases hl⟩
    · refine ⟨_, hs, ?_⟩
      intro line hl
      rw [List.mem_singleton] at hl
      rw [hl]
      exact HasPrefix_chat _
  · intro hnl
    rcases g6 with hs | ⟨_, _, _, hs⟩
    · exact ⟨[], by rw [hs, List.append_nil], fun line hl => by cases hl⟩
    · refine ⟨["CHAT ".toList ++ fixRunes (TrimSpace m.chatInput)], ?_, ?_⟩
      · rw [hs]
        unfold wireLines
        rw [List.flatMap_append]
        congr 1
        have hno : '\n' ∉ "CHAT ".toList ++ fixRunes (TrimSpace m.chatInput) := by
          intro hmem
          rcases List.mem_append.mp hmem with h1 | h1
          · revert h1
            decide
          · exact hnl h1
        simp only [List.flatMap_cons, List.flatMap_nil, List.append_nil]
        exact Split_of_not_mem '\n' _ hno
      · intro line hl
        rw [List.mem_singleton] at hl
        rw [hl]
        exact carriesGameMessage_chat _

/-- C27 witness: side 2 waits for the opponent's STATE and sends the chat text `hi`:
the one line written is `CHAT hi`, nothing else changes, although the menu handlers
of the sample would send a surrender. -/
theorem C27_off_turn_keys_send_chat_only_witness :
    (chattingClient.waitingForMatch = true ∨ chattingClient.waitingForState = true
        ∨ chattingClient.turn ≠ chattingClient.MySide)
      ∧ (chattingClient.Update id surrenderMenus { String := "enter".toList }).sent
          = ["CHAT hi".toList]
      ∧ (chattingClient.Update id surrenderMenus { String := "enter".toList }).turn
          = chattingClient.turn
      ∧ (chattingClient.Update id surrenderMenus { String := "enter".toList }).player.CurrentHP
          = chattingClient.player.CurrentHP
      ∧ ∃ lines, wireLines (chattingClient.Update id surrenderMenus
            { String := "enter".toList }).sent = wireLines chattingClient.sent ++ lines
          ∧ ∀ line ∈ lines, carriesGameMessage line = false := by
  have hoff : chattingClient.waitingForMatch = true ∨ chattingClient.waitingForState = true
      ∨ chattingClient.turn ≠ chattingClient.MySide := Or.inr (Or.inl (by decide))
  have hall := C27_off_turn_keys_send_chat_only id surrenderMenus chattingClient
    { String := "enter".toList } hoff
  exact ⟨hoff, by decide!, hall.1.2.1, hall.1.2.2.2.2.2.1, hall.2.2.2 (by decide)⟩

/-! ## Rolled stats of `CreateItem`: rounding errors -/

theorem roundNE_sub_abs (x : ℚ) : |(roundNE x : ℚ) - x| ≤ 1 / 2 := by
  have h1 := Int.floor_le x
  have h2 := Int.lt_floor_add_one x
  unfold roundNE
  simp only
  rw [abs_le]
  split
  · rename_i h; constructor <;> linarith
  · split
    · rename_i h3 h4; push_cast; constructor <;> linarith
    · rename_i h3 h4
      have h5 : x - ⌊x⌋ = 1 / 2 := le_antisymm (not_lt.mp h4) (not_lt.mp h3)
      split
      · constructor <;> linarith
      · push_cast; constructor <;> linarith

theorem roundNE_of_lt (a : ℚ) (n : ℤ) (h1 : (n : ℚ) - 1 / 2 < a) (h2 : a < (n : ℚ) + 1 / 2) :
    roundNE a = n := by
  have h := abs_le.mp (roundNE_sub_abs a)
  have h3 : ((roundNE a : ℤ) : ℚ) < ((n + 1 : ℤ) : ℚ) := by push_cast; linarith
  have h4 : ((n - 1 : ℤ) : ℚ) < ((roundNE a : ℤ) : ℚ) := by push_cast; linarith
  have h5 : roundNE a < n + 1 := by exact_mod_cast h3
  have h6 : n - 1 < roundNE a := by exact_mod_cast h4
  omega

theorem pow2_succ (e : ℤ) : pow2 (e + 1) = 2 * pow2 e := by
  rw [pow2_eq_zpow, pow2_eq_zpow, zpow_add₀ (by norm_num), zpow_one]
  ring

theorem pow2_pred (e : ℤ) : pow2 (e - 1) = pow2 e / 2 := by
  have h := pow2_succ (e - 1)
  rw [sub_add_cancel] at h
  rw [h]
  ring

theorem pow2_lt_iff (a b : ℤ) : pow2 a < pow2 b ↔ a < b := by
  rw [pow2_eq_zpow, pow2_eq_zpow, zpow_lt_zpow_iff_right₀ (by norm_num)]

theorem pow2_le_iff (a b : ℤ) : pow2 a ≤ pow2 b ↔ a ≤ b := by
  rw [pow2_eq_zpow, pow2_eq_zpow, zpow_le_zpow_iff_right₀ (by norm_num)]

theorem pow2_natCast (k : ℕ) : pow2 (k : ℤ) = (2 : ℚ) ^ k := by
  rw [pow2_eq_zpow, zpow_natCast]

theorem pow2_add (a b : ℤ) : pow2 (a + b) = pow2 a * pow2 b := by
  rw [pow2_eq_zpow, pow2_eq_zpow, pow2_eq_zpow, zpow_add₀ (by norm_num)]

/-- The binary exponent is determined by the binade. -/
theorem ilog2_eq_of_bounds (q : ℚ) (e : ℤ) (h1 : pow2 e ≤ q) (h2 : q < pow2 (e + 1)) :
    ilog2 q = e := by
  have hq : 0 < q := lt_of_lt_of_le (pow2_pos e) h1
  have a := ilog2_le q hq
  have b := ilog2_lt q hq
  have c : pow2 (ilog2 q) < pow2 (e + 1) := lt_of_le_of_lt a h2
  have d : pow2 e < pow2 (ilog2 q + 1) := lt_of_le_of_lt h1 b
  rw [pow2_lt_iff] at c d
  omega

theorem roundFloat_of_pos (p : ℕ) (q : ℚ) (hq : 0 < q) :
    roundFloat p q
      = (roundNE (q / pow2 (ilog2 q - ((p : ℤ) - 1))) : ℚ) * pow2 (ilog2 q - ((p : ℤ) - 1)) := by
  unfold roundFloat
  rw [if_neg hq.ne', abs_of_pos hq]

/-- Spacing of the `p`-bit floating point numbers in the binade of `q`. -/
theorem grid_le (p : ℕ) (hp : 1 ≤ p) (q : ℚ) (hq : 0 < q) :
    (2 : ℚ) ^ (p - 1) * pow2 (ilog2 q - ((p : ℤ) - 1)) ≤ q
      ∧ q < 2 * (2 : ℚ) ^ (p - 1) * pow2 (ilog2 q - ((p : ℤ) - 1)) := by
  have hs := pow2_split p hp (ilog2 q)
  push_cast at hs
  have hlo := ilog2_le q hq
  have hhi := ilog2_lt q hq
  rw [pow2_succ] at hhi
  rw [hs] at hlo hhi
  exact ⟨hlo, by linarith⟩

/-- Relative error of one rounding: at most `2^-p`. -/
theorem roundFloat_rel (p : ℕ) (hp : 1 ≤ p) (q : ℚ) (hq : 0 < q) :
    |roundFloat p q - q| ≤ q / 2 ^ p := by
  have hg : 0 < pow2 (ilog2 q - ((p : ℤ) - 1)) := pow2_pos _
  obtain ⟨hlo, _⟩ := grid_le p hp q hq
  rw [roundFloat_of_pos p q hq]
  set g := pow2 (ilog2 q - ((p : ℤ) - 1)) with hgdef
  have h1 := roundNE_sub_abs (q / g)
  have h2 : (roundNE (q / g) : ℚ) * g - q = ((roundNE (q / g) : ℚ) - q / g) * g := by
    field_simp
  rw [h2, abs_mul, abs_of_pos hg]
  have h3 : |(roundNE (q / g) : ℚ) - q / g| * g ≤ 1 / 2 * g :=
    mul_le_mul_of_nonneg_right h1 hg.le
  have h4 : (2 : ℚ) ^ p = 2 * 2 ^ (p - 1) := by
    conv_lhs => rw [← Nat.sub_add_cancel hp]
    rw [pow_succ]; ring
  have h5 : (0 : ℚ) < 2 ^ (p - 1) := by positivity
  rw [h4, le_div_iff₀ (by positivity)]
  nlinarith

theorem round64_rel (q : ℚ) (hq : 0 ≤ q) :
    q * (1 - unit64) ≤ round64 q ∧ round64 q ≤ q * (1 + unit64) := by
  rcases eq_or_lt_of_le hq with h | h
  · rw [← h]; simp [round64, roundFloat]
  · have := abs_le.mp (roundFloat_rel 53 (by norm_num) q h)
    unfold round64 unit64
    constructor <;> linarith [this.1, this.2]

theorem unit64_bounds : 0 < unit64 ∧ unit64 < 1 := by
  unfold unit64; constructor <;> norm_num

theorem Near.nonneg {k : ℕ} {A y : ℚ} (hA : 0 ≤ A) (h : Near k A y) : 0 ≤ y := by
  obtain ⟨hu0, hu1⟩ := unit64_bounds
  have : 0 ≤ A * (1 - unit64) ^ k := mul_nonneg hA (pow_nonneg (by linarith) _)
  exact le_trans this h.1

theorem Near.round {k : ℕ} {A y : ℚ} (hA : 0 ≤ A) (h : Near k A y) :
    Near (k + 1) A (round64 y) := by
  obtain ⟨hu0, hu1⟩ := unit64_bounds
  have hy := h.nonneg hA
  obtain ⟨r1, r2⟩ := round64_rel y hy
  constructor
  · calc A * (1 - unit64) ^ (k + 1) = A * (1 - unit64) ^ k * (1 - unit64) := by ring
      _ ≤ y * (1 - unit64) := mul_le_mul_of_nonneg_right h.1 (by linarith)
      _ ≤ round64 y := r1
  · calc round64 y ≤ y * (1 + unit64) := r2
      _ ≤ A * (1 + unit64) ^ k * (1 + unit64) := mul_le_mul_of_nonneg_right h.2 (by linarith)
      _ = A * (1 + unit64) ^ (k + 1) := by ring

theorem Near.mul {j k : ℕ} {A B y z : ℚ} (hA : 0 ≤ A) (hB : 0 ≤ B) (h1 : Near j A y)
    (h2 : Near k B z) : Near (j + k) (A * B) (y * z) := by
  obtain ⟨hu0, hu1⟩ := unit64_bounds
  have hy := h1.nonneg hA
  have hz := h2.nonneg hB
  have ha : 0 ≤ A * (1 - unit64) ^ j := mul_nonneg hA (pow_nonneg (by linarith) _)
  have hb : 0 ≤ B * (1 - unit64) ^ k := mul_nonneg hB (pow_nonneg (by linarith) _)
  constructor
  · calc A * B * (1 - unit64) ^ (j + k)
        = (A * (1 - unit64) ^ j) * (B * (1 - unit64) ^ k) := by ring
      _ ≤ y * z := mul_le_mul h1.1 h2.1 hb hy
  · calc y * z ≤ (A * (1 + unit64) ^ j) * (B * (1 + unit64) ^ k) :=
          mul_le_mul h1.2 h2.2 hz (le_trans hy h1.2)
      _ = A * B * (1 + unit64) ^ (j + k) := by ring

theorem Near.one_add {k : ℕ} {A y : ℚ} (h : Near k A y) :
    Near k (1 + A) (1 + y) := by
  obtain ⟨hu0, hu1⟩ := unit64_bounds
  have h1 : (1 - unit64) ^ k ≤ 1 := pow_le_one₀ (by linarith) (by linarith)
  have h2 : 1 ≤ (1 + unit64) ^ k := one_le_pow₀ (by linarith)
  constructor
  · calc (1 + A) * (1 - unit64) ^ k = (1 - unit64) ^ k + A * (1 - unit64) ^ k := by ring
      _ ≤ 1 + y := by linarith [h.1]
  · calc 1 + y ≤ (1 + unit64) ^ k + A * (1 + unit64) ^ k := by linarith [h.2]
      _ = (1 + A) * (1 + unit64) ^ k := by ring

theorem Near.exact (A : ℚ) : Near 0 A A := by
  constructor <;> simp

theorem Near.weaken {j k : ℕ} {A y : ℚ} (hA : 0 ≤ A) (hjk : j ≤ k) (h : Near j A y) :
    Near k A y := by
  obtain ⟨hu0, hu1⟩ := unit64_bounds
  have h1 : (1 - unit64) ^ k ≤ (1 - unit64) ^ j :=
    pow_le_pow_of_le_one (by linarith) (by linarith) hjk
  have h2 : (1 + unit64) ^ j ≤ (1 + unit64) ^ k := pow_le_pow_right₀ (by linarith) hjk
  exact ⟨le_trans (mul_le_mul_of_nonneg_left h1 hA) h.1,
    le_trans h.2 (mul_le_mul_of_nonneg_left h2 hA)⟩

/-- A positive integer below `2^p`, scaled by a power of two, lies on the grid of the
`p`-bit floating point numbers of its binade. -/
theorem exact_grid (p : ℕ) (n z : ℤ) (hn : 0 < n) (hn2 : (n : ℚ) < 2 ^ p) :
    ∃ k : ℤ, (n : ℚ) * pow2 z / pow2 (ilog2 ((n : ℚ) * pow2 z) - ((p : ℤ) - 1)) = (k : ℚ) := by
  have hz := pow2_pos z
  have hnq : (0 : ℚ) < n := by exact_mod_cast hn
  have hq : 0 < (n : ℚ) * pow2 z := mul_pos hnq hz
  set e := ilog2 ((n : ℚ) * pow2 z) with he
  have h1 := ilog2_le _ hq
  rw [← he] at h1
  have h2 : (n : ℚ) * pow2 z < pow2 ((p : ℤ) + z) := by
    rw [pow2_add, pow2_natCast]
    exact mul_lt_mul_of_pos_right hn2 hz
  have h3 : pow2 e < pow2 ((p : ℤ) + z) := lt_of_le_of_lt h1 h2
  rw [pow2_lt_iff] at h3
  have h4 : z = ((z - (e - ((p : ℤ) - 1))).toNat : ℤ) + (e - ((p : ℤ) - 1)) := by
    rw [Int.toNat_of_nonneg (by omega)]; ring
  refine ⟨n * 2 ^ (z - (e - ((p : ℤ) - 1))).toNat, ?_⟩
  have hg := pow2_pos (e - ((p : ℤ) - 1))
  rw [div_eq_iff hg.ne']
  conv_lhs => rw [h4, pow2_add, pow2_natCast]
  push_cast
  ring

/-- Such a number is a `p`-bit floating point number: rounding leaves it unchanged. -/
theorem roundFloat_exact (p : ℕ) (n z : ℤ) (hn : 0 ≤ n) (hn2 : (n : ℚ) < 2 ^ p) :
    roundFloat p ((n : ℚ) * pow2 z) = (n : ℚ) * pow2 z := by
  rcases eq_or_lt_of_le hn with h | h
  · rw [← h]; simp [roundFloat]
  · have hnq : (0 : ℚ) < n := by exact_mod_cast h
    have hq : 0 < (n : ℚ) * pow2 z := mul_pos hnq (pow2_pos z)
    obtain ⟨k, hk⟩ := exact_grid p n z h hn2
    rw [roundFloat_of_pos p _ hq, hk, roundNE_intCast, ← hk]
    have hg := pow2_pos (ilog2 ((n : ℚ) * pow2 z) - ((p : ℤ) - 1))
    field_simp

theorem round64_int (n : ℤ) (hn : 0 ≤ n) (hn2 : n < 2 ^ 53) : round64 (n : ℚ) = n := by
  have h := roundFloat_exact 53 n 0 hn (by exact_mod_cast hn2)
  have h0 : pow2 0 = 1 := by rw [pow2_eq_zpow]; simp
  rw [h0, mul_one] at h
  exact h

/-- An integer is at least one half away from every half-integer. -/
theorem int_tie_dist (k m : ℤ) : (1 : ℚ) / 2 ≤ |(k : ℚ) - ((m : ℚ) + 1 / 2)| := by
  rcases le_or_lt k m with h | h
  · have h1 : (k : ℚ) ≤ m := by exact_mod_cast h
    rw [abs_of_nonpos (by linarith)]
    linarith
  · have h1 : ((m + 1 : ℤ) : ℚ) ≤ k := by exact_mod_cast h
    push_cast at h1
    rw [abs_of_nonneg (by linarith)]
    linarith

/-- Rounding is stable under a perturbation of `d` grid units, for a value that is
more than `d` grid units away from every rounding tie. -/
theorem roundFloat_near (p : ℕ) (hp : 1 ≤ p) (q y d : ℚ) (hq : 0 < q) (hd4 : d < 1 / 4)
    (hnear : |y - q| ≤ d * pow2 (ilog2 q - ((p : ℤ) - 1)))
    (htie : ∀ m : ℤ, d < |q / pow2 (ilog2 q - ((p : ℤ) - 1)) - ((m : ℚ) + 1 / 2)|) :
    roundFloat p y = roundFloat p q := by
  set e := ilog2 q with he
  set g := pow2 (e - ((p : ℤ) - 1)) with hgdef
  have hg : 0 < g := pow2_pos _
  have hP : (1 : ℚ) ≤ 2 ^ (p - 1) := one_le_pow₀ (by norm_num)
  have hPg : pow2 e = 2 ^ (p - 1) * g := by
    have := pow2_split p hp e
    push_cast at this
    exact this
  obtain ⟨hq1, hq2⟩ := grid_le p hp q hq
  rw [← he, ← hgdef] at hq1 hq2
  obtain ⟨hn1, hn2⟩ := abs_le.mp hnear
  have hd0 : 0 ≤ d := by
    have := abs_nonneg (y - q)
    by_contra hneg
    have : d * g < 0 := mul_neg_of_neg_of_pos (not_le.mp hneg) hg
    linarith
  have hrq : roundFloat p q = (roundNE (q / g) : ℚ) * g := roundFloat_of_pos p q hq
  have hdiv : ∀ x : ℚ, x / g * g = x := fun x => by field_simp
  have hqg1 : (2 : ℚ) ^ (p - 1) ≤ q / g := by rw [le_div_iff₀ hg]; exact hq1
  have hqg2 : q / g < 2 * 2 ^ (p - 1) := by rw [div_lt_iff₀ hg]; exact hq2
  have hyg1 : q / g - d ≤ y / g := by
    rw [le_div_iff₀ hg, sub_mul, hdiv]; linarith
  have hyg2 : y / g ≤ q / g + d := by
    rw [div_le_iff₀ hg, add_mul, hdiv]; linarith
  have hypos : 0 < y := by nlinarith
  rcases lt_or_le y (2 ^ (p - 1) * g) with hlow | hlow
  · -- the perturbed value fell into the binade below
    have hy1 : pow2 (e - 1) ≤ y := by
      rw [pow2_pred, hPg]; nlinarith
    have hy2 : y < pow2 (e - 1 + 1) := by
      rw [sub_add_cancel, hPg]; exact hlow
    have hey : ilog2 y = e - 1 := ilog2_eq_of_bounds y (e - 1) hy1 hy2
    have hgy : pow2 (ilog2 y - ((p : ℤ) - 1)) = g / 2 := by
      rw [hey, show e - 1 - ((p : ℤ) - 1) = e - ((p : ℤ) - 1) - 1 by ring, pow2_pred]
    have hylt : y / g < 2 ^ (p - 1) := by rw [div_lt_iff₀ hg]; exact hlow
    have hr1 : roundNE (y / (g / 2)) = 2 * 2 ^ (p - 1) := by
      apply roundNE_of_lt
      · push_cast
        have : y / (g / 2) = 2 * (y / g) := by field_simp; ring
        rw [this]; linarith
      · push_cast
        have : y / (g / 2) = 2 * (y / g) := by field_simp; ring
        rw [this]; linarith
    have hr2 : roundNE (q / g) = 2 ^ (p - 1) := by
      apply roundNE_of_lt
      · push_cast; linarith
      · push_cast; linarith
    rw [roundFloat_of_pos p y hypos, hgy, hr1, hrq, hr2]
    push_cast
    ring
  · rcases lt_or_le y (2 * 2 ^ (p - 1) * g) with hup | hup
    · -- same binade
      have hy1 : pow2 e ≤ y := by rw [hPg]; exact hlow
      have hy2 : y < pow2 (e + 1) := by rw [pow2_succ, hPg]; linarith
      have hey : ilog2 y = e := ilog2_eq_of_bounds y e hy1 hy2
      have hr := abs_le.mp (roundNE_sub_abs (q / g))
      have ht1 := htie (roundNE (q / g))
      have ht2 := htie (roundNE (q / g) - 1)
      rw [abs_of_nonpos (by linarith)] at ht1
      push_cast at ht2
      rw [abs_of_nonneg (by linarith)] at ht2
      have hr1 : roundNE (y / g) = roundNE (q / g) := by
        apply roundNE_of_lt <;> linarith
      rw [roundFloat_of_pos p y hypos, hey, ← hgdef, hr1, hrq]
    · -- the perturbed value reached the binade above
      have hy1 : pow2 (e + 1) ≤ y := by rw [pow2_succ, hPg]; linarith
      have hy2 : y < pow2 (e + 1 + 1) := by
        rw [pow2_succ, pow2_succ, hPg]; nlinarith
      have hey : ilog2 y = e + 1 := ilog2_eq_of_bounds y (e + 1) hy1 hy2
      have hgy : pow2 (ilog2 y - ((p : ℤ) - 1)) = 2 * g := by
        rw [hey, show e + 1 - ((p : ℤ) - 1) = e - ((p : ℤ) - 1) + 1 by ring, pow2_succ]
      have hyge : 2 * 2 ^ (p - 1) ≤ y / g := by rw [le_div_iff₀ hg]; exact hup
      have hr1 : roundNE (y / (2 * g)) = 2 ^ (p - 1) := by
        have : y / (2 * g) = (y / g) / 2 := by rw [div_div, mul_comm]
        apply roundNE_of_lt
        · push_cast; rw [this]; linarith
        · push_cast; rw [this]; linarith
      have hr2 : roundNE (q / g) = 2 * 2 ^ (p - 1) := by
        apply roundNE_of_lt
        · push_cast; linarith
        · push_cast; linarith
      rw [roundFloat_of_pos p y hypos, hgy, hr1, hrq, hr2]
      push_cast
      ring

/-- A value slightly below a floating point number rounds to at least that number. -/
theorem round64_ge_of_exact (n z : ℤ) (hn : 0 ≤ n) (hn2 : (n : ℚ) < 2 ^ 53) (y : ℚ)
    (hy : (n : ℚ) * pow2 z * (1 - 1 / 2 ^ 55) ≤ y) : (n : ℚ) * pow2 z ≤ round64 y := by
  rcases eq_or_lt_of_le hn with h | h
  · rw [← h] at hy ⊢
    simp only [Int.cast_zero, zero_mul] at hy ⊢
    exact round64_nonneg hy
  · have hnq : (0 : ℚ) < n := by exact_mod_cast h
    have hq : 0 < (n : ℚ) * pow2 z := mul_pos hnq (pow2_pos z)
    set q := (n : ℚ) * pow2 z with hqdef
    obtain ⟨k, hk⟩ := exact_grid 53 n z h hn2
    rw [← hqdef] at hk
    obtain ⟨_, hq2⟩ := grid_le 53 (by norm_num) q hq
    have hg := pow2_pos (ilog2 q - (((53 : ℕ) : ℤ) - 1))
    set g := pow2 (ilog2 q - (((53 : ℕ) : ℤ) - 1)) with hgdef
    have hd4 : q / (2 ^ 55 * g) < 1 / 4 := by
      rw [div_lt_iff₀ (by positivity)]
      norm_num at hq2 ⊢
      linarith
    have hnear : roundFloat 53 (q * (1 - 1 / 2 ^ 55)) = roundFloat 53 q := by
      apply roundFloat_near 53 (by norm_num) q _ (q / (2 ^ 55 * g)) hq hd4
      · have : q * (1 - 1 / 2 ^ 55) - q = -(q / 2 ^ 55) := by ring
        rw [this, abs_neg, abs_of_pos (by positivity), ← hgdef]
        apply le_of_eq
        field_simp
        ring
      · intro m
        rw [← hgdef, hk]
        have h1 := int_tie_dist k m
        linarith
    have hex : roundFloat 53 q = q := roundFloat_exact 53 n z hn hn2
    calc q = round64 (q * (1 - 1 / 2 ^ 55)) := by unfold round64; rw [hnear, hex]
      _ ≤ round64 y := round64_mono hy

theorem rarity_cases (r : Int) (hr : Common ≤ r ∧ r ≤ Mythic) :
    r = Common ∨ r = Uncommon ∨ r = Rare ∨ r = Epic ∨ r = Legendary ∨ r = Mythic := by
  obtain ⟨h1, h2⟩ := hr
  have h3 : (0 : Int) ≤ r := h1
  have h4 : r ≤ (5 : Int) := h2
  have : r = 0 ∨ r = 1 ∨ r = 2 ∨ r = 3 ∨ r = 4 ∨ r = 5 := by omega
  exact this

theorem levelMultiplierPerLevel_eq :
    levelMultiplierPerLevel = 3602879701896397 / 36028797018963968 := by
  decide!

theorem rarityMultipliers_eq :
    rarityMultipliers Common = 1
      ∧ rarityMultipliers Uncommon = 5854679515581645 / 4503599627370496
      ∧ rarityMultipliers Rare = 7656119366529843 / 4503599627370496
      ∧ rarityMultipliers Epic = 2476979795053773 / 1125899906842624
      ∧ rarityMultipliers Legendary = 3
      ∧ rarityMultipliers Mythic = 4 := by
  decide!

/-- The table entries as `float64`, against the decimal numbers of the table. -/
theorem rarityMultipliers_near (r : Rarity) (hr : Common ≤ r ∧ r ≤ Mythic) :
    Near 1 (rarityMultiplierExact r) (rarityMultipliers r)
      ∧ rarityMultiplierExact r * (1 - 1 / 2 ^ 55) ≤ rarityMultipliers r
      ∧ rarityMultiplierExact r = (rarityTenths r : ℚ) / 10
      ∧ (rarityTenths r = 10 ∨ rarityTenths r = 13 ∨ rarityTenths r = 17
          ∨ rarityTenths r = 22 ∨ rarityTenths r = 30 ∨ rarityTenths r = 40) := by
  obtain ⟨e0, e1, e2, e3, e4, e5⟩ := rarityMultipliers_eq
  rcases rarity_cases r hr with h | h | h | h | h | h <;> subst h
  · rw [e0]
    refine ⟨?_, ?_, ?_, by decide⟩ <;>
      simp only [Near, unit64, rarityMultiplierExact, rarityTenths, Common, Uncommon, Rare,
        Epic, Legendary, Mythic] <;> norm_num
  · rw [e1]
    refine ⟨?_, ?_, ?_, by decide⟩ <;>
      simp only [Near, unit64, rarityMultiplierExact, rarityTenths, Common, Uncommon, Rare,
        Epic, Legendary, Mythic] <;> norm_num
  · rw [e2]
    refine ⟨?_, ?_, ?_, by decide⟩ <;>
      simp only [Near, unit64, rarityMultiplierExact, rarityTenths, Common, Uncommon, Rare,
        Epic, Legendary, Mythic] <;> norm_num
  · rw [e3]
    refine ⟨?_, ?_, ?_, by decide⟩ <;>
      simp only [Near, unit64, rarityMultiplierExact, rarityTenths, Common, Uncommon, Rare,
        Epic, Legendary, Mythic] <;> norm_num
  · rw [e4]
    refine ⟨?_, ?_, ?_, by decide⟩ <;>
      simp only [Near, unit64, rarityMultiplierExact, rarityTenths, Common, Uncommon, Rare,
        Epic, Legendary, Mythic] <;> norm_num
  · rw [e5]
    refine ⟨?_, ?_, ?_, by decide⟩ <;>
      simp only [Near, unit64, rarityMultiplierExact, rarityTenths, Common, Uncommon, Rare,
        Epic, Legendary, Mythic] <;> norm_num

theorem levelMultiplierPerLevel_near :
    Near 1 (1 / 10) levelMultiplierPerLevel ∧ 1 / 10 ≤ levelMultiplierPerLevel := by
  rw [levelMultiplierPerLevel_eq]
  refine ⟨?_, by norm_num⟩
  simp only [Near, unit64]
  norm_num

theorem Near.six_bounds {A y : ℚ} (hA : 0 ≤ A) (h : Near 6 A y) :
    A - A * (6 / 2 ^ 53) ≤ y ∧ y ≤ A + A * (7 / 2 ^ 53) := by
  have h1 : (1 : ℚ) - 6 / 2 ^ 53 ≤ (1 - unit64) ^ 6 := by unfold unit64; norm_num
  have h2 : (1 + unit64) ^ 6 ≤ (1 : ℚ) + 7 / 2 ^ 53 := by unfold unit64; norm_num
  constructor
  · calc A - A * (6 / 2 ^ 53) = A * (1 - 6 / 2 ^ 53) := by ring
      _ ≤ A * (1 - unit64) ^ 6 := mul_le_mul_of_nonneg_left h1 hA
      _ ≤ y := h.1
  · calc y ≤ A * (1 + unit64) ^ 6 := h.2
      _ ≤ A * (1 + 7 / 2 ^ 53) := mul_le_mul_of_nonneg_left h2 hA
      _ = A + A * (7 / 2 ^ 53) := by ring

theorem rarityMultiplierExact_bounds (r : Int) (hr : Common ≤ r ∧ r ≤ Mythic) :
    1 ≤ rarityMultiplierExact r ∧ rarityMultiplierExact r ≤ 4 := by
  obtain ⟨_, _, h3, h4⟩ := rarityMultipliers_near r hr
  rw [h3]
  rcases h4 with h | h | h | h | h | h <;> rw [h] <;> norm_num

/-- The `float64` value `totalMultiplier` lies within five roundings of the exact
multiplier. -/
theorem totalMultiplier_near (r : Int) (hr : Common ≤ r ∧ r ≤ Mythic) (level : Int)
    (hl : 1 ≤ level ∧ level ≤ 2 ^ 42) :
    Near 5 (rarityMultiplierExact r * (1 + ((level : ℚ) - 1) * (1 / 10)))
      (totalMultiplier r level) := by
  obtain ⟨hl1, hl2⟩ := hl
  have hw : wrapInt (level - 1) = level - 1 :=
    wrapInt_of_inRange _ (by unfold InIntRange MinInt64 MaxInt64; constructor <;> omega)
  have hL : round64 ((level - 1 : ℤ) : ℚ) = ((level - 1 : ℤ) : ℚ) :=
    round64_int _ (by omega) (by omega)
  have hLq : (0 : ℚ) ≤ (level : ℚ) - 1 := by
    have : (1 : ℚ) ≤ (level : ℚ) := by exact_mod_cast hl1
    linarith
  obtain ⟨hrm, _⟩ := rarityMultipliers_near r hr
  obtain ⟨hrm1, _⟩ := rarityMultiplierExact_bounds r hr
  have hc := levelMultiplierPerLevel_near.1
  unfold totalMultiplier levelMultiplier
  rw [hw, hL]
  push_cast
  have a0 : Near (0 + 1) (((level : ℚ) - 1) * (1 / 10))
      (((level : ℚ) - 1) * levelMultiplierPerLevel) :=
    Near.mul hLq (by norm_num) (Near.exact _) hc
  have hA0 : (0 : ℚ) ≤ ((level : ℚ) - 1) * (1 / 10) := by positivity
  have a1 := a0.round hA0
  have s := a1.one_add
  have hA1 : (0 : ℚ) ≤ 1 + ((level : ℚ) - 1) * (1 / 10) := by linarith
  have lm := s.round hA1
  have m0 := Near.mul (by linarith) hA1 hrm lm
  exact m0.round (mul_nonneg (by linarith) hA1)

/-- A stat rolled by `CreateItem` lies within six roundings of the exact product. -/
theorem roll_near (base : ℚ) (hb : 0 ≤ base) (r : Int) (hr : Common ≤ r ∧ r ≤ Mythic)
    (level : Int) (hl : 1 ≤ level ∧ level ≤ 2 ^ 42) :
    Near 6 (exactProduct base r level) (round64 (base * totalMultiplier r level)) := by
  have tm := totalMultiplier_near r hr level hl
  obtain ⟨hrm1, _⟩ := rarityMultiplierExact_bounds r hr
  have hLq : (0 : ℚ) ≤ (level : ℚ) - 1 := by
    have : (1 : ℚ) ≤ (level : ℚ) := by exact_mod_cast hl.1
    linarith
  have hA : (0 : ℚ) ≤ rarityMultiplierExact r * (1 + ((level : ℚ) - 1) * (1 / 10)) :=
    mul_nonneg (by linarith) (by positivity)
  have x0 := Near.mul hb hA (Near.exact base) tm
  have x := x0.round (mul_nonneg hb hA)
  have hE : base * (rarityMultiplierExact r * (1 + ((level : ℚ) - 1) * (1 / 10)))
      = exactProduct base r level := by
    unfold exactProduct; ring
  rw [hE] at x
  exact x

/-- The exact product of an integer base is a whole number of hundredths. -/
theorem exactProduct_hundredths (b : ℤ) (r : Int) (hr : Common ≤ r ∧ r ≤ Mythic)
    (level : Int) :
    exactProduct b r level = ((b * rarityTenths r * (level + 9) : ℤ) : ℚ) / 100 := by
  obtain ⟨_, _, h3, _⟩ := rarityMultipliers_near r hr
  unfold exactProduct
  rw [h3]
  push_cast
  ring

theorem totalMultiplier_eq (r : Int) (level : Int) (hl : 1 ≤ level ∧ level ≤ 2 ^ 42) :
    totalMultiplier r level
      = round64 (rarityMultipliers r
          * round64 (1 + round64 (((level : ℚ) - 1) * levelMultiplierPerLevel))) := by
  obtain ⟨hl1, hl2⟩ := hl
  have hw : wrapInt (level - 1) = level - 1 :=
    wrapInt_of_inRange _ (by unfold InIntRange MinInt64 MaxInt64; constructor <;> omega)
  have hL : round64 ((level - 1 : ℤ) : ℚ) = ((level - 1 : ℤ) : ℚ) :=
    round64_int _ (by omega) (by omega)
  unfold totalMultiplier levelMultiplier
  rw [hw, hL]
  push_cast
  rfl

theorem pow2_neg_one : pow2 (-1) = 1 / 2 := by
  rw [pow2_eq_zpow]; norm_num

theorem pow2_neg_two : pow2 (-2) = 1 / 4 := by
  rw [pow2_eq_zpow]; norm_num

/-- When the exact product is a whole number `F`, the rolled value is at least `F`:
every intermediate exact value is a `float64`, and rounding is monotone. -/
theorem roll_int_lower (b : ℤ) (hb : b = 1 ∨ b = 2 ∨ b = 4) (r : Int)
    (hr : Common ≤ r ∧ r ≤ Mythic) (level : Int) (hl : 1 ≤ level ∧ level ≤ 2 ^ 42) (F : ℤ)
    (hF : b * rarityTenths r * (level + 9) = 100 * F) :
    (F : ℚ) ≤ round64 ((b : ℚ) * totalMultiplier r level) := by
  obtain ⟨_, hrm, hrmx, hT⟩ := rarityMultipliers_near r hr
  obtain ⟨hrm1, _⟩ := rarityMultiplierExact_bounds r hr
  obtain ⟨hl1, hl2⟩ := hl
  have h5 : (level - 1) % 5 = 0 := by
    rcases hb with rfl | rfl | rfl <;> rcases hT with h | h | h | h | h | h <;>
      rw [h] at hF <;> omega
  obtain ⟨k, hk⟩ : ∃ k : ℤ, level - 1 = 5 * k := ⟨(level - 1) / 5, by omega⟩
  have hk0 : 0 ≤ k := by omega
  have hk2 : k + 2 < 2 ^ 53 := by omega
  have hkq : (level : ℚ) - 1 = 5 * (k : ℚ) := by
    have : ((level - 1 : ℤ) : ℚ) = ((5 * k : ℤ) : ℚ) := by rw [hk]
    push_cast at this
    exact this
  have hkq0 : (0 : ℚ) ≤ k := by exact_mod_cast hk0
  -- the exact multiplier is a quarter of an integer `n`
  obtain ⟨n, hn0, hn2, hnq⟩ : ∃ n : ℤ, 0 ≤ n ∧ n < 2 ^ 53 ∧ (n : ℚ) = 4 * (F : ℚ) / b := by
    rcases hb with rfl | rfl | rfl
    · refine ⟨4 * F, ?_, ?_, by push_cast; ring⟩ <;>
        rcases hT with h | h | h | h | h | h <;> rw [h] at hF <;> omega
    · refine ⟨2 * F, ?_, ?_, by push_cast; ring⟩ <;>
        rcases hT with h | h | h | h | h | h <;> rw [h] at hF <;> omega
    · refine ⟨F, ?_, ?_, by push_cast; ring⟩ <;>
        rcases hT with h | h | h | h | h | h <;> rw [h] at hF <;> omega
  have hbq : (0 : ℚ) < b := by
    rcases hb with rfl | rfl | rfl <;> norm_num
  have hFq : (b : ℚ) * (rarityTenths r : ℚ) * ((k : ℚ) + 2) = 20 * F := by
    have h1 : ((b * rarityTenths r * (level + 9) : ℤ) : ℚ) = ((100 * F : ℤ) : ℚ) := by rw [hF]
    push_cast at h1
    have h2 : (level : ℚ) = 5 * k + 1 := by linarith
    rw [h2] at h1
    linarith
  have hq : rarityMultiplierExact r * (((k : ℚ) + 2) / 2) = (n : ℚ) * pow2 (-2) := by
    rw [hrmx, hnq, pow2_neg_two, eq_comm]
    field_simp
    linarith
  -- the chain of monotone roundings
  have hc := levelMultiplierPerLevel_near.2
  have e0 : (k : ℚ) * pow2 (-1) ≤ ((level : ℚ) - 1) * levelMultiplierPerLevel := by
    rw [pow2_neg_one, hkq]
    nlinarith
  have e1 : (k : ℚ) * pow2 (-1)
      ≤ round64 (((level : ℚ) - 1) * levelMultiplierPerLevel) := by
    have := round64_mono e0
    unfold round64 at this
    rw [roundFloat_exact 53 k (-1) hk0 (by exact_mod_cast (by omega : k < 2 ^ 53))] at this
    exact this
  have e2 : ((k + 2 : ℤ) : ℚ) * pow2 (-1)
      ≤ round64 (1 + round64 (((level : ℚ) - 1) * levelMultiplierPerLevel)) := by
    have h1 : ((k + 2 : ℤ) : ℚ) * pow2 (-1)
        ≤ 1 + round64 (((level : ℚ) - 1) * levelMultiplierPerLevel) := by
      rw [pow2_neg_one] at e1 ⊢
      push_cast
      linarith
    have := round64_mono h1
    unfold round64 at this
    rw [roundFloat_exact 53 (k + 2) (-1) (by omega) (by exact_mod_cast hk2)] at this
    exact this
  have e3 : (n : ℚ) * pow2 (-2) * (1 - 1 / 2 ^ 55)
      ≤ rarityMultipliers r
          * round64 (1 + round64 (((level : ℚ) - 1) * levelMultiplierPerLevel)) := by
    rw [← hq]
    have h1 : (0 : ℚ) ≤ rarityMultiplierExact r * (1 - 1 / 2 ^ 55) :=
      mul_nonneg (by linarith) (by norm_num)
    have h2 : ((k : ℚ) + 2) / 2
        ≤ round64 (1 + round64 (((level : ℚ) - 1) * levelMultiplierPerLevel)) := by
      rw [pow2_neg_one] at e2
      push_cast at e2
      linarith
    have h3 : (0 : ℚ) ≤ ((k : ℚ) + 2) / 2 := by positivity
    calc rarityMultiplierExact r * (((k : ℚ) + 2) / 2) * (1 - 1 / 2 ^ 55)
        = rarityMultiplierExact r * (1 - 1 / 2 ^ 55) * (((k : ℚ) + 2) / 2) := by ring
      _ ≤ rarityMultipliers r
            * round64 (1 + round64 (((level : ℚ) - 1) * levelMultiplierPerLevel)) :=
          mul_le_mul hrm h2 h3 (le_trans h1 hrm)
  have e4 : (n : ℚ) * pow2 (-2) ≤ totalMultiplier r level := by
    rw [totalMultiplier_eq r level ⟨hl1, hl2⟩]
    exact round64_ge_of_exact n (-2) hn0 (by exact_mod_cast hn2) _ e3
  have e5 : (F : ℚ) ≤ (b : ℚ) * totalMultiplier r level := by
    have h1 : (b : ℚ) * ((n : ℚ) * pow2 (-2)) = F := by
      rw [hnq, pow2_neg_two]
      field_simp
      ring
    rw [← h1]
    exact mul_le_mul_of_nonneg_left e4 hbq.le
  have hF0 : 0 ≤ F := by
    have : 0 ≤ b * rarityTenths r * (level + 9) := by
      rcases hb with rfl | rfl | rfl <;> rcases hT with h | h | h | h | h | h <;>
        rw [h] <;> omega
    omega
  have hF2 : F < 2 ^ 53 := by
    rcases hb with rfl | rfl | rfl <;> rcases hT with h | h | h | h | h | h <;>
      rw [h] at hF <;> omega
  have := round64_mono e5
  rw [round64_int F hF0 hF2] at this
  exact this

/-- Integer stats: the rolled value is the floor of the exact product, for every level
up to `2^42`. -/
theorem roll_int (b : ℤ) (hb : b ∈ intBases) (r : Int) (hr : Common ≤ r ∧ r ≤ Mythic)
    (level : Int) (hl : 1 ≤ level ∧ level ≤ 2 ^ 42) :
    floatToInt (round64 (round64 (b : ℚ) * totalMultiplier r level)) = exactRoll b r level := by
  have hb4 : b = 0 ∨ b = 1 ∨ b = 2 ∨ b = 4 := by simpa [intBases] using hb
  have hb0 : 0 ≤ b := by omega
  have hb2 : b ≤ 4 := by omega
  have hbq : (0 : ℚ) ≤ b := by exact_mod_cast hb0
  rw [round64_int b hb0 (by omega)]
  obtain ⟨_, _, _, hT⟩ := rarityMultipliers_near r hr
  have hnear := roll_near (b : ℚ) hbq r hr level hl
  have hE := exactProduct_hundredths b r hr level
  obtain ⟨hl1, hl2⟩ := hl
  have hN0 : 0 ≤ b * rarityTenths r * (level + 9) := by
    rcases hb4 with rfl | rfl | rfl | rfl <;> rcases hT with h | h | h | h | h | h <;>
      rw [h] <;> omega
  have hN2 : b * rarityTenths r * (level + 9) ≤ 160 * (2 ^ 42 + 9) := by
    rcases hb4 with rfl | rfl | rfl | rfl <;> rcases hT with h | h | h | h | h | h <;>
      rw [h] <;> omega
  set N := b * rarityTenths r * (level + 9) with hNdef
  have hNq0 : (0 : ℚ) ≤ (N : ℚ) := by exact_mod_cast hN0
  have hNq2 : (N : ℚ) ≤ 160 * (2 ^ 42 + 9) := by exact_mod_cast hN2
  have hdiv : N = 100 * (N / 100) + N % 100 := by omega
  have hrem0 : 0 ≤ N % 100 := by omega
  have hrem2 : N % 100 ≤ 99 := by omega
  have hEq : exactProduct b r level = ((N / 100 : ℤ) : ℚ) + ((N % 100 : ℤ) : ℚ) / 100 := by
    rw [hE]
    have : (N : ℚ) = ((100 * (N / 100) + N % 100 : ℤ) : ℚ) := by rw [← hdiv]
    rw [this]
    push_cast
    ring
  have hr0 : (0 : ℚ) ≤ ((N % 100 : ℤ) : ℚ) := by exact_mod_cast hrem0
  have hr2 : ((N % 100 : ℤ) : ℚ) ≤ 99 := by exact_mod_cast hrem2
  have hF0 : (0 : ℚ) ≤ ((N / 100 : ℤ) : ℚ) := by
    have : 0 ≤ N / 100 := by omega
    exact_mod_cast this
  have hE0 : 0 ≤ exactProduct b r level := by rw [hE]; positivity
  have hE2 : exactProduct b r level ≤ 160 * (2 ^ 42 + 9) / 100 := by
    rw [hE]; linarith
  obtain ⟨hx1, hx2⟩ := hnear.six_bounds hE0
  have hfloor : exactRoll b r level = N / 100 := by
    unfold exactRoll
    rw [Int.floor_eq_iff, hEq]
    constructor <;> linarith
  set x := round64 ((b : ℚ) * totalMultiplier r level) with hxdef
  have hxup : x < ((N / 100 : ℤ) : ℚ) + 1 := by
    rw [hEq] at hx2 hE2
    have : (((N / 100 : ℤ) : ℚ) + ((N % 100 : ℤ) : ℚ) / 100) * (7 / 2 ^ 53) < 1 / 100 := by
      norm_num at hE2 ⊢
      linarith
    linarith
  have hxlo : ((N / 100 : ℤ) : ℚ) ≤ x := by
    rcases eq_or_lt_of_le hrem0 with h0 | hpos
    · by_cases hbz : b = 0
      · have hNz : N = 0 := by rw [hNdef, hbz]; ring
        have hx0 : 0 ≤ x := hnear.nonneg hE0
        rw [hNz]
        simpa using hx0
      · have hb3 : b = 1 ∨ b = 2 ∨ b = 4 := by omega
        exact roll_int_lower b hb3 r hr level ⟨hl1, hl2⟩ (N / 100) (by omega)
    · have h1 : (1 : ℚ) ≤ ((N % 100 : ℤ) : ℚ) := by
        have : 1 ≤ N % 100 := by omega
        exact_mod_cast this
      rw [hEq] at hx1 hE2
      have : (((N / 100 : ℤ) : ℚ) + ((N % 100 : ℤ) : ℚ) / 100) * (6 / 2 ^ 53) < 1 / 100 := by
        norm_num at hE2 ⊢
        linarith
      linarith
  have hx0 : 0 ≤ x := le_trans hF0 hxlo
  have hxabs : |x| ≤ 2 ^ 50 := by
    rw [abs_of_nonneg hx0]
    have : ((N / 100 : ℤ) : ℚ) ≤ 160 * (2 ^ 42 + 9) / 100 := by
      rw [hEq] at hE2
      linarith
    norm_num at this ⊢
    linarith
  rw [floatToInt_of_abs_le x hxabs, hfloor]
  unfold truncQ
  rw [if_pos hx0, Int.floor_eq_iff]
  exact ⟨hxlo, hxup⟩

theorem floatBases_int (base : ℚ) (hb : base ∈ floatBases) :
    ∃ bi : ℤ, base = (bi : ℚ) ∧ 0 ≤ bi ∧ bi ≤ 50 := by
  simp only [floatBases, List.mem_cons, List.mem_singleton, List.not_mem_nil, or_false] at hb
  rcases hb with h | h | h | h | h | h | h | h | h
  · exact ⟨0, by rw [h]; norm_num, by norm_num, by norm_num⟩
  · exact ⟨2, by rw [h]; norm_num, by norm_num, by norm_num⟩
  · exact ⟨3, by rw [h]; norm_num, by norm_num, by norm_num⟩
  · exact ⟨4, by rw [h]; norm_num, by norm_num, by norm_num⟩
  · exact ⟨5, by rw [h]; norm_num, by norm_num, by norm_num⟩
  · exact ⟨7, by rw [h]; norm_num, by norm_num, by norm_num⟩
  · exact ⟨10, by rw [h]; norm_num, by norm_num, by norm_num⟩
  · exact ⟨30, by rw [h]; norm_num, by norm_num, by norm_num⟩
  · exact ⟨50, by rw [h]; norm_num, by norm_num, by norm_num⟩

theorem fract_half (m : ℤ) : Int.fract ((m : ℚ) + 1 / 2) = 1 / 2 := by
  rw [Int.fract_eq_iff]
  exact ⟨by norm_num, by norm_num, m, by ring⟩

/-- A positive number of hundredths below `2^43` that is not a `float32` tie is more
than `7 / 2^29` grid units away from every tie. -/
theorem hundredths_tie_dist (N : ℤ) (hN : 0 < N) (hlt : (N : ℚ) / 100 < 2 ^ 43)
    (htie : isTie32 ((N : ℚ) / 100) = false) (m : ℤ) :
    (7 : ℚ) / 2 ^ 29
      < |(N : ℚ) / 100 / pow2 (ilog2 ((N : ℚ) / 100) - 23) - ((m : ℚ) + 1 / 2)| := by
  have hNq : (0 : ℚ) < N := by exact_mod_cast hN
  have hq : (0 : ℚ) < (N : ℚ) / 100 := by positivity
  set q := (N : ℚ) / 100 with hqdef
  set e := ilog2 q with he
  have h1 := ilog2_le q hq
  rw [← he] at h1
  have h2 : pow2 e < pow2 43 := by
    have : pow2 43 = (2 : ℚ) ^ 43 := by
      have := pow2_natCast 43
      exact_mod_cast this
    rw [this]
    exact lt_of_le_of_lt h1 hlt
  rw [pow2_lt_iff] at h2
  have hg := pow2_pos (e - 23)
  set g := pow2 (e - 23) with hgdef
  -- `2^19 / g` is a natural power of two
  have hK : (2 : ℚ) ^ 19 = (2 : ℚ) ^ (19 - (e - 23)).toNat * g := by
    have h3 : ((19 : ℕ) : ℤ) = ((19 - (e - 23)).toNat : ℤ) + (e - 23) := by
      rw [Int.toNat_of_nonneg (by omega)]; norm_num
    have h4 := pow2_natCast 19
    rw [h3, pow2_add, pow2_natCast] at h4
    rw [← h4]
  set K : ℤ := 2 ^ (19 - (e - 23)).toNat with hKdef
  have hKq : (2 : ℚ) ^ 19 = (K : ℚ) * g := by rw [hKdef]; push_cast; exact hK
  have hx : q / g - ((m : ℚ) + 1 / 2)
      = ((N * K - 52428800 * m - 26214400 : ℤ) : ℚ) / 52428800 := by
    have hg' : g = 2 ^ 19 / (K : ℚ) := by
      have hKpos : (0 : ℚ) < K := by
        rw [hKdef]; push_cast; positivity
      rw [hKq]
      field_simp
    have hKpos : (0 : ℚ) < K := by
      rw [hKdef]; push_cast; positivity
    rw [hg', hqdef]
    push_cast
    field_simp
    ring
  have hW : N * K - 52428800 * m - 26214400 ≠ 0 := by
    intro h0
    rw [h0] at hx
    simp only [Int.cast_zero, zero_div] at hx
    have hx2 : q / g = (m : ℚ) + 1 / 2 := by linarith
    have : isTie32 q = true := by
      unfold isTie32
      rw [decide_eq_true_eq, ← he, ← hgdef, hx2]
      exact fract_half m
    rw [htie] at this
    exact Bool.false_ne_true this
  rw [hx, abs_div]
  have h5 : (1 : ℚ) ≤ |((N * K - 52428800 * m - 26214400 : ℤ) : ℚ)| := by
    have : (1 : ℤ) ≤ |N * K - 52428800 * m - 26214400| := Int.one_le_abs hW
    exact_mod_cast this
  rw [abs_of_pos (by norm_num : (0 : ℚ) < 52428800), lt_div_iff₀ (by norm_num)]
  norm_num at h5 ⊢
  linarith

/-- A positive number of hundredths below `2^22` is never a `float32` tie. -/
theorem hundredths_no_tie (N : ℤ) (hN : 0 < N) (hlt : (N : ℚ) / 100 < 2 ^ 22) :
    isTie32 ((N : ℚ) / 100) = false := by
  have hNq : (0 : ℚ) < N := by exact_mod_cast hN
  have hq : (0 : ℚ) < (N : ℚ) / 100 := by positivity
  set q := (N : ℚ) / 100 with hqdef
  set e := ilog2 q with he
  have h1 := ilog2_le q hq
  rw [← he] at h1
  have h2 : pow2 e < pow2 22 := by
    have : pow2 22 = (2 : ℚ) ^ 22 := by
      have := pow2_natCast 22
      exact_mod_cast this
    rw [this]
    exact lt_of_le_of_lt h1 hlt
  rw [pow2_lt_iff] at h2
  have hg := pow2_pos (e - 23)
  set g := pow2 (e - 23) with hgdef
  have hK : (1 : ℚ) = 4 * ((2 : ℚ) ^ (21 - e).toNat * g) := by
    have h3 : ((0 : ℕ) : ℤ) = ((21 - e).toNat : ℤ) + (e - 23) + 2 := by
      rw [Int.toNat_of_nonneg (by omega)]; norm_num
    have h4 := pow2_natCast 0
    rw [h3, pow2_add, pow2_add, pow2_natCast] at h4
    have h5 : pow2 2 = 4 := by
      rw [pow2_eq_zpow]; norm_num
    rw [h5] at h4
    simp only [pow_zero] at h4
    linarith
  set K : ℤ := 2 ^ (21 - e).toNat with hKdef
  have hKq : (1 : ℚ) = 4 * ((K : ℚ) * g) := by rw [hKdef]; push_cast; exact hK
  unfold isTie32
  rw [decide_eq_false_iff_not, ← he, ← hgdef]
  intro hfr
  have hfl := Int.self_sub_floor (q / g)
  rw [hfr] at hfl
  have hKpos : (0 : ℚ) < K := by
    rw [hKdef]; push_cast; positivity
  have hg' : g = 1 / (4 * (K : ℚ)) := by
    field_simp
    linarith
  have hx : q / g = ((N * K : ℤ) : ℚ) / 25 := by
    rw [hg', hqdef]
    push_cast
    field_simp
    ring
  rw [hx] at hfl
  have h6 : ((2 * (N * K) : ℤ) : ℚ) = ((50 * ⌊((N * K : ℤ) : ℚ) / 25⌋ + 25 : ℤ) : ℚ) := by
    push_cast
    push_cast at hfl
    linarith
  have h7 : 2 * (N * K) = 50 * ⌊((N * K : ℤ) : ℚ) / 25⌋ + 25 := by exact_mod_cast h6
  omega

theorem exactProduct_zero (r : Int) (level : Int) : exactProduct 0 r level = 0 := by
  unfold exactProduct; ring

/-- Fractional stats: the rolled value is the exact product rounded to `float32`, for
every level up to `2^38`, unless the exact product is a `float32` tie. -/
theorem roll_float (base : ℚ) (hb : base ∈ floatBases) (r : Int)
    (hr : Common ≤ r ∧ r ≤ Mythic) (level : Int) (hl : 1 ≤ level ∧ level ≤ 2 ^ 38)
    (htie : isTie32 (exactProduct base r level) = false) :
    round32 (round64 (base * totalMultiplier r level))
      = round32 (exactProduct base r level) := by
  obtain ⟨bi, rfl, hb0, hb50⟩ := floatBases_int base hb
  obtain ⟨hl1, hl2⟩ := hl
  by_cases hbz : bi = 0
  · subst hbz
    have : round64 (((0 : ℤ) : ℚ) * totalMultiplier r level) = 0 := by
      simp [round64, roundFloat]
    rw [this]
    simp [exactProduct_zero]
  · obtain ⟨_, _, _, hT⟩ := rarityMultipliers_near r hr
    have hE := exactProduct_hundredths bi r hr level
    have hN0 : 0 < bi * rarityTenths r * (level + 9) := by
      have h1 : 0 < bi := by omega
      have h2 : 0 < rarityTenths r := by omega
      have h3 : 0 < level + 9 := by omega
      positivity
    have hN2 : bi * rarityTenths r * (level + 9) ≤ 2000 * (2 ^ 38 + 9) := by
      have h1 : bi * rarityTenths r ≤ 50 * 40 := by
        apply mul_le_mul hb50 (by omega) (by omega) (by norm_num)
      have h2 : (0 : ℤ) ≤ bi * rarityTenths r := by
        apply mul_nonneg hb0 (by omega)
      calc bi * rarityTenths r * (level + 9) ≤ 50 * 40 * (level + 9) :=
            mul_le_mul_of_nonneg_right h1 (by omega)
        _ ≤ 2000 * (2 ^ 38 + 9) := by omega
    set N := bi * rarityTenths r * (level + 9) with hNdef
    have hNq0 : (0 : ℚ) < (N : ℚ) := by exact_mod_cast hN0
    have hNq2 : (N : ℚ) ≤ 2000 * (2 ^ 38 + 9) := by exact_mod_cast hN2
    have hEpos : 0 < exactProduct bi r level := by rw [hE]; positivity
    have hlt : (N : ℚ) / 100 < 2 ^ 43 := by
      rw [div_lt_iff₀ (by norm_num)]
      norm_num at hNq2 ⊢
      linarith
    have hnear := roll_near (bi : ℚ) (by exact_mod_cast hb0) r hr level
      ⟨hl1, le_trans hl2 (by norm_num)⟩
    obtain ⟨hx1, hx2⟩ := hnear.six_bounds hEpos.le
    have h23 : (((24 : ℕ) : ℤ) - 1) = 23 := by norm_num
    obtain ⟨_, hg2⟩ := grid_le 24 (by norm_num) _ hEpos
    rw [h23] at hg2
    have hg := pow2_pos (ilog2 (exactProduct bi r level) - 23)
    unfold round32
    apply roundFloat_near 24 (by norm_num) _ _ (7 / 2 ^ 29) hEpos (by norm_num)
    · rw [h23, abs_le]
      norm_num at hg2 hx1 hx2 ⊢
      constructor <;> linarith
    · intro m
      rw [h23]
      rw [hE] at htie ⊢
      exact hundredths_tie_dist N hN0 hlt htie m

/-- Fractional stats up to level 209705: the exact product stays below `2^22`, where no
number of hundredths is a `float32` tie. -/
theorem roll_float_small (base : ℚ) (hb : base ∈ floatBases) (r : Int)
    (hr : Common ≤ r ∧ r ≤ Mythic) (level : Int) (hl : 1 ≤ level ∧ level ≤ 209705) :
    round32 (round64 (base * totalMultiplier r level))
      = round32 (exactProduct base r level) := by
  obtain ⟨hl1, hl2⟩ := hl
  apply roll_float base hb r hr level ⟨hl1, le_trans hl2 (by norm_num)⟩
  obtain ⟨bi, rfl, hb0, hb50⟩ := floatBases_int base hb
  by_cases hbz : bi = 0
  · subst hbz
    simp only [Int.cast_zero, exactProduct_zero]
    decide!
  · obtain ⟨_, _, _, hT⟩ := rarityMultipliers_near r hr
    rw [exactProduct_hundredths bi r hr level]
    have hN0 : 0 < bi * rarityTenths r * (level + 9) := by
      have h1 : 0 < bi := by omega
      have h2 : 0 < rarityTenths r := by omega
      have h3 : 0 < level + 9 := by omega
      positivity
    have hN2 : bi * rarityTenths r * (level + 9) ≤ 2000 * 209714 := by
      have h1 : bi * rarityTenths r ≤ 50 * 40 := by
        apply mul_le_mul hb50 (by omega) (by omega) (by norm_num)
      calc bi * rarityTenths r * (level + 9) ≤ 50 * 40 * (level + 9) :=
            mul_le_mul_of_nonneg_right h1 (by omega)
        _ ≤ 2000 * 209714 := by omega
    apply hundredths_no_tie _ hN0
    have hNq2 : ((bi * rarityTenths r * (level + 9) : ℤ) : ℚ) ≤ 2000 * 209714 := by
      exact_mod_cast hN2
    rw [div_lt_iff₀ (by norm_num)]
    norm_num at hNq2 ⊢
    linarith

/-- C6 (as stated, refuted): (a) the fractional stats are not floored: the Uncommon
level 1 starter sword has attack 6.5, while the floor of `5 × 1.3 × 1` is 6.
(b) For very large levels the `float64` product drifts from the exact one: the Epic
quick blade (base agility 4) of level 211106248260033 has agility 185773498468837,
one more than the floor of the exact product.  (c) Where the exact product lies
halfway between two `float32` values the rolled value can be the other neighbour: the
Rare health potion (base health 50) of level 986888 has health 8388625, while the
exact product 8388624.5 rounds to 8388624. -/
theorem C6_counterexample_attack_not_floored :
    ((CreateItem 1 Uncommon 1).toOption.map (fun item => item.Attack) = some (13 / 2)
      ∧ (itemTemplates 1).map (fun t => t.BaseAttack) = some 5
      ∧ exactRoll 5 Uncommon 1 = 6)
    ∧ ((CreateItem 24 Epic 211106248260033).toOption.map (fun item => item.Agility)
        = some 185773498468837
      ∧ (itemTemplates 24).map (fun t => t.BaseAgility) = some 4
      ∧ exactRoll 4 Epic 211106248260033 = 185773498468836)
    ∧ ((CreateItem 19 Rare 986888).toOption.map (fun item => item.Health) = some 8388625
      ∧ (itemTemplates 19).map (fun t => t.BaseHealth) = some 50
      ∧ exactProduct 50 Rare 986888 = 16777249 / 2
      ∧ round32 (exactProduct 50 Rare 986888) = 8388624
      ∧ isTie32 (exactProduct 50 Rare 986888) = true) := by
  refine ⟨⟨by decide!, by decide!, by decide!⟩, ⟨by decide!, by decide!, by decide!⟩,
    by decide!, by decide!, by decide!, by decide!, by decide!⟩

/-- C6 (amended): for every catalog template, every rarity among the six tiers and
every level from 1 to `2^42`, `CreateItem` returns an item whose integer stats
(strength, agility, intelligence) equal the floor of the exact product
`base × rarityMultiplier × (1 + 0.1 × (level − 1))`.  The fractional stats (attack,
defense, health, mana) are not floored: up to level `2^38` each equals the exact
product rounded to `float32` unless that product lies exactly halfway between two
adjacent `float32` values, which does not happen up to level 209705.  In particular
(Common, level 1) gives every base stat itself and (Legendary, level 5) gives the
floor of `4.2 × base` for the integer stats. -/
theorem C6_CreateItem_rolls (templateID : Int) (t : ItemTemplate) (rarity : Rarity)
    (level : Int) (ht : itemTemplates templateID = some t)
    (hr : Common ≤ rarity ∧ rarity ≤ Mythic) (hl : 1 ≤ level ∧ level ≤ 2 ^ 42) :
    ∃ item, CreateItem templateID rarity level = .ok item
      ∧ (item.Strength = exactRoll t.BaseStrength rarity level
        ∧ item.Agility = exactRoll t.BaseAgility rarity level
        ∧ item.Intelligence = exactRoll t.BaseIntelligence rarity level)
      ∧ (level ≤ 2 ^ 38 →
          (isTie32 (exactProduct t.BaseAttack rarity level) = false →
            item.Attack = round32 (exactProduct t.BaseAttack rarity level))
          ∧ (isTie32 (exactProduct t.BaseDefense rarity level) = false →
            item.Defense = round32 (exactProduct t.BaseDefense rarity level))
          ∧ (isTie32 (exactProduct t.BaseHealth rarity level) = false →
            item.Health = round32 (exactProduct t.BaseHealth rarity level))
          ∧ (isTie32 (exactProduct t.BaseMana rarity level) = false →
            item.Mana = round32 (exactProduct t.BaseMana rarity level)))
      ∧ (level ≤ 209705 →
          item.Attack = round32 (exactProduct t.BaseAttack rarity level)
          ∧ item.Defense = round32 (exactProduct t.BaseDefense rarity level)
          ∧ item.Health = round32 (exactProduct t.BaseHealth rarity level)
          ∧ item.Mana = round32 (exactProduct t.BaseMana rarity level))
      ∧ (rarity = Common → level = 1 →
          item.Strength = t.BaseStrength ∧ item.Agility = t.BaseAgility
          ∧ item.Intelligence = t.BaseIntelligence ∧ item.Attack = t.BaseAttack
          ∧ item.Defense = t.BaseDefense ∧ item.Health = t.BaseHealth
          ∧ item.Mana = t.BaseMana)
      ∧ (rarity = Legendary → level = 5 →
          item.Strength = ⌊(42 / 10 : ℚ) * t.BaseStrength⌋
          ∧ item.Agility = ⌊(42 / 10 : ℚ) * t.BaseAgility⌋
          ∧ item.Intelligence = ⌊(42 / 10 : ℚ) * t.BaseIntelligence⌋) := by
  obtain ⟨hS, hA, hI, hAt, hD, hH, hM⟩ := catalog_bases t (itemTemplates_mem templateID t ht)
  have hl1 : ¬ level < 1 := not_lt.mpr hl.1
  have hr1 : ¬ (rarity < Common ∨ rarity > Mythic) := by
    rintro (h | h)
    · exact absurd hr.1 (not_le.mpr h)
    · exact absurd hr.2 (not_le.mpr h)
  have e1 := roll_int _ hS rarity hr level hl
  have e2 := roll_int _ hA rarity hr level hl
  have e3 := roll_int _ hI rarity hr level hl
  have f1 := fun h => roll_float_small _ hAt rarity hr level ⟨hl.1, h⟩
  have f2 := fun h => roll_float_small _ hD rarity hr level ⟨hl.1, h⟩
  have f3 := fun h => roll_float_small _ hH rarity hr level ⟨hl.1, h⟩
  have f4 := fun h => roll_float_small _ hM rarity hr level ⟨hl.1, h⟩
  refine ⟨_, by simp only [CreateItem, ht, hl1, hr1, if_false]; rfl, ⟨e1, e2, e3⟩,
    fun h38 => ⟨roll_float _ hAt rarity hr level ⟨hl.1, h38⟩,
      roll_float _ hD rarity hr level ⟨hl.1, h38⟩,
      roll_float _ hH rarity hr level ⟨hl.1, h38⟩,
      roll_float _ hM rarity hr level ⟨hl.1, h38⟩⟩,
    fun h => ⟨f1 h, f2 h, f3 h, f4 h⟩, ?_, ?_⟩
  · intro hc h1
    subst hc h1
    have g1 := f1 (by norm_num)
    have g2 := f2 (by norm_num)
    have g3 := f3 (by norm_num)
    have g4 := f4 (by norm_num)
    simp only [exactRoll_common_one, exactProduct_common_one] at e1 e2 e3 g1 g2 g3 g4
    exact ⟨e1, e2, e3, g1.trans (floatBases_exact _ hAt), g2.trans (floatBases_exact _ hD),
      g3.trans (floatBases_exact _ hH), g4.trans (floatBases_exact _ hM)⟩
  · intro hc h5
    subst hc h5
    simp only [exactRoll, exactProduct_legendary_five] at e1 e2 e3
    exact ⟨e1, e2, e3⟩

/-- C6 witness: the starter sword template at (Legendary, level 5). -/
theorem C6_CreateItem_rolls_witness :
    (itemTemplates 1 = some swordTemplate
      ∧ (Common ≤ Legendary ∧ Legendary ≤ Mythic) ∧ ((1 : Int) ≤ 5 ∧ (5 : Int) ≤ 2 ^ 42))
    ∧ ∃ item, CreateItem 1 Legendary 5 = .ok item ∧ item.Strength = 8 ∧ item.Attack = 21 := by
  have ht : itemTemplates 1 = some swordTemplate := by decide!
  refine ⟨⟨ht, by decide, by decide⟩, ?_⟩
  obtain ⟨item, hitem, ⟨hs, _, _⟩, _, ha, _, _⟩ :=
    C6_CreateItem_rolls 1 _ Legendary 5 ht (by decide) (by decide)
  refine ⟨item, hitem, ?_, ?_⟩
  · rw [hs]; decide!
  · rw [(ha (by norm_num)).1]; decide!


end MiniGame
